import Mathlib

/-!
# ProtoGen: structure aggregation (`ProtocolStructure`) and the length algebra (`EncodedLength`)

A shallow embedding of `src/protocolstructure.cpp` (`ProtocolStructure::parse`,
`ProtocolStructure::parseChildren`) and of the `EncodedLength` class declared in
`src/encodedlength.h`, followed by theorems about them.

Conventions of the embedding:

* a `QString` attribute is a `String`; `isEmpty()` is equality with `""`;
* the children handed to `parseChildren` are the values returned by
  `Encodable::generateEncodable` (already parsed by their own `parse()`); a child is a
  record of the data members and of the answers of the virtual query methods that
  `ProtocolStructure` reads;
* warnings (`emitWarning`) have no effect on the data and are not modelled;
* the three totals of an `EncodedLength` are `QString`s in the source; their content is
  represented by `LengthString` (empty text, a numeric literal, or any other expression text).
-/

namespace ProtoGen

/-! ## Length strings -/

/-- Content of one length total: the empty string, a numeric literal, or any other
expression text (one that names a run-time constant such as `N3D*2`). -/
inductive LengthString where
  | empty : LengthString
  | literal (n : Nat) : LengthString
  | expression (text : String) : LengthString
  deriving DecidableEq, Repr

/-- Value of a decimal digit character. -/
def digitValue (c : Char) : Option Nat :=
  if 48 ≤ c.toNat ∧ c.toNat ≤ 57 then some (c.toNat - 48) else none

/-- Value of a run of decimal digits, most significant first, continuing from `acc`. -/
def digitsValue : List Char → Nat → Option Nat
  | [], acc => some acc
  | c :: cs, acc =>
    match digitValue c with
    | some d => digitsValue cs (10 * acc + d)
    | none => none

/-- The number written by a string that is a non-empty run of decimal digits. -/
def numericLiteral (s : String) : Option Nat :=
  match s.data with
  | [] => none
  | c :: cs => digitsValue (c :: cs) 0

/-- Reading of a length token (`"4"`, `"N3D"`, `""`) as a `LengthString`. -/
def LengthString.ofString (s : String) : LengthString :=
  if s = "" then LengthString.empty
  else
    match numericLiteral s with
    | some n => LengthString.literal n
    | none => LengthString.expression s

/-- Text of a length total. -/
def LengthString.render : LengthString → String
  | LengthString.empty => ""
  | LengthString.literal n => toString n
  | LengthString.expression text => text

/-- A total is numeric when it involves no named constant: it is empty or a literal. -/
def LengthString.isNumeric : LengthString → Bool
  | LengthString.empty => true
  | LengthString.literal _ => true
  | LengthString.expression _ => false

/-- Number of bytes denoted by a numeric total (the empty total denotes no bytes).
Only meaningful when `isNumeric` holds. -/
def LengthString.value : LengthString → Nat
  | LengthString.empty => 0
  | LengthString.literal n => n
  | LengthString.expression _ => 0

/-- Modelled from the spec: `EncodedLength::addToLengthString` is declared in
`src/encodedlength.h` but its body (encodedlength.cpp) is missing. Spec §3: expressions are
"built by string-level algebraic composition (concatenated sums, collapsed when both sides
are integer literals)"; header comment: creates a length string like `4 + 3 + N3D*2` by
adding successive length strings. Adding nothing leaves the total unchanged. -/
def addToLengthString (totalLength length : LengthString) : LengthString :=
  match totalLength, length with
  | t, LengthString.empty => t
  | LengthString.empty, l => l
  | LengthString.literal a, LengthString.literal b => LengthString.literal (a + b)
  | t, l => LengthString.expression (t.render ++ "+" ++ l.render)

/-- Modelled from the spec: the scaling of one total by the repeat token of `addGroup`
(§4.1): each total is scaled by the repeat token "when an array bound is given (numeric
literals multiply eagerly; named constants produce a multiplication expression)". -/
def scaleLengthString (length : LengthString) (array : String) : LengthString :=
  if array = "" then length
  else
    match length with
    | LengthString.empty => LengthString.empty
    | LengthString.literal n =>
      match numericLiteral array with
      | some k => LengthString.literal (n * k)
      | none => LengthString.expression (toString n ++ "*" ++ array)
    | LengthString.expression text => LengthString.expression ("(" ++ text ++ ")*" ++ array)

/-- The class `EncodedLength` of `src/encodedlength.h`: three parallel totals. -/
structure EncodedLength where
  minEncodedLength : LengthString
  maxEncodedLength : LengthString
  nonDefaultEncodedLength : LengthString
  deriving DecidableEq, Repr

/-- The constructor `EncodedLength::EncodedLength` and `EncodedLength::clear`: all three
totals empty. -/
def EncodedLength.clear : EncodedLength :=
  { minEncodedLength := LengthString.empty
    maxEncodedLength := LengthString.empty
    nonDefaultEncodedLength := LengthString.empty }

/-- Modelled from the spec: the term overload
`EncodedLength::addToLength(length, isString, isVariable, isDependent, isDefault)`, declared
in `src/encodedlength.h`, body missing. Spec §4.1 `addTerm`: "appends `lengthToken` to
`maximum`; appends to `minimum` only if neither `isVariableCount` nor `isConditional`;
appends to `nonDefaultMaximum` unless `hasDefault`"; `isString` (`isFixedByteCount`) only
marks the token and changes no total. Being neither variable nor conditional is necessary
for the minimum, not sufficient: the minimum holds the "bytes guaranteed present regardless
of runtime conditions" (§3), a field with a default is "absent from the aggregate length's
on the wire minimum" (§4.2), and §8 has `minimum ≤ nonDefaultMaximum`; so a term with a
default is not appended to the minimum either. -/
def EncodedLength.addTermToLength (self : EncodedLength) (length : String)
    (_isString isVariable isDependent isDefault : Bool) : EncodedLength :=
  { maxEncodedLength := addToLengthString self.maxEncodedLength (LengthString.ofString length)
    minEncodedLength :=
      if !isVariable && !isDependent && !isDefault then
        addToLengthString self.minEncodedLength (LengthString.ofString length)
      else self.minEncodedLength
    nonDefaultEncodedLength :=
      if !isDefault then
        addToLengthString self.nonDefaultEncodedLength (LengthString.ofString length)
      else self.nonDefaultEncodedLength }

/-- Modelled from the spec: the group overload
`EncodedLength::addToLength(rightLength, array, isVariable, isDependent)`, declared in
`src/encodedlength.h`, body missing. Spec §4.1 `addGroup`: "merges another (child's) full
expression into this one, scaling every one of the other's three totals by `repeatToken`
when an array bound is given ..., and additionally suppressing the merged `minimum`
contribution when `isVariableRepeat` or `isConditionalRepeat` is set". -/
def EncodedLength.addToLength (self rightLength : EncodedLength) (array : String)
    (isVariable isDependent : Bool) : EncodedLength :=
  { maxEncodedLength :=
      addToLengthString self.maxEncodedLength (scaleLengthString rightLength.maxEncodedLength array)
    minEncodedLength :=
      if !isVariable && !isDependent then
        addToLengthString self.minEncodedLength
          (scaleLengthString rightLength.minEncodedLength array)
      else self.minEncodedLength
    nonDefaultEncodedLength :=
      addToLengthString self.nonDefaultEncodedLength
        (scaleLengthString rightLength.nonDefaultEncodedLength array) }

/-! ## Children -/

/-- A child of a structure as `ProtocolStructure` sees it through the `Encodable` interface:
the data members it reads or clears, and the answers of the query methods it calls. The
classes `Encodable` and `ProtocolField` are not part of the sources at hand, so the answers
are carried as data. `isField` tells whether `dynamic_cast<ProtocolField*>` succeeds (a
primitive field) or not (a nested structure). -/
structure Encodable where
  isField : Bool
  name : String
  array : String
  array2d : String
  variableArray : String
  variable2dArray : String
  dependsOn : String
  dependsOnValue : String
  dependsOnCompare : String
  encodedLength : EncodedLength
  isNotEncoded : Bool
  isNotInMemory : Bool
  isPrimitive : Bool
  isBitfield : Bool
  hasInit : Bool
  hasVerify : Bool
  usesDefaults : Bool
  invalidatesPreviousDefault : Bool
  overridesPreviousEncodable : Bool
  usesBitfields : Bool
  bitfieldGroupNumBytes : Int
  usesEncodeTempBitfield : Bool
  usesEncodeTempLongBitfield : Bool
  usesDecodeTempBitfield : Bool
  usesDecodeTempLongBitfield : Bool
  usesEncodeIterator : Bool
  usesDecodeIterator : Bool
  usesInitIterator : Bool
  usesVerifyIterator : Bool
  uses2ndEncodeIterator : Bool
  uses2ndDecodeIterator : Bool
  uses2ndInitIterator : Bool
  uses2ndVerifyIterator : Bool
  isConstant : Bool
  deriving DecidableEq, Repr

/-- Modelled from the spec: `Encodable::isArray` (encodable.h is missing). Spec §3:
`arrayBound` is "empty, or a literal/constant token"; the member is an array when the bound
is not empty (compare `getDeclaration`, which tests `array.isEmpty()`). -/
def Encodable.isArray (e : Encodable) : Bool :=
  e.array != ""

/-- Modelled from the spec: `Encodable::is2dArray` (encodable.h is missing). Spec §3: the
array bound is "optionally paired with a second bound for two-dimensional arrays". -/
def Encodable.is2dArray (e : Encodable) : Bool :=
  e.isArray && e.array2d != ""

/-- Modelled from the spec: `Encodable::clearDefaults` (body missing); afterwards
`usesDefaults()` answers false and nothing else that `ProtocolStructure` reads changes. -/
def Encodable.clearDefaults (e : Encodable) : Encodable :=
  { e with usesDefaults := false }

/-- Modelled from the spec: `ProtocolField::getBitfieldGroupNumBytes(int* num)` (body
missing). Spec §4.2: the "bitfield shared-buffer byte count is the max over all children";
same shape as `ProtocolStructure::getBitfieldGroupNumBytes`. -/
def Encodable.getBitfieldGroupNumBytes (e : Encodable) (num : Int) : Int :=
  if e.bitfieldGroupNumBytes > num then e.bitfieldGroupNumBytes else num

/-! ## The structure -/

/-- The data members of `ProtocolStructure` (with those inherited from `Encodable`) that
`parse`, `parseChildren`, the toggles and the generators read or write. `redefines` is a
pointer to a structure owned elsewhere, of which only the type name is ever read: `none` is
the null pointer, `some t` a pointer to a structure whose `typeName` is `t`. -/
structure ProtocolStructure where
  name : String
  title : String
  array : String
  variableArray : String
  array2d : String
  variable2dArray : String
  dependsOn : String
  dependsOnValue : String
  dependsOnCompare : String
  comment : String
  encodedLength : EncodedLength
  encodables : List Encodable
  numbitfieldgroupbytes : Int
  bitfields : Bool
  usestempencodebitfields : Bool
  usestempencodelongbitfields : Bool
  usestempdecodebitfields : Bool
  usestempdecodelongbitfields : Bool
  needsEncodeIterator : Bool
  needsDecodeIterator : Bool
  needsInitIterator : Bool
  needsVerifyIterator : Bool
  needs2ndEncodeIterator : Bool
  needs2ndDecodeIterator : Bool
  needs2ndInitIterator : Bool
  needs2ndVerifyIterator : Bool
  defaults : Bool
  hidden : Bool
  hasinit : Bool
  hasverify : Bool
  encode : Bool
  decode : Bool
  compare : Bool
  print : Bool
  mapEncode : Bool
  redefines : Option String
  deriving DecidableEq, Repr

/-- The state left by the constructor `ProtocolStructure::ProtocolStructure` (and by
`ProtocolStructure::clear`): every flag false except `encode` and `decode`, no children. -/
def ProtocolStructure.clear : ProtocolStructure :=
  { name := "", title := "", array := "", variableArray := "", array2d := "",
    variable2dArray := "", dependsOn := "", dependsOnValue := "", dependsOnCompare := "",
    comment := "", encodedLength := EncodedLength.clear, encodables := [],
    numbitfieldgroupbytes := 0, bitfields := false,
    usestempencodebitfields := false, usestempencodelongbitfields := false,
    usestempdecodebitfields := false, usestempdecodelongbitfields := false,
    needsEncodeIterator := false, needsDecodeIterator := false,
    needsInitIterator := false, needsVerifyIterator := false,
    needs2ndEncodeIterator := false, needs2ndDecodeIterator := false,
    needs2ndInitIterator := false, needs2ndVerifyIterator := false,
    defaults := false, hidden := false, hasinit := false, hasverify := false,
    encode := true, decode := true, compare := false, print := false, mapEncode := false,
    redefines := none }

/-! ## `ProtocolStructure::parseChildren` -/

/-- The test made on one earlier child by each of the three look-up loops of
`parseChildren` (lines 837-851, 868-882, 906-920): the loop stops at `previous` when it is
encoded and in memory, is not (non-primitive and non-array), and carries the wanted name. -/
def isReferenceTarget (previous : Encodable) (reference : String) : Bool :=
  !(previous.isNotEncoded || previous.isNotInMemory) &&
  !(!previous.isPrimitive && !previous.isArray) &&
  previous.name == reference

/-- Outcome of a look-up loop: true when the loop leaves by `break`, that is when
`prev < encodables.size()` afterwards. -/
def findReference (encodables : List Encodable) (reference : String) : Bool :=
  encodables.any fun previous => isReferenceTarget previous reference

/-- Lines 831-860: the variable array case. -/
def resolveVariableArray (encodables : List Encodable) (encodable : Encodable) : Encodable :=
  if encodable.variableArray ≠ "" then
    if findReference encodables encodable.variableArray then encodable
    else { encodable with variableArray := "" }
  else encodable

/-- Lines 862-891: the variable 2d array case. -/
def resolveVariable2dArray (encodables : List Encodable) (encodable : Encodable) : Encodable :=
  if encodable.variable2dArray ≠ "" then
    if findReference encodables encodable.variable2dArray then encodable
    else { encodable with variable2dArray := "" }
  else encodable

/-- Lines 893-932: the dependsOn case. -/
def resolveDependsOn (encodables : List Encodable) (encodable : Encodable) : Encodable :=
  if encodable.dependsOn ≠ "" then
    if encodable.isBitfield then { encodable with dependsOn := "" }
    else if findReference encodables encodable.dependsOn then encodable
    else { encodable with dependsOn := "", dependsOnValue := "", dependsOnCompare := "" }
  else encodable

/-- Lines 748-789: bitfield and iterator metadata of a field child. -/
def trackFieldMetadata (s : ProtocolStructure) (field : Encodable) : ProtocolStructure :=
  let s :=
    if field.usesBitfields then
      { s with
        numbitfieldgroupbytes := field.getBitfieldGroupNumBytes s.numbitfieldgroupbytes
        bitfields := true
        usestempencodebitfields := s.usestempencodebitfields || field.usesEncodeTempBitfield
        usestempencodelongbitfields :=
          s.usestempencodelongbitfields || field.usesEncodeTempLongBitfield
        usestempdecodebitfields := s.usestempdecodebitfields || field.usesDecodeTempBitfield
        usestempdecodelongbitfields :=
          s.usestempdecodelongbitfields || field.usesDecodeTempLongBitfield }
    else s
  { s with
    needsEncodeIterator := s.needsEncodeIterator || field.usesEncodeIterator
    needsDecodeIterator := s.needsDecodeIterator || field.usesDecodeIterator
    needsInitIterator := s.needsInitIterator || field.usesInitIterator
    needsVerifyIterator := s.needsVerifyIterator || field.usesVerifyIterator
    needs2ndEncodeIterator := s.needs2ndEncodeIterator || field.uses2ndEncodeIterator
    needs2ndDecodeIterator := s.needs2ndDecodeIterator || field.uses2ndDecodeIterator
    needs2ndInitIterator := s.needs2ndInitIterator || field.uses2ndInitIterator
    needs2ndVerifyIterator := s.needs2ndVerifyIterator || field.uses2ndVerifyIterator }

/-- Lines 798-805: the loop that clears the default of every child already in the list. -/
def clearAllDefaults (encodables : List Encodable) : List Encodable :=
  encodables.map fun e => if e.usesDefaults then e.clearDefaults else e

/-- Lines 791-808: the defaults of a field child. A field that uses a default sets
`defaults`; otherwise, when `defaults` is set and the field invalidates a previous default,
the default of every child already in the list is cleared and `defaults` is reset. -/
def trackFieldDefaults (s : ProtocolStructure) (field : Encodable) : ProtocolStructure :=
  if field.usesDefaults then { s with defaults := true }
  else if s.defaults && field.invalidatesPreviousDefault then
    { s with
      encodables := clearAllDefaults s.encodables
      defaults := false }
  else s

/-- Lines 811-828: iterator metadata of a child that is not a field (a nested structure). -/
def trackStructureMetadata (s : ProtocolStructure) (encodable : Encodable) :
    ProtocolStructure :=
  let s :=
    if encodable.isArray then
      { s with
        needsDecodeIterator := true
        needsEncodeIterator := true
        needsInitIterator := encodable.hasInit
        needsVerifyIterator := encodable.hasVerify }
    else s
  if encodable.is2dArray then
    { s with
      needs2ndDecodeIterator := true
      needs2ndEncodeIterator := true
      needs2ndInitIterator := encodable.hasInit
      needs2ndVerifyIterator := encodable.hasVerify }
  else s

/-- Lines 730-746: the override search. The loop asks
`field->getOverriddenTypeData(dynamic_cast<ProtocolField*>(encodables.at(prev)))` for each
earlier child; `getOverriddenTypeData` belongs to the missing `ProtocolField` and is a
parameter, given the field and the earlier child when that child is a field (`none` for the
null pointer the cast yields otherwise). True when the loop leaves by `break`. -/
def findOverridden (getOverriddenTypeData : Encodable → Option Encodable → Bool)
    (encodables : List Encodable) (field : Encodable) : Bool :=
  encodables.any fun previous =>
    getOverriddenTypeData field (if previous.isField then some previous else none)

/-- Lines 831-932 together: the three reference checks, in source order. -/
def resolveReferences (encodables : List Encodable) (encodable : Encodable) : Encodable :=
  resolveDependsOn encodables
    (resolveVariable2dArray encodables (resolveVariableArray encodables encodable))

/-- The child a step appends when it keeps `c`: `c` itself when it is not encoded, `c` after
the three reference checks otherwise. -/
def appendedChild (encodables : List Encodable) (c : Encodable) : Encodable :=
  if c.isNotEncoded then c else resolveReferences encodables c

/-- The condition under which a step discards `c` (lines 730-744): an encoded field that
overrides a previous field and finds no overridden type data among the earlier children. -/
def overrideFails (getOverriddenTypeData : Encodable → Option Encodable → Bool)
    (encodables : List Encodable) (c : Encodable) : Prop :=
  c.isNotEncoded = false ∧ c.isField = true ∧ c.overridesPreviousEncodable = true ∧
    findOverridden getOverriddenTypeData encodables c = false

/-- The loop state of `parseChildren`: the structure being filled and the local
`prevEncodable`, kept as the position in `encodables` of the child it points to. -/
structure ParseChildrenState where
  structure_ : ProtocolStructure
  prevEncodable : Option Nat
  deriving DecidableEq, Repr

/-- Lines 831-955 for an encoded child that was not discarded: resolve the three
references against the children already in the list, inherit init and verify, take the
bitfield group bytes, remember the child as previous encodable and append it. -/
def finishChild (s : ProtocolStructure) (encodable : Encodable) : ParseChildrenState :=
  let encodable := resolveReferences s.encodables encodable
  let s := { s with
    hasinit := s.hasinit || encodable.hasInit
    hasverify := s.hasverify || encodable.hasVerify }
  let s :=
    if encodable.isPrimitive && encodable.usesBitfields then
      { s with numbitfieldgroupbytes := encodable.getBitfieldGroupNumBytes s.numbitfieldgroupbytes }
    else s
  { structure_ := { s with encodables := s.encodables ++ [encodable] }
    prevEncodable := some s.encodables.length }

/-- One iteration of the loop of `parseChildren` (lines 716-955) on `child`, the result of
`generateEncodable` (`none` for a null pointer). -/
def parseChild (getOverriddenTypeData : Encodable → Option Encodable → Bool)
    (st : ParseChildrenState) (child : Option Encodable) : ParseChildrenState :=
  match child with
  | none => st
  | some encodable =>
    if encodable.isNotEncoded then
      { st with structure_ :=
          { st.structure_ with encodables := st.structure_.encodables ++ [encodable] } }
    else if encodable.isField then
      if encodable.overridesPreviousEncodable &&
          !findOverridden getOverriddenTypeData st.structure_.encodables encodable then
        st
      else
        finishChild
          (trackFieldDefaults (trackFieldMetadata st.structure_ encodable) encodable) encodable
    else
      finishChild (trackStructureMetadata st.structure_ encodable) encodable

/-- The loop of `ProtocolStructure::parseChildren` over the results of `generateEncodable`
for the child nodes, in document order. -/
def parseChildrenLoop (getOverriddenTypeData : Encodable → Option Encodable → Bool)
    (st : ParseChildrenState) (children : List (Option Encodable)) : ParseChildrenState :=
  children.foldl (parseChild getOverriddenTypeData) st

/-- `ProtocolStructure::parseChildren`: `prevEncodable` starts as the null pointer. -/
def ProtocolStructure.parseChildren (getOverriddenTypeData : Encodable → Option Encodable → Bool)
    (s : ProtocolStructure) (children : List (Option Encodable)) : ProtocolStructure :=
  (parseChildrenLoop getOverriddenTypeData
    { structure_ := s, prevEncodable := none } children).structure_

/-! ## `ProtocolStructure::parse` -/

/-- The attributes `parse` reads from the DOM element through `ProtocolParser::getAttribute`
(the empty string for an attribute that is not given), the comment after
`ProtocolParser::reflowComment`, and `ProtocolParser::isFieldSet("hidden", map)`. -/
structure Attributes where
  name : String
  title : String
  array : String
  variableArray : String
  dependsOn : String
  dependsOnValue : String
  dependsOnCompare : String
  comment : String
  hidden : Bool
  deriving DecidableEq, Repr

/-- Lines 103-161 of `ProtocolStructure::parse`: read the attributes and apply the guards
on them. `limitOnEncode`, `testAndWarnAttributes` and the type name concern code generation
only and are left out. -/
def ProtocolStructure.parseAttributes (s : ProtocolStructure) (map : Attributes) :
    ProtocolStructure :=
  let s := { s with
    name := map.name, title := map.title, array := map.array,
    variableArray := map.variableArray, dependsOn := map.dependsOn,
    dependsOnValue := map.dependsOnValue, dependsOnCompare := map.dependsOnCompare,
    comment := map.comment, hidden := map.hidden }
  let s := if s.name = "" then { s with name := "_unknown" } else s
  let s := if s.title = "" then { s with title := s.name } else s
  let s := if s.array = "" ∧ s.variableArray ≠ "" then { s with variableArray := "" } else s
  let s := if s.dependsOn ≠ "" ∧ s.variableArray ≠ "" then { s with dependsOn := "" } else s
  let s :=
    if s.dependsOnValue ≠ "" ∧ s.dependsOn = "" then { s with dependsOnValue := "" } else s
  if s.dependsOnCompare ≠ "" ∧ s.dependsOnValue = "" then { s with dependsOnCompare := "" }
  else if s.dependsOnCompare = "" ∧ s.dependsOnValue ≠ "" then
    { s with dependsOnCompare := "==" }
  else s

/-- Lines 172-177 of `ProtocolStructure::parse`: the sum of the lengths of all the
children, each added as a group without array, not variable, not dependent. -/
def sumChildrenLength (encodables : List Encodable) : EncodedLength :=
  encodables.foldl (fun length e => length.addToLength e.encodedLength "" false false)
    EncodedLength.clear

/-- `ProtocolStructure::parse` (lines 101-183): attributes and guards, the children, the sum
of the children lengths, and the account of the own array, variable array and depends on.
`checkAgainstKeywords` and `parseEnumerations` do not touch the data modelled here. -/
def ProtocolStructure.parse (getOverriddenTypeData : Encodable → Option Encodable → Bool)
    (s : ProtocolStructure) (map : Attributes) (children : List (Option Encodable)) :
    ProtocolStructure :=
  let s := s.parseAttributes map
  let s := s.parseChildren getOverriddenTypeData children
  let length := sumChildrenLength s.encodables
  let encodedLength :=
    EncodedLength.clear.addToLength length s.array
      (decide (s.variableArray ≠ "")) (decide (s.dependsOn ≠ ""))
  { s with encodedLength := encodedLength }

/-- Modelled from the spec: the view a parent has of a nested structure it has generated
(the query methods of `ProtocolStructure` are declared in the missing protocolstructure.h).
Spec §6: "a parent structure treats a nested structure exactly like any other child". A
nested structure is not a `ProtocolField`, is not primitive and is no bitfield, it is
encoded and in memory, carries no default of its own, and reports its aggregated `hasinit`
and `hasverify`. -/
def ProtocolStructure.toEncodable (s : ProtocolStructure) : Encodable :=
  { isField := false, name := s.name, array := s.array, array2d := s.array2d,
    variableArray := s.variableArray, variable2dArray := s.variable2dArray,
    dependsOn := s.dependsOn, dependsOnValue := s.dependsOnValue,
    dependsOnCompare := s.dependsOnCompare, encodedLength := s.encodedLength,
    isNotEncoded := false, isNotInMemory := false, isPrimitive := false, isBitfield := false,
    hasInit := s.hasinit, hasVerify := s.hasverify, usesDefaults := false,
    invalidatesPreviousDefault := false, overridesPreviousEncodable := false,
    usesBitfields := s.bitfields, bitfieldGroupNumBytes := s.numbitfieldgroupbytes,
    usesEncodeTempBitfield := false, usesEncodeTempLongBitfield := false,
    usesDecodeTempBitfield := false, usesDecodeTempLongBitfield := false,
    usesEncodeIterator := false, usesDecodeIterator := false,
    usesInitIterator := false, usesVerifyIterator := false,
    uses2ndEncodeIterator := false, uses2ndDecodeIterator := false,
    uses2ndInitIterator := false, uses2ndVerifyIterator := false, isConstant := false }

/-! ## Queries on a structure -/

/-- `ProtocolStructure::getBitfieldGroupNumBytes(int* num)` (lines 1020-1024); the result is
the value left in `*num`. -/
def ProtocolStructure.getBitfieldGroupNumBytes (s : ProtocolStructure) (num : Int) : Int :=
  if s.numbitfieldgroupbytes > num then s.numbitfieldgroupbytes else num

/-! ## The ownership tree -/

/-- An encodable object together with the objects it owns. In the source `encodables` is a
list of pointers to `Encodable` objects, some of which are themselves `ProtocolStructure`
objects (the ones for which `dynamic_cast<ProtocolStructure*>` succeeds). `field e` is an
object that is no structure; `structure_ s typeName structName encodables` is a structure
with its data members `s`, its type names (set by its `parse`) and the objects its child
list points to, in order. The member `s.encodables` is the view of those same children
through the `Encodable` queries. -/
inductive EncodableObject where
  | field (e : Encodable) : EncodableObject
  | structure_ (s : ProtocolStructure) (typeName structName : String)
      (encodables : List EncodableObject) : EncodableObject

mutual
/-- `ProtocolStructure::setCompare` (lines 963-978): every child that is a structure gets
the call, the others are skipped, then the own flag is set. -/
def EncodableObject.setCompare (enable : Bool) : EncodableObject → EncodableObject
  | EncodableObject.field e => EncodableObject.field e
  | EncodableObject.structure_ s typeName structName encodables =>
    EncodableObject.structure_ { s with compare := enable } typeName structName
      (setCompareChildren enable encodables)
/-- The loop of `setCompare` over the child list. -/
def setCompareChildren (enable : Bool) : List EncodableObject → List EncodableObject
  | [] => []
  | c :: cs => c.setCompare enable :: setCompareChildren enable cs
end

mutual
/-- `ProtocolStructure::setPrint` (lines 982-997). -/
def EncodableObject.setPrint (enable : Bool) : EncodableObject → EncodableObject
  | EncodableObject.field e => EncodableObject.field e
  | EncodableObject.structure_ s typeName structName encodables =>
    EncodableObject.structure_ { s with print := enable } typeName structName
      (setPrintChildren enable encodables)
/-- The loop of `setPrint` over the child list. -/
def setPrintChildren (enable : Bool) : List EncodableObject → List EncodableObject
  | [] => []
  | c :: cs => c.setPrint enable :: setPrintChildren enable cs
end

mutual
/-- `ProtocolStructure::setMapEncode` (lines 1001-1016). -/
def EncodableObject.setMapEncode (enable : Bool) : EncodableObject → EncodableObject
  | EncodableObject.field e => EncodableObject.field e
  | EncodableObject.structure_ s typeName structName encodables =>
    EncodableObject.structure_ { s with mapEncode := enable } typeName structName
      (setMapEncodeChildren enable encodables)
/-- The loop of `setMapEncode` over the child list. -/
def setMapEncodeChildren (enable : Bool) : List EncodableObject → List EncodableObject
  | [] => []
  | c :: cs => c.setMapEncode enable :: setMapEncodeChildren enable cs
end

/-! ## Code generation: what the generators read -/

/-- The values of `ProtocolSupport::language` that the generators distinguish: the C
language, and any other (C++). -/
inductive Language where
  | c_language : Language
  | cpp_language : Language
  deriving DecidableEq, Repr

/-- What the generators of `ProtocolStructure` use from code that is not part of the
sources at hand, taken as parameters: `support.language`, the macro `TAB_IN`,
`ProtocolFile::makeLineSeparator` (as the text it leaves in its argument), the array
iteration code and field accessors inherited from `Encodable` (given the structure they are
asked of), and the five member generators of `ProtocolField`, which the function bodies
call on the children that are no structures.

`getEncodeFieldAccessVariable` and `getDecodeFieldAccessVariable` are the overloads of the
accessors that take the name of the variable to access (`getEncodeFieldAccess(
isStructureMember, dependsOn)`); `fieldVerifyString` and `fieldDeclaration` are
`getVerifyString` and `getDeclaration` of the field class; `outputLongComment` is
`ProtocolParser::outputLongComment`; `enumOutput` gives `getOutput()` of each enumeration
in the `enumList` of a structure, in list order. -/
structure Generator where
  language : Language
  TAB_IN : String
  makeLineSeparator : String → String
  getEncodeArrayIterationCode : ProtocolStructure → String → Bool → String
  getDecodeArrayIterationCode : ProtocolStructure → String → Bool → String
  getEncodeFieldAccess : ProtocolStructure → Bool → String
  getDecodeFieldAccess : ProtocolStructure → Bool → String
  fieldComparisonString : Encodable → String
  fieldTextPrintString : Encodable → String
  fieldTextReadString : Encodable → String
  fieldMapEncodeString : Encodable → String
  fieldMapDecodeString : Encodable → String
  getEncodeFieldAccessVariable : ProtocolStructure → Bool → String → String
  getDecodeFieldAccessVariable : ProtocolStructure → Bool → String → String
  fieldVerifyString : Encodable → String
  fieldDeclaration : Encodable → String
  outputLongComment : String → String → String
  enumOutput : ProtocolStructure → List String

/-- Modelled from the spec: `Encodable::isArray` asked of a structure (encodable.h is
missing), as for `Encodable.isArray`. -/
def ProtocolStructure.isArray (s : ProtocolStructure) : Bool :=
  s.array != ""

/-- Modelled from the spec: `Encodable::is2dArray` asked of a structure (encodable.h is
missing), as for `Encodable.is2dArray`. -/
def ProtocolStructure.is2dArray (s : ProtocolStructure) : Bool :=
  s.isArray && s.array2d != ""

/-- `ProtocolStructure::getNumberOfDecodeParameters` (lines 1075-1089): the number of
children that are encoded and in memory. -/
def ProtocolStructure.getNumberOfDecodeParameters (s : ProtocolStructure) : Nat :=
  s.encodables.countP fun e => !(e.isNotEncoded || e.isNotInMemory)

/-! ## Code generation: the member fragments -/

/-- `ProtocolStructure::getComparisonString` (lines 437-501). -/
def ProtocolStructure.getComparisonString (g : Generator) (s : ProtocolStructure)
    (typeName : String) : String :=
  if !s.compare || s.getNumberOfDecodeParameters == 0 then ""
  else
    let spacing := g.TAB_IN
    let output := if s.comment ≠ "" then spacing ++ "// " ++ s.comment ++ "\n" else ""
    let access1 := if g.language = Language.c_language then "&_pg_user1->" ++ s.name else ""
    let access2 :=
      if g.language = Language.c_language then "&_pg_user2->" ++ s.name
      else "&_pg_user->" ++ s.name
    let output :=
      if s.isArray then
        output ++ (spacing ++ "for(_pg_i = 0; _pg_i < " ++ s.array ++ "; _pg_i++)\n")
      else output
    let spacing := if s.isArray then spacing ++ g.TAB_IN else spacing
    let access1 := if s.isArray then access1 ++ "[_pg_i]" else access1
    let access2 := if s.isArray then access2 ++ "[_pg_i]" else access2
    let access1 := if s.isArray && s.is2dArray then access1 ++ "[_pg_j]" else access1
    let access2 := if s.isArray && s.is2dArray then access2 ++ "[_pg_j]" else access2
    let output :=
      if s.isArray && s.is2dArray then
        output ++ (spacing ++ "for(_pg_j = 0; _pg_j < " ++ s.array2d ++ "; _pg_j++)\n")
      else output
    let spacing := if s.isArray && s.is2dArray then spacing ++ g.TAB_IN else spacing
    let output :=
      if g.language = Language.c_language then
        output ++ (spacing ++ "_pg_report += compare" ++ typeName ++ "(_pg_prename + \":" ++
          s.name ++ "\"")
      else
        output ++ (spacing ++ "_pg_report += " ++ typeName ++ "::compare(_pg_prename + \":" ++
          s.name ++ "\"")
    let output :=
      if s.isArray then output ++ " + \"[\" + QString::number(_pg_i) + \"]\"" else output
    let output :=
      if s.is2dArray then output ++ " + \"[\" + QString::number(_pg_j) + \"]\"" else output
    if g.language = Language.c_language then
      output ++ (", " ++ access1 ++ ", " ++ access2 ++ ");\n")
    else output ++ (", " ++ access2 ++ ");\n")

/-- `ProtocolStructure::getTextPrintString` (lines 508-547). -/
def ProtocolStructure.getTextPrintString (g : Generator) (s : ProtocolStructure)
    (typeName : String) : String :=
  if !s.print || s.getNumberOfDecodeParameters == 0 then ""
  else
    let spacing := g.TAB_IN
    let output := if s.comment ≠ "" then spacing ++ "// " ++ s.comment ++ "\n" else ""
    let output := output ++ g.getEncodeArrayIterationCode s spacing true
    let spacing := if s.isArray then spacing ++ g.TAB_IN else spacing
    let spacing := if s.isArray && s.is2dArray then spacing ++ g.TAB_IN else spacing
    let output :=
      if g.language = Language.c_language then
        output ++ (spacing ++ "_pg_report += textPrint" ++ typeName ++ "(_pg_prename + \":" ++
          s.name ++ "\"")
      else
        output ++ (spacing ++ "_pg_report += " ++ g.getEncodeFieldAccess s true ++
          ".textPrint(_pg_prename + \":" ++ s.name ++ "\"")
    let output :=
      if s.isArray then output ++ " + \"[\" + QString::number(_pg_i) + \"]\"" else output
    let output :=
      if s.is2dArray then output ++ " + \"[\" + QString::number(_pg_j) + \"]\"" else output
    let output :=
      if g.language = Language.c_language then output ++ (", " ++ g.getEncodeFieldAccess s true)
      else output
    output ++ ");\n"

/-- `ProtocolStructure::getTextReadString` (lines 554-595). -/
def ProtocolStructure.getTextReadString (g : Generator) (s : ProtocolStructure)
    (typeName : String) : String :=
  if !s.print || s.getNumberOfDecodeParameters == 0 then ""
  else
    let spacing := g.TAB_IN
    let output := if s.comment ≠ "" then spacing ++ "// " ++ s.comment ++ "\n" else ""
    let output := output ++ g.getEncodeArrayIterationCode s spacing true
    let spacing := if s.isArray then spacing ++ g.TAB_IN else spacing
    let spacing := if s.isArray && s.is2dArray then spacing ++ g.TAB_IN else spacing
    let output :=
      if g.language = Language.c_language then
        output ++ (spacing ++ "_pg_fieldcount += textRead" ++ typeName ++
          "(_pg_prename + \":" ++ s.name ++ "\"")
      else
        output ++ (spacing ++ "_pg_fieldcount += " ++ g.getEncodeFieldAccess s true ++
          ".textRead(_pg_prename + \":" ++ s.name ++ "\"")
    let output :=
      if s.isArray then output ++ " + \"[\" + QString::number(_pg_i) + \"]\"" else output
    let output :=
      if s.is2dArray then output ++ " + \"[\" + QString::number(_pg_j) + \"]\"" else output
    let output := output ++ ", _pg_source"
    let output :=
      if g.language = Language.c_language then output ++ (", " ++ g.getEncodeFieldAccess s true)
      else output
    output ++ ");\n"

/-- `ProtocolStructure::getMapEncodeString` (lines 602-638). -/
def ProtocolStructure.getMapEncodeString (g : Generator) (s : ProtocolStructure)
    (typeName : String) : String :=
  if !s.mapEncode || s.getNumberOfDecodeParameters == 0 then ""
  else
    let spacing := g.TAB_IN
    let output := if s.comment ≠ "" then spacing ++ "// " ++ s.comment ++ "\n" else ""
    let key := "\":" ++ s.name ++ "\""
    let output := output ++ g.getEncodeArrayIterationCode s spacing true
    let spacing := if s.isArray then spacing ++ g.TAB_IN else spacing
    let key := if s.isArray then key ++ " + \"[\" + QString::number(_pg_i) + \"]\"" else key
    let spacing := if s.isArray && s.is2dArray then spacing ++ g.TAB_IN else spacing
    let key :=
      if s.isArray && s.is2dArray then key ++ " + \"[\" + QString::number(_pg_j) + \"]\""
      else key
    let output :=
      if g.language = Language.c_language then
        output ++ (spacing ++ "mapEncode" ++ typeName ++ "(_pg_prename + " ++ key ++
          ", _pg_map, " ++ g.getEncodeFieldAccess s true)
      else
        output ++ (spacing ++ g.getEncodeFieldAccess s true ++ ".mapEncode(_pg_prename + " ++
          key ++ ", _pg_map")
    output ++ ");\n"

/-- `ProtocolStructure::getMapDecodeString` (lines 645-681). -/
def ProtocolStructure.getMapDecodeString (g : Generator) (s : ProtocolStructure)
    (typeName : String) : String :=
  if !s.mapEncode || s.getNumberOfDecodeParameters == 0 then ""
  else
    let spacing := g.TAB_IN
    let output := if s.comment ≠ "" then spacing ++ "// " ++ s.comment ++ "\n" else ""
    let key := "\":" ++ s.name ++ "\""
    let output := output ++ g.getDecodeArrayIterationCode s spacing true
    let spacing := if s.isArray then spacing ++ g.TAB_IN else spacing
    let key := if s.isArray then key ++ " + \"[\" + QString::number(_pg_i) + \"]\"" else key
    let spacing := if s.isArray && s.is2dArray then spacing ++ g.TAB_IN else spacing
    let key :=
      if s.isArray && s.is2dArray then key ++ " + \"[\" + QString::number(_pg_j) + \"]\""
      else key
    let output :=
      if g.language = Language.c_language then
        output ++ (spacing ++ "mapDecode" ++ typeName ++ "(_pg_prename + " ++ key ++
          ", _pg_map, " ++ g.getDecodeFieldAccess s true)
      else
        output ++ (spacing ++ g.getDecodeFieldAccess s true ++ ".mapDecode(_pg_prename + " ++
          key ++ ", _pg_map")
    output ++ ");\n"

/-! ## Code generation: the function signatures -/

/-- `ProtocolStructure::getComparisonFunctionSignature` (lines 2180-2197). -/
def getComparisonFunctionSignature (g : Generator) (typeName structName : String)
    (insource : Bool) : String :=
  if g.language = Language.c_language then
    if insource then
      "QString compare" ++ typeName ++ "(const QString& _pg_prename, const " ++ structName ++
        "* _pg_user1, const " ++ structName ++ "* _pg_user2)"
    else
      "QString compare" ++ typeName ++ "(const QString& prename, const " ++ structName ++
        "* user1, const " ++ structName ++ "* user2)"
  else
    if insource then
      "QString " ++ typeName ++ "::compare(const QString& _pg_prename, const " ++ structName ++
        "* _pg_user) const"
    else "QString compare(const QString& prename, const " ++ structName ++ "* user) const"

/-- `ProtocolStructure::getTextPrintFunctionSignature` (lines 2323-2340). -/
def getTextPrintFunctionSignature (g : Generator) (typeName structName : String)
    (insource : Bool) : String :=
  if g.language = Language.c_language then
    if insource then
      "QString textPrint" ++ typeName ++ "(const QString& _pg_prename, const " ++ structName ++
        "* _pg_user)"
    else
      "QString textPrint" ++ typeName ++ "(const QString& prename, const " ++ structName ++
        "* user)"
  else
    if insource then "QString " ++ typeName ++ "::textPrint(const QString& _pg_prename) const"
    else "QString textPrint(const QString& prename) const"

/-- `ProtocolStructure::getTextReadFunctionSignature` (lines 2454-2471). -/
def getTextReadFunctionSignature (g : Generator) (typeName structName : String)
    (insource : Bool) : String :=
  if g.language = Language.c_language then
    if insource then
      "int textRead" ++ typeName ++
        "(const QString& _pg_prename, const QString& _pg_source, " ++ structName ++
        "* _pg_user)"
    else
      "int textRead" ++ typeName ++ "(const QString& prename, const QString& source, " ++
        structName ++ "* user)"
  else
    if insource then
      "int " ++ typeName ++
        "::textRead(const QString& _pg_prename, const QString& _pg_source)"
    else "int textRead(const QString& prename, const QString& source)"

/-- `ProtocolStructure::getMapEncodeFunctionSignature` (lines 2589-2606). -/
def getMapEncodeFunctionSignature (g : Generator) (typeName structName : String)
    (insource : Bool) : String :=
  if g.language = Language.c_language then
    if insource then
      "void mapEncode" ++ typeName ++
        "(const QString& _pg_prename, QVariantMap& _pg_map, const " ++ structName ++
        "* _pg_user)"
    else
      "void mapEncode" ++ typeName ++ "(const QString& prename, QVariantMap& map, const " ++
        structName ++ "* user)"
  else
    if insource then
      "void " ++ typeName ++
        "::mapEncode(const QString& _pg_prename, QVariantMap& _pg_map) const"
    else "void mapEncode(const QString& prename, QVariantMap& map) const"

/-- `ProtocolStructure::getMapDecodeFunctionSignature` (lines 2721-2738). -/
def getMapDecodeFunctionSignature (g : Generator) (typeName structName : String)
    (insource : Bool) : String :=
  if g.language = Language.c_language then
    if insource then
      "void mapDecode" ++ typeName ++
        "(const QString& _pg_prename, const QVariantMap& _pg_map, " ++ structName ++
        "* _pg_user)"
    else
      "void mapDecode" ++ typeName ++ "(const QString& prename, const QVariantMap& map, " ++
        structName ++ "* user)"
  else
    if insource then
      "void " ++ typeName ++
        "::mapDecode(const QString& _pg_prename, const QVariantMap& _pg_map)"
    else "void mapDecode(const QString& prename, const QVariantMap& map)"

/-! ## Code generation: the function prototypes -/

/-- Whether `dynamic_cast<ProtocolStructure*>` succeeds on the object. -/
def EncodableObject.isStructure : EncodableObject → Bool
  | EncodableObject.field _ => false
  | EncodableObject.structure_ _ _ _ _ => true

mutual
/-- `ProtocolStructure::getComparisonFunctionPrototype` (lines 2206-2237), asked of a structure;
an object that is no structure has no such generator, and the loop skips it. -/
def EncodableObject.getComparisonFunctionPrototype (g : Generator) (spacing : String)
    (includeChildren : Bool) : EncodableObject → String
  | EncodableObject.field _ => ""
  | EncodableObject.structure_ s typeName structName encodables =>
    if !s.compare || s.getNumberOfDecodeParameters == 0 then ""
    else
      let output :=
        if includeChildren && g.language = Language.c_language then
          g.makeLineSeparator
            (comparisonFunctionPrototypeChildren g spacing includeChildren encodables "")
        else ""
      let output :=
        output ++ (spacing ++ "//! Compare two " ++ typeName ++ " and generate a report\n")
      output ++ (spacing ++ getComparisonFunctionSignature g typeName structName false ++ ";\n")
/-- The loop of `getComparisonFunctionPrototype` over the children that are structures. -/
def comparisonFunctionPrototypeChildren (g : Generator) (spacing : String)
    (includeChildren : Bool) : List EncodableObject → String → String
  | [], output => output
  | c :: cs, output =>
    if c.isStructure then
      comparisonFunctionPrototypeChildren g spacing includeChildren cs
        (g.makeLineSeparator output ++
          c.getComparisonFunctionPrototype g spacing includeChildren)
    else comparisonFunctionPrototypeChildren g spacing includeChildren cs output
end

mutual
/-- `ProtocolStructure::getTextPrintFunctionPrototype` (lines 2349-2379), asked of a structure;
an object that is no structure has no such generator, and the loop skips it. -/
def EncodableObject.getTextPrintFunctionPrototype (g : Generator) (spacing : String)
    (includeChildren : Bool) : EncodableObject → String
  | EncodableObject.field _ => ""
  | EncodableObject.structure_ s typeName structName encodables =>
    if !s.print || s.getNumberOfDecodeParameters == 0 then ""
    else
      let output :=
        if includeChildren && g.language = Language.c_language then
          g.makeLineSeparator
            (textPrintFunctionPrototypeChildren g spacing includeChildren encodables "")
        else ""
      let output :=
        output ++ (spacing ++ "//! Generate a string that describes the contents of a " ++
          typeName ++ "\n")
      output ++ (spacing ++ getTextPrintFunctionSignature g typeName structName false ++ ";\n")
/-- The loop of `getTextPrintFunctionPrototype` over the children that are structures. -/
def textPrintFunctionPrototypeChildren (g : Generator) (spacing : String)
    (includeChildren : Bool) : List EncodableObject → String → String
  | [], output => output
  | c :: cs, output =>
    if c.isStructure then
      textPrintFunctionPrototypeChildren g spacing includeChildren cs
        (g.makeLineSeparator output ++
          c.getTextPrintFunctionPrototype g spacing includeChildren)
    else textPrintFunctionPrototypeChildren g spacing includeChildren cs output
end

mutual
/-- `ProtocolStructure::getTextReadFunctionPrototype` (lines 2482-2512), asked of a structure;
an object that is no structure has no such generator, and the loop skips it. -/
def EncodableObject.getTextReadFunctionPrototype (g : Generator) (spacing : String)
    (includeChildren : Bool) : EncodableObject → String
  | EncodableObject.field _ => ""
  | EncodableObject.structure_ s typeName structName encodables =>
    if !s.print || s.getNumberOfDecodeParameters == 0 then ""
    else
      let output :=
        if includeChildren && g.language = Language.c_language then
          g.makeLineSeparator
            (textReadFunctionPrototypeChildren g spacing includeChildren encodables "")
        else ""
      let output :=
        output ++ (spacing ++ "//! Read the contents of a " ++ typeName ++ " from text\n")
      output ++ (spacing ++ getTextReadFunctionSignature g typeName structName false ++ ";\n")
/-- The loop of `getTextReadFunctionPrototype` over the children that are structures. -/
def textReadFunctionPrototypeChildren (g : Generator) (spacing : String)
    (includeChildren : Bool) : List EncodableObject → String → String
  | [], output => output
  | c :: cs, output =>
    if c.isStructure then
      textReadFunctionPrototypeChildren g spacing includeChildren cs
        (g.makeLineSeparator output ++
          c.getTextReadFunctionPrototype g spacing includeChildren)
    else textReadFunctionPrototypeChildren g spacing includeChildren cs output
end

mutual
/-- `ProtocolStructure::getMapEncodeFunctionPrototype` (lines 2617-2648), asked of a structure;
an object that is no structure has no such generator, and the loop skips it. -/
def EncodableObject.getMapEncodeFunctionPrototype (g : Generator) (spacing : String)
    (includeChildren : Bool) : EncodableObject → String
  | EncodableObject.field _ => ""
  | EncodableObject.structure_ s typeName structName encodables =>
    if !s.mapEncode || s.getNumberOfDecodeParameters == 0 then ""
    else
      let output :=
        if includeChildren && g.language = Language.c_language then
          g.makeLineSeparator
            (mapEncodeFunctionPrototypeChildren g spacing includeChildren encodables "")
        else ""
      let output :=
        output ++ (spacing ++ "//! Encode the contents of a " ++ typeName ++
          " to a string Key:Value map\n")
      output ++ (spacing ++ getMapEncodeFunctionSignature g typeName structName false ++ ";\n")
/-- The loop of `getMapEncodeFunctionPrototype` over the children that are structures. -/
def mapEncodeFunctionPrototypeChildren (g : Generator) (spacing : String)
    (includeChildren : Bool) : List EncodableObject → String → String
  | [], output => output
  | c :: cs, output =>
    if c.isStructure then
      mapEncodeFunctionPrototypeChildren g spacing includeChildren cs
        (g.makeLineSeparator output ++
          c.getMapEncodeFunctionPrototype g spacing includeChildren)
    else mapEncodeFunctionPrototypeChildren g spacing includeChildren cs output
end

mutual
/-- `ProtocolStructure::getMapDecodeFunctionPrototype` (lines 2749-2779), asked of a structure;
an object that is no structure has no such generator, and the loop skips it. -/
def EncodableObject.getMapDecodeFunctionPrototype (g : Generator) (spacing : String)
    (includeChildren : Bool) : EncodableObject → String
  | EncodableObject.field _ => ""
  | EncodableObject.structure_ s typeName structName encodables =>
    if !s.mapEncode || s.getNumberOfDecodeParameters == 0 then ""
    else
      let output :=
        if includeChildren && g.language = Language.c_language then
          g.makeLineSeparator
            (mapDecodeFunctionPrototypeChildren g spacing includeChildren encodables "")
        else ""
      let output :=
        output ++ (spacing ++ "//! Decode the contents of a " ++ typeName ++
          " from a string Key:Value map\n")
      output ++ (spacing ++ getMapDecodeFunctionSignature g typeName structName false ++ ";\n")
/-- The loop of `getMapDecodeFunctionPrototype` over the children that are structures. -/
def mapDecodeFunctionPrototypeChildren (g : Generator) (spacing : String)
    (includeChildren : Bool) : List EncodableObject → String → String
  | [], output => output
  | c :: cs, output =>
    if c.isStructure then
      mapDecodeFunctionPrototypeChildren g spacing includeChildren cs
        (g.makeLineSeparator output ++
          c.getMapDecodeFunctionPrototype g spacing includeChildren)
    else mapDecodeFunctionPrototypeChildren g spacing includeChildren cs output
end

/-! ## Code generation: the function bodies -/

/-- The virtual call `encodables[i]->getComparisonString()`: the generator of the field
class for an object that is no structure, and `ProtocolStructure::getComparisonString`
for a structure. -/
def EncodableObject.getComparisonString (g : Generator) : EncodableObject → String
  | EncodableObject.field e => g.fieldComparisonString e
  | EncodableObject.structure_ s typeName _ _ => s.getComparisonString g typeName

/-- The virtual call `encodables[i]->getTextPrintString()`: the generator of the field
class for an object that is no structure, and `ProtocolStructure::getTextPrintString`
for a structure. -/
def EncodableObject.getTextPrintString (g : Generator) : EncodableObject → String
  | EncodableObject.field e => g.fieldTextPrintString e
  | EncodableObject.structure_ s typeName _ _ => s.getTextPrintString g typeName

/-- The virtual call `encodables[i]->getTextReadString()`: the generator of the field
class for an object that is no structure, and `ProtocolStructure::getTextReadString`
for a structure. -/
def EncodableObject.getTextReadString (g : Generator) : EncodableObject → String
  | EncodableObject.field e => g.fieldTextReadString e
  | EncodableObject.structure_ s typeName _ _ => s.getTextReadString g typeName

/-- The virtual call `encodables[i]->getMapEncodeString()`: the generator of the field
class for an object that is no structure, and `ProtocolStructure::getMapEncodeString`
for a structure. -/
def EncodableObject.getMapEncodeString (g : Generator) : EncodableObject → String
  | EncodableObject.field e => g.fieldMapEncodeString e
  | EncodableObject.structure_ s typeName _ _ => s.getMapEncodeString g typeName

/-- The virtual call `encodables[i]->getMapDecodeString()`: the generator of the field
class for an object that is no structure, and `ProtocolStructure::getMapDecodeString`
for a structure. -/
def EncodableObject.getMapDecodeString (g : Generator) : EncodableObject → String
  | EncodableObject.field e => g.fieldMapDecodeString e
  | EncodableObject.structure_ s typeName _ _ => s.getMapDecodeString g typeName

mutual
/-- `ProtocolStructure::getComparisonFunctionBody` (lines 2246-2315), asked of a structure; an
object that is no structure has no such generator, and the loop skips it. -/
def EncodableObject.getComparisonFunctionBody (g : Generator) (includeChildren : Bool) :
    EncodableObject → String
  | EncodableObject.field _ => ""
  | EncodableObject.structure_ s typeName structName encodables =>
    if !s.compare || s.getNumberOfDecodeParameters == 0 then ""
    else
      let output :=
        if includeChildren then
          g.makeLineSeparator (comparisonFunctionBodyChildren g includeChildren encodables "")
        else ""
      let output := output ++ "/*!\n"
      let output :=
        if g.language = Language.c_language then
          output ++
            ((" * Compare two " ++ typeName ++ " and generate a report of any differences.\n") ++
            (" * \\param _pg_prename is prepended to the name of the data field in the " ++
              "comparison report\n") ++
            " * \\param _pg_user1 is the first data to compare\n" ++
            " * \\param _pg_user1 is the second data to compare\n" ++
            (" * \\return a string describing any differences between _pg_user1 and " ++
              "_pg_user2. The string will be empty if there are no differences\n"))
        else
          output ++
            ((" * Compare this " ++ typeName ++ " with another " ++ typeName ++
              " and generate a report of any differences.\n") ++
            (" * \\param _pg_prename is prepended to the name of the data field in the " ++
              "comparison report\n") ++
            " * \\param _pg_user is the data to compare\n" ++
            (" * \\return a string describing any differences between this " ++ typeName ++
              " and \x60_pg_user\x60. The string will be empty if there are no differences\n"))
      let output := output ++ " */\n"
      let output := output ++ (getComparisonFunctionSignature g typeName structName true ++ "\n")
      let output := output ++ "\x7b\n"
      let output := output ++ (g.TAB_IN ++ "QString _pg_report;\n")
      let output :=
        if s.needsDecodeIterator then output ++ (g.TAB_IN ++ "unsigned _pg_i = 0;\n")
        else output
      let output :=
        if s.needs2ndDecodeIterator then output ++ (g.TAB_IN ++ "unsigned _pg_j = 0;\n")
        else output
      let output :=
        encodables.foldl
          (fun output c => g.makeLineSeparator output ++ c.getComparisonString g) output
      let output := g.makeLineSeparator output
      let output := output ++ (g.TAB_IN ++ "return _pg_report;\n")
      let output := output ++ "\n"
      if g.language = Language.c_language then
        output ++ ("\x7d// compare" ++ typeName ++ "\n")
      else output ++ ("\x7d// " ++ typeName ++ "::compare\n")
/-- The loop of `getComparisonFunctionBody` over the children that are structures. -/
def comparisonFunctionBodyChildren (g : Generator) (includeChildren : Bool) :
    List EncodableObject → String → String
  | [], output => output
  | c :: cs, output =>
    if c.isStructure then
      comparisonFunctionBodyChildren g includeChildren cs
        (g.makeLineSeparator output ++ c.getComparisonFunctionBody g includeChildren)
    else comparisonFunctionBodyChildren g includeChildren cs output
end

mutual
/-- `ProtocolStructure::getTextPrintFunctionBody` (lines 2388-2446), asked of a structure; an
object that is no structure has no such generator, and the loop skips it. -/
def EncodableObject.getTextPrintFunctionBody (g : Generator) (includeChildren : Bool) :
    EncodableObject → String
  | EncodableObject.field _ => ""
  | EncodableObject.structure_ s typeName structName encodables =>
    if !s.print || s.getNumberOfDecodeParameters == 0 then ""
    else
      let output :=
        if includeChildren then
          g.makeLineSeparator (textPrintFunctionBodyChildren g includeChildren encodables "")
        else ""
      let output := output ++ "/*!\n"
      let output :=
        output ++
          (" * Generate a string that describes the contents of a " ++ typeName ++ "\n")
      let output :=
        output ++
          " * \\param _pg_prename is prepended to the name of the data field in the report\n"
      let output :=
        if g.language = Language.c_language then
          output ++ " * \\param _pg_user is the structure to report\n"
        else output
      let output :=
        output ++ " * \\return a string containing a report of the contents of user\n"
      let output := output ++ " */\n"
      let output := output ++ (getTextPrintFunctionSignature g typeName structName true ++ "\n")
      let output := output ++ "\x7b\n"
      let output := output ++ (g.TAB_IN ++ "QString _pg_report;\n")
      let output :=
        if s.needsDecodeIterator then output ++ (g.TAB_IN ++ "unsigned _pg_i = 0;\n")
        else output
      let output :=
        if s.needs2ndDecodeIterator then output ++ (g.TAB_IN ++ "unsigned _pg_j = 0;\n")
        else output
      let output :=
        encodables.foldl
          (fun output c => g.makeLineSeparator output ++ c.getTextPrintString g) output
      let output := g.makeLineSeparator output
      let output := output ++ (g.TAB_IN ++ "return _pg_report;\n")
      let output := output ++ "\n"
      if g.language = Language.c_language then
        output ++ ("\x7d// textPrint" ++ typeName ++ "\n")
      else output ++ ("\x7d// " ++ typeName ++ "::textPrint\n")
/-- The loop of `getTextPrintFunctionBody` over the children that are structures. -/
def textPrintFunctionBodyChildren (g : Generator) (includeChildren : Bool) :
    List EncodableObject → String → String
  | [], output => output
  | c :: cs, output =>
    if c.isStructure then
      textPrintFunctionBodyChildren g includeChildren cs
        (g.makeLineSeparator output ++ c.getTextPrintFunctionBody g includeChildren)
    else textPrintFunctionBodyChildren g includeChildren cs output
end

mutual
/-- `ProtocolStructure::getTextReadFunctionBody` (lines 2521-2581), asked of a structure; an
object that is no structure has no such generator, and the loop skips it. -/
def EncodableObject.getTextReadFunctionBody (g : Generator) (includeChildren : Bool) :
    EncodableObject → String
  | EncodableObject.field _ => ""
  | EncodableObject.structure_ s typeName structName encodables =>
    if !s.print || s.getNumberOfDecodeParameters == 0 then ""
    else
      let output :=
        if includeChildren then
          g.makeLineSeparator (textReadFunctionBodyChildren g includeChildren encodables "")
        else ""
      let output := output ++ "/*!\n"
      let output :=
        output ++ (" * Read the contents of a " ++ typeName ++ " structure from text\n")
      let output :=
        output ++
          (" * \\param _pg_prename is prepended to the name of the data field to form " ++
            "the text key\n")
      let output :=
        output ++ " * \\param _pg_source is text to search to find the data field keys\n"
      let output :=
        if g.language = Language.c_language then
          output ++ " * \\param _pg_user receives any data read from the text source\n"
        else output
      let output :=
        output ++ " * \\return The number of fields that were read from the text source\n"
      let output := output ++ " */\n"
      let output := output ++ (getTextReadFunctionSignature g typeName structName true ++ "\n")
      let output := output ++ "\x7b\n"
      let output := output ++ (g.TAB_IN ++ "QString _pg_text;\n")
      let output := output ++ (g.TAB_IN ++ "int _pg_fieldcount = 0;\n")
      let output :=
        if s.needsDecodeIterator then output ++ (g.TAB_IN ++ "unsigned _pg_i = 0;\n")
        else output
      let output :=
        if s.needs2ndDecodeIterator then output ++ (g.TAB_IN ++ "unsigned _pg_j = 0;\n")
        else output
      let output :=
        encodables.foldl
          (fun output c => g.makeLineSeparator output ++ c.getTextReadString g) output
      let output := g.makeLineSeparator output
      let output := output ++ (g.TAB_IN ++ "return _pg_fieldcount;\n")
      let output := output ++ "\n"
      if g.language = Language.c_language then
        output ++ ("\x7d// textRead" ++ typeName ++ "\n")
      else output ++ ("\x7d// " ++ typeName ++ "::textRead\n")
/-- The loop of `getTextReadFunctionBody` over the children that are structures. -/
def textReadFunctionBodyChildren (g : Generator) (includeChildren : Bool) :
    List EncodableObject → String → String
  | [], output => output
  | c :: cs, output =>
    if c.isStructure then
      textReadFunctionBodyChildren g includeChildren cs
        (g.makeLineSeparator output ++ c.getTextReadFunctionBody g includeChildren)
    else textReadFunctionBodyChildren g includeChildren cs output
end

mutual
/-- `ProtocolStructure::getMapEncodeFunctionBody` (lines 2656-2713), asked of a structure; an
object that is no structure has no such generator, and the loop skips it. -/
def EncodableObject.getMapEncodeFunctionBody (g : Generator) (includeChildren : Bool) :
    EncodableObject → String
  | EncodableObject.field _ => ""
  | EncodableObject.structure_ s typeName structName encodables =>
    if !s.mapEncode || s.getNumberOfDecodeParameters == 0 then ""
    else
      let output :=
        if includeChildren then
          g.makeLineSeparator (mapEncodeFunctionBodyChildren g includeChildren encodables "")
        else ""
      let output := output ++ "/*!\n"
      let output :=
        output ++
          (" * Encode the contents of a " ++ typeName ++ " to a Key:Value string map\n")
      let output := output ++ " * \\param _pg_prename is prepended to the key fields in the map\n"
      let output := output ++ " * \\param _pg_map is a reference to the map\n"
      let output :=
        if g.language = Language.c_language then
          output ++ " * \\param _pg_user is the structure to encode\n"
        else output
      let output := output ++ " */\n"
      let output := output ++ (getMapEncodeFunctionSignature g typeName structName true ++ "\n")
      let output := output ++ "\x7b\n"
      let output := output ++ (g.TAB_IN ++ "QString key;\n")
      let output :=
        if s.needsDecodeIterator then output ++ (g.TAB_IN ++ "unsigned _pg_i = 0;\n")
        else output
      let output :=
        if s.needs2ndDecodeIterator then output ++ (g.TAB_IN ++ "unsigned _pg_j = 0;\n")
        else output
      let output :=
        encodables.foldl
          (fun output c => g.makeLineSeparator output ++ c.getMapEncodeString g) output
      let output := g.makeLineSeparator output
      let output := output ++ "\n"
      if g.language = Language.c_language then
        output ++ ("\x7d// mapEncode" ++ typeName ++ "\n")
      else output ++ ("\x7d// " ++ typeName ++ "::mapEncode\n")
/-- The loop of `getMapEncodeFunctionBody` over the children that are structures. -/
def mapEncodeFunctionBodyChildren (g : Generator) (includeChildren : Bool) :
    List EncodableObject → String → String
  | [], output => output
  | c :: cs, output =>
    if c.isStructure then
      mapEncodeFunctionBodyChildren g includeChildren cs
        (g.makeLineSeparator output ++ c.getMapEncodeFunctionBody g includeChildren)
    else mapEncodeFunctionBodyChildren g includeChildren cs output
end

mutual
/-- `ProtocolStructure::getMapDecodeFunctionBody` (lines 2788-2846), asked of a structure; an
object that is no structure has no such generator, and the loop skips it. -/
def EncodableObject.getMapDecodeFunctionBody (g : Generator) (includeChildren : Bool) :
    EncodableObject → String
  | EncodableObject.field _ => ""
  | EncodableObject.structure_ s typeName structName encodables =>
    if !s.mapEncode || s.getNumberOfDecodeParameters == 0 then ""
    else
      let output :=
        if includeChildren then
          g.makeLineSeparator (mapDecodeFunctionBodyChildren g includeChildren encodables "")
        else ""
      let output := output ++ "/*!\n"
      let output :=
        output ++
          (" * Decode the contents of a " ++ typeName ++ " from a Key:Value string map\n")
      let output := output ++ " * \\param _pg_prename is prepended to the key fields in the map\n"
      let output := output ++ " * \\param _pg_map is a reference to the map\n"
      let output :=
        if g.language = Language.c_language then
          output ++ " * \\param _pg_user is the structure to decode\n"
        else output
      let output := output ++ " */\n"
      let output := output ++ (getMapDecodeFunctionSignature g typeName structName true ++ "\n")
      let output := output ++ "\x7b\n"
      let output := output ++ (g.TAB_IN ++ "QString key;\n")
      let output := output ++ (g.TAB_IN ++ "bool ok = false;\n")
      let output :=
        if s.needsDecodeIterator then output ++ (g.TAB_IN ++ "unsigned _pg_i = 0;\n")
        else output
      let output :=
        if s.needs2ndDecodeIterator then output ++ (g.TAB_IN ++ "unsigned _pg_j = 0;\n")
        else output
      let output :=
        encodables.foldl
          (fun output c => g.makeLineSeparator output ++ c.getMapDecodeString g) output
      let output := g.makeLineSeparator output
      let output := output ++ "\n"
      if g.language = Language.c_language then
        output ++ ("\x7d// mapDecode" ++ typeName ++ "\n")
      else output ++ ("\x7d// " ++ typeName ++ "::mapDecode\n")
/-- The loop of `getMapDecodeFunctionBody` over the children that are structures. -/
def mapDecodeFunctionBodyChildren (g : Generator) (includeChildren : Bool) :
    List EncodableObject → String → String
  | [], output => output
  | c :: cs, output =>
    if c.isStructure then
      mapDecodeFunctionBodyChildren g includeChildren cs
        (g.makeLineSeparator output ++ c.getMapDecodeFunctionBody g includeChildren)
    else mapDecodeFunctionBodyChildren g includeChildren cs output
end

/-! ## Code generation: the encode, decode, verify and initial value fragments -/

/-- Modelled from the spec: `hasVerify()` asked of a structure (protocolstructure.h is
missing). Spec §4.2: "has any verification logic" is OR-reduced into the parent, which the
structure advertises; the accessor answers the aggregated `hasverify`. -/
def ProtocolStructure.hasVerify (s : ProtocolStructure) : Bool :=
  s.hasverify

/-- Modelled from the spec: `hasInit()` asked of a structure (protocolstructure.h is
missing), which answers the aggregated `hasinit`, as for `hasVerify`. -/
def ProtocolStructure.hasInit (s : ProtocolStructure) : Bool :=
  s.hasinit

/-- `ProtocolStructure::getNumberOfEncodeParameters` (lines 1053-1066): the number of
children that are encoded and not constant. -/
def ProtocolStructure.getNumberOfEncodeParameters (s : ProtocolStructure) : Nat :=
  s.encodables.countP fun e => !(e.isNotEncoded || e.isConstant)

/-- `ProtocolStructure::getNumberInMemory` (lines 1096-1108): the number of children that
are in memory. -/
def ProtocolStructure.getNumberInMemory (s : ProtocolStructure) : Nat :=
  s.encodables.countP fun e => !e.isNotInMemory

/-- `ProtocolStructure::getDeclaration` (lines 191-209). -/
def ProtocolStructure.getDeclaration (g : Generator) (s : ProtocolStructure)
    (typeName : String) : String :=
  let output := g.TAB_IN ++ "" ++ typeName ++ " " ++ s.name
  let output :=
    if s.array = "" then output ++ ";"
    else if s.array2d = "" then output ++ ("[" ++ s.array ++ "];")
    else output ++ ("[" ++ s.array ++ "][" ++ s.array2d ++ "]")
  let output := if s.comment ≠ "" then output ++ (" //!< " ++ s.comment) else output
  output ++ "\n"

/-- `ProtocolStructure::getEncodeString` (lines 219-265); `isBigEndian` and `bitcount` are
unused there. -/
def ProtocolStructure.getEncodeString (g : Generator) (s : ProtocolStructure)
    (typeName : String) (isStructureMember : Bool) : String :=
  let access := g.getEncodeFieldAccess s isStructureMember
  let spacing := g.TAB_IN
  let output := if s.comment ≠ "" then spacing ++ "// " ++ s.comment ++ "\n" else ""
  let output :=
    if s.dependsOn ≠ "" then
      let output :=
        output ++
          (spacing ++ "if(" ++ g.getEncodeFieldAccessVariable s isStructureMember s.dependsOn)
      let output :=
        if s.dependsOnValue ≠ "" then
          output ++ (" " ++ s.dependsOnCompare ++ " " ++ s.dependsOnValue)
        else output
      output ++ (")\n" ++ spacing ++ "\x7b\n")
    else output
  let spacing := if s.dependsOn ≠ "" then spacing ++ g.TAB_IN else spacing
  let output := output ++ g.getEncodeArrayIterationCode s spacing isStructureMember
  let spacing := if s.isArray then spacing ++ g.TAB_IN else spacing
  let spacing := if s.isArray && s.is2dArray then spacing ++ g.TAB_IN else spacing
  let output :=
    if g.language = Language.c_language then
      output ++
        (spacing ++ "encode" ++ typeName ++ "(_pg_data, &_pg_byteindex, " ++ access ++ ");\n")
    else output ++ (spacing ++ access ++ ".encode(_pg_data, &_pg_byteindex);\n")
  if s.dependsOn ≠ "" then output ++ (g.TAB_IN ++ "\x7d\n") else output

/-- `ProtocolStructure::getDecodeString` (lines 275-326); `isBigEndian`, `bitcount` and
`defaultEnabled` are unused there. The accessor of the member itself is the encode one
(line 282), the accessor of the dependsOn target the decode one (line 290). -/
def ProtocolStructure.getDecodeString (g : Generator) (s : ProtocolStructure)
    (typeName : String) (isStructureMember : Bool) : String :=
  let access := g.getEncodeFieldAccess s isStructureMember
  let spacing := g.TAB_IN
  let output := if s.comment ≠ "" then spacing ++ "// " ++ s.comment ++ "\n" else ""
  let output :=
    if s.dependsOn ≠ "" then
      let output :=
        output ++
          (spacing ++ "if(" ++ g.getDecodeFieldAccessVariable s isStructureMember s.dependsOn)
      let output :=
        if s.dependsOnValue ≠ "" then
          output ++ (" " ++ s.dependsOnCompare ++ " " ++ s.dependsOnValue)
        else output
      output ++ (")\n" ++ spacing ++ "\x7b\n")
    else output
  let spacing := if s.dependsOn ≠ "" then spacing ++ g.TAB_IN else spacing
  let output := output ++ g.getDecodeArrayIterationCode s spacing isStructureMember
  let spacing := if s.isArray then spacing ++ g.TAB_IN else spacing
  let spacing := if s.isArray && s.is2dArray then spacing ++ g.TAB_IN else spacing
  let output :=
    if g.language = Language.c_language then
      output ++
        (spacing ++ "if(decode" ++ typeName ++ "(_pg_data, &_pg_byteindex, " ++ access ++
          ") == 0)\n") ++
        (spacing ++ g.TAB_IN ++ "return 0;\n")
    else
      output ++ (spacing ++ "if(" ++ access ++ ".decode(_pg_data, &_pg_byteindex) == false)\n") ++
        (spacing ++ g.TAB_IN ++ "return false;\n")
  if s.dependsOn ≠ "" then output ++ (g.TAB_IN ++ "\x7d\n") else output

/-- `ProtocolStructure::getVerifyString` (lines 333-371). -/
def ProtocolStructure.getVerifyString (g : Generator) (s : ProtocolStructure)
    (typeName : String) : String :=
  if !s.hasverify then ""
  else
    let spacing := g.TAB_IN
    let output := if s.comment ≠ "" then spacing ++ "// " ++ s.comment ++ "\n" else ""
    let output :=
      if s.isArray then
        output ++ (spacing ++ "for(_pg_i = 0; _pg_i < " ++ s.array ++ "; _pg_i++)\n")
      else output
    let spacing := if s.isArray then spacing ++ g.TAB_IN else spacing
    let output :=
      if s.isArray && s.is2dArray then
        output ++ (spacing ++ "for(_pg_j = 0; _pg_j < " ++ s.array2d ++ "; _pg_j++)\n")
      else output
    let spacing := if s.isArray && s.is2dArray then spacing ++ g.TAB_IN else spacing
    if g.language = Language.c_language then
      output ++
        (spacing ++ "if(verify" ++ typeName ++ "(" ++ g.getDecodeFieldAccess s true ++
          ") == 0)\n") ++
        (spacing ++ g.TAB_IN ++ "_pg_good = 0;\n")
    else
      output ++ (spacing ++ "if(" ++ g.getDecodeFieldAccess s true ++ ".verify() == false)\n") ++
        (spacing ++ g.TAB_IN ++ "_pg_good = false;\n")

/-- `ProtocolStructure::getSetInitialValueString` (lines 378-407). -/
def ProtocolStructure.getSetInitialValueString (g : Generator) (s : ProtocolStructure)
    (typeName : String) (isStructureMember : Bool) : String :=
  if !s.hasinit || g.language ≠ Language.c_language then ""
  else
    let spacing := g.TAB_IN
    let output := if s.comment ≠ "" then spacing ++ "// " ++ s.comment ++ "\n" else ""
    let output :=
      if s.isArray then
        output ++ (spacing ++ "for(_pg_i = 0; _pg_i < " ++ s.array ++ "; _pg_i++)\n")
      else output
    let spacing := if s.isArray then spacing ++ g.TAB_IN else spacing
    let output :=
      if s.isArray && s.is2dArray then
        output ++ (spacing ++ "for(_pg_j = 0; _pg_j < " ++ s.array2d ++ "; _pg_j++)\n")
      else output
    let spacing := if s.isArray && s.is2dArray then spacing ++ g.TAB_IN else spacing
    output ++
      (spacing ++ "init" ++ typeName ++ "(" ++ g.getDecodeFieldAccess s isStructureMember ++
        ");\n")

/-- The virtual call `encodables[i]->getVerifyString()`: the generator of the field class
for an object that is no structure, and `ProtocolStructure::getVerifyString` for a
structure. -/
def EncodableObject.getVerifyString (g : Generator) : EncodableObject → String
  | EncodableObject.field e => g.fieldVerifyString e
  | EncodableObject.structure_ s typeName _ _ => s.getVerifyString g typeName

/-- The virtual call `encodables[i]->getDeclaration()`: the generator of the field class
for an object that is no structure, and `ProtocolStructure::getDeclaration` for a
structure. -/
def EncodableObject.getDeclaration (g : Generator) : EncodableObject → String
  | EncodableObject.field e => g.fieldDeclaration e
  | EncodableObject.structure_ s typeName _ _ => s.getDeclaration g typeName

/-! ## Code generation: the encode, decode, initial value and verify functions -/

/-- `ProtocolStructure::getEncodeFunctionSignature` (lines 1494-1537). -/
def getEncodeFunctionSignature (g : Generator) (s : ProtocolStructure)
    (typeName structName : String) (insource : Bool) : String :=
  if g.language = Language.c_language then
    let pg := if insource then "_pg_" else ""
    if s.getNumberOfEncodeParameters > 0 then
      "void encode" ++ typeName ++ "(uint8_t* " ++ pg ++ "data, int* " ++ pg ++
        "bytecount, const " ++ structName ++ "* " ++ pg ++ "user)"
    else "void encode" ++ typeName ++ "(uint8_t* " ++ pg ++ "data, int* " ++ pg ++ "bytecount)"
  else
    if s.getNumberOfEncodeParameters > 0 then
      if insource then
        "void " ++ typeName ++ "::encode(uint8_t* _pg_data, int* _pg_bytecount) const"
      else "void encode(uint8_t* data, int* bytecount) const"
    else
      if insource then "void " ++ typeName ++ "::encode(uint8_t* _pg_data, int* _pg_bytecount)"
      else "static void encode(uint8_t* data, int* bytecount)"

/-- `ProtocolStructure::getDecodeFunctionSignature` (lines 1661-1693). -/
def getDecodeFunctionSignature (g : Generator) (s : ProtocolStructure)
    (typeName structName : String) (insource : Bool) : String :=
  if g.language = Language.c_language then
    let pg := if insource then "_pg_" else ""
    if s.getNumberOfDecodeParameters > 0 then
      "int decode" ++ typeName ++ "(const uint8_t* " ++ pg ++ "data, int* " ++ pg ++
        "bytecount, " ++ structName ++ "* " ++ pg ++ "user)"
    else
      "int decode" ++ typeName ++ "(const uint8_t* " ++ pg ++ "data, int* " ++ pg ++
        "bytecount)"
  else
    if insource then
      "bool " ++ typeName ++ "::decode(const uint8_t* _pg_data, int* _pg_bytecount)"
    else "bool decode(const uint8_t* data, int* bytecount)"

/-- `ProtocolStructure::getSetToInitialValueFunctionSignature` (lines 1817-1846). -/
def getSetToInitialValueFunctionSignature (g : Generator) (s : ProtocolStructure)
    (typeName structName : String) (insource : Bool) : String :=
  if g.language = Language.c_language then
    if s.getNumberInMemory > 0 then
      if insource then "void init" ++ typeName ++ "(" ++ structName ++ "* _pg_user)"
      else "void init" ++ typeName ++ "(" ++ structName ++ "* user)"
    else "void init" ++ typeName ++ "(void)"
  else
    if insource then typeName ++ "::" ++ typeName ++ "(void)"
    else typeName ++ "(void)"

/-- `ProtocolStructure::getVerifyFunctionSignature` (lines 2033-2050). -/
def getVerifyFunctionSignature (g : Generator) (typeName structName : String)
    (insource : Bool) : String :=
  if g.language = Language.c_language then
    if insource then "int verify" ++ typeName ++ "(" ++ structName ++ "* _pg_user)"
    else "int verify" ++ typeName ++ "(" ++ structName ++ "* user)"
  else
    if insource then "bool " ++ typeName ++ "::verify(void)"
    else "bool verify(void)"

mutual
/-- `ProtocolStructure::getEncodeFunctionPrototype` (lines 1547-1575), asked of a structure;
an object that is no structure has no such generator, and the loop skips it. -/
def EncodableObject.getEncodeFunctionPrototype (g : Generator) (spacing : String)
    (includeChildren : Bool) : EncodableObject → String
  | EncodableObject.field _ => ""
  | EncodableObject.structure_ s typeName structName encodables =>
    let output :=
      if includeChildren && g.language = Language.c_language then
        g.makeLineSeparator
          (encodeFunctionPrototypeChildren g spacing includeChildren encodables "")
      else ""
    let output := output ++ (spacing ++ "//! Encode a " ++ typeName ++ " into a byte array\n")
    output ++ (spacing ++ getEncodeFunctionSignature g s typeName structName false ++ ";\n")
/-- The loop of `getEncodeFunctionPrototype` over the children that are structures. -/
def encodeFunctionPrototypeChildren (g : Generator) (spacing : String)
    (includeChildren : Bool) : List EncodableObject → String → String
  | [], output => output
  | c :: cs, output =>
    if c.isStructure then
      encodeFunctionPrototypeChildren g spacing includeChildren cs
        (g.makeLineSeparator output ++ c.getEncodeFunctionPrototype g spacing includeChildren)
    else encodeFunctionPrototypeChildren g spacing includeChildren cs output
end

mutual
/-- `ProtocolStructure::getDecodeFunctionPrototype` (lines 1703-1729), asked of a structure;
an object that is no structure has no such generator, and the loop skips it. -/
def EncodableObject.getDecodeFunctionPrototype (g : Generator) (spacing : String)
    (includeChildren : Bool) : EncodableObject → String
  | EncodableObject.field _ => ""
  | EncodableObject.structure_ s typeName structName encodables =>
    let output :=
      if includeChildren && g.language = Language.c_language then
        g.makeLineSeparator
          (decodeFunctionPrototypeChildren g spacing includeChildren encodables "")
      else ""
    let output := output ++ (spacing ++ "//! Decode a " ++ typeName ++ " from a byte array\n")
    output ++ (spacing ++ getDecodeFunctionSignature g s typeName structName false ++ ";\n")
/-- The loop of `getDecodeFunctionPrototype` over the children that are structures. -/
def decodeFunctionPrototypeChildren (g : Generator) (spacing : String)
    (includeChildren : Bool) : List EncodableObject → String → String
  | [], output => output
  | c :: cs, output =>
    if c.isStructure then
      decodeFunctionPrototypeChildren g spacing includeChildren cs
        (g.makeLineSeparator output ++ c.getDecodeFunctionPrototype g spacing includeChildren)
    else decodeFunctionPrototypeChildren g spacing includeChildren cs output
end

mutual
/-- `ProtocolStructure::getSetToInitialValueFunctionPrototype` (lines 1856-1890), asked of a
structure; an object that is no structure has no such generator, and the loop skips it. -/
def EncodableObject.getSetToInitialValueFunctionPrototype (g : Generator) (spacing : String)
    (includeChildren : Bool) : EncodableObject → String
  | EncodableObject.field _ => ""
  | EncodableObject.structure_ s typeName structName encodables =>
    if !s.hasInit && g.language = Language.c_language then ""
    else
      let output :=
        if includeChildren && g.language = Language.c_language then
          g.makeLineSeparator
            (setToInitialValueFunctionPrototypeChildren g spacing includeChildren encodables "")
        else ""
      let output :=
        if g.language = Language.c_language then
          output ++ (spacing ++ "//! Set a " ++ typeName ++ " to initial values\n")
        else output ++ (spacing ++ "//! Construct a " ++ typeName ++ "\n")
      output ++
        (spacing ++ getSetToInitialValueFunctionSignature g s typeName structName false ++ ";\n")
/-- The loop of `getSetToInitialValueFunctionPrototype` over the children that are
structures. -/
def setToInitialValueFunctionPrototypeChildren (g : Generator) (spacing : String)
    (includeChildren : Bool) : List EncodableObject → String → String
  | [], output => output
  | c :: cs, output =>
    if c.isStructure then
      setToInitialValueFunctionPrototypeChildren g spacing includeChildren cs
        (g.makeLineSeparator output ++
          c.getSetToInitialValueFunctionPrototype g spacing includeChildren)
    else setToInitialValueFunctionPrototypeChildren g spacing includeChildren cs output
end

mutual
/-- `ProtocolStructure::getVerifyFunctionPrototype` (lines 2060-2090), asked of a structure;
an object that is no structure has no such generator, and the loop skips it. -/
def EncodableObject.getVerifyFunctionPrototype (g : Generator) (spacing : String)
    (includeChildren : Bool) : EncodableObject → String
  | EncodableObject.field _ => ""
  | EncodableObject.structure_ s typeName structName encodables =>
    if !s.hasVerify then ""
    else
      let output :=
        if includeChildren && g.language = Language.c_language then
          g.makeLineSeparator
            (verifyFunctionPrototypeChildren g spacing includeChildren encodables "")
        else ""
      let output :=
        output ++ (spacing ++ "//! Verify a " ++ typeName ++ " has acceptable values\n")
      output ++ (spacing ++ getVerifyFunctionSignature g typeName structName false ++ ";\n")
/-- The loop of `getVerifyFunctionPrototype` over the children that are structures. -/
def verifyFunctionPrototypeChildren (g : Generator) (spacing : String)
    (includeChildren : Bool) : List EncodableObject → String → String
  | [], output => output
  | c :: cs, output =>
    if c.isStructure then
      verifyFunctionPrototypeChildren g spacing includeChildren cs
        (g.makeLineSeparator output ++ c.getVerifyFunctionPrototype g spacing includeChildren)
    else verifyFunctionPrototypeChildren g spacing includeChildren cs output
end

mutual
/-- `ProtocolStructure::getVerifyFunctionBody` (lines 2100-2172), asked of a structure; an
object that is no structure has no such generator, and the loop skips it. -/
def EncodableObject.getVerifyFunctionBody (g : Generator) (includeChildren : Bool) :
    EncodableObject → String
  | EncodableObject.field _ => ""
  | EncodableObject.structure_ s typeName structName encodables =>
    if !s.hasVerify then ""
    else
      let output :=
        if includeChildren then
          g.makeLineSeparator (verifyFunctionBodyChildren g includeChildren encodables "")
        else ""
      let output := output ++ "/*!\n"
      let output := output ++ (" * \\brief Verify a " ++ typeName ++ " has acceptable values.\n")
      let output := output ++ " *\n"
      let output :=
        output ++ (" * Verify a " ++ typeName ++ " has acceptable values. Not all fields are\n")
      let output :=
        output ++
          " * verified, only those which the protocol specifies. Fields which are outside\n"
      let output :=
        output ++
          " * the allowable range are changed to the maximum or minimum allowable value. \n"
      let output :=
        if g.language = Language.c_language then
          output ++ " * \\param _pg_user is the structure whose data are verified\n" ++
            (" * \\return 1 if all verifiable data where valid, else 0 if data had to be " ++
              "corrected\n") ++
            " */\n" ++ (getVerifyFunctionSignature g typeName structName true ++ "\n") ++
            "\x7b\n" ++ (g.TAB_IN ++ "int _pg_good = 1;\n")
        else
          output ++
            (" * \\return true if all verifiable data where valid, else false if data had " ++
              "to be corrected\n") ++
            " */\n" ++ (getVerifyFunctionSignature g typeName structName true ++ "\n") ++
            "\x7b\n" ++ (g.TAB_IN ++ "bool _pg_good = true;\n")
      let output :=
        if s.needsVerifyIterator then output ++ (g.TAB_IN ++ "unsigned _pg_i = 0;\n")
        else output
      let output :=
        if s.needs2ndVerifyIterator then output ++ (g.TAB_IN ++ "unsigned _pg_j = 0;\n")
        else output
      let output :=
        encodables.foldl (fun output c => g.makeLineSeparator output ++ c.getVerifyString g)
          output
      let output := g.makeLineSeparator output
      let output := output ++ (g.TAB_IN ++ "return _pg_good;\n")
      let output := output ++ "\n"
      if g.language = Language.c_language then
        output ++ ("\x7d// verify" ++ typeName ++ "\n")
      else output ++ ("\x7d// " ++ typeName ++ "::verify\n")
/-- The loop of `getVerifyFunctionBody` over the children that are structures. -/
def verifyFunctionBodyChildren (g : Generator) (includeChildren : Bool) :
    List EncodableObject → String → String
  | [], output => output
  | c :: cs, output =>
    if c.isStructure then
      verifyFunctionBodyChildren g includeChildren cs
        (g.makeLineSeparator output ++ c.getVerifyFunctionBody g includeChildren)
    else verifyFunctionBodyChildren g includeChildren cs output
end

/-! ## Code generation: the declarations -/

/-- The parts of a text between the occurrences of `sep`, for `QString::split(sep)`: the
part up to the first separator, and the parts after it. -/
def QString.splitParts (sep : Char) : List Char → List Char × List (List Char)
  | [] => ([], [])
  | c :: cs =>
    if c = sep then ([], (QString.splitParts sep cs).1 :: (QString.splitParts sep cs).2)
    else (c :: (QString.splitParts sep cs).1, (QString.splitParts sep cs).2)

/-- `QString::split(sep, QString::SkipEmptyParts)`: the parts that are not empty. -/
def QString.splitSkipEmptyParts (sep : Char) (text : List Char) : List (List Char) :=
  ((QString.splitParts sep text).1 :: (QString.splitParts sep text).2).filter
    fun part => part ≠ []

/-- `QString::indexOf(c, from)`: the position of the first `c` at or after `from`, and -1
if there is none. -/
def QString.indexOf (c : Char) (from_ : Nat) (text : List Char) : Int :=
  match (text.drop from_).findIdx? fun x => x = c with
  | some k => ((from_ + k : Nat) : Int)
  | none => -1

/-- `QString::insert(position, str)`: a negative position leaves the text as it is, and a
position past the end first extends the text with spaces. -/
def QString.insert (text : List Char) (position : Int) (str : List Char) : List Char :=
  if position < 0 then text
  else if position.toNat > text.length then
    text ++ List.replicate (position.toNat - text.length) ' ' ++ str
  else text.take position.toNat ++ str ++ text.drop position.toNat

/-- The loop `for(; index < max; index++) list[i].insert(index, " ")` of
`alignStructureData`, with the number of rounds left. -/
def insertSpaces (line : List Char) (index : Int) : Nat → List Char
  | 0 => line
  | rounds + 1 => insertSpaces (QString.insert line index [' ']) (index + 1) rounds

/-- One alignment of `alignStructureData` (lines 1445-1459 and 1462-1477): `max` is the
largest index over the lines, starting from 0, and every line gets spaces inserted from its
own index up to `max`. -/
def alignColumn (index : List Char → Int) (list : List (List Char)) : List (List Char) :=
  let max := list.foldl (fun max line => if index line > max then index line else max) 0
  list.map fun line => insertSpaces line (index line) (max - index line).toNat

/-- `ProtocolStructure::alignStructureData` (lines 1436-1486): the lines are aligned at the
first space at or after position 4, then after the first semicolon, and put together with a
line feed after each. -/
def alignStructureData (structure_ : String) : String :=
  let list := QString.splitSkipEmptyParts '\n' structure_.data
  let list := alignColumn (fun line => QString.indexOf ' ' 4 line) list
  let list := alignColumn (fun line => QString.indexOf ';' 0 line + 1) list
  String.mk (list.foldl (fun output line => output ++ (line ++ ['\n'])) [])

/-- The top level comment of a declaration (lines 1279-1284 and 1315-1320). -/
def declarationComment (g : Generator) (s : ProtocolStructure) : String :=
  if s.comment ≠ "" then "/*!\n" ++ (g.outputLongComment " *" s.comment ++ "\n") ++ " */\n"
  else ""

/-- `ProtocolStructure::getStructureDeclaration_C` (lines 1266-1302), asked of a structure. -/
def EncodableObject.getStructureDeclaration_C (g : Generator) (alwaysCreate : Bool) :
    EncodableObject → String
  | EncodableObject.field _ => ""
  | EncodableObject.structure_ s typeName _ encodables =>
    if s.redefines = none ∧ s.getNumberInMemory > 0 ∧
        (s.getNumberInMemory > 1 ∨ alwaysCreate = true) then
      let output := declarationComment g s
      let output := output ++ "typedef struct\n"
      let output := output ++ "\x7b\n"
      let structure_ := encodables.foldl (fun structure_ c => structure_ ++ c.getDeclaration g) ""
      let output := output ++ alignStructureData structure_
      output ++ ("\x7d" ++ typeName ++ ";\n")
    else ""

/-- One optional group of prototypes in `getClassDeclaration_CPP`: a line separator, the
prototype, a line separator. -/
def classPrototype (g : Generator) (enabled : Bool) (prototype output : String) : String :=
  if enabled then g.makeLineSeparator (g.makeLineSeparator output ++ prototype) else output

/-- `ProtocolStructure::getClassDeclaration_CPP` (lines 1309-1428), asked of a structure. -/
def EncodableObject.getClassDeclaration_CPP (g : Generator) : EncodableObject → String
  | EncodableObject.field _ => ""
  | EncodableObject.structure_ s typeName structName encodables =>
    let this := EncodableObject.structure_ s typeName structName encodables
    let output := declarationComment g s
    let output :=
      match s.redefines with
      | none =>
        let output := output ++ ("class " ++ typeName ++ "\n")
        let output := output ++ "\x7b\n"
        let output := output ++ "public:\n"
        let output :=
          classPrototype g (decide (s.getNumberInMemory > 0))
            (this.getSetToInitialValueFunctionPrototype g g.TAB_IN false) output
        let output :=
          classPrototype g s.encode (this.getEncodeFunctionPrototype g g.TAB_IN false) output
        let output :=
          classPrototype g s.decode (this.getDecodeFunctionPrototype g g.TAB_IN false) output
        let output :=
          classPrototype g s.hasVerify (this.getVerifyFunctionPrototype g g.TAB_IN false) output
        let output :=
          if s.print then
            g.makeLineSeparator
              (g.makeLineSeparator
                  (g.makeLineSeparator output ++
                    this.getTextPrintFunctionPrototype g g.TAB_IN false) ++
                this.getTextReadFunctionPrototype g g.TAB_IN false)
          else output
        let output :=
          if s.mapEncode then
            g.makeLineSeparator
              (g.makeLineSeparator
                  (g.makeLineSeparator output ++
                    this.getMapEncodeFunctionPrototype g g.TAB_IN false) ++
                this.getMapDecodeFunctionPrototype g g.TAB_IN false)
          else output
        let output :=
          classPrototype g s.compare (this.getComparisonFunctionPrototype g g.TAB_IN false)
            output
        let structure_ :=
          encodables.foldl (fun structure_ c => structure_ ++ c.getDeclaration g) ""
        let output := output ++ alignStructureData structure_
        g.makeLineSeparator output
      | some redefinesTypeName =>
        let output :=
          output ++ ("class " ++ typeName ++ "public: " ++ redefinesTypeName ++ "\n")
        let output := output ++ "\x7b\n"
        let output := output ++ "public:\n"
        let output :=
          classPrototype g s.encode (this.getEncodeFunctionPrototype g g.TAB_IN false) output
        classPrototype g s.decode (this.getDecodeFunctionPrototype g g.TAB_IN false) output
    output ++ ("\x7d; // " ++ typeName ++ "\n")

mutual
/-- `ProtocolStructure::getStructureDeclaration` (lines 1220-1259), asked of a structure; an
object that is no structure has no such generator, and the loop skips it. -/
def EncodableObject.getStructureDeclaration (g : Generator) (alwaysCreate : Bool) :
    EncodableObject → String
  | EncodableObject.field _ => ""
  | EncodableObject.structure_ s typeName structName encodables =>
    let this := EncodableObject.structure_ s typeName structName encodables
    let output :=
      if s.redefines = none then structureDeclarationChildren g encodables "" else ""
    let output :=
      (g.enumOutput s).foldl (fun output e => g.makeLineSeparator (output ++ e)) output
    if g.language = Language.c_language then
      output ++ this.getStructureDeclaration_C g alwaysCreate
    else output ++ this.getClassDeclaration_CPP g
/-- The loop of `getStructureDeclaration` over the children that are structures. -/
def structureDeclarationChildren (g : Generator) : List EncodableObject → String → String
  | [], output => output
  | c :: cs, output =>
    if c.isStructure then
      structureDeclarationChildren g cs
        (g.makeLineSeparator (output ++ c.getStructureDeclaration g true))
    else structureDeclarationChildren g cs output
end

/-! ## Documentation details -/

/-- The reference parameters of `getDocumentationDetails`: the outline position, the start
byte, and the five lists that are filled in parallel. -/
structure DocumentationDetails where
  outline : List Int
  startByte : String
  bytes : List String
  names : List String
  encodings : List String
  repeats : List String
  comments : List String
  deriving DecidableEq, Repr

/-- What `getDocumentationDetails` uses from code that is not part of the sources at hand,
taken as parameters: `ProtocolParser::replaceEnumerationNameWithValue`, the static functions
`EncodedLength::collapseLengthString` and `EncodedLength::subtractOneFromLengthString`
(neither is declared in the header at hand), `Encodable::getRepeatsDocumentationDetails`
(given the structure it is asked of), and `getDocumentationDetails` of the field class, as
the change it makes to the reference parameters. -/
structure Documenter where
  replaceEnumerationNameWithValue : String → String
  collapseLengthString : String → String
  subtractOneFromLengthString : String → String
  getRepeatsDocumentationDetails : ProtocolStructure → String
  fieldDocumentationDetails : Encodable → DocumentationDetails → DocumentationDetails

/-- `QString::endsWith(c)`. -/
def QString.endsWith (text : String) (c : Char) : Bool :=
  text.data.getLast? == some c

/-- The value an `int` holds for the number `n`: the numbers from -2147483648 to 2147483647
are held as they are, and beyond them the value wraps around (32 bits, two's complement). -/
def wrapInt (n : Int) : Int :=
  (n + 2147483648) % 4294967296 - 2147483648

/-- `outline.last() += 1` (line 2883) on the `QList<int>`; the sum is held in an `int`, and
`QList::last` needs a list that is not empty. -/
def incrementLast (outline : List Int) : Option (List Int) :=
  match outline.getLast? with
  | none => none
  | some last => some (outline.dropLast ++ [wrapInt (last + 1)])

/-- `outline.removeLast()` (line 2952); it needs a list that is not empty. -/
def removeLast (outline : List Int) : Option (List Int) :=
  if outline = [] then none else some outline.dropLast

/-- Lines 2886-2889: the number of `outline.at(0)`, then a dot and the number of each
further element; `outline` is not empty here. -/
def outlineString : List Int → String
  | [] => ""
  | first :: rest => rest.foldl (fun text n => text ++ "." ++ toString n) (toString first)

/-- Lines 2900-2918 of `getDocumentationDetails`: the local `description`. -/
def ProtocolStructure.description (s : ProtocolStructure) : String :=
  let description := s.comment
  if s.dependsOn ≠ "" then
    let description :=
      if !QString.endsWith description '.' then description ++ "." else description
    if s.dependsOnValue = "" then
      description ++ (" Only included if " ++ s.dependsOn ++ " is non-zero.")
    else if s.dependsOnCompare = "" then
      description ++
        (" Only included if " ++ s.dependsOn ++ " equal to " ++ s.dependsOnValue ++ ".")
    else
      description ++
        (" Only included if " ++ s.dependsOn ++ " " ++ s.dependsOnCompare ++ " " ++
          s.dependsOnValue ++ ".")
  else description

/-- Lines 2863-2924 of `ProtocolStructure::getDocumentationDetails`: the entries of the
structure itself, up to the call of `getSubDocumentationDetails`. The result holds the
reference parameters at that point and the local `nextStartByte`; there is none when
`outline` is empty. An empty description is appended as the null string (lines 2920-2923),
which is the empty text. -/
def ProtocolStructure.ownDocumentationDetails (doc : Documenter) (s : ProtocolStructure)
    (d : DocumentationDetails) : Option (DocumentationDetails × String) :=
  let maxEncodedLength :=
    doc.replaceEnumerationNameWithValue s.encodedLength.maxEncodedLength.render
  let nextStartByte := doc.collapseLengthString (d.startByte ++ "+" ++ maxEncodedLength)
  let bytes :=
    if maxEncodedLength = "" ∨ maxEncodedLength = "1" then d.bytes ++ [d.startByte]
    else d.bytes ++ [d.startByte ++ "..." ++ doc.subtractOneFromLengthString nextStartByte]
  match incrementLast d.outline with
  | none => none
  | some outline =>
    some
      ({ outline := outline
         startByte := d.startByte
         bytes := bytes
         names := d.names ++ [outlineString outline ++ (")" ++ s.title)]
         encodings := d.encodings ++ [""]
         repeats :=
           if s.array = "" then d.repeats ++ [""]
           else d.repeats ++ [doc.getRepeatsDocumentationDetails s]
         comments := d.comments ++ [s.description] }, nextStartByte)

mutual
/-- The virtual call `getDocumentationDetails(outline, startByte, bytes, names, encodings,
repeats, comments)`: the one of the field class for an object that is no structure, and
`ProtocolStructure::getDocumentationDetails` (lines 2861-2931) for a structure: its own
entries, then `getSubDocumentationDetails` (lines 2943-2953: a new outline level, the
children in order, the level removed again), then the start byte moved on. -/
def EncodableObject.getDocumentationDetails (doc : Documenter) :
    EncodableObject → DocumentationDetails → Option DocumentationDetails
  | EncodableObject.field e, d => some (doc.fieldDocumentationDetails e d)
  | EncodableObject.structure_ s _ _ encodables, d =>
    match s.ownDocumentationDetails doc d with
    | none => none
    | some (d, nextStartByte) =>
      match documentationDetailsOfChildren doc encodables
          { d with outline := d.outline ++ [0] } with
      | none => none
      | some d =>
        match removeLast d.outline with
        | none => none
        | some outline => some { d with outline := outline, startByte := nextStartByte }
/-- The loop of `getSubDocumentationDetails` over the child list (lines 2948-2950). -/
def documentationDetailsOfChildren (doc : Documenter) :
    List EncodableObject → DocumentationDetails → Option DocumentationDetails
  | [], d => some d
  | c :: cs, d =>
    match c.getDocumentationDetails doc d with
    | none => none
    | some d => documentationDetailsOfChildren doc cs d
end

/-- `ProtocolStructure::getSubDocumentationDetails` (lines 2943-2953), asked of a
structure: `outline.append(0)`, the children in order, `outline.removeLast()`. -/
def EncodableObject.getSubDocumentationDetails (doc : Documenter) :
    EncodableObject → DocumentationDetails → Option DocumentationDetails
  | EncodableObject.field _, d => some d
  | EncodableObject.structure_ _ _ _ encodables, d =>
    match documentationDetailsOfChildren doc encodables
        { d with outline := d.outline ++ [0] } with
    | none => none
    | some d =>
      match removeLast d.outline with
      | none => none
      | some outline => some { d with outline := outline }

/-! ## Sample members -/

/-- A primitive field with the given name and length, encoded and in memory, scalar, with
no reference, no default, no bitfield and no iterator. -/
def sampleField (name : String) (encodedLength : EncodedLength) : Encodable :=
  { isField := true, name := name, array := "", array2d := "",
    variableArray := "", variable2dArray := "",
    dependsOn := "", dependsOnValue := "", dependsOnCompare := "",
    encodedLength := encodedLength,
    isNotEncoded := false, isNotInMemory := false, isPrimitive := true, isBitfield := false,
    hasInit := false, hasVerify := false, usesDefaults := false,
    invalidatesPreviousDefault := true, overridesPreviousEncodable := false,
    usesBitfields := false, bitfieldGroupNumBytes := 0,
    usesEncodeTempBitfield := false, usesEncodeTempLongBitfield := false,
    usesDecodeTempBitfield := false, usesDecodeTempLongBitfield := false,
    usesEncodeIterator := false, usesDecodeIterator := false,
    usesInitIterator := false, usesVerifyIterator := false,
    uses2ndEncodeIterator := false, uses2ndDecodeIterator := false,
    uses2ndInitIterator := false, uses2ndVerifyIterator := false, isConstant := false }

/-- Attributes giving only a name. -/
def sampleAttributes (name : String) : Attributes :=
  { name := name, title := "", array := "", variableArray := "", dependsOn := "",
    dependsOnValue := "", dependsOnCompare := "", comment := "", hidden := false }

/-- The length of a field of a fixed number of bytes: one term, not variable, not
dependent, not default. -/
def fixedLength (bytes : String) : EncodedLength :=
  EncodedLength.clear.addTermToLength bytes false false false false

/-- An override query that never finds overridden type data. -/
def noOverride : Encodable → Option Encodable → Bool :=
  fun _ _ => false

/-! ## Sample children for the reference checks -/

/-- A nested structure named `count`, an array of 4, holding one field of 2 bytes, as its
parent sees it after the structure's own `parse`. -/
def sampleStructureArray : Encodable :=
  (ProtocolStructure.clear.parse noOverride
    { sampleAttributes "count" with array := "4" }
    [some (sampleField "x" (fixedLength "2"))]).toEncodable

/-- A field `data`, an array of 8 whose length is to be found in the sibling `count`. -/
def sampleVariableField : Encodable :=
  { sampleField "data" (EncodedLength.clear.addTermToLength "8" false true false false) with
    array := "8", variableArray := "count" }

/-- A field `flag` of one byte that is included depending on the sibling `count`. -/
def sampleDependentField : Encodable :=
  { sampleField "flag" (EncodedLength.clear.addTermToLength "1" false false true false) with
    dependsOn := "count" }

/-- A field `d` of 2 bytes that uses a default value. -/
def sampleDefaultField : Encodable :=
  { sampleField "d" (EncodedLength.clear.addTermToLength "2" false false false true) with
    usesDefaults := true }

/-- A field `f` of 1 byte without default whose `invalidatesPreviousDefault()` answers
false. -/
def sampleQuietField : Encodable :=
  { sampleField "f" (fixedLength "1") with invalidatesPreviousDefault := false }

/-- A field `a`, an array of 3 bytes with initial and verify values, whose initialisation
and verification loop over the array and so use the iterator. -/
def sampleIteratingField : Encodable :=
  { sampleField "a" (fixedLength "3") with
    array := "3", hasInit := true, hasVerify := true,
    usesEncodeIterator := true, usesDecodeIterator := true,
    usesInitIterator := true, usesVerifyIterator := true }

/-- The field `A` of the worked example: 4 bytes, fixed. -/
def sampleA : Encodable :=
  sampleField "A" (fixedLength "4")

/-- The field `B` of the worked example: an array of 3 elements of 2 bytes, fixed. -/
def sampleB : Encodable :=
  { sampleField "B" (EncodedLength.clear.addToLength (fixedLength "2") "3" false false) with
    array := "3" }

/-- The field `C` of the worked example: 1 byte, included depending on `A`. -/
def sampleC : Encodable :=
  { sampleField "C" (EncodedLength.clear.addTermToLength "1" false false true false) with
    dependsOn := "A" }

/-- A nested structure `items`, an array of 3 holding one field of 2 bytes, whose length is
to be found in a sibling `count`, as its parent sees it after the structure's own `parse`. -/
def sampleVariableStructure : Encodable :=
  (ProtocolStructure.clear.parse noOverride
    { sampleAttributes "items" with array := "3", variableArray := "count" }
    [some (sampleField "x" (fixedLength "2"))]).toEncodable

/-- The same nested structure `items` declared without a variable array bound. -/
def sampleFixedStructure : Encodable :=
  (ProtocolStructure.clear.parse noOverride
    { sampleAttributes "items" with array := "3" }
    [some (sampleField "x" (fixedLength "2"))]).toEncodable

/-- A field `o` of 1 byte that overrides a previous field. -/
def sampleOverridingField : Encodable :=
  { sampleField "o" (fixedLength "1") with
    overridesPreviousEncodable := true, hasInit := true, usesDefaults := true }

/-- A bitfield `b` that is to be included depending on the sibling `A`. -/
def sampleDependentBitfield : Encodable :=
  { sampleField "b" (fixedLength "1") with
    isBitfield := true, usesBitfields := true, dependsOn := "A" }

/-- The innermost structure of the sample tree, holding the field `C`. -/
def sampleLowStructure : ProtocolStructure :=
  ProtocolStructure.clear.parse noOverride (sampleAttributes "low") [some sampleC]

/-- The middle structure of the sample tree, holding the field `B` and the structure
`low`. -/
def sampleMidStructure : ProtocolStructure :=
  ProtocolStructure.clear.parse noOverride (sampleAttributes "mid")
    [some sampleB, some sampleLowStructure.toEncodable]

/-- The top structure of the sample tree, holding the field `A` and the structure `mid`. -/
def sampleTopStructure : ProtocolStructure :=
  ProtocolStructure.clear.parse noOverride (sampleAttributes "top")
    [some sampleA, some sampleMidStructure.toEncodable]

/-- A tree three levels deep: the structure `top` owns the field `A` and the structure
`mid`, which owns the field `B` and the structure `low`, which owns the field `C`. -/
def sampleTree : EncodableObject :=
  EncodableObject.structure_ sampleTopStructure "top_t" "top_t"
    [EncodableObject.field sampleA,
      EncodableObject.structure_ sampleMidStructure "mid_t" "mid_t"
        [EncodableObject.field sampleB,
          EncodableObject.structure_ sampleLowStructure "low_t" "low_t"
            [EncodableObject.field sampleC]]]

/-! ## Sample generator and members for the code generation -/

/-- A generator for the given language: indentation of four spaces, a line separator that
ends a text that is not empty with one more line feed, accessors through `_pg_user`, one
loop line for an array, and field generators that emit one line naming the field. -/
def sampleGenerator (language : Language) : Generator :=
  { language := language
    TAB_IN := "    "
    makeLineSeparator := fun output => if output = "" then "" else output ++ "\n"
    getEncodeArrayIterationCode := fun s spacing _ =>
      if s.isArray then spacing ++ "for(_pg_i = 0; _pg_i < " ++ s.array ++ "; _pg_i++)\n"
      else ""
    getDecodeArrayIterationCode := fun s spacing _ =>
      if s.isArray then spacing ++ "for(_pg_i = 0; _pg_i < " ++ s.array ++ "; _pg_i++)\n"
      else ""
    getEncodeFieldAccess := fun s _ =>
      if s.isArray then "&_pg_user->" ++ s.name ++ "[_pg_i]" else "&_pg_user->" ++ s.name
    getDecodeFieldAccess := fun s _ =>
      if s.isArray then "&_pg_user->" ++ s.name ++ "[_pg_i]" else "&_pg_user->" ++ s.name
    fieldComparisonString := fun e => "    // compare " ++ e.name ++ "\n"
    fieldTextPrintString := fun e => "    // print " ++ e.name ++ "\n"
    fieldTextReadString := fun e => "    // read " ++ e.name ++ "\n"
    fieldMapEncodeString := fun e => "    // map encode " ++ e.name ++ "\n"
    fieldMapDecodeString := fun e => "    // map decode " ++ e.name ++ "\n"
    getEncodeFieldAccessVariable := fun _ _ variable_ => "_pg_user->" ++ variable_
    getDecodeFieldAccessVariable := fun _ _ variable_ => "_pg_user->" ++ variable_
    fieldVerifyString := fun e =>
      if e.hasVerify then "    // verify " ++ e.name ++ "\n" else ""
    fieldDeclaration := fun e =>
      if e.isNotInMemory then "" else "    uint8_t " ++ e.name ++ ";\n"
    outputLongComment := fun spacing text => spacing ++ " " ++ text
    enumOutput := fun _ => [] }

/-- A field `crc` of 2 bytes that is encoded but not kept in memory, and that reports
verification data. -/
def sampleUnstoredField : Encodable :=
  { sampleField "crc" (fixedLength "2") with isNotInMemory := true, hasVerify := true }

/-- A structure `tail` whose only child is the field `crc`. -/
def sampleUnstoredStructure : ProtocolStructure :=
  ProtocolStructure.clear.parse noOverride (sampleAttributes "tail") [some sampleUnstoredField]

/-- The structure `tail` with the object it owns. -/
def sampleUnstoredTree : EncodableObject :=
  EncodableObject.structure_ sampleUnstoredStructure "tail_t" "tail_t"
    [EncodableObject.field sampleUnstoredField]

/-- A field `spare` of 1 byte that is encoded but not kept in memory, without verification
data. -/
def sampleSpareField : Encodable :=
  { sampleField "spare" (fixedLength "1") with isNotInMemory := true }

/-- A nested structure `opt` holding the array field `a`, included on the wire when the
sibling `A` equals 2, with the compare, print and map passes switched on. -/
def sampleGuardedStructure : ProtocolStructure :=
  { ProtocolStructure.clear.parse noOverride
      { sampleAttributes "opt" with dependsOn := "A", dependsOnValue := "2" }
      [some sampleIteratingField] with
    compare := true, print := true, mapEncode := true }

/-- A nested structure `items`, an array of 3 holding one field of 2 bytes, with a comment,
included on the wire when the sibling `A` equals 2. -/
def sampleGuardedArray : ProtocolStructure :=
  ProtocolStructure.clear.parse noOverride
    { sampleAttributes "items" with
      array := "3", dependsOn := "A", dependsOnValue := "2", comment := "optional items" }
    [some (sampleField "x" (fixedLength "2"))]

/-- A nested structure `items2d`, a 2-D array of 3 by 4 holding one field of 2 bytes, with
the compare, print and map passes switched on. The second bound is set after `parse`, which
does not read it. -/
def sampleKeyedStructure : ProtocolStructure :=
  { ProtocolStructure.clear.parse noOverride { sampleAttributes "items2d" with array := "3" }
      [some (sampleField "x" (fixedLength "2"))] with
    array2d := "4", compare := true, print := true, mapEncode := true }

/-- The structure `top` of the sample tree as a structure that redefines a structure of
type `base_t`, with its encode function switched off. -/
def sampleRedefiningStructure : ProtocolStructure :=
  { sampleTopStructure with redefines := some "base_t", encode := false }

/-- The redefining structure with the objects of the sample tree below it. -/
def sampleRedefiningTree : EncodableObject :=
  EncodableObject.structure_ sampleRedefiningStructure "top_t" "top_t"
    [EncodableObject.field sampleA,
      EncodableObject.structure_ sampleMidStructure "mid_t" "mid_t"
        [EncodableObject.field sampleB,
          EncodableObject.structure_ sampleLowStructure "low_t" "low_t"
            [EncodableObject.field sampleC]]]

/-- A nested structure `a`, an array of 3 whose field `x` has verification data. -/
def sampleVerifiedItems : ProtocolStructure :=
  ProtocolStructure.clear.parse noOverride { sampleAttributes "a" with array := "3" }
    [some { sampleField "x" (fixedLength "2") with hasVerify := true }]

/-- A nested structure `b`, an array of 2 whose field `y` has no verification data. -/
def samplePlainItems : ProtocolStructure :=
  ProtocolStructure.clear.parse noOverride { sampleAttributes "b" with array := "2" }
    [some (sampleField "y" (fixedLength "1"))]

/-- A structure `pair` holding the nested structures `a` and `b`, in this order. -/
def samplePairStructure : ProtocolStructure :=
  ProtocolStructure.clear.parse noOverride (sampleAttributes "pair")
    [some sampleVerifiedItems.toEncodable, some samplePlainItems.toEncodable]

/-- The structure `pair` with the objects it owns. -/
def samplePairTree : EncodableObject :=
  EncodableObject.structure_ samplePairStructure "pair_t" "pair_t"
    [EncodableObject.structure_ sampleVerifiedItems "a_t" "a_t"
        [EncodableObject.field { sampleField "x" (fixedLength "2") with hasVerify := true }],
      EncodableObject.structure_ samplePlainItems "b_t" "b_t"
        [EncodableObject.field (sampleField "y" (fixedLength "1"))]]

/-- The structure `pair` with its children in the other order: `b`, then `a`. -/
def sampleSwappedPairStructure : ProtocolStructure :=
  ProtocolStructure.clear.parse noOverride (sampleAttributes "pair")
    [some samplePlainItems.toEncodable, some sampleVerifiedItems.toEncodable]

/-- The structure `pair` with its children in the other order and the objects it owns. -/
def sampleSwappedPairTree : EncodableObject :=
  EncodableObject.structure_ sampleSwappedPairStructure "pair_t" "pair_t"
    [EncodableObject.structure_ samplePlainItems "b_t" "b_t"
        [EncodableObject.field (sampleField "y" (fixedLength "1"))],
      EncodableObject.structure_ sampleVerifiedItems "a_t" "a_t"
        [EncodableObject.field { sampleField "x" (fixedLength "2") with hasVerify := true }]]

/-- The bitfield `b` depending on `A`, with a value to compare with and a comparator. -/
def sampleComparedBitfield : Encodable :=
  { sampleDependentBitfield with dependsOnValue := "2", dependsOnCompare := "==" }

/-- The same member as a plain field that depends on a sibling `missing` that does not
exist. -/
def sampleUnresolvedField : Encodable :=
  { sampleComparedBitfield with isBitfield := false, dependsOn := "missing" }

/-! ## Sample documenter -/

/-- A documenter whose length functions keep the text, whose repeat text is the array
bound, and whose fields take the next outline number, a one byte range and their name. -/
def sampleDocumenter : Documenter :=
  { replaceEnumerationNameWithValue := fun text => text
    collapseLengthString := fun text => text
    subtractOneFromLengthString := fun text => text ++ "-1"
    getRepeatsDocumentationDetails := fun s => s.array
    fieldDocumentationDetails := fun e d =>
      match incrementLast d.outline with
      | none => d
      | some outline =>
        { outline := outline
          startByte := d.startByte ++ "+1"
          bytes := d.bytes ++ [d.startByte]
          names := d.names ++ [outlineString outline ++ (")" ++ e.name)]
          encodings := d.encodings ++ ["U8"]
          repeats := d.repeats ++ [e.array]
          comments := d.comments ++ [""] } }

/-- The reference parameters before the first call: the outline at 0, the start byte 0, and
empty lists. -/
def sampleDetails : DocumentationDetails :=
  { outline := [0], startByte := "0", bytes := [], names := [], encodings := [],
    repeats := [], comments := [] }

/-! ## Predicates used in the statements -/

/-- An encoded child that is a primitive field: the children whose defaults `parseChildren`
tracks (lines 721-725). -/
def isEncodedField (e : Encodable) : Prop :=
  e.isNotEncoded = false ∧ e.isField = true

/-- The relation the defaults rule establishes between a child `a` and a child `b` declared
later: when `b` is an encoded field without default that invalidates previous defaults, an
encoded field `a` uses no default. -/
def defaultsOrdered (a b : Encodable) : Prop :=
  isEncodedField b → b.usesDefaults = false → b.invalidatesPreviousDefault = true →
    isEncodedField a → a.usesDefaults = false

/-- The contribution of one child to an iterator flag that is set by encoded children only:
`fieldUse` for a field, `structureUse` for a nested structure. -/
def iteratorContribution (fieldUse structureUse : Encodable → Bool) (e : Encodable) : Bool :=
  !e.isNotEncoded && (if e.isField then fieldUse e else structureUse e)

/-- The factor by which `scaleLengthString` multiplies a numeric total that stays numeric:
1 without array bound, the bound when it is a numeric literal (a named bound leaves only
the empty total numeric, and any factor fits it). -/
def arrayMultiplier (array : String) : Nat :=
  if array = "" then 1 else (numericLiteral array).getD 0

/-- The lengths that can be composed with the two overloads of `EncodedLength::addToLength`,
starting from the empty length, when the flags `isVariable`, `isDependent`, `isDefault` of
every term satisfy `allowed`. -/
inductive Composed (allowed : Bool → Bool → Bool → Prop) : EncodedLength → Prop where
  | clear : Composed allowed EncodedLength.clear
  | term (self : EncodedLength) (length : String)
      (isString isVariable isDependent isDefault : Bool) :
      Composed allowed self → allowed isVariable isDependent isDefault →
      Composed allowed (self.addTermToLength length isString isVariable isDependent isDefault)
  | group (self rightLength : EncodedLength) (array : String) (isVariable isDependent : Bool) :
      Composed allowed self → Composed allowed rightLength →
      Composed allowed (self.addToLength rightLength array isVariable isDependent)

/-- Any combination of the variable, dependent and default flags. -/
def anyFlags : Bool → Bool → Bool → Prop :=
  fun _ _ _ => True

/-- The invariant of the defaults rule on a structure: the children are ordered as the rule
wants, and the `defaults` flag tells whether some encoded field in the list uses a default. -/
def DefaultsInvariant (s : ProtocolStructure) : Prop :=
  s.encodables.Pairwise defaultsOrdered ∧
    (s.defaults = true ↔ ∃ e ∈ s.encodables, isEncodedField e ∧ e.usesDefaults = true)

/-- The attributes of the structure itself that `parse` reads and guards, in the order
name, title, array, variableArray, dependsOn, dependsOnValue, dependsOnCompare. -/
def ProtocolStructure.ownAttributes (s : ProtocolStructure) :
    String × String × String × String × String × String × String :=
  (s.name, s.title, s.array, s.variableArray, s.dependsOn, s.dependsOnValue,
    s.dependsOnCompare)

mutual
/-- The data members of every structure of an ownership tree: the structure at the root
first, then those of the structures below it, at any depth, in child order. -/
def EncodableObject.structures : EncodableObject → List ProtocolStructure
  | EncodableObject.field _ => []
  | EncodableObject.structure_ s _ _ encodables => s :: structuresOfChildren encodables
/-- The structures of a list of owned objects. -/
def structuresOfChildren : List EncodableObject → List ProtocolStructure
  | [] => []
  | c :: cs => c.structures ++ structuresOfChildren cs
end

/-- The comment line that opens a member fragment: the comment of the member after `// `,
indented by one `TAB_IN`, and nothing when the member has no comment. -/
def commentLine (g : Generator) (s : ProtocolStructure) : String :=
  if s.comment ≠ "" then g.TAB_IN ++ "// " ++ s.comment ++ "\n" else ""

/-- The condition of the guard of a member that depends on another member: the accessor of
the target alone when no value is given, and the accessor, the comparator and the value
otherwise. -/
def guardCondition (s : ProtocolStructure) (target : String) : String :=
  if s.dependsOnValue ≠ "" then target ++ " " ++ s.dependsOnCompare ++ " " ++ s.dependsOnValue
  else target

/-- The indentation of the member statement below the indentation `base`: one `TAB_IN`
deeper for an array and one more for a 2-D array. -/
def statementSpacing (g : Generator) (s : ProtocolStructure) (base : String) : String :=
  let spacing := if s.isArray then base ++ g.TAB_IN else base
  if s.is2dArray then spacing ++ g.TAB_IN else spacing

/-- The encode statement of a nested structure: the call of its encode function. -/
def encodeStatement (g : Generator) (typeName access spacing : String) : String :=
  if g.language = Language.c_language then
    spacing ++ "encode" ++ typeName ++ "(_pg_data, &_pg_byteindex, " ++ access ++ ");\n"
  else spacing ++ access ++ ".encode(_pg_data, &_pg_byteindex);\n"

/-- The decode statement of a nested structure: the test of the decode call, and the return
of the failure code one `TAB_IN` deeper. -/
def decodeStatement (g : Generator) (typeName access spacing : String) : String :=
  if g.language = Language.c_language then
    spacing ++ "if(decode" ++ typeName ++ "(_pg_data, &_pg_byteindex, " ++ access ++
      ") == 0)\n" ++ (spacing ++ g.TAB_IN ++ "return 0;\n")
  else
    spacing ++ "if(" ++ access ++ ".decode(_pg_data, &_pg_byteindex) == false)\n" ++
      (spacing ++ g.TAB_IN ++ "return false;\n")

/-- The member with other dependency data, all else the same. -/
def ProtocolStructure.withDependsOn (s : ProtocolStructure)
    (dependsOn dependsOnValue dependsOnCompare : String) : ProtocolStructure :=
  { s with
    dependsOn := dependsOn, dependsOnValue := dependsOnValue,
    dependsOnCompare := dependsOnCompare }

/-- The accessors of the member and the array iteration code, which the generators get
from elsewhere, answer the same whatever the dependency data of the member. -/
def Generator.ignoresDependsOn (g : Generator) : Prop :=
  ∀ (s : ProtocolStructure) (d v c spacing : String) (isStructureMember : Bool),
    g.getEncodeArrayIterationCode (s.withDependsOn d v c) spacing isStructureMember =
        g.getEncodeArrayIterationCode s spacing isStructureMember ∧
      g.getDecodeArrayIterationCode (s.withDependsOn d v c) spacing isStructureMember =
        g.getDecodeArrayIterationCode s spacing isStructureMember ∧
      g.getEncodeFieldAccess (s.withDependsOn d v c) isStructureMember =
        g.getEncodeFieldAccess s isStructureMember ∧
      g.getDecodeFieldAccess (s.withDependsOn d v c) isStructureMember =
        g.getDecodeFieldAccess s isStructureMember

/-- The lines of a text: its parts between line feeds that are not empty. -/
def linesOf (text : String) : List (List Char) :=
  QString.splitSkipEmptyParts '\n' text.data

/-- A blank: a space or a tabulator. -/
def isBlank (c : Char) : Bool :=
  c == ' ' || c == '\t'

/-- A line that holds the given brace and otherwise blanks only. -/
def isBraceLine (brace : Char) (line : List Char) : Bool :=
  line.filter (fun c => !isBlank c) == [brace]

/-- A text without a line feed. -/
@[reducible]
def singleLine (text : String) : Prop :=
  '\n' ∉ text.data

/-- A text without an opening or closing brace. -/
@[reducible]
def braceFree (text : String) : Prop :=
  '\x7b' ∉ text.data ∧ '\x7d' ∉ text.data

/-- The lines of a guarded fragment: one line with an opening brace and one with a closing
brace, both made of one `TAB_IN` and the brace; the closing one is the last line, and the
opening one follows the line of the guard. -/
def guardedLines (g : Generator) (text guard : String) : Prop :=
  (linesOf text).countP (isBraceLine '\x7b') = 1 ∧
    (linesOf text).countP (isBraceLine '\x7d') = 1 ∧
    (linesOf text).getLast? = some (g.TAB_IN.data ++ ['\x7d']) ∧
    ∃ pre body : List (List Char),
      linesOf text =
        pre ++ [guard.data, g.TAB_IN.data ++ ['\x7b']] ++ body ++ [g.TAB_IN.data ++ ['\x7d']]

/-- No line of the text is a brace line. -/
def noBraceLine (text : String) : Prop :=
  ∀ l ∈ linesOf text, isBraceLine '\x7b' l = false ∧ isBraceLine '\x7d' l = false

/-- The key expression of a member: the prefix and the name of the member, followed by the
index suffix on `_pg_i` for an array and then by the one on `_pg_j` for a 2-D array. -/
def keyExpression (s : ProtocolStructure) : String :=
  let key := "_pg_prename + \":" ++ s.name ++ "\""
  let key := if s.isArray then key ++ " + \"[\" + QString::number(_pg_i) + \"]\"" else key
  if s.is2dArray then key ++ " + \"[\" + QString::number(_pg_j) + \"]\"" else key

/-- The fragment holds a call whose first argument is the key expression: the key follows
an opening parenthesis, and is followed by the next argument or by the end of the call. -/
def callsWithKey (fragment key : String) : Prop :=
  ∃ head tail : String,
    fragment = head ++ "(" ++ key ++ tail ∧ (tail = ");\n" ∨ ∃ rest, tail = ", " ++ rest)

/-- The loop of `getVerifyFunctionBody` over all the children: before the fragment of each
child the output gets a line separator. -/
def verifyMembers (g : Generator) (encodables : List EncodableObject) (output : String) :
    String :=
  encodables.foldl (fun output c => g.makeLineSeparator output ++ c.getVerifyString g) output

/-- The text of the member declarations handed to `alignStructureData`: the declaration of
each child, in child-list order. -/
def memberDeclarations (g : Generator) (encodables : List EncodableObject) : String :=
  encodables.foldl (fun structure_ c => structure_ ++ c.getDeclaration g) ""

/-- A line without its spaces. -/
def withoutSpaces (line : List Char) : List Char :=
  line.filter fun c => c ≠ ' '

/-- The indentation made of `depth` times `TAB_IN`. -/
def indentation (g : Generator) : Nat → String
  | 0 => ""
  | depth + 1 => indentation g depth ++ g.TAB_IN

/-- The depth of the member statement of a nested structure: one, one more below a dependsOn
guard, one more for an array and one more for a 2-D array. -/
def memberDepth (s : ProtocolStructure) (guarded : Bool) : Nat :=
  1 + (if guarded then 1 else 0) + (if s.isArray then 1 else 0) +
    (if s.is2dArray then 1 else 0)

/-- The loop headers of the passes that emit their own loops: the one on `_pg_i` for an
array at one `TAB_IN`, then the one on `_pg_j` for a 2-D array at two. -/
def loopHeaders (g : Generator) (s : ProtocolStructure) : String :=
  (if s.isArray then
    indentation g 1 ++ "for(_pg_i = 0; _pg_i < " ++ s.array ++ "; _pg_i++)\n"
  else "") ++
  (if s.is2dArray then
    indentation g 2 ++ "for(_pg_j = 0; _pg_j < " ++ s.array2d ++ "; _pg_j++)\n"
  else "")

/-- The passes that emit a fragment for a member that is a nested structure. -/
inductive Pass where
  | encode : Pass
  | decode : Pass
  | verify : Pass
  | setInitialValue : Pass
  | compare : Pass
  | textPrint : Pass
  | textRead : Pass
  | mapEncode : Pass
  | mapDecode : Pass
  deriving DecidableEq, Repr

/-- The fragment of a pass for the member `s`. -/
def Pass.fragment (g : Generator) (s : ProtocolStructure) (typeName : String)
    (isStructureMember : Bool) : Pass → String
  | Pass.encode => s.getEncodeString g typeName isStructureMember
  | Pass.decode => s.getDecodeString g typeName isStructureMember
  | Pass.verify => s.getVerifyString g typeName
  | Pass.setInitialValue => s.getSetInitialValueString g typeName isStructureMember
  | Pass.compare => s.getComparisonString g typeName
  | Pass.textPrint => s.getTextPrintString g typeName
  | Pass.textRead => s.getTextReadString g typeName
  | Pass.mapEncode => s.getMapEncodeString g typeName
  | Pass.mapDecode => s.getMapDecodeString g typeName

/-- The condition under which a pass emits a fragment for the member `s`. -/
def Pass.emits (g : Generator) (s : ProtocolStructure) : Pass → Bool
  | Pass.encode => true
  | Pass.decode => true
  | Pass.verify => s.hasverify
  | Pass.setInitialValue => s.hasinit && decide (g.language = Language.c_language)
  | Pass.compare => s.compare && decide (s.getNumberOfDecodeParameters ≠ 0)
  | Pass.textPrint => s.print && decide (s.getNumberOfDecodeParameters ≠ 0)
  | Pass.textRead => s.print && decide (s.getNumberOfDecodeParameters ≠ 0)
  | Pass.mapEncode => s.mapEncode && decide (s.getNumberOfDecodeParameters ≠ 0)
  | Pass.mapDecode => s.mapEncode && decide (s.getNumberOfDecodeParameters ≠ 0)

/-- Whether a pass emits a dependsOn guard for the member `s`: the encode and the decode
pass do for a member with a dependsOn. -/
def Pass.guards (s : ProtocolStructure) : Pass → Bool
  | Pass.encode => decide (s.dependsOn ≠ "")
  | Pass.decode => decide (s.dependsOn ≠ "")
  | _ => false

/-- The opening of the dependsOn guard on the given accessor of the target: the line of the
test and the line of the opening brace, both at one `TAB_IN`. -/
def guardOpening (g : Generator) (s : ProtocolStructure) (target : String) : String :=
  if s.dependsOn ≠ "" then
    indentation g 1 ++ "if(" ++ guardCondition s target ++ ")\n" ++
      (indentation g 1 ++ "\x7b\n")
  else ""

/-- The text of a fragment before the member statement: the comment line, then the guard
and the array iteration code of the encode and decode passes, the own loop headers of the
verify, initialize and compare passes, and the array iteration code of the others. -/
def Pass.opening (g : Generator) (s : ProtocolStructure) (isStructureMember : Bool) :
    Pass → String
  | Pass.encode =>
    commentLine g s ++
      guardOpening g s (g.getEncodeFieldAccessVariable s isStructureMember s.dependsOn) ++
      g.getEncodeArrayIterationCode s
        (indentation g (if s.dependsOn ≠ "" then 2 else 1)) isStructureMember
  | Pass.decode =>
    commentLine g s ++
      guardOpening g s (g.getDecodeFieldAccessVariable s isStructureMember s.dependsOn) ++
      g.getDecodeArrayIterationCode s
        (indentation g (if s.dependsOn ≠ "" then 2 else 1)) isStructureMember
  | Pass.verify => commentLine g s ++ loopHeaders g s
  | Pass.setInitialValue => commentLine g s ++ loopHeaders g s
  | Pass.compare => commentLine g s ++ loopHeaders g s
  | Pass.textPrint =>
    commentLine g s ++ g.getEncodeArrayIterationCode s (indentation g 1) true
  | Pass.textRead =>
    commentLine g s ++ g.getEncodeArrayIterationCode s (indentation g 1) true
  | Pass.mapEncode =>
    commentLine g s ++ g.getEncodeArrayIterationCode s (indentation g 1) true
  | Pass.mapDecode =>
    commentLine g s ++ g.getDecodeArrayIterationCode s (indentation g 1) true

/-- The start of the member statement of a pass, after its indentation: the call of the
function of the nested structure, or the test of that call, or the sum it is added to. -/
def Pass.statement (g : Generator) (s : ProtocolStructure) (typeName : String)
    (isStructureMember : Bool) : Pass → String
  | Pass.encode =>
    if g.language = Language.c_language then "encode" ++ typeName ++ "("
    else g.getEncodeFieldAccess s isStructureMember ++ ".encode("
  | Pass.decode =>
    if g.language = Language.c_language then "if(decode" ++ typeName ++ "("
    else "if(" ++ g.getEncodeFieldAccess s isStructureMember ++ ".decode("
  | Pass.verify =>
    if g.language = Language.c_language then "if(verify" ++ typeName ++ "("
    else "if(" ++ g.getDecodeFieldAccess s true ++ ".verify("
  | Pass.setInitialValue => "init" ++ typeName ++ "("
  | Pass.compare =>
    if g.language = Language.c_language then "_pg_report += compare" ++ typeName ++ "("
    else "_pg_report += " ++ typeName ++ "::compare("
  | Pass.textPrint =>
    if g.language = Language.c_language then "_pg_report += textPrint" ++ typeName ++ "("
    else "_pg_report += " ++ g.getEncodeFieldAccess s true ++ ".textPrint("
  | Pass.textRead =>
    if g.language = Language.c_language then "_pg_fieldcount += textRead" ++ typeName ++ "("
    else "_pg_fieldcount += " ++ g.getEncodeFieldAccess s true ++ ".textRead("
  | Pass.mapEncode =>
    if g.language = Language.c_language then "mapEncode" ++ typeName ++ "("
    else g.getEncodeFieldAccess s true ++ ".mapEncode("
  | Pass.mapDecode =>
    if g.language = Language.c_language then "mapDecode" ++ typeName ++ "("
    else g.getDecodeFieldAccess s true ++ ".mapDecode("

/-- A declaration line for the alignment: it has a space at or after position 4, and its
first semicolon comes after the first such space. -/
def isDeclarationLine (line : List Char) : Prop :=
  0 ≤ QString.indexOf ' ' 4 line ∧ QString.indexOf ' ' 4 line < QString.indexOf ';' 0 line

/-- A line with spaces inserted before its first space at or after position 4, so that this
space comes to stand at `nameColumn`, and after its first semicolon, so that the text
following the semicolon starts at `commentColumn`. -/
def alignedLine (nameColumn commentColumn : Nat) (line : List Char) : List Char :=
  let k := (QString.indexOf ' ' 4 line).toNat
  let j := (QString.indexOf ';' 0 line).toNat
  line.take k ++ List.replicate (nameColumn - k) ' ' ++ (line.drop k).take (j + 1 - k) ++
    List.replicate (commentColumn - (nameColumn + (j + 1 - k))) ' ' ++ line.drop (j + 1)

/-- The text made of the given lines, each followed by a line feed. -/
def joinLines (lines : List (List Char)) : String :=
  String.mk (lines.map fun line => line ++ ['\n']).flatten

/-- The numbers of an outline joined by a dot. -/
def numberString (outline : List Int) : String :=
  String.intercalate "." (outline.map toString)

/-- A comment made to end with a period: the comment itself when it ends with one, and the
comment followed by a period otherwise. -/
def endedWithPeriod (comment : String) : String :=
  if comment.data.getLast? = some '.' then comment else comment ++ "."

/-- The fields take the next number of the outline as the structures do: called with an
outline that ends in `n`, `getDocumentationDetails` of the field class leaves the outline
with the `int` incremented by one in the place of `n`. -/
def Documenter.fieldsAdvanceOutline (doc : Documenter) : Prop :=
  ∀ (e : Encodable) (d : DocumentationDetails) (base : List Int) (n : Int),
    d.outline = base ++ [n] →
      (doc.fieldDocumentationDetails e d).outline = base ++ [wrapInt (n + 1)]

/-- The part of a child that `parseChildren` never writes: the child with its three
references, the value and the comparator of its dependsOn emptied, and without default. -/
def Encodable.fixedPart (e : Encodable) : Encodable :=
  { e with
    variableArray := "", variable2dArray := "", dependsOn := "", dependsOnValue := "",
    dependsOnCompare := "", usesDefaults := false }

/-- The override query `getOverriddenTypeData` answers from the parts of the two fields that
`parseChildren` never writes. -/
def overrideReadsFixedPart (getOverriddenTypeData : Encodable → Option Encodable → Bool) :
    Prop :=
  ∀ (field : Encodable) (previous : Option Encodable),
    getOverriddenTypeData field previous =
      getOverriddenTypeData field.fixedPart (previous.map Encodable.fixedPart)

/-- The attributes a structure holds, as `parse` would read them again. -/
def ProtocolStructure.attributes (s : ProtocolStructure) : Attributes :=
  { name := s.name, title := s.title, array := s.array, variableArray := s.variableArray,
    dependsOn := s.dependsOn, dependsOnValue := s.dependsOnValue,
    dependsOnCompare := s.dependsOnCompare, comment := s.comment, hidden := s.hidden }

/-- The structure with the default of every child cleared and `defaults` reset. -/
def ProtocolStructure.cleared (s : ProtocolStructure) : ProtocolStructure :=
  { s with encodables := clearAllDefaults s.encodables, defaults := false }

/-- The loop state of `parseChildren` with the structure cleared of defaults. -/
def ParseChildrenState.cleared (st : ParseChildrenState) : ParseChildrenState :=
  { st with structure_ := st.structure_.cleared }

/-! ## Basic facts about the model -/

section Basic


variable (getOverriddenTypeData : Encodable → Option Encodable → Bool)

theorem clearAllDefaults_eq_map (l : List Encodable) :
    clearAllDefaults l = l.map Encodable.clearDefaults := by
  unfold clearAllDefaults
  apply List.map_congr_left
  intro e _
  by_cases h : e.usesDefaults = true
  · simp [h]
  · have h0 : e.usesDefaults = false := by simpa using h
    cases e
    simp_all [Encodable.clearDefaults]

theorem clearAllDefaults_append (l r : List Encodable) :
    clearAllDefaults (l ++ r) = clearAllDefaults l ++ clearAllDefaults r := by
  simp [clearAllDefaults]

theorem clearAllDefaults_idem (l : List Encodable) :
    clearAllDefaults (clearAllDefaults l) = clearAllDefaults l := by
  simp [clearAllDefaults_eq_map, Encodable.clearDefaults]

theorem clearAllDefaults_length (l : List Encodable) :
    (clearAllDefaults l).length = l.length := by
  simp [clearAllDefaults]

theorem mem_clearAllDefaults {l : List Encodable} {e : Encodable}
    (h : e ∈ clearAllDefaults l) : ∃ a ∈ l, e = a.clearDefaults := by
  rw [clearAllDefaults_eq_map] at h
  obtain ⟨a, ha, rfl⟩ := List.mem_map.mp h
  exact ⟨a, ha, rfl⟩

theorem isReferenceTarget_clearDefaults (e : Encodable) (r : String) :
    isReferenceTarget e.clearDefaults r = isReferenceTarget e r := rfl

theorem findReference_clearAllDefaults (l : List Encodable) (r : String) :
    findReference (clearAllDefaults l) r = findReference l r := by
  simp [findReference, clearAllDefaults_eq_map, List.any_map, Function.comp_def,
    isReferenceTarget_clearDefaults]

theorem resolveReferences_clearAllDefaults (l : List Encodable) (e : Encodable) :
    resolveReferences (clearAllDefaults l) e = resolveReferences l e := by
  simp only [resolveReferences, resolveDependsOn, resolveVariable2dArray, resolveVariableArray,
    findReference_clearAllDefaults]

theorem resolveVariableArray_eq (l : List Encodable) (e : Encodable) :
    resolveVariableArray l e =
      { e with variableArray :=
          if e.variableArray ≠ "" ∧ findReference l e.variableArray = false then ""
          else e.variableArray } := by
  unfold resolveVariableArray
  by_cases h1 : e.variableArray = ""
  · cases e
    simp_all
  · cases h2 : findReference l e.variableArray <;> simp [h1, h2]

theorem resolveVariable2dArray_eq (l : List Encodable) (e : Encodable) :
    resolveVariable2dArray l e =
      { e with variable2dArray :=
          if e.variable2dArray ≠ "" ∧ findReference l e.variable2dArray = false then ""
          else e.variable2dArray } := by
  unfold resolveVariable2dArray
  by_cases h1 : e.variable2dArray = ""
  · cases e
    simp_all
  · cases h2 : findReference l e.variable2dArray <;> simp [h1, h2]

theorem resolveDependsOn_eq (l : List Encodable) (e : Encodable) :
    resolveDependsOn l e =
      if e.dependsOn ≠ "" ∧ e.isBitfield = true then { e with dependsOn := "" }
      else if e.dependsOn ≠ "" ∧ findReference l e.dependsOn = false then
        { e with dependsOn := "", dependsOnValue := "", dependsOnCompare := "" }
      else e := by
  unfold resolveDependsOn
  by_cases h1 : e.dependsOn = ""
  · simp [h1]
  · cases h2 : e.isBitfield <;> cases h3 : findReference l e.dependsOn <;> simp [h1, h2, h3]

/-- The reference checks touch nothing but the five reference members. -/
theorem resolveReferences_frame (l : List Encodable) (e : Encodable) :
    ∃ va v2 d dv dc, resolveReferences l e =
      { e with variableArray := va, variable2dArray := v2, dependsOn := d,
               dependsOnValue := dv, dependsOnCompare := dc } := by
  unfold resolveReferences
  rw [resolveDependsOn_eq, resolveVariable2dArray_eq, resolveVariableArray_eq]
  split_ifs <;> exact ⟨_, _, _, _, _, rfl⟩

theorem resolveReferences_variableArray (l : List Encodable) (e : Encodable) :
    (resolveReferences l e).variableArray =
      if e.variableArray ≠ "" ∧ findReference l e.variableArray = false then ""
      else e.variableArray := by
  unfold resolveReferences
  rw [resolveDependsOn_eq, resolveVariable2dArray_eq, resolveVariableArray_eq]
  split_ifs <;> rfl

theorem resolveReferences_variable2dArray (l : List Encodable) (e : Encodable) :
    (resolveReferences l e).variable2dArray =
      if e.variable2dArray ≠ "" ∧ findReference l e.variable2dArray = false then ""
      else e.variable2dArray := by
  unfold resolveReferences
  rw [resolveDependsOn_eq, resolveVariable2dArray_eq, resolveVariableArray_eq]
  split_ifs <;> rfl

theorem resolveReferences_dependsOn (l : List Encodable) (e : Encodable) :
    (resolveReferences l e).dependsOn =
      if e.dependsOn ≠ "" ∧ (e.isBitfield = true ∨ findReference l e.dependsOn = false) then ""
      else e.dependsOn := by
  unfold resolveReferences
  rw [resolveDependsOn_eq, resolveVariable2dArray_eq, resolveVariableArray_eq]
  simp only
  by_cases h1 : e.dependsOn = ""
  · simp [h1]
  · cases h2 : e.isBitfield <;> cases h3 : findReference l e.dependsOn <;> simp [h1, h2, h3]

theorem resolveReferences_dependsOn_failed (l : List Encodable) (e : Encodable)
    (hd : e.dependsOn ≠ "") (hb : e.isBitfield = false)
    (hf : findReference l e.dependsOn = false) :
    (resolveReferences l e).dependsOn = "" ∧ (resolveReferences l e).dependsOnValue = "" ∧
      (resolveReferences l e).dependsOnCompare = "" := by
  unfold resolveReferences
  rw [resolveDependsOn_eq, resolveVariable2dArray_eq, resolveVariableArray_eq]
  simp [hd, hb, hf]

theorem finishChild_encodables (s : ProtocolStructure) (e : Encodable) :
    (finishChild s e).structure_.encodables =
      s.encodables ++ [resolveReferences s.encodables e] := by
  unfold finishChild
  simp only
  split_ifs <;> rfl

theorem trackFieldMetadata_encodables (s : ProtocolStructure) (f : Encodable) :
    (trackFieldMetadata s f).encodables = s.encodables := by
  unfold trackFieldMetadata
  simp only
  split_ifs <;> rfl

theorem trackFieldMetadata_defaults (s : ProtocolStructure) (f : Encodable) :
    (trackFieldMetadata s f).defaults = s.defaults := by
  unfold trackFieldMetadata
  simp only
  split_ifs <;> rfl

theorem trackStructureMetadata_encodables (s : ProtocolStructure) (e : Encodable) :
    (trackStructureMetadata s e).encodables = s.encodables := by
  unfold trackStructureMetadata
  simp only
  split_ifs <;> rfl

theorem trackStructureMetadata_defaults (s : ProtocolStructure) (e : Encodable) :
    (trackStructureMetadata s e).defaults = s.defaults := by
  unfold trackStructureMetadata
  simp only
  split_ifs <;> rfl

theorem trackFieldDefaults_encodables (s : ProtocolStructure) (f : Encodable) :
    (trackFieldDefaults s f).encodables = s.encodables ∨
      (trackFieldDefaults s f).encodables = clearAllDefaults s.encodables := by
  unfold trackFieldDefaults
  split_ifs
  · exact Or.inl rfl
  · exact Or.inr rfl
  · exact Or.inl rfl

/-- One step either discards the child (a failed override, state untouched) or appends it
behind the earlier children, whose defaults at most were cleared. -/
theorem parseChild_some_cases (st : ParseChildrenState) (c : Encodable) :
    (parseChild getOverriddenTypeData st (some c) = st ∧
        overrideFails getOverriddenTypeData st.structure_.encodables c) ∨
    (¬ overrideFails getOverriddenTypeData st.structure_.encodables c ∧
      ((parseChild getOverriddenTypeData st (some c)).structure_.encodables =
          st.structure_.encodables ++ [appendedChild st.structure_.encodables c] ∨
       (parseChild getOverriddenTypeData st (some c)).structure_.encodables =
          clearAllDefaults st.structure_.encodables ++
            [appendedChild st.structure_.encodables c])) := by
  unfold parseChild overrideFails appendedChild
  by_cases hne : c.isNotEncoded = true
  · right
    simp [hne]
  · have hne0 : c.isNotEncoded = false := by simpa using hne
    by_cases hf : c.isField = true
    · by_cases ho : (c.overridesPreviousEncodable &&
          !findOverridden getOverriddenTypeData st.structure_.encodables c) = true
      · left
        simp only [Bool.and_eq_true, Bool.not_eq_true_eq_eq_false] at ho
        simp [hne0, hf, ho.1, ho.2]
      · right
        have ho1 : ¬ (c.overridesPreviousEncodable = true ∧
            findOverridden getOverriddenTypeData st.structure_.encodables c = false) := by
          simpa using ho
        refine ⟨fun h => ho1 ⟨h.2.2.1, h.2.2.2⟩, ?_⟩
        simp only [hne0, hf, ho, if_true, if_false, Bool.false_eq_true]
        rw [finishChild_encodables]
        rcases trackFieldDefaults_encodables (trackFieldMetadata st.structure_ c) c with h | h
        · left
          rw [h, trackFieldMetadata_encodables]
        · right
          rw [h, trackFieldMetadata_encodables, resolveReferences_clearAllDefaults]
    · right
      have hf0 : c.isField = false := by simpa using hf
      refine ⟨fun h => by simp [hf0] at h, ?_⟩
      left
      simp only [hne0, hf0, if_false, Bool.false_eq_true]
      rw [finishChild_encodables, trackStructureMetadata_encodables]

theorem parseChildrenLoop_nil (st : ParseChildrenState) :
    parseChildrenLoop getOverriddenTypeData st [] = st := rfl

theorem parseChildrenLoop_cons (st : ParseChildrenState) (c : Option Encodable)
    (cs : List (Option Encodable)) :
    parseChildrenLoop getOverriddenTypeData st (c :: cs) =
      parseChildrenLoop getOverriddenTypeData (parseChild getOverriddenTypeData st c) cs := rfl

theorem parseChildrenLoop_append (st : ParseChildrenState) (a b : List (Option Encodable)) :
    parseChildrenLoop getOverriddenTypeData st (a ++ b) =
      parseChildrenLoop getOverriddenTypeData (parseChildrenLoop getOverriddenTypeData st a) b := by
  simp [parseChildrenLoop, List.foldl_append]

/-- A property that holds of the initial state and is kept by every step holds at the end of
the loop. -/
theorem parseChildrenLoop_invariant (P : ParseChildrenState → Prop)
    (hstep : ∀ st c, P st → P (parseChild getOverriddenTypeData st c))
    (st : ParseChildrenState) (h0 : P st) (children : List (Option Encodable)) :
    P (parseChildrenLoop getOverriddenTypeData st children) := by
  induction children generalizing st with
  | nil => exact h0
  | cons c cs ih => exact ih _ (hstep st c h0)

/-- One step keeps the earlier children in place, at most clearing their defaults. -/
theorem parseChild_prefix (st : ParseChildrenState) (child : Option Encodable) :
    ∃ rest, (parseChild getOverriddenTypeData st child).structure_.encodables =
        st.structure_.encodables ++ rest ∨
      (parseChild getOverriddenTypeData st child).structure_.encodables =
        clearAllDefaults st.structure_.encodables ++ rest := by
  cases child with
  | none => exact ⟨[], Or.inl (by simp [parseChild])⟩
  | some c =>
    rcases parseChild_some_cases getOverriddenTypeData st c with ⟨h, _⟩ | ⟨_, h | h⟩
    · exact ⟨[], Or.inl (by rw [h]; simp)⟩
    · exact ⟨_, Or.inl h⟩
    · exact ⟨_, Or.inr h⟩

/-- The loop keeps the children already in the list in place, at most clearing their
defaults, and appends behind them. -/
theorem parseChildrenLoop_prefix (st : ParseChildrenState) (children : List (Option Encodable)) :
    ∃ rest, (parseChildrenLoop getOverriddenTypeData st children).structure_.encodables =
        st.structure_.encodables ++ rest ∨
      (parseChildrenLoop getOverriddenTypeData st children).structure_.encodables =
        clearAllDefaults st.structure_.encodables ++ rest := by
  induction children generalizing st with
  | nil => exact ⟨[], Or.inl (by simp [parseChildrenLoop_nil])⟩
  | cons c cs ih =>
    rw [parseChildrenLoop_cons]
    obtain ⟨r1, h1⟩ := parseChild_prefix getOverriddenTypeData st c
    obtain ⟨r2, h2⟩ := ih (parseChild getOverriddenTypeData st c)
    rcases h1 with h1 | h1 <;> rcases h2 with h2 | h2 <;> rw [h1] at h2
    · exact ⟨r1 ++ r2, Or.inl (by rw [h2, List.append_assoc])⟩
    · exact ⟨clearAllDefaults r1 ++ r2,
        Or.inr (by rw [h2, clearAllDefaults_append, List.append_assoc])⟩
    · exact ⟨r1 ++ r2, Or.inr (by rw [h2, List.append_assoc])⟩
    · exact ⟨clearAllDefaults r1 ++ r2,
        Or.inr (by rw [h2, clearAllDefaults_append, clearAllDefaults_idem, List.append_assoc])⟩

/-- The fate of one child `c` of the list `pre ++ some c :: post`: either its override fails
and the loop runs as if `c` were absent, or `c` is appended right behind the children kept
from `pre` and stays there, at most losing its default later on. -/
theorem parseChildrenLoop_child_fate (st : ParseChildrenState)
    (pre post : List (Option Encodable)) (c : Encodable) :
    (overrideFails getOverriddenTypeData
        (parseChildrenLoop getOverriddenTypeData st pre).structure_.encodables c ∧
      parseChildrenLoop getOverriddenTypeData st (pre ++ some c :: post) =
        parseChildrenLoop getOverriddenTypeData st (pre ++ post)) ∨
    (¬ overrideFails getOverriddenTypeData
        (parseChildrenLoop getOverriddenTypeData st pre).structure_.encodables c ∧
      ∃ before kept after,
        (parseChildrenLoop getOverriddenTypeData st (pre ++ some c :: post)).structure_.encodables =
          before ++ kept :: after ∧
        before.length =
          (parseChildrenLoop getOverriddenTypeData st pre).structure_.encodables.length ∧
        (kept = appendedChild
            (parseChildrenLoop getOverriddenTypeData st pre).structure_.encodables c ∨
         kept = (appendedChild
            (parseChildrenLoop getOverriddenTypeData st pre).structure_.encodables
              c).clearDefaults)) := by
  rw [parseChildrenLoop_append, parseChildrenLoop_cons, parseChildrenLoop_append]
  generalize parseChildrenLoop getOverriddenTypeData st pre = mid
  rcases parseChild_some_cases getOverriddenTypeData mid c with ⟨h, hfail⟩ | ⟨hkeep, h⟩
  · left
    exact ⟨hfail, by rw [h]⟩
  · right
    refine ⟨hkeep, ?_⟩
    obtain ⟨rest, hrest⟩ := parseChildrenLoop_prefix getOverriddenTypeData
      (parseChild getOverriddenTypeData mid (some c)) post
    rcases h with h | h <;> rcases hrest with hrest | hrest <;> rw [h] at hrest
    · exact ⟨_, _, rest, by rw [hrest]; simp, rfl, Or.inl rfl⟩
    · refine ⟨clearAllDefaults mid.structure_.encodables, _, rest, ?_,
        clearAllDefaults_length _, Or.inr rfl⟩
      rw [hrest, clearAllDefaults_append, clearAllDefaults_eq_map [_]]
      simp
    · exact ⟨_, _, rest, by rw [hrest]; simp, clearAllDefaults_length _, Or.inl rfl⟩
    · refine ⟨clearAllDefaults mid.structure_.encodables, _, rest, ?_,
        clearAllDefaults_length _, Or.inr rfl⟩
      rw [hrest, clearAllDefaults_append, clearAllDefaults_idem, clearAllDefaults_eq_map [_]]
      simp

theorem resolveReferences_dependsOnValue (l : List Encodable) (e : Encodable) :
    (resolveReferences l e).dependsOnValue =
      if e.dependsOn ≠ "" ∧ e.isBitfield = false ∧ findReference l e.dependsOn = false then ""
      else e.dependsOnValue := by
  unfold resolveReferences
  rw [resolveDependsOn_eq, resolveVariable2dArray_eq, resolveVariableArray_eq]
  simp only
  by_cases h1 : e.dependsOn = ""
  · simp [h1]
  · cases h2 : e.isBitfield <;> cases h3 : findReference l e.dependsOn <;> simp [h1, h2, h3]

theorem resolveReferences_dependsOnCompare (l : List Encodable) (e : Encodable) :
    (resolveReferences l e).dependsOnCompare =
      if e.dependsOn ≠ "" ∧ e.isBitfield = false ∧ findReference l e.dependsOn = false then ""
      else e.dependsOnCompare := by
  unfold resolveReferences
  rw [resolveDependsOn_eq, resolveVariable2dArray_eq, resolveVariableArray_eq]
  simp only
  by_cases h1 : e.dependsOn = ""
  · simp [h1]
  · cases h2 : e.isBitfield <;> cases h3 : findReference l e.dependsOn <;> simp [h1, h2, h3]

/-- What a kept child looks like in the final list, compared with the child `c` it was made
from, `l` being the children in the list when `c` was processed: nothing but the five
reference members and the default differ, and each reference member is either untouched or
cleared, according to the look-up. -/
theorem kept_child_spec (l : List Encodable) (c kept : Encodable)
    (h : kept = appendedChild l c ∨ kept = (appendedChild l c).clearDefaults) :
    kept = { c with variableArray := kept.variableArray,
                    variable2dArray := kept.variable2dArray,
                    dependsOn := kept.dependsOn,
                    dependsOnValue := kept.dependsOnValue,
                    dependsOnCompare := kept.dependsOnCompare,
                    usesDefaults := kept.usesDefaults } ∧
    kept.variableArray =
      (if c.isNotEncoded = false ∧ c.variableArray ≠ "" ∧
          findReference l c.variableArray = false then "" else c.variableArray) ∧
    kept.variable2dArray =
      (if c.isNotEncoded = false ∧ c.variable2dArray ≠ "" ∧
          findReference l c.variable2dArray = false then "" else c.variable2dArray) ∧
    kept.dependsOn =
      (if c.isNotEncoded = false ∧ c.dependsOn ≠ "" ∧
          (c.isBitfield = true ∨ findReference l c.dependsOn = false) then ""
       else c.dependsOn) ∧
    kept.dependsOnValue =
      (if c.isNotEncoded = false ∧ c.dependsOn ≠ "" ∧ c.isBitfield = false ∧
          findReference l c.dependsOn = false then "" else c.dependsOnValue) ∧
    kept.dependsOnCompare =
      (if c.isNotEncoded = false ∧ c.dependsOn ≠ "" ∧ c.isBitfield = false ∧
          findReference l c.dependsOn = false then "" else c.dependsOnCompare) ∧
    (kept.usesDefaults = c.usesDefaults ∨ kept.usesDefaults = false) := by
  have base : ∀ k, k = appendedChild l c →
      (∃ va v2 d dv dc, k = { c with variableArray := va, variable2dArray := v2,
                                     dependsOn := d, dependsOnValue := dv,
                                     dependsOnCompare := dc }) ∧
      k.variableArray =
        (if c.isNotEncoded = false ∧ c.variableArray ≠ "" ∧
            findReference l c.variableArray = false then "" else c.variableArray) ∧
      k.variable2dArray =
        (if c.isNotEncoded = false ∧ c.variable2dArray ≠ "" ∧
            findReference l c.variable2dArray = false then "" else c.variable2dArray) ∧
      k.dependsOn =
        (if c.isNotEncoded = false ∧ c.dependsOn ≠ "" ∧
            (c.isBitfield = true ∨ findReference l c.dependsOn = false) then ""
         else c.dependsOn) ∧
      k.dependsOnValue =
        (if c.isNotEncoded = false ∧ c.dependsOn ≠ "" ∧ c.isBitfield = false ∧
            findReference l c.dependsOn = false then "" else c.dependsOnValue) ∧
      k.dependsOnCompare =
        (if c.isNotEncoded = false ∧ c.dependsOn ≠ "" ∧ c.isBitfield = false ∧
            findReference l c.dependsOn = false then "" else c.dependsOnCompare) := by
    intro k hk
    subst hk
    by_cases hne : c.isNotEncoded = true
    · have hk : appendedChild l c = c := by
        unfold appendedChild
        rw [if_pos hne]
      have hf : ¬ (c.isNotEncoded = false) := by simp [hne]
      rw [hk]
      refine ⟨⟨_, _, _, _, _, rfl⟩, ?_, ?_, ?_, ?_, ?_⟩ <;> rw [if_neg (fun h => hf h.1)]
    · have hne0 : c.isNotEncoded = false := by simpa using hne
      have hk : appendedChild l c = resolveReferences l c := by
        unfold appendedChild
        rw [if_neg hne]
      rw [hk]
      refine ⟨resolveReferences_frame l c, ?_, ?_, ?_, ?_, ?_⟩
      · rw [resolveReferences_variableArray]
        simp [hne0]
      · rw [resolveReferences_variable2dArray]
        simp [hne0]
      · rw [resolveReferences_dependsOn]
        simp [hne0]
      · rw [resolveReferences_dependsOnValue]
        simp [hne0]
      · rw [resolveReferences_dependsOnCompare]
        simp [hne0]
  obtain ⟨⟨va, v2, d, dv, dc, hfr⟩, h1, h2, h3, h4, h5⟩ := base (appendedChild l c) rfl
  rcases h with h | h
  · subst h
    refine ⟨?_, h1, h2, h3, h4, h5, Or.inl ?_⟩
    · rw [hfr]
    · rw [hfr]
  · subst h
    refine ⟨?_, h1, h2, h3, h4, h5, Or.inr rfl⟩
    rw [hfr]
    rfl

theorem appendedChild_frame (l : List Encodable) (c : Encodable) :
    ∃ va v2 d dv dc, appendedChild l c =
      { c with variableArray := va, variable2dArray := v2, dependsOn := d,
               dependsOnValue := dv, dependsOnCompare := dc } := by
  unfold appendedChild
  split_ifs
  · exact ⟨_, _, _, _, _, rfl⟩
  · exact resolveReferences_frame l c

theorem appendedChild_clearAllDefaults (l : List Encodable) (c : Encodable) :
    appendedChild (clearAllDefaults l) c = appendedChild l c := by
  unfold appendedChild
  rw [resolveReferences_clearAllDefaults]

theorem finishChild_defaults (s : ProtocolStructure) (e : Encodable) :
    (finishChild s e).structure_.defaults = s.defaults := by
  unfold finishChild
  simp only
  split_ifs <;> rfl

theorem finishChild_encodables_appended (s : ProtocolStructure) (e : Encodable)
    (h : e.isNotEncoded = false) :
    (finishChild s e).structure_.encodables = s.encodables ++ [appendedChild s.encodables e] := by
  rw [finishChild_encodables]
  unfold appendedChild
  simp [h]

/-- One step, seen from the defaults rule: the child list and the `defaults` flag after the
step, in each of the five cases of lines 721-808. -/
theorem parseChild_some_defaults (st : ParseChildrenState) (c : Encodable) :
    parseChild getOverriddenTypeData st (some c) = st ∨
    (¬ isEncodedField c ∧
      (parseChild getOverriddenTypeData st (some c)).structure_.encodables =
        st.structure_.encodables ++ [appendedChild st.structure_.encodables c] ∧
      (parseChild getOverriddenTypeData st (some c)).structure_.defaults =
        st.structure_.defaults) ∨
    (isEncodedField c ∧ c.usesDefaults = true ∧
      (parseChild getOverriddenTypeData st (some c)).structure_.encodables =
        st.structure_.encodables ++ [appendedChild st.structure_.encodables c] ∧
      (parseChild getOverriddenTypeData st (some c)).structure_.defaults = true) ∨
    (isEncodedField c ∧ c.usesDefaults = false ∧ st.structure_.defaults = true ∧
      c.invalidatesPreviousDefault = true ∧
      (parseChild getOverriddenTypeData st (some c)).structure_.encodables =
        clearAllDefaults st.structure_.encodables ++
          [appendedChild st.structure_.encodables c] ∧
      (parseChild getOverriddenTypeData st (some c)).structure_.defaults = false) ∨
    (isEncodedField c ∧ c.usesDefaults = false ∧
      ¬ (st.structure_.defaults = true ∧ c.invalidatesPreviousDefault = true) ∧
      (parseChild getOverriddenTypeData st (some c)).structure_.encodables =
        st.structure_.encodables ++ [appendedChild st.structure_.encodables c] ∧
      (parseChild getOverriddenTypeData st (some c)).structure_.defaults =
        st.structure_.defaults) := by
  unfold parseChild isEncodedField
  by_cases hne : c.isNotEncoded = true
  · right
    left
    refine ⟨by simp [hne], ?_, ?_⟩
    · simp [hne, appendedChild]
    · simp [hne]
  · have hne0 : c.isNotEncoded = false := by simpa using hne
    by_cases hf : c.isField = true
    · by_cases ho : (c.overridesPreviousEncodable &&
          !findOverridden getOverriddenTypeData st.structure_.encodables c) = true
      · left
        simp [hne0, hf, ho]
      · right
        right
        simp only [hne0, hf, ho, if_true, if_false, Bool.false_eq_true]
        rw [finishChild_defaults, finishChild_encodables_appended _ _ hne0]
        unfold trackFieldDefaults
        by_cases hd : c.usesDefaults = true
        · left
          refine ⟨by simp [hne0, hf], hd, ?_, ?_⟩
          · simp only [hd, if_true]
            rw [trackFieldMetadata_encodables]
          · simp only [hd, if_true]
        · have hd0 : c.usesDefaults = false := by simpa using hd
          right
          by_cases hc : st.structure_.defaults = true ∧ c.invalidatesPreviousDefault = true
          · left
            refine ⟨by simp [hne0, hf], hd0, hc.1, hc.2, ?_, ?_⟩
            · simp only [hd0, trackFieldMetadata_defaults, hc.1, hc.2, Bool.and_self,
                if_true, if_false, Bool.false_eq_true]
              rw [trackFieldMetadata_encodables, appendedChild_clearAllDefaults]
            · simp only [hd0, trackFieldMetadata_defaults, hc.1, hc.2, Bool.and_self,
                if_true, if_false, Bool.false_eq_true]
          · right
            have hc0 : (st.structure_.defaults && c.invalidatesPreviousDefault) = false := by
              cases h1 : st.structure_.defaults <;> cases h2 : c.invalidatesPreviousDefault <;>
                simp_all
            refine ⟨by simp [hne0, hf], hd0, hc, ?_, ?_⟩
            · simp only [hd0, trackFieldMetadata_defaults, hc0, if_false, Bool.false_eq_true]
              rw [trackFieldMetadata_encodables]
            · simp only [hd0, trackFieldMetadata_defaults, hc0, if_false, Bool.false_eq_true]
    · right
      left
      have hf0 : c.isField = false := by simpa using hf
      simp only [hne0, hf0, if_false, Bool.false_eq_true]
      refine ⟨by simp, ?_, ?_⟩
      · rw [finishChild_encodables_appended _ _ hne0, trackStructureMetadata_encodables]
      · rw [finishChild_defaults, trackStructureMetadata_defaults]

theorem usesDefaults_of_mem_clearAllDefaults {l : List Encodable} {e : Encodable}
    (h : e ∈ clearAllDefaults l) : e.usesDefaults = false := by
  obtain ⟨a, _, rfl⟩ := mem_clearAllDefaults h
  rfl

/-- Every step keeps the invariant of the defaults rule. -/
theorem parseChild_defaultsInvariant (st : ParseChildrenState) (child : Option Encodable)
    (h : DefaultsInvariant st.structure_) :
    DefaultsInvariant (parseChild getOverriddenTypeData st child).structure_ := by
  cases child with
  | none => exact h
  | some c =>
    obtain ⟨va, v2, d, dv, dc, hfr⟩ := appendedChild_frame st.structure_.encodables c
    have hfield : (appendedChild st.structure_.encodables c).isField = c.isField := by rw [hfr]
    have hnotenc : (appendedChild st.structure_.encodables c).isNotEncoded = c.isNotEncoded := by
      rw [hfr]
    have huses : (appendedChild st.structure_.encodables c).usesDefaults = c.usesDefaults := by
      rw [hfr]
    have hinval : (appendedChild st.structure_.encodables c).invalidatesPreviousDefault =
        c.invalidatesPreviousDefault := by rw [hfr]
    have henc : isEncodedField (appendedChild st.structure_.encodables c) ↔ isEncodedField c := by
      unfold isEncodedField
      rw [hfield, hnotenc]
    obtain ⟨hpw, hflag⟩ := h
    rcases parseChild_some_defaults getOverriddenTypeData st c with
      h0 | ⟨hc, he, hd⟩ | ⟨hc, hu, he, hd⟩ | ⟨hc, hu, _, _, he, hd⟩ | ⟨hc, hu, hno, he, hd⟩
    · rw [h0]
      exact ⟨hpw, hflag⟩
    · refine ⟨?_, ?_⟩
      · rw [he, List.pairwise_append]
        refine ⟨hpw, List.pairwise_singleton _ _, ?_⟩
        intro x _ y hy hy1
        rw [List.mem_singleton] at hy
        subst hy
        exact absurd (henc.mp hy1) hc
      · rw [hd, he, hflag]
        constructor
        · rintro ⟨e, hm, hp⟩
          exact ⟨e, List.mem_append.mpr (Or.inl hm), hp⟩
        · rintro ⟨e, hm, hp⟩
          rcases List.mem_append.mp hm with hm | hm
          · exact ⟨e, hm, hp⟩
          · rw [List.mem_singleton] at hm
            subst hm
            exact absurd (henc.mp hp.1) hc
    · refine ⟨?_, ?_⟩
      · rw [he, List.pairwise_append]
        refine ⟨hpw, List.pairwise_singleton _ _, ?_⟩
        intro x _ y hy _ hy2
        rw [List.mem_singleton] at hy
        subst hy
        rw [huses, hu] at hy2
        exact absurd hy2 (by simp)
      · rw [hd, he]
        refine ⟨fun _ => ⟨_, List.mem_append.mpr (Or.inr (List.mem_singleton.mpr rfl)),
          henc.mpr hc, by rw [huses, hu]⟩, fun _ => rfl⟩
    · refine ⟨?_, ?_⟩
      · rw [he, List.pairwise_append]
        refine ⟨List.pairwise_of_forall_mem_list ?_, List.pairwise_singleton _ _, ?_⟩
        · intro x hx y _ _ _ _ _
          exact usesDefaults_of_mem_clearAllDefaults hx
        · intro x hx y _ _ _ _ _
          exact usesDefaults_of_mem_clearAllDefaults hx
      · rw [hd, he]
        constructor
        · intro hft
          exact absurd hft (by simp)
        · rintro ⟨e, hm, _, hp⟩
          rcases List.mem_append.mp hm with hm | hm
          · rw [usesDefaults_of_mem_clearAllDefaults hm] at hp
            exact absurd hp (by simp)
          · rw [List.mem_singleton] at hm
            subst hm
            rw [huses, hu] at hp
            exact absurd hp (by simp)
    · refine ⟨?_, ?_⟩
      · rw [he, List.pairwise_append]
        refine ⟨hpw, List.pairwise_singleton _ _, ?_⟩
        intro x hx y hy _ _ hy3 hx1
        rw [List.mem_singleton] at hy
        subst hy
        rw [hinval] at hy3
        have hdf : ¬ st.structure_.defaults = true := fun hdt => hno ⟨hdt, hy3⟩
        cases hxu : x.usesDefaults
        · rfl
        · exact absurd (hflag.mpr ⟨x, hx, hx1, hxu⟩) hdf
      · rw [hd, he, hflag]
        constructor
        · rintro ⟨e, hm, hp⟩
          exact ⟨e, List.mem_append.mpr (Or.inl hm), hp⟩
        · rintro ⟨e, hm, hp⟩
          rcases List.mem_append.mp hm with hm | hm
          · exact ⟨e, hm, hp⟩
          · rw [List.mem_singleton] at hm
            subst hm
            rw [huses, hu] at hp
            exact absurd hp.2 (by simp)

/-- The invariant of the defaults rule holds after the loop when it held before. -/
theorem parseChildren_defaultsInvariant (s : ProtocolStructure)
    (children : List (Option Encodable)) (h : DefaultsInvariant s) :
    DefaultsInvariant (s.parseChildren getOverriddenTypeData children) := by
  unfold ProtocolStructure.parseChildren
  exact parseChildrenLoop_invariant getOverriddenTypeData
    (fun st => DefaultsInvariant st.structure_)
    (fun st c hst => parseChild_defaultsInvariant getOverriddenTypeData st c hst)
    { structure_ := s, prevEncodable := none } h children

/-- A structure without children and with `defaults` unset satisfies the invariant. -/
theorem defaultsInvariant_of_empty (s : ProtocolStructure) (h1 : s.encodables = [])
    (h2 : s.defaults = false) : DefaultsInvariant s := by
  unfold DefaultsInvariant
  rw [h1, h2]
  simp

theorem finishChild_iterators (s : ProtocolStructure) (e : Encodable) :
    (finishChild s e).structure_.needsEncodeIterator = s.needsEncodeIterator ∧
    (finishChild s e).structure_.needsDecodeIterator = s.needsDecodeIterator ∧
    (finishChild s e).structure_.needs2ndEncodeIterator = s.needs2ndEncodeIterator ∧
    (finishChild s e).structure_.needs2ndDecodeIterator = s.needs2ndDecodeIterator := by
  unfold finishChild
  simp only
  split_ifs <;> exact ⟨rfl, rfl, rfl, rfl⟩

theorem trackFieldDefaults_iterators (s : ProtocolStructure) (f : Encodable) :
    (trackFieldDefaults s f).needsEncodeIterator = s.needsEncodeIterator ∧
    (trackFieldDefaults s f).needsDecodeIterator = s.needsDecodeIterator ∧
    (trackFieldDefaults s f).needs2ndEncodeIterator = s.needs2ndEncodeIterator ∧
    (trackFieldDefaults s f).needs2ndDecodeIterator = s.needs2ndDecodeIterator := by
  unfold trackFieldDefaults
  split_ifs <;> exact ⟨rfl, rfl, rfl, rfl⟩

theorem trackFieldMetadata_iterators (s : ProtocolStructure) (f : Encodable) :
    (trackFieldMetadata s f).needsEncodeIterator =
      (s.needsEncodeIterator || f.usesEncodeIterator) ∧
    (trackFieldMetadata s f).needsDecodeIterator =
      (s.needsDecodeIterator || f.usesDecodeIterator) ∧
    (trackFieldMetadata s f).needs2ndEncodeIterator =
      (s.needs2ndEncodeIterator || f.uses2ndEncodeIterator) ∧
    (trackFieldMetadata s f).needs2ndDecodeIterator =
      (s.needs2ndDecodeIterator || f.uses2ndDecodeIterator) := by
  unfold trackFieldMetadata
  simp only
  split_ifs <;> exact ⟨rfl, rfl, rfl, rfl⟩

theorem trackStructureMetadata_iterators (s : ProtocolStructure) (e : Encodable) :
    (trackStructureMetadata s e).needsEncodeIterator = (s.needsEncodeIterator || e.isArray) ∧
    (trackStructureMetadata s e).needsDecodeIterator = (s.needsDecodeIterator || e.isArray) ∧
    (trackStructureMetadata s e).needs2ndEncodeIterator =
      (s.needs2ndEncodeIterator || e.is2dArray) ∧
    (trackStructureMetadata s e).needs2ndDecodeIterator =
      (s.needs2ndDecodeIterator || e.is2dArray) := by
  unfold trackStructureMetadata
  simp only
  cases h1 : e.isArray <;> cases h2 : e.is2dArray <;> simp

/-- One step on the four encode and decode iterator flags: a child that is kept adds its
contribution, a field through the flag it reports, a nested structure through being an
array (a 2-D array for the second iterator). -/
theorem parseChild_some_iterators (st : ParseChildrenState) (c : Encodable)
    (hkeep : ¬ overrideFails getOverriddenTypeData st.structure_.encodables c) :
    (parseChild getOverriddenTypeData st (some c)).structure_.needsEncodeIterator =
      (st.structure_.needsEncodeIterator ||
        iteratorContribution Encodable.usesEncodeIterator Encodable.isArray c) ∧
    (parseChild getOverriddenTypeData st (some c)).structure_.needsDecodeIterator =
      (st.structure_.needsDecodeIterator ||
        iteratorContribution Encodable.usesDecodeIterator Encodable.isArray c) ∧
    (parseChild getOverriddenTypeData st (some c)).structure_.needs2ndEncodeIterator =
      (st.structure_.needs2ndEncodeIterator ||
        iteratorContribution Encodable.uses2ndEncodeIterator Encodable.is2dArray c) ∧
    (parseChild getOverriddenTypeData st (some c)).structure_.needs2ndDecodeIterator =
      (st.structure_.needs2ndDecodeIterator ||
        iteratorContribution Encodable.uses2ndDecodeIterator Encodable.is2dArray c) := by
  unfold overrideFails at hkeep
  unfold parseChild iteratorContribution
  by_cases hne : c.isNotEncoded = true
  · simp [hne]
  · have hne0 : c.isNotEncoded = false := by simpa using hne
    by_cases hf : c.isField = true
    · have ho : (c.overridesPreviousEncodable &&
          !findOverridden getOverriddenTypeData st.structure_.encodables c) = false := by
        cases h1 : c.overridesPreviousEncodable <;>
          cases h2 : findOverridden getOverriddenTypeData st.structure_.encodables c <;>
          simp_all
      obtain ⟨a1, a2, a3, a4⟩ := finishChild_iterators
        (trackFieldDefaults (trackFieldMetadata st.structure_ c) c) c
      obtain ⟨b1, b2, b3, b4⟩ := trackFieldDefaults_iterators
        (trackFieldMetadata st.structure_ c) c
      obtain ⟨c1, c2, c3, c4⟩ := trackFieldMetadata_iterators st.structure_ c
      simp only [hne0, hf, ho, if_true, if_false, Bool.false_eq_true, Bool.not_false,
        Bool.true_and]
      exact ⟨by rw [a1, b1, c1], by rw [a2, b2, c2], by rw [a3, b3, c3], by rw [a4, b4, c4]⟩
    · have hf0 : c.isField = false := by simpa using hf
      obtain ⟨a1, a2, a3, a4⟩ := finishChild_iterators
        (trackStructureMetadata st.structure_ c) c
      obtain ⟨c1, c2, c3, c4⟩ := trackStructureMetadata_iterators st.structure_ c
      simp only [hne0, hf0, if_false, Bool.false_eq_true, Bool.not_false, Bool.true_and]
      exact ⟨by rw [a1, c1], by rw [a2, c2], by rw [a3, c3], by rw [a4, c4]⟩

theorem iteratorContribution_appendedChild (fieldUse structureUse : Encodable → Bool)
    (hfield : ∀ e va v2 d dv dc,
      fieldUse { e with variableArray := va, variable2dArray := v2, dependsOn := d,
                        dependsOnValue := dv, dependsOnCompare := dc } = fieldUse e)
    (hstructure : ∀ e va v2 d dv dc,
      structureUse { e with variableArray := va, variable2dArray := v2, dependsOn := d,
                            dependsOnValue := dv, dependsOnCompare := dc } = structureUse e)
    (l : List Encodable) (c : Encodable) :
    iteratorContribution fieldUse structureUse (appendedChild l c) =
      iteratorContribution fieldUse structureUse c := by
  obtain ⟨va, v2, d, dv, dc, hfr⟩ := appendedChild_frame l c
  rw [hfr]
  unfold iteratorContribution
  rw [hfield, hstructure]

/-- A flag that every kept child ORs its contribution into is, after the loop, set exactly
when it was set before or some child then in the list contributes. -/
theorem parseChildrenLoop_flag_iff (flag : ProtocolStructure → Bool)
    (contribution : Encodable → Bool)
    (hclear : ∀ e, contribution e.clearDefaults = contribution e)
    (happended : ∀ l c, contribution (appendedChild l c) = contribution c)
    (hstep : ∀ st c, ¬ overrideFails getOverriddenTypeData st.structure_.encodables c →
      flag (parseChild getOverriddenTypeData st (some c)).structure_ =
        (flag st.structure_ || contribution c))
    (st : ParseChildrenState) (children : List (Option Encodable))
    (h0 : flag st.structure_ = true ↔ ∃ e ∈ st.structure_.encodables, contribution e = true) :
    flag (parseChildrenLoop getOverriddenTypeData st children).structure_ = true ↔
      ∃ e ∈ (parseChildrenLoop getOverriddenTypeData st children).structure_.encodables,
        contribution e = true := by
  refine parseChildrenLoop_invariant getOverriddenTypeData
    (fun st => flag st.structure_ = true ↔
      ∃ e ∈ st.structure_.encodables, contribution e = true) ?_ st h0 children
  intro st child hst
  cases child with
  | none => exact hst
  | some c =>
    have hcleared : (∃ e ∈ clearAllDefaults st.structure_.encodables, contribution e = true) ↔
        ∃ e ∈ st.structure_.encodables, contribution e = true := by
      rw [clearAllDefaults_eq_map]
      constructor
      · rintro ⟨e, he, hc⟩
        obtain ⟨a, ha, rfl⟩ := List.mem_map.mp he
        exact ⟨a, ha, by rw [← hclear]; exact hc⟩
      · rintro ⟨e, he, hc⟩
        exact ⟨e.clearDefaults, List.mem_map.mpr ⟨e, he, rfl⟩, by rw [hclear]; exact hc⟩
    rcases parseChild_some_cases getOverriddenTypeData st c with ⟨h, _⟩ | ⟨hkeep, h⟩
    · show flag (parseChild getOverriddenTypeData st (some c)).structure_ = true ↔
        ∃ e ∈ (parseChild getOverriddenTypeData st (some c)).structure_.encodables,
          contribution e = true
      rw [h]
      exact hst
    · show flag (parseChild getOverriddenTypeData st (some c)).structure_ = true ↔
        ∃ e ∈ (parseChild getOverriddenTypeData st (some c)).structure_.encodables,
          contribution e = true
      rw [hstep st c hkeep, Bool.or_eq_true, hst]
      rcases h with h | h <;> rw [h]
      · simp only [List.mem_append, List.mem_singleton]
        constructor
        · rintro (⟨e, he, hc⟩ | hc)
          · exact ⟨e, Or.inl he, hc⟩
          · exact ⟨_, Or.inr rfl, by rw [happended]; exact hc⟩
        · rintro ⟨e, he | he, hc⟩
          · exact Or.inl ⟨e, he, hc⟩
          · subst he
            rw [happended] at hc
            exact Or.inr hc
      · simp only [List.mem_append, List.mem_singleton]
        constructor
        · rintro (hex | hc)
          · obtain ⟨e, he, hc⟩ := hcleared.mpr hex
            exact ⟨e, Or.inl he, hc⟩
          · exact ⟨_, Or.inr rfl, by rw [happended]; exact hc⟩
        · rintro ⟨e, he | he, hc⟩
          · exact Or.inl (hcleared.mp ⟨e, he, hc⟩)
          · subst he
            rw [happended] at hc
            exact Or.inr hc

theorem iteratorContribution_eq_true_iff (fieldUse structureUse : Encodable → Bool)
    (e : Encodable) :
    iteratorContribution fieldUse structureUse e = true ↔
      e.isNotEncoded = false ∧
        ((e.isField = true ∧ fieldUse e = true) ∨
          (e.isField = false ∧ structureUse e = true)) := by
  unfold iteratorContribution
  cases e.isNotEncoded <;> cases e.isField <;> simp

/-- The iterator flag `flag`, fed by `fieldUse` and `structureUse`, of a structure that
starts fresh: after `parseChildren` it is set exactly when some encoded child in the list
contributes. -/
theorem parseChildren_clear_flag_iff (flag : ProtocolStructure → Bool)
    (fieldUse structureUse : Encodable → Bool)
    (hfresh : flag ProtocolStructure.clear = false)
    (hfieldClear : ∀ e, fieldUse e.clearDefaults = fieldUse e)
    (hstructureClear : ∀ e, structureUse e.clearDefaults = structureUse e)
    (hfield : ∀ e va v2 d dv dc,
      fieldUse { e with variableArray := va, variable2dArray := v2, dependsOn := d,
                        dependsOnValue := dv, dependsOnCompare := dc } = fieldUse e)
    (hstructure : ∀ e va v2 d dv dc,
      structureUse { e with variableArray := va, variable2dArray := v2, dependsOn := d,
                            dependsOnValue := dv, dependsOnCompare := dc } = structureUse e)
    (hstep : ∀ st c, ¬ overrideFails getOverriddenTypeData st.structure_.encodables c →
      flag (parseChild getOverriddenTypeData st (some c)).structure_ =
        (flag st.structure_ || iteratorContribution fieldUse structureUse c))
    (children : List (Option Encodable)) :
    flag (ProtocolStructure.clear.parseChildren getOverriddenTypeData children) = true ↔
      ∃ e ∈ (ProtocolStructure.clear.parseChildren getOverriddenTypeData children).encodables,
        e.isNotEncoded = false ∧
          ((e.isField = true ∧ fieldUse e = true) ∨
            (e.isField = false ∧ structureUse e = true)) := by
  have h := parseChildrenLoop_flag_iff getOverriddenTypeData flag
    (iteratorContribution fieldUse structureUse)
    (fun e => by
      unfold iteratorContribution
      rw [hfieldClear, hstructureClear]
      rfl)
    (iteratorContribution_appendedChild fieldUse structureUse hfield hstructure)
    hstep { structure_ := ProtocolStructure.clear, prevEncodable := none } children
    (by
      show flag ProtocolStructure.clear = true ↔
        ∃ e ∈ ProtocolStructure.clear.encodables, _
      rw [hfresh]
      simp [ProtocolStructure.clear])
  unfold ProtocolStructure.parseChildren
  rw [h]
  constructor
  · rintro ⟨e, he, hc⟩
    exact ⟨e, he, (iteratorContribution_eq_true_iff fieldUse structureUse e).mp hc⟩
  · rintro ⟨e, he, hc⟩
    exact ⟨e, he, (iteratorContribution_eq_true_iff fieldUse structureUse e).mpr hc⟩

end Basic

/-! ## Facts about the length algebra -/

section Length

theorem addToLengthString_empty_left (l : LengthString) :
    addToLengthString LengthString.empty l = l := by
  cases l <;> rfl

theorem addToLengthString_isNumeric {a b : LengthString} (ha : a.isNumeric = true)
    (hb : b.isNumeric = true) :
    (addToLengthString a b).isNumeric = true ∧
      (addToLengthString a b).value = a.value + b.value := by
  cases a <;> cases b <;>
    simp_all [addToLengthString, LengthString.isNumeric, LengthString.value]

theorem isNumeric_of_addToLengthString {a b : LengthString}
    (h : (addToLengthString a b).isNumeric = true) :
    a.isNumeric = true ∧ b.isNumeric = true := by
  cases a <;> cases b <;> simp_all [addToLengthString, LengthString.isNumeric]

theorem numericLiteral_ne_empty {array : String} {n : Nat}
    (h : numericLiteral array = some n) : array ≠ "" := by
  intro he
  rw [he] at h
  have hnone : numericLiteral "" = none := by decide
  rw [hnone] at h
  exact absurd h (by simp)

theorem scaleLengthString_isNumeric {x : LengthString} {array : String} {n : Nat}
    (harray : numericLiteral array = some n) (hx : x.isNumeric = true) :
    (scaleLengthString x array).isNumeric = true ∧
      (scaleLengthString x array).value = x.value * n := by
  have hne := numericLiteral_ne_empty harray
  cases x <;> simp_all [scaleLengthString, LengthString.isNumeric, LengthString.value]

theorem scaleLengthString_no_array (x : LengthString) : scaleLengthString x "" = x := by
  simp [scaleLengthString]

theorem isNumeric_of_scaleLengthString {x : LengthString} {array : String}
    (h : (scaleLengthString x array).isNumeric = true) :
    x.isNumeric = true ∧ (scaleLengthString x array).value = x.value * arrayMultiplier array := by
  unfold arrayMultiplier
  by_cases he : array = ""
  · subst he
    rw [scaleLengthString_no_array] at h ⊢
    simp [h]
  · cases x with
    | empty => simp [scaleLengthString, he, LengthString.isNumeric, LengthString.value]
    | literal n =>
      cases hn : numericLiteral array with
      | none => simp [scaleLengthString, he, hn, LengthString.isNumeric] at h
      | some k =>
        simp [scaleLengthString, he, hn, LengthString.isNumeric, LengthString.value]
    | expression t => simp [scaleLengthString, he, LengthString.isNumeric] at h

/-- The three totals of the sum of the children lengths are the three separate sums. -/
theorem sumChildrenLength_eq (l : List Encodable) :
    sumChildrenLength l =
      { minEncodedLength :=
          l.foldl (fun t e => addToLengthString t e.encodedLength.minEncodedLength)
            LengthString.empty
        maxEncodedLength :=
          l.foldl (fun t e => addToLengthString t e.encodedLength.maxEncodedLength)
            LengthString.empty
        nonDefaultEncodedLength :=
          l.foldl (fun t e => addToLengthString t e.encodedLength.nonDefaultEncodedLength)
            LengthString.empty } := by
  unfold sumChildrenLength
  have h : ∀ (l : List Encodable) (acc : EncodedLength),
      l.foldl (fun length e => length.addToLength e.encodedLength "" false false) acc =
        { minEncodedLength :=
            l.foldl (fun t e => addToLengthString t e.encodedLength.minEncodedLength)
              acc.minEncodedLength
          maxEncodedLength :=
            l.foldl (fun t e => addToLengthString t e.encodedLength.maxEncodedLength)
              acc.maxEncodedLength
          nonDefaultEncodedLength :=
            l.foldl (fun t e => addToLengthString t e.encodedLength.nonDefaultEncodedLength)
              acc.nonDefaultEncodedLength } := by
    intro l
    induction l with
    | nil => intro acc; rfl
    | cons e es ih =>
      intro acc
      rw [List.foldl_cons, ih]
      simp [EncodedLength.addToLength, scaleLengthString_no_array]
  exact h l EncodedLength.clear

/-- A sum of numeric totals is numeric and denotes the sum of the values. -/
theorem foldl_addToLengthString_isNumeric (f : Encodable → LengthString) (l : List Encodable)
    (t : LengthString) (ht : t.isNumeric = true) (hl : ∀ e ∈ l, (f e).isNumeric = true) :
    (l.foldl (fun t e => addToLengthString t (f e)) t).isNumeric = true ∧
      (l.foldl (fun t e => addToLengthString t (f e)) t).value =
        t.value + (l.map fun e => (f e).value).sum := by
  induction l generalizing t with
  | nil => simp [ht]
  | cons e es ih =>
    have he := hl e (List.mem_cons_self _ _)
    obtain ⟨h1, h2⟩ := addToLengthString_isNumeric ht he
    obtain ⟨h3, h4⟩ := ih (addToLengthString t (f e)) h1
      (fun x hx => hl x (List.mem_cons_of_mem _ hx))
    refine ⟨h3, ?_⟩
    rw [List.foldl_cons, h4, h2, List.map_cons, List.sum_cons]
    omega

/-- `parse` in one equation: the structure after the attributes and the children, with the
length wrapped by the own array, variable array and depends on. -/
theorem parse_eq (getOverriddenTypeData : Encodable → Option Encodable → Bool)
    (s : ProtocolStructure) (map : Attributes) (children : List (Option Encodable)) :
    s.parse getOverriddenTypeData map children =
      { (s.parseAttributes map).parseChildren getOverriddenTypeData children with
        encodedLength :=
          EncodedLength.clear.addToLength
            (sumChildrenLength
              ((s.parseAttributes map).parseChildren getOverriddenTypeData children).encodables)
            ((s.parseAttributes map).parseChildren getOverriddenTypeData children).array
            (decide (((s.parseAttributes map).parseChildren getOverriddenTypeData
              children).variableArray ≠ ""))
            (decide (((s.parseAttributes map).parseChildren getOverriddenTypeData
              children).dependsOn ≠ "")) } :=
  rfl

/-- One step of the comparison of two totals: when the smaller total either stays or grows
by `x`, and the larger grows by `y`, with `x` at most `y`, the order is kept. -/
theorem addToLengthString_le_step {a b x y a1 b1 : LengthString}
    (ih : a.isNumeric = true → b.isNumeric = true → a.value ≤ b.value)
    (hxy : x.isNumeric = true → y.isNumeric = true → x.value ≤ y.value)
    (ha1 : a1 = a ∨ a1 = addToLengthString a x) (hb1 : b1 = addToLengthString b y)
    (hna : a1.isNumeric = true) (hnb : b1.isNumeric = true) : a1.value ≤ b1.value := by
  subst hb1
  obtain ⟨hb, hy⟩ := isNumeric_of_addToLengthString hnb
  rw [(addToLengthString_isNumeric hb hy).2]
  rcases ha1 with rfl | rfl
  · exact Nat.le_trans (ih hna hb) (Nat.le_add_right _ _)
  · obtain ⟨ha, hx⟩ := isNumeric_of_addToLengthString hna
    rw [(addToLengthString_isNumeric ha hx).2]
    exact Nat.add_le_add (ih ha hb) (hxy hx hy)

/-- Scaling two totals by the same array bound keeps their order. -/
theorem scaleLengthString_le {x y : LengthString} (array : String)
    (ih : x.isNumeric = true → y.isNumeric = true → x.value ≤ y.value)
    (hx : (scaleLengthString x array).isNumeric = true)
    (hy : (scaleLengthString y array).isNumeric = true) :
    (scaleLengthString x array).value ≤ (scaleLengthString y array).value := by
  obtain ⟨hx1, hx2⟩ := isNumeric_of_scaleLengthString hx
  obtain ⟨hy1, hy2⟩ := isNumeric_of_scaleLengthString hy
  rw [hx2, hy2]
  exact Nat.mul_le_mul_right _ (ih hx1 hy1)

/-- The minimum never exceeds the maximum, whatever the flags. -/
theorem Composed.min_le_max {allowed : Bool → Bool → Bool → Prop} {L : EncodedLength}
    (h : Composed allowed L) :
    L.minEncodedLength.isNumeric = true → L.maxEncodedLength.isNumeric = true →
      L.minEncodedLength.value ≤ L.maxEncodedLength.value := by
  induction h with
  | clear => intro _ _; exact Nat.le_refl _
  | term self length isString isVariable isDependent isDefault _ _ ih =>
    intro hmin hmax
    refine addToLengthString_le_step ih (fun _ _ => Nat.le_refl _) ?_ rfl hmin hmax
    unfold EncodedLength.addTermToLength
    dsimp only
    split_ifs
    · exact Or.inr rfl
    · exact Or.inl rfl
  | group self rightLength array isVariable isDependent _ _ ih1 ih2 =>
    intro hmin hmax
    refine addToLengthString_le_step ih1 (scaleLengthString_le array ih2) ?_ rfl hmin hmax
    unfold EncodedLength.addToLength
    dsimp only
    split_ifs
    · exact Or.inr rfl
    · exact Or.inl rfl

/-- The non-default total never exceeds the maximum, whatever the flags. -/
theorem Composed.nonDefault_le_max {allowed : Bool → Bool → Bool → Prop} {L : EncodedLength}
    (h : Composed allowed L) :
    L.nonDefaultEncodedLength.isNumeric = true → L.maxEncodedLength.isNumeric = true →
      L.nonDefaultEncodedLength.value ≤ L.maxEncodedLength.value := by
  induction h with
  | clear => intro _ _; exact Nat.le_refl _
  | term self length isString isVariable isDependent isDefault _ _ ih =>
    intro hnd hmax
    refine addToLengthString_le_step ih (fun _ _ => Nat.le_refl _) ?_ rfl hnd hmax
    unfold EncodedLength.addTermToLength
    dsimp only
    split_ifs
    · exact Or.inr rfl
    · exact Or.inl rfl
  | group self rightLength array isVariable isDependent _ _ ih1 ih2 =>
    intro hnd hmax
    exact addToLengthString_le_step ih1 (scaleLengthString_le array ih2) (Or.inr rfl) rfl
      hnd hmax

/-- The minimum never exceeds the non-default total, whatever the flags. -/
theorem Composed.min_le_nonDefault {allowed : Bool → Bool → Bool → Prop} {L : EncodedLength}
    (h : Composed allowed L) :
    L.minEncodedLength.isNumeric = true → L.nonDefaultEncodedLength.isNumeric = true →
      L.minEncodedLength.value ≤ L.nonDefaultEncodedLength.value := by
  induction h with
  | clear => intro _ _; exact Nat.le_refl _
  | term self length isString isVariable isDependent isDefault _ _ ih =>
    cases isDefault with
    | false =>
      intro hmin hnd
      refine addToLengthString_le_step ih (fun _ _ => Nat.le_refl _) ?_ rfl hmin hnd
      unfold EncodedLength.addTermToLength
      dsimp only
      split_ifs
      · exact Or.inr rfl
      · exact Or.inl rfl
    | true =>
      unfold EncodedLength.addTermToLength
      simp only [Bool.not_true, Bool.and_false, Bool.false_eq_true, if_false]
      exact ih
  | group self rightLength array isVariable isDependent _ _ ih1 ih2 =>
    intro hmin hnd
    refine addToLengthString_le_step ih1 (scaleLengthString_le array ih2) ?_ rfl hmin hnd
    unfold EncodedLength.addToLength
    dsimp only
    split_ifs
    · exact Or.inr rfl
    · exact Or.inl rfl

/-- The sum of composed children lengths is composed. -/
theorem composed_sumChildrenLength {allowed : Bool → Bool → Bool → Prop} (l : List Encodable)
    (h : ∀ e ∈ l, Composed allowed e.encodedLength) :
    Composed allowed (sumChildrenLength l) := by
  unfold sumChildrenLength
  have key : ∀ (l : List Encodable) (acc : EncodedLength), Composed allowed acc →
      (∀ e ∈ l, Composed allowed e.encodedLength) →
      Composed allowed
        (l.foldl (fun length e => length.addToLength e.encodedLength "" false false) acc) := by
    intro l
    induction l with
    | nil => intro acc hacc _; exact hacc
    | cons e es ih =>
      intro acc hacc hl
      exact ih _ (Composed.group _ _ _ _ _ hacc (hl e (List.mem_cons_self _ _)))
        (fun x hx => hl x (List.mem_cons_of_mem _ hx))
  exact key l _ Composed.clear h

/-- The length `parse` computes from composed children lengths is composed. -/
theorem composed_parse {allowed : Bool → Bool → Bool → Prop}
    (getOverriddenTypeData : Encodable → Option Encodable → Bool)
    (s : ProtocolStructure) (map : Attributes) (children : List (Option Encodable))
    (h : ∀ e ∈ (s.parse getOverriddenTypeData map children).encodables,
      Composed allowed e.encodedLength) :
    Composed allowed (s.parse getOverriddenTypeData map children).encodedLength := by
  rw [parse_eq] at h ⊢
  exact Composed.group _ _ _ _ _ Composed.clear (composed_sumChildrenLength _ h)

end Length

/-! ## Further facts about `parseChildren` and `parse` -/

/-- A failed override leaves the whole loop state as it was. -/
theorem parseChild_of_overrideFails
    (getOverriddenTypeData : Encodable → Option Encodable → Bool) (st : ParseChildrenState)
    (c : Encodable) (h : overrideFails getOverriddenTypeData st.structure_.encodables c) :
    parseChild getOverriddenTypeData st (some c) = st := by
  rcases parseChild_some_cases getOverriddenTypeData st c with ⟨heq, _⟩ | ⟨hkeep, _⟩
  · exact heq
  · exact absurd h hkeep

/-- Every step keeps the property that encoded bitfields in the list have no dependsOn. -/
theorem parseChild_bitfield_dependsOn
    (getOverriddenTypeData : Encodable → Option Encodable → Bool) (st : ParseChildrenState)
    (child : Option Encodable)
    (h : ∀ e ∈ st.structure_.encodables,
      e.isNotEncoded = false → e.isBitfield = true → e.dependsOn = "") :
    ∀ e ∈ (parseChild getOverriddenTypeData st child).structure_.encodables,
      e.isNotEncoded = false → e.isBitfield = true → e.dependsOn = "" := by
  cases child with
  | none => exact h
  | some c =>
    have hcleared : ∀ e ∈ clearAllDefaults st.structure_.encodables,
        e.isNotEncoded = false → e.isBitfield = true → e.dependsOn = "" := by
      intro e he
      obtain ⟨a, ha, rfl⟩ := mem_clearAllDefaults he
      exact h a ha
    have hnew : (appendedChild st.structure_.encodables c).isNotEncoded = false →
        (appendedChild st.structure_.encodables c).isBitfield = true →
        (appendedChild st.structure_.encodables c).dependsOn = "" := by
      obtain ⟨hframe, _, _, hd, _⟩ := kept_child_spec st.structure_.encodables c
        (appendedChild st.structure_.encodables c) (Or.inl rfl)
      intro h1 h2
      have h1c : c.isNotEncoded = false := by rw [hframe] at h1; exact h1
      have h2c : c.isBitfield = true := by rw [hframe] at h2; exact h2
      rw [hd]
      by_cases hdep : c.dependsOn = ""
      · simp [hdep]
      · simp [h1c, h2c, hdep]
    rcases parseChild_some_cases getOverriddenTypeData st c with ⟨heq, _⟩ | ⟨_, heq | heq⟩
    · rw [heq]
      exact h
    · rw [heq]
      intro e he
      rcases List.mem_append.mp he with he | he
      · exact h e he
      · rw [List.mem_singleton] at he
        subst he
        exact hnew
    · rw [heq]
      intro e he
      rcases List.mem_append.mp he with he | he
      · exact hcleared e he
      · rw [List.mem_singleton] at he
        subst he
        exact hnew

theorem trackFieldMetadata_ownAttributes (s : ProtocolStructure) (f : Encodable) :
    (trackFieldMetadata s f).ownAttributes = s.ownAttributes := by
  unfold trackFieldMetadata
  simp only
  split_ifs <;> rfl

theorem trackFieldDefaults_ownAttributes (s : ProtocolStructure) (f : Encodable) :
    (trackFieldDefaults s f).ownAttributes = s.ownAttributes := by
  unfold trackFieldDefaults
  split_ifs <;> rfl

theorem trackStructureMetadata_ownAttributes (s : ProtocolStructure) (e : Encodable) :
    (trackStructureMetadata s e).ownAttributes = s.ownAttributes := by
  unfold trackStructureMetadata
  simp only
  split_ifs <;> rfl

theorem finishChild_ownAttributes (s : ProtocolStructure) (e : Encodable) :
    (finishChild s e).structure_.ownAttributes = s.ownAttributes := by
  unfold finishChild
  simp only
  split_ifs <;> rfl

/-- A step of `parseChildren` does not touch the attributes of the structure itself. -/
theorem parseChild_ownAttributes
    (getOverriddenTypeData : Encodable → Option Encodable → Bool) (st : ParseChildrenState)
    (child : Option Encodable) :
    (parseChild getOverriddenTypeData st child).structure_.ownAttributes =
      st.structure_.ownAttributes := by
  unfold parseChild
  cases child with
  | none => rfl
  | some c =>
    simp only
    split_ifs
    · rfl
    · rfl
    · rw [finishChild_ownAttributes, trackFieldDefaults_ownAttributes,
        trackFieldMetadata_ownAttributes]
    · rw [finishChild_ownAttributes, trackStructureMetadata_ownAttributes]

/-- `parseChildren` does not touch the attributes of the structure itself. -/
theorem parseChildren_ownAttributes
    (getOverriddenTypeData : Encodable → Option Encodable → Bool) (s : ProtocolStructure)
    (children : List (Option Encodable)) :
    (s.parseChildren getOverriddenTypeData children).ownAttributes = s.ownAttributes := by
  unfold ProtocolStructure.parseChildren
  exact parseChildrenLoop_invariant getOverriddenTypeData
    (fun st => st.structure_.ownAttributes = s.ownAttributes)
    (fun st c hst => (parseChild_ownAttributes getOverriddenTypeData st c).trans hst)
    { structure_ := s, prevEncodable := none } rfl children

/-- The attributes of the structure after `parse` are those left by the guards. -/
theorem parse_ownAttributes
    (getOverriddenTypeData : Encodable → Option Encodable → Bool) (s : ProtocolStructure)
    (map : Attributes) (children : List (Option Encodable)) :
    (s.parse getOverriddenTypeData map children).ownAttributes =
      (s.parseAttributes map).ownAttributes := by
  rw [parse_eq]
  exact parseChildren_ownAttributes getOverriddenTypeData (s.parseAttributes map) children

/-- The guards of `parse` (lines 133-161) in closed form. -/
theorem parseAttributes_guards (s : ProtocolStructure) (map : Attributes) :
    (s.parseAttributes map).array = map.array ∧
    (s.parseAttributes map).variableArray =
      (if map.array = "" then "" else map.variableArray) ∧
    (s.parseAttributes map).dependsOn =
      (if (s.parseAttributes map).variableArray = "" then map.dependsOn else "") ∧
    (s.parseAttributes map).dependsOnValue =
      (if (s.parseAttributes map).dependsOn = "" then "" else map.dependsOnValue) ∧
    (s.parseAttributes map).dependsOnCompare =
      (if (s.parseAttributes map).dependsOnValue = "" then ""
       else if map.dependsOnCompare = "" then "==" else map.dependsOnCompare) := by
  unfold ProtocolStructure.parseAttributes
  by_cases h1 : map.array = "" <;> by_cases h2 : map.variableArray = "" <;>
    by_cases h3 : map.dependsOn = "" <;> by_cases h4 : map.dependsOnValue = "" <;>
    by_cases h5 : map.dependsOnCompare = "" <;> by_cases h6 : map.name = "" <;>
    by_cases h7 : map.title = "" <;> simp [h1, h2, h3, h4, h5, h6, h7]

/-- The guarded attributes after `parse`, in closed form. -/
theorem parse_guards
    (getOverriddenTypeData : Encodable → Option Encodable → Bool) (s : ProtocolStructure)
    (map : Attributes) (children : List (Option Encodable)) :
    (s.parse getOverriddenTypeData map children).array = map.array ∧
    (s.parse getOverriddenTypeData map children).variableArray =
      (if map.array = "" then "" else map.variableArray) ∧
    (s.parse getOverriddenTypeData map children).dependsOn =
      (if (s.parse getOverriddenTypeData map children).variableArray = "" then map.dependsOn
       else "") ∧
    (s.parse getOverriddenTypeData map children).dependsOnValue =
      (if (s.parse getOverriddenTypeData map children).dependsOn = "" then ""
       else map.dependsOnValue) ∧
    (s.parse getOverriddenTypeData map children).dependsOnCompare =
      (if (s.parse getOverriddenTypeData map children).dependsOnValue = "" then ""
       else if map.dependsOnCompare = "" then "==" else map.dependsOnCompare) := by
  have h := parse_ownAttributes getOverriddenTypeData s map children
  unfold ProtocolStructure.ownAttributes at h
  simp only [Prod.mk.injEq] at h
  obtain ⟨_, _, h3, h4, h5, h6, h7⟩ := h
  rw [h3, h4, h5, h6, h7]
  exact parseAttributes_guards s map

/-- The statement of `parseChildren_clear_flag_iff` for any structure that starts without
children and with the flag unset. -/
theorem parseChildren_fresh_flag_iff
    (getOverriddenTypeData : Encodable → Option Encodable → Bool)
    (flag : ProtocolStructure → Bool) (fieldUse structureUse : Encodable → Bool)
    (hfieldClear : ∀ e, fieldUse e.clearDefaults = fieldUse e)
    (hstructureClear : ∀ e, structureUse e.clearDefaults = structureUse e)
    (hfield : ∀ e va v2 d dv dc,
      fieldUse { e with variableArray := va, variable2dArray := v2, dependsOn := d,
                        dependsOnValue := dv, dependsOnCompare := dc } = fieldUse e)
    (hstructure : ∀ e va v2 d dv dc,
      structureUse { e with variableArray := va, variable2dArray := v2, dependsOn := d,
                            dependsOnValue := dv, dependsOnCompare := dc } = structureUse e)
    (hstep : ∀ st c, ¬ overrideFails getOverriddenTypeData st.structure_.encodables c →
      flag (parseChild getOverriddenTypeData st (some c)).structure_ =
        (flag st.structure_ || iteratorContribution fieldUse structureUse c))
    (s : ProtocolStructure) (hempty : s.encodables = []) (hfresh : flag s = false)
    (children : List (Option Encodable)) :
    flag (s.parseChildren getOverriddenTypeData children) = true ↔
      ∃ e ∈ (s.parseChildren getOverriddenTypeData children).encodables,
        e.isNotEncoded = false ∧
          ((e.isField = true ∧ fieldUse e = true) ∨
            (e.isField = false ∧ structureUse e = true)) := by
  have h := parseChildrenLoop_flag_iff getOverriddenTypeData flag
    (iteratorContribution fieldUse structureUse)
    (fun e => by
      unfold iteratorContribution
      rw [hfieldClear, hstructureClear]
      rfl)
    (iteratorContribution_appendedChild fieldUse structureUse hfield hstructure)
    hstep { structure_ := s, prevEncodable := none } children
    (by
      show flag s = true ↔ ∃ e ∈ s.encodables, _
      rw [hfresh, hempty]
      simp)
  unfold ProtocolStructure.parseChildren
  rw [h]
  constructor
  · rintro ⟨e, he, hc⟩
    exact ⟨e, he, (iteratorContribution_eq_true_iff fieldUse structureUse e).mp hc⟩
  · rintro ⟨e, he, hc⟩
    exact ⟨e, he, (iteratorContribution_eq_true_iff fieldUse structureUse e).mpr hc⟩

theorem trackFieldMetadata_hasinit (s : ProtocolStructure) (f : Encodable) :
    (trackFieldMetadata s f).hasinit = s.hasinit ∧
      (trackFieldMetadata s f).hasverify = s.hasverify := by
  unfold trackFieldMetadata
  simp only
  split_ifs <;> exact ⟨rfl, rfl⟩

theorem trackFieldDefaults_hasinit (s : ProtocolStructure) (f : Encodable) :
    (trackFieldDefaults s f).hasinit = s.hasinit ∧
      (trackFieldDefaults s f).hasverify = s.hasverify := by
  unfold trackFieldDefaults
  split_ifs <;> exact ⟨rfl, rfl⟩

theorem trackStructureMetadata_hasinit (s : ProtocolStructure) (e : Encodable) :
    (trackStructureMetadata s e).hasinit = s.hasinit ∧
      (trackStructureMetadata s e).hasverify = s.hasverify := by
  unfold trackStructureMetadata
  simp only
  split_ifs <;> exact ⟨rfl, rfl⟩

theorem finishChild_hasinit (s : ProtocolStructure) (e : Encodable) :
    (finishChild s e).structure_.hasinit = (s.hasinit || e.hasInit) ∧
      (finishChild s e).structure_.hasverify = (s.hasverify || e.hasVerify) := by
  obtain ⟨va, v2, d, dv, dc, hfr⟩ := resolveReferences_frame s.encodables e
  have h1 : (resolveReferences s.encodables e).hasInit = e.hasInit := by rw [hfr]
  have h2 : (resolveReferences s.encodables e).hasVerify = e.hasVerify := by rw [hfr]
  unfold finishChild
  simp only
  rw [h1, h2]
  split_ifs <;> exact ⟨rfl, rfl⟩

/-- One step on `hasinit` and `hasverify`: a child that is kept and encoded ORs in what its
`hasInit()` and `hasVerify()` answer, be it a field or a nested structure. -/
theorem parseChild_some_hasinit
    (getOverriddenTypeData : Encodable → Option Encodable → Bool) (st : ParseChildrenState)
    (c : Encodable)
    (hkeep : ¬ overrideFails getOverriddenTypeData st.structure_.encodables c) :
    (parseChild getOverriddenTypeData st (some c)).structure_.hasinit =
      (st.structure_.hasinit ||
        iteratorContribution Encodable.hasInit Encodable.hasInit c) ∧
    (parseChild getOverriddenTypeData st (some c)).structure_.hasverify =
      (st.structure_.hasverify ||
        iteratorContribution Encodable.hasVerify Encodable.hasVerify c) := by
  unfold overrideFails at hkeep
  unfold parseChild iteratorContribution
  by_cases hne : c.isNotEncoded = true
  · simp [hne]
  · have hne0 : c.isNotEncoded = false := by simpa using hne
    by_cases hf : c.isField = true
    · have ho : (c.overridesPreviousEncodable &&
          !findOverridden getOverriddenTypeData st.structure_.encodables c) = false := by
        cases h1 : c.overridesPreviousEncodable <;>
          cases h2 : findOverridden getOverriddenTypeData st.structure_.encodables c <;>
          simp_all
      obtain ⟨a1, a2⟩ := finishChild_hasinit
        (trackFieldDefaults (trackFieldMetadata st.structure_ c) c) c
      obtain ⟨b1, b2⟩ := trackFieldDefaults_hasinit (trackFieldMetadata st.structure_ c) c
      obtain ⟨c1, c2⟩ := trackFieldMetadata_hasinit st.structure_ c
      simp only [hne0, hf, ho, if_true, if_false, Bool.false_eq_true, Bool.not_false,
        Bool.true_and]
      exact ⟨by rw [a1, b1, c1], by rw [a2, b2, c2]⟩
    · have hf0 : c.isField = false := by simpa using hf
      obtain ⟨a1, a2⟩ := finishChild_hasinit (trackStructureMetadata st.structure_ c) c
      obtain ⟨c1, c2⟩ := trackStructureMetadata_hasinit st.structure_ c
      simp only [hne0, hf0, if_false, Bool.false_eq_true, Bool.not_false, Bool.true_and]
      exact ⟨by rw [a1, c1], by rw [a2, c2]⟩

/-- After `parseChildren` on a structure that starts without children and with `hasinit`
unset, `hasinit` is set exactly when an encoded child in the list reports `hasInit()`. -/
theorem parseChildren_fresh_hasinit
    (getOverriddenTypeData : Encodable → Option Encodable → Bool) (s : ProtocolStructure)
    (hempty : s.encodables = []) (hfresh : s.hasinit = false)
    (children : List (Option Encodable)) :
    (s.parseChildren getOverriddenTypeData children).hasinit = true ↔
      ∃ e ∈ (s.parseChildren getOverriddenTypeData children).encodables,
        e.isNotEncoded = false ∧
          ((e.isField = true ∧ e.hasInit = true) ∨ (e.isField = false ∧ e.hasInit = true)) :=
  parseChildren_fresh_flag_iff getOverriddenTypeData ProtocolStructure.hasinit
    Encodable.hasInit Encodable.hasInit (fun _ => rfl) (fun _ => rfl)
    (fun _ _ _ _ _ _ => rfl) (fun _ _ _ _ _ _ => rfl)
    (fun st c hk => (parseChild_some_hasinit getOverriddenTypeData st c hk).1)
    s hempty hfresh children

/-- The same for `hasverify` and `hasVerify()`. -/
theorem parseChildren_fresh_hasverify
    (getOverriddenTypeData : Encodable → Option Encodable → Bool) (s : ProtocolStructure)
    (hempty : s.encodables = []) (hfresh : s.hasverify = false)
    (children : List (Option Encodable)) :
    (s.parseChildren getOverriddenTypeData children).hasverify = true ↔
      ∃ e ∈ (s.parseChildren getOverriddenTypeData children).encodables,
        e.isNotEncoded = false ∧
          ((e.isField = true ∧ e.hasVerify = true) ∨
            (e.isField = false ∧ e.hasVerify = true)) :=
  parseChildren_fresh_flag_iff getOverriddenTypeData ProtocolStructure.hasverify
    Encodable.hasVerify Encodable.hasVerify (fun _ => rfl) (fun _ => rfl)
    (fun _ _ _ _ _ _ => rfl) (fun _ _ _ _ _ _ => rfl)
    (fun st c hk => (parseChild_some_hasinit getOverriddenTypeData st c hk).2)
    s hempty hfresh children

/-- The flags and the child list that `parseAttributes` leaves alone. -/
theorem parseAttributes_fresh (s : ProtocolStructure) (map : Attributes) :
    (s.parseAttributes map).encodables = s.encodables ∧
    (s.parseAttributes map).hasinit = s.hasinit ∧
    (s.parseAttributes map).hasverify = s.hasverify := by
  unfold ProtocolStructure.parseAttributes
  by_cases h1 : map.array = "" <;> by_cases h2 : map.variableArray = "" <;>
    by_cases h3 : map.dependsOn = "" <;> by_cases h4 : map.dependsOnValue = "" <;>
    by_cases h5 : map.dependsOnCompare = "" <;> by_cases h6 : map.name = "" <;>
    by_cases h7 : map.title = "" <;> simp [h1, h2, h3, h4, h5, h6, h7]

/-- A nested structure handed to `parse` as a child is kept in the child list, encoded, with
the `hasInit()` and `hasVerify()` answers it had. -/
theorem parse_keeps_nested_structure
    (getOverriddenTypeData : Encodable → Option Encodable → Bool) (s : ProtocolStructure)
    (map : Attributes) (pre post : List (Option Encodable)) (x : Encodable)
    (hfield : x.isField = false) (hencoded : x.isNotEncoded = false) :
    ∃ kept ∈ (s.parse getOverriddenTypeData map (pre ++ some x :: post)).encodables,
      kept.isNotEncoded = false ∧ kept.isField = false ∧ kept.hasInit = x.hasInit ∧
        kept.hasVerify = x.hasVerify := by
  rw [parse_eq]
  show ∃ kept ∈ ((s.parseAttributes map).parseChildren getOverriddenTypeData
      (pre ++ some x :: post)).encodables, _
  unfold ProtocolStructure.parseChildren
  rcases parseChildrenLoop_child_fate getOverriddenTypeData
      { structure_ := s.parseAttributes map, prevEncodable := none } pre post x with
    ⟨hfail, _⟩ | ⟨_, before, kept, after, hout, _, hkept⟩
  · unfold overrideFails at hfail
    rw [hfield] at hfail
    exact absurd hfail.2.1 (by simp)
  · obtain ⟨hframe, _⟩ := kept_child_spec _ x kept hkept
    refine ⟨kept, ?_, ?_, ?_, ?_, ?_⟩
    · rw [hout]
      exact List.mem_append.mpr (Or.inr (List.mem_cons_self _ _))
    · rw [hframe]
      exact hencoded
    · rw [hframe]
      exact hfield
    · rw [hframe]
    · rw [hframe]

/-! ## Facts about the toggles -/

mutual
/-- `setCompare` rewrites the `compare` flag of every structure of the tree and nothing
else in them. -/
theorem EncodableObject.setCompare_structures (b : Bool) : ∀ t : EncodableObject,
    (t.setCompare b).structures = t.structures.map fun s => { s with compare := b }
  | EncodableObject.field e => by
    simp [EncodableObject.setCompare, EncodableObject.structures]
  | EncodableObject.structure_ s typeName structName cs => by
    simp [EncodableObject.setCompare, EncodableObject.structures,
      setCompareChildren_structures b cs]
/-- The same for the loop over a child list. -/
theorem setCompareChildren_structures (b : Bool) : ∀ l : List EncodableObject,
    structuresOfChildren (setCompareChildren b l) =
      (structuresOfChildren l).map fun s => { s with compare := b }
  | [] => by simp [setCompareChildren, structuresOfChildren]
  | c :: cs => by
    simp [setCompareChildren, structuresOfChildren,
      EncodableObject.setCompare_structures b c, setCompareChildren_structures b cs]
end

mutual
/-- `setPrint` rewrites the `print` flag of every structure of the tree and nothing else in
them. -/
theorem EncodableObject.setPrint_structures (b : Bool) : ∀ t : EncodableObject,
    (t.setPrint b).structures = t.structures.map fun s => { s with print := b }
  | EncodableObject.field e => by
    simp [EncodableObject.setPrint, EncodableObject.structures]
  | EncodableObject.structure_ s typeName structName cs => by
    simp [EncodableObject.setPrint, EncodableObject.structures,
      setPrintChildren_structures b cs]
/-- The same for the loop over a child list. -/
theorem setPrintChildren_structures (b : Bool) : ∀ l : List EncodableObject,
    structuresOfChildren (setPrintChildren b l) =
      (structuresOfChildren l).map fun s => { s with print := b }
  | [] => by simp [setPrintChildren, structuresOfChildren]
  | c :: cs => by
    simp [setPrintChildren, structuresOfChildren,
      EncodableObject.setPrint_structures b c, setPrintChildren_structures b cs]
end

mutual
/-- `setMapEncode` rewrites the `mapEncode` flag of every structure of the tree and nothing
else in them. -/
theorem EncodableObject.setMapEncode_structures (b : Bool) : ∀ t : EncodableObject,
    (t.setMapEncode b).structures = t.structures.map fun s => { s with mapEncode := b }
  | EncodableObject.field e => by
    simp [EncodableObject.setMapEncode, EncodableObject.structures]
  | EncodableObject.structure_ s typeName structName cs => by
    simp [EncodableObject.setMapEncode, EncodableObject.structures,
      setMapEncodeChildren_structures b cs]
/-- The same for the loop over a child list. -/
theorem setMapEncodeChildren_structures (b : Bool) : ∀ l : List EncodableObject,
    structuresOfChildren (setMapEncodeChildren b l) =
      (structuresOfChildren l).map fun s => { s with mapEncode := b }
  | [] => by simp [setMapEncodeChildren, structuresOfChildren]
  | c :: cs => by
    simp [setMapEncodeChildren, structuresOfChildren,
      EncodableObject.setMapEncode_structures b c, setMapEncodeChildren_structures b cs]
end

/-! ## Facts about the generators -/

theorem String.append_ne_empty_right (a b : String) (hb : b ≠ "") : a ++ b ≠ "" := by
  intro h
  apply hb
  have h1 := congrArg String.data h
  rw [String.data_append] at h1
  apply String.ext
  simp at h1
  exact h1.2

theorem ite_ne_empty {c : Prop} [Decidable c] {a b : String} (ha : a ≠ "") (hb : b ≠ "") :
    (if c then a else b) ≠ "" := by
  split_ifs
  · exact ha
  · exact hb

/-- The guard shared by the compare, print and map generators, as a proposition. -/
theorem guard_eq_true_iff (toggle : Bool) (n : Nat) :
    (!toggle || n == 0) = true ↔ (toggle = false ∨ n = 0) := by
  cases toggle <;> simp

theorem getComparisonString_eq_empty_iff (g : Generator) (s : ProtocolStructure)
    (typeName : String) :
    s.getComparisonString g typeName = "" ↔
      (s.compare = false ∨ s.getNumberOfDecodeParameters = 0) := by
  rw [← guard_eq_true_iff]
  unfold ProtocolStructure.getComparisonString
  constructor
  · intro h
    by_contra hg
    rw [if_neg hg] at h
    revert h
    exact ite_ne_empty
      (String.append_ne_empty_right _ _ (String.append_ne_empty_right _ _ (by decide)))
      (String.append_ne_empty_right _ _ (String.append_ne_empty_right _ _ (by decide)))
  · intro hg
    rw [if_pos hg]

theorem getTextPrintString_eq_empty_iff (g : Generator) (s : ProtocolStructure)
    (typeName : String) :
    s.getTextPrintString g typeName = "" ↔
      (s.print = false ∨ s.getNumberOfDecodeParameters = 0) := by
  rw [← guard_eq_true_iff]
  unfold ProtocolStructure.getTextPrintString
  constructor
  · intro h
    by_contra hg
    rw [if_neg hg] at h
    revert h
    exact String.append_ne_empty_right _ _ (by decide)
  · intro hg
    rw [if_pos hg]

theorem getTextReadString_eq_empty_iff (g : Generator) (s : ProtocolStructure)
    (typeName : String) :
    s.getTextReadString g typeName = "" ↔
      (s.print = false ∨ s.getNumberOfDecodeParameters = 0) := by
  rw [← guard_eq_true_iff]
  unfold ProtocolStructure.getTextReadString
  constructor
  · intro h
    by_contra hg
    rw [if_neg hg] at h
    revert h
    exact String.append_ne_empty_right _ _ (by decide)
  · intro hg
    rw [if_pos hg]

theorem getMapEncodeString_eq_empty_iff (g : Generator) (s : ProtocolStructure)
    (typeName : String) :
    s.getMapEncodeString g typeName = "" ↔
      (s.mapEncode = false ∨ s.getNumberOfDecodeParameters = 0) := by
  rw [← guard_eq_true_iff]
  unfold ProtocolStructure.getMapEncodeString
  constructor
  · intro h
    by_contra hg
    rw [if_neg hg] at h
    revert h
    exact String.append_ne_empty_right _ _ (by decide)
  · intro hg
    rw [if_pos hg]

theorem getMapDecodeString_eq_empty_iff (g : Generator) (s : ProtocolStructure)
    (typeName : String) :
    s.getMapDecodeString g typeName = "" ↔
      (s.mapEncode = false ∨ s.getNumberOfDecodeParameters = 0) := by
  rw [← guard_eq_true_iff]
  unfold ProtocolStructure.getMapDecodeString
  constructor
  · intro h
    by_contra hg
    rw [if_neg hg] at h
    revert h
    exact String.append_ne_empty_right _ _ (by decide)
  · intro hg
    rw [if_pos hg]

theorem getComparisonFunctionPrototype_eq_empty_iff (g : Generator) (spacing : String)
    (includeChildren : Bool) (s : ProtocolStructure) (typeName structName : String)
    (encodables : List EncodableObject) :
    (EncodableObject.structure_ s typeName structName encodables).getComparisonFunctionPrototype
        g spacing includeChildren = "" ↔
      (s.compare = false ∨ s.getNumberOfDecodeParameters = 0) := by
  rw [← guard_eq_true_iff]
  unfold EncodableObject.getComparisonFunctionPrototype
  constructor
  · intro h
    by_contra hg
    rw [if_neg hg] at h
    revert h
    exact String.append_ne_empty_right _ _ (String.append_ne_empty_right _ _ (by decide))
  · intro hg
    rw [if_pos hg]

theorem getTextPrintFunctionPrototype_eq_empty_iff (g : Generator) (spacing : String)
    (includeChildren : Bool) (s : ProtocolStructure) (typeName structName : String)
    (encodables : List EncodableObject) :
    (EncodableObject.structure_ s typeName structName encodables).getTextPrintFunctionPrototype
        g spacing includeChildren = "" ↔
      (s.print = false ∨ s.getNumberOfDecodeParameters = 0) := by
  rw [← guard_eq_true_iff]
  unfold EncodableObject.getTextPrintFunctionPrototype
  constructor
  · intro h
    by_contra hg
    rw [if_neg hg] at h
    revert h
    exact String.append_ne_empty_right _ _ (String.append_ne_empty_right _ _ (by decide))
  · intro hg
    rw [if_pos hg]

theorem getTextReadFunctionPrototype_eq_empty_iff (g : Generator) (spacing : String)
    (includeChildren : Bool) (s : ProtocolStructure) (typeName structName : String)
    (encodables : List EncodableObject) :
    (EncodableObject.structure_ s typeName structName encodables).getTextReadFunctionPrototype
        g spacing includeChildren = "" ↔
      (s.print = false ∨ s.getNumberOfDecodeParameters = 0) := by
  rw [← guard_eq_true_iff]
  unfold EncodableObject.getTextReadFunctionPrototype
  constructor
  · intro h
    by_contra hg
    rw [if_neg hg] at h
    revert h
    exact String.append_ne_empty_right _ _ (String.append_ne_empty_right _ _ (by decide))
  · intro hg
    rw [if_pos hg]

theorem getMapEncodeFunctionPrototype_eq_empty_iff (g : Generator) (spacing : String)
    (includeChildren : Bool) (s : ProtocolStructure) (typeName structName : String)
    (encodables : List EncodableObject) :
    (EncodableObject.structure_ s typeName structName encodables).getMapEncodeFunctionPrototype
        g spacing includeChildren = "" ↔
      (s.mapEncode = false ∨ s.getNumberOfDecodeParameters = 0) := by
  rw [← guard_eq_true_iff]
  unfold EncodableObject.getMapEncodeFunctionPrototype
  constructor
  · intro h
    by_contra hg
    rw [if_neg hg] at h
    revert h
    exact String.append_ne_empty_right _ _ (String.append_ne_empty_right _ _ (by decide))
  · intro hg
    rw [if_pos hg]

theorem getMapDecodeFunctionPrototype_eq_empty_iff (g : Generator) (spacing : String)
    (includeChildren : Bool) (s : ProtocolStructure) (typeName structName : String)
    (encodables : List EncodableObject) :
    (EncodableObject.structure_ s typeName structName encodables).getMapDecodeFunctionPrototype
        g spacing includeChildren = "" ↔
      (s.mapEncode = false ∨ s.getNumberOfDecodeParameters = 0) := by
  rw [← guard_eq_true_iff]
  unfold EncodableObject.getMapDecodeFunctionPrototype
  constructor
  · intro h
    by_contra hg
    rw [if_neg hg] at h
    revert h
    exact String.append_ne_empty_right _ _ (String.append_ne_empty_right _ _ (by decide))
  · intro hg
    rw [if_pos hg]

theorem getComparisonFunctionBody_eq_empty_iff (g : Generator) (includeChildren : Bool)
    (s : ProtocolStructure) (typeName structName : String)
    (encodables : List EncodableObject) :
    (EncodableObject.structure_ s typeName structName encodables).getComparisonFunctionBody
        g includeChildren = "" ↔
      (s.compare = false ∨ s.getNumberOfDecodeParameters = 0) := by
  rw [← guard_eq_true_iff]
  unfold EncodableObject.getComparisonFunctionBody
  constructor
  · intro h
    by_contra hg
    rw [if_neg hg] at h
    revert h
    exact ite_ne_empty
      (String.append_ne_empty_right _ _ (String.append_ne_empty_right _ _ (by decide)))
      (String.append_ne_empty_right _ _ (String.append_ne_empty_right _ _ (by decide)))
  · intro hg
    rw [if_pos hg]

theorem getTextPrintFunctionBody_eq_empty_iff (g : Generator) (includeChildren : Bool)
    (s : ProtocolStructure) (typeName structName : String)
    (encodables : List EncodableObject) :
    (EncodableObject.structure_ s typeName structName encodables).getTextPrintFunctionBody
        g includeChildren = "" ↔
      (s.print = false ∨ s.getNumberOfDecodeParameters = 0) := by
  rw [← guard_eq_true_iff]
  unfold EncodableObject.getTextPrintFunctionBody
  constructor
  · intro h
    by_contra hg
    rw [if_neg hg] at h
    revert h
    exact ite_ne_empty
      (String.append_ne_empty_right _ _ (String.append_ne_empty_right _ _ (by decide)))
      (String.append_ne_empty_right _ _ (String.append_ne_empty_right _ _ (by decide)))
  · intro hg
    rw [if_pos hg]

theorem getTextReadFunctionBody_eq_empty_iff (g : Generator) (includeChildren : Bool)
    (s : ProtocolStructure) (typeName structName : String)
    (encodables : List EncodableObject) :
    (EncodableObject.structure_ s typeName structName encodables).getTextReadFunctionBody
        g includeChildren = "" ↔
      (s.print = false ∨ s.getNumberOfDecodeParameters = 0) := by
  rw [← guard_eq_true_iff]
  unfold EncodableObject.getTextReadFunctionBody
  constructor
  · intro h
    by_contra hg
    rw [if_neg hg] at h
    revert h
    exact ite_ne_empty
      (String.append_ne_empty_right _ _ (String.append_ne_empty_right _ _ (by decide)))
      (String.append_ne_empty_right _ _ (String.append_ne_empty_right _ _ (by decide)))
  · intro hg
    rw [if_pos hg]

theorem getMapEncodeFunctionBody_eq_empty_iff (g : Generator) (includeChildren : Bool)
    (s : ProtocolStructure) (typeName structName : String)
    (encodables : List EncodableObject) :
    (EncodableObject.structure_ s typeName structName encodables).getMapEncodeFunctionBody
        g includeChildren = "" ↔
      (s.mapEncode = false ∨ s.getNumberOfDecodeParameters = 0) := by
  rw [← guard_eq_true_iff]
  unfold EncodableObject.getMapEncodeFunctionBody
  constructor
  · intro h
    by_contra hg
    rw [if_neg hg] at h
    revert h
    exact ite_ne_empty
      (String.append_ne_empty_right _ _ (String.append_ne_empty_right _ _ (by decide)))
      (String.append_ne_empty_right _ _ (String.append_ne_empty_right _ _ (by decide)))
  · intro hg
    rw [if_pos hg]

theorem getMapDecodeFunctionBody_eq_empty_iff (g : Generator) (includeChildren : Bool)
    (s : ProtocolStructure) (typeName structName : String)
    (encodables : List EncodableObject) :
    (EncodableObject.structure_ s typeName structName encodables).getMapDecodeFunctionBody
        g includeChildren = "" ↔
      (s.mapEncode = false ∨ s.getNumberOfDecodeParameters = 0) := by
  rw [← guard_eq_true_iff]
  unfold EncodableObject.getMapDecodeFunctionBody
  constructor
  · intro h
    by_contra hg
    rw [if_neg hg] at h
    revert h
    exact ite_ne_empty
      (String.append_ne_empty_right _ _ (String.append_ne_empty_right _ _ (by decide)))
      (String.append_ne_empty_right _ _ (String.append_ne_empty_right _ _ (by decide)))
  · intro hg
    rw [if_pos hg]

/-! ## Facts about the verify generators -/

theorem getVerifyString_eq_empty_iff (g : Generator) (s : ProtocolStructure)
    (typeName : String) :
    s.getVerifyString g typeName = "" ↔ s.hasverify = false := by
  rw [← Bool.not_eq_true']
  unfold ProtocolStructure.getVerifyString
  constructor
  · intro h
    by_contra hg
    rw [if_neg hg] at h
    revert h
    exact ite_ne_empty
      (String.append_ne_empty_right _ _ (String.append_ne_empty_right _ _ (by decide)))
      (String.append_ne_empty_right _ _ (String.append_ne_empty_right _ _ (by decide)))
  · intro hg
    rw [if_pos hg]

theorem getVerifyFunctionPrototype_eq_empty_iff (g : Generator) (s : ProtocolStructure)
    (typeName structName spacing : String) (includeChildren : Bool)
    (encodables : List EncodableObject) :
    (EncodableObject.structure_ s typeName structName encodables).getVerifyFunctionPrototype g
        spacing includeChildren = "" ↔ s.hasverify = false := by
  rw [← Bool.not_eq_true']
  unfold EncodableObject.getVerifyFunctionPrototype ProtocolStructure.hasVerify
  constructor
  · intro h
    by_contra hg
    rw [if_neg hg] at h
    revert h
    exact String.append_ne_empty_right _ _ (String.append_ne_empty_right _ _ (by decide))
  · intro hg
    rw [if_pos hg]

theorem getVerifyFunctionBody_eq_empty_iff (g : Generator) (s : ProtocolStructure)
    (typeName structName : String) (includeChildren : Bool)
    (encodables : List EncodableObject) :
    (EncodableObject.structure_ s typeName structName encodables).getVerifyFunctionBody g
        includeChildren = "" ↔ s.hasverify = false := by
  rw [← Bool.not_eq_true']
  unfold EncodableObject.getVerifyFunctionBody ProtocolStructure.hasVerify
  constructor
  · intro h
    by_contra hg
    rw [if_neg hg] at h
    revert h
    exact ite_ne_empty
      (String.append_ne_empty_right _ _ (String.append_ne_empty_right _ _ (by decide)))
      (String.append_ne_empty_right _ _ (String.append_ne_empty_right _ _ (by decide)))
  · intro hg
    rw [if_pos hg]

/-- A structure built by `parseChildren` whose children that report verification data are
in memory has a decode parameter as soon as it has verification. -/
theorem parseChildren_hasverify_decodeParameters
    (getOverriddenTypeData : Encodable → Option Encodable → Bool)
    (children : List (Option Encodable))
    (hmem : ∀ e ∈ (ProtocolStructure.clear.parseChildren getOverriddenTypeData
        children).encodables,
      e.isNotEncoded = false → e.hasVerify = true → e.isNotInMemory = false)
    (hzero : (ProtocolStructure.clear.parseChildren getOverriddenTypeData
        children).getNumberOfDecodeParameters = 0) :
    (ProtocolStructure.clear.parseChildren getOverriddenTypeData children).hasverify = false := by
  by_contra hv
  rw [Bool.not_eq_false] at hv
  obtain ⟨e, he, hne, hver⟩ :=
    (parseChildren_fresh_hasverify getOverriddenTypeData ProtocolStructure.clear rfl rfl
      children).mp hv
  have hver2 : e.hasVerify = true := by
    rcases hver with h | h
    · exact h.2
    · exact h.2
  have hm := hmem e he hne hver2
  unfold ProtocolStructure.getNumberOfDecodeParameters at hzero
  rw [List.countP_eq_zero] at hzero
  have := hzero e he
  simp [hne, hm] at this

/-! ## The shape of the encode and decode fragments -/

theorem is2dArray_and_isArray (s : ProtocolStructure) :
    (s.isArray && s.is2dArray) = s.is2dArray := by
  unfold ProtocolStructure.is2dArray
  cases s.isArray <;> simp

theorem getEncodeString_guarded (g : Generator) (s : ProtocolStructure) (typeName : String)
    (isStructureMember : Bool) (h : s.dependsOn ≠ "") :
    s.getEncodeString g typeName isStructureMember =
      commentLine g s ++
        (g.TAB_IN ++ "if(" ++
          guardCondition s (g.getEncodeFieldAccessVariable s isStructureMember s.dependsOn) ++
          ")\n") ++
        (g.TAB_IN ++ "\x7b\n") ++
        g.getEncodeArrayIterationCode s (g.TAB_IN ++ g.TAB_IN) isStructureMember ++
        encodeStatement g typeName (g.getEncodeFieldAccess s isStructureMember)
          (statementSpacing g s (g.TAB_IN ++ g.TAB_IN)) ++
        (g.TAB_IN ++ "\x7d\n") := by
  unfold ProtocolStructure.getEncodeString commentLine guardCondition encodeStatement
    statementSpacing
  simp only [if_pos h, is2dArray_and_isArray]
  by_cases hv : s.dependsOnValue = "" <;> by_cases hl : g.language = Language.c_language <;>
    simp [hv, hl, String.append_assoc]

theorem getEncodeString_unguarded (g : Generator) (s : ProtocolStructure) (typeName : String)
    (isStructureMember : Bool) (h : s.dependsOn = "") :
    s.getEncodeString g typeName isStructureMember =
      commentLine g s ++ g.getEncodeArrayIterationCode s g.TAB_IN isStructureMember ++
        encodeStatement g typeName (g.getEncodeFieldAccess s isStructureMember)
          (statementSpacing g s g.TAB_IN) := by
  unfold ProtocolStructure.getEncodeString commentLine encodeStatement statementSpacing
  simp only [h, ne_eq, not_true_eq_false, if_false, is2dArray_and_isArray]
  by_cases hl : g.language = Language.c_language <;> simp [hl, String.append_assoc]

theorem getDecodeString_guarded (g : Generator) (s : ProtocolStructure) (typeName : String)
    (isStructureMember : Bool) (h : s.dependsOn ≠ "") :
    s.getDecodeString g typeName isStructureMember =
      commentLine g s ++
        (g.TAB_IN ++ "if(" ++
          guardCondition s (g.getDecodeFieldAccessVariable s isStructureMember s.dependsOn) ++
          ")\n") ++
        (g.TAB_IN ++ "\x7b\n") ++
        g.getDecodeArrayIterationCode s (g.TAB_IN ++ g.TAB_IN) isStructureMember ++
        decodeStatement g typeName (g.getEncodeFieldAccess s isStructureMember)
          (statementSpacing g s (g.TAB_IN ++ g.TAB_IN)) ++
        (g.TAB_IN ++ "\x7d\n") := by
  unfold ProtocolStructure.getDecodeString commentLine guardCondition decodeStatement
    statementSpacing
  simp only [if_pos h, is2dArray_and_isArray]
  by_cases hv : s.dependsOnValue = "" <;> by_cases hl : g.language = Language.c_language <;>
    simp [hv, hl, String.append_assoc]

theorem getDecodeString_unguarded (g : Generator) (s : ProtocolStructure) (typeName : String)
    (isStructureMember : Bool) (h : s.dependsOn = "") :
    s.getDecodeString g typeName isStructureMember =
      commentLine g s ++ g.getDecodeArrayIterationCode s g.TAB_IN isStructureMember ++
        decodeStatement g typeName (g.getEncodeFieldAccess s isStructureMember)
          (statementSpacing g s g.TAB_IN) := by
  unfold ProtocolStructure.getDecodeString commentLine decodeStatement statementSpacing
  simp only [h, ne_eq, not_true_eq_false, if_false, is2dArray_and_isArray]
  by_cases hl : g.language = Language.c_language <;> simp [hl, String.append_assoc]

/-! ## Lines of a text -/

theorem splitParts_cons_sep (sep : Char) (cs : List Char) :
    QString.splitParts sep (sep :: cs) =
      ([], (QString.splitParts sep cs).1 :: (QString.splitParts sep cs).2) := by
  simp [QString.splitParts]

theorem splitParts_cons_ne (sep c : Char) (cs : List Char) (h : c ≠ sep) :
    QString.splitParts sep (c :: cs) =
      (c :: (QString.splitParts sep cs).1, (QString.splitParts sep cs).2) := by
  simp [QString.splitParts, h]

theorem splitParts_append_sep (sep : Char) (a r : List Char) (h : sep ∉ a) :
    QString.splitParts sep (a ++ sep :: r) =
      (a, (QString.splitParts sep r).1 :: (QString.splitParts sep r).2) := by
  induction a with
  | nil => rw [List.nil_append, splitParts_cons_sep]
  | cons c a ih =>
    have hc : c ≠ sep := fun hc => h (by simp [hc])
    have ha : sep ∉ a := fun ha => h (by simp [ha])
    rw [List.cons_append, splitParts_cons_ne sep c _ hc, ih ha]

theorem splitSkipEmptyParts_append_sep (sep : Char) (a r : List Char) (h : sep ∉ a)
    (hne : a ≠ []) :
    QString.splitSkipEmptyParts sep (a ++ sep :: r) = a :: QString.splitSkipEmptyParts sep r := by
  unfold QString.splitSkipEmptyParts
  rw [splitParts_append_sep sep a r h]
  simp [hne]

theorem splitSkipEmptyParts_nil (sep : Char) : QString.splitSkipEmptyParts sep [] = [] := by
  simp [QString.splitSkipEmptyParts, QString.splitParts]

/-- What follows a separator splits on its own. -/
theorem splitParts_append_terminated (sep : Char) (x y : List Char) :
    (QString.splitParts sep (x ++ sep :: y)).1 = (QString.splitParts sep (x ++ [sep])).1 ∧
      (QString.splitParts sep (x ++ sep :: y)).2.filter (fun part => part ≠ []) =
        (QString.splitParts sep (x ++ [sep])).2.filter (fun part => part ≠ []) ++
          QString.splitSkipEmptyParts sep y := by
  induction x with
  | nil => simp [QString.splitParts, QString.splitSkipEmptyParts]
  | cons c x ih =>
    by_cases hc : c = sep
    · rw [List.cons_append, List.cons_append, hc, splitParts_cons_sep, splitParts_cons_sep]
      refine ⟨rfl, ?_⟩
      simp only [List.filter_cons, ih.1, ih.2]
      split_ifs <;> simp
    · rw [List.cons_append, List.cons_append, splitParts_cons_ne sep c _ hc,
        splitParts_cons_ne sep c _ hc]
      exact ⟨by rw [ih.1], ih.2⟩

theorem splitSkipEmptyParts_append_terminated (sep : Char) (x y : List Char) :
    QString.splitSkipEmptyParts sep (x ++ sep :: y) =
      QString.splitSkipEmptyParts sep (x ++ [sep]) ++ QString.splitSkipEmptyParts sep y := by
  have h := splitParts_append_terminated sep x y
  have e : ∀ t, QString.splitSkipEmptyParts sep t =
      ((QString.splitParts sep t).1 :: (QString.splitParts sep t).2).filter
        fun part => part ≠ [] := fun _ => rfl
  rw [e (x ++ sep :: y), e (x ++ [sep]), List.filter_cons, List.filter_cons, h.1, h.2]
  split_ifs <;> simp

theorem isBraceLine_nil (brace : Char) : isBraceLine brace [] = false := by
  simp [isBraceLine]

/-- A line holding a character that is neither blank nor the brace is no brace line. -/
theorem isBraceLine_of_mem (brace c : Char) (line : List Char) (hc : c ∈ line)
    (hblank : isBlank c = false) (hne : c ≠ brace) : isBraceLine brace line = false := by
  unfold isBraceLine
  rw [beq_eq_false_iff_ne]
  intro h
  have hmem : c ∈ line.filter (fun c => !isBlank c) := by
    rw [List.mem_filter]
    exact ⟨hc, by simp [hblank]⟩
  rw [h] at hmem
  simp at hmem
  exact hne hmem

/-- A line without the brace is no brace line. -/
theorem isBraceLine_of_not_mem (brace : Char) (line : List Char) (h : brace ∉ line) :
    isBraceLine brace line = false := by
  unfold isBraceLine
  rw [beq_eq_false_iff_ne]
  intro hf
  apply h
  have : brace ∈ line.filter (fun c => !isBlank c) := by rw [hf]; simp
  exact (List.mem_filter.mp this).1

/-- Blanks in front of a line do not matter. -/
theorem isBraceLine_blank_append (brace : Char) (blank line : List Char)
    (h : blank.all isBlank = true) :
    isBraceLine brace (blank ++ line) = isBraceLine brace line := by
  unfold isBraceLine
  rw [List.filter_append]
  have : blank.filter (fun c => !isBlank c) = [] := by
    rw [List.filter_eq_nil_iff]
    intro a ha
    rw [List.all_eq_true] at h
    simp [h a ha]
  rw [this, List.nil_append]

theorem isBraceLine_indented (brace : Char) (blank : List Char) (h : blank.all isBlank = true)
    (hb : isBlank brace = false) : isBraceLine brace (blank ++ [brace]) = true := by
  rw [isBraceLine_blank_append brace blank [brace] h]
  simp [isBraceLine, hb]

/-- A text without the brace in front of a text without brace lines gives no brace line. -/
theorem splitParts_no_brace_line (brace : Char) (x y : List Char) (hx : brace ∉ x)
    (h1 : isBraceLine brace (QString.splitParts '\n' y).1 = false)
    (h2 : ∀ l ∈ (QString.splitParts '\n' y).2, isBraceLine brace l = false) :
    isBraceLine brace (QString.splitParts '\n' (x ++ y)).1 = false ∧
      ∀ l ∈ (QString.splitParts '\n' (x ++ y)).2, isBraceLine brace l = false := by
  induction x with
  | nil => exact ⟨h1, h2⟩
  | cons c x ih =>
    have hc : c ≠ brace := fun hc => hx (by simp [hc])
    have hx2 : brace ∉ x := fun ha => hx (by simp [ha])
    obtain ⟨i1, i2⟩ := ih hx2
    by_cases hs : c = '\n'
    · rw [List.cons_append, hs, splitParts_cons_sep]
      refine ⟨isBraceLine_nil brace, ?_⟩
      intro l hl
      rcases List.mem_cons.mp hl with h | h
      · rw [h]; exact i1
      · exact i2 l h
    · rw [List.cons_append, splitParts_cons_ne _ c _ hs]
      refine ⟨?_, i2⟩
      by_cases hb : isBlank c = true
      · have := isBraceLine_blank_append brace [c] (QString.splitParts '\n' (x ++ y)).1
          (by simp [hb])
        simp only [List.singleton_append] at this
        rw [this]
        exact i1
      · exact isBraceLine_of_mem brace c _ (by simp) (by simpa using hb) hc

theorem mem_splitSkipEmptyParts_iff (sep : Char) (text l : List Char) :
    l ∈ QString.splitSkipEmptyParts sep text ↔
      l ≠ [] ∧
        (l = (QString.splitParts sep text).1 ∨ l ∈ (QString.splitParts sep text).2) := by
  unfold QString.splitSkipEmptyParts
  rw [List.mem_filter]
  simp
  tauto

theorem linesOf_no_brace_line (brace : Char) (x y : List Char) (hx : brace ∉ x)
    (hy : ∀ l ∈ QString.splitSkipEmptyParts '\n' y, isBraceLine brace l = false) :
    ∀ l ∈ QString.splitSkipEmptyParts '\n' (x ++ y), isBraceLine brace l = false := by
  have h1 : isBraceLine brace (QString.splitParts '\n' y).1 = false := by
    by_cases he : (QString.splitParts '\n' y).1 = []
    · rw [he]; exact isBraceLine_nil brace
    · exact hy _ ((mem_splitSkipEmptyParts_iff _ _ _).mpr ⟨he, Or.inl rfl⟩)
  have h2 : ∀ l ∈ (QString.splitParts '\n' y).2, isBraceLine brace l = false := by
    intro l hl
    by_cases he : l = []
    · rw [he]; exact isBraceLine_nil brace
    · exact hy _ ((mem_splitSkipEmptyParts_iff _ _ _).mpr ⟨he, Or.inr hl⟩)
  obtain ⟨r1, r2⟩ := splitParts_no_brace_line brace x y hx h1 h2
  intro l hl
  obtain ⟨_, h | h⟩ := (mem_splitSkipEmptyParts_iff _ _ _).mp hl
  · rw [h]; exact r1
  · exact r2 l h

theorem not_mem_of_all_isBlank (c : Char) (blank : List Char) (h : blank.all isBlank = true)
    (hc : isBlank c = false) : c ∉ blank := by
  intro hm
  rw [List.all_eq_true] at h
  rw [h c hm] at hc
  exact Bool.noConfusion hc

theorem splitSkipEmptyParts_line (a : List Char) (h : '\n' ∉ a) (hne : a ≠ []) :
    QString.splitSkipEmptyParts '\n' (a ++ ['\n']) = [a] := by
  rw [splitSkipEmptyParts_append_sep '\n' a [] h hne, splitSkipEmptyParts_nil]

/-- A text that is empty or ends with a line feed splits apart from what follows. -/
theorem splitSkipEmptyParts_append_complete (x y : List Char)
    (hx : x = [] ∨ ∃ a, x = a ++ ['\n']) :
    QString.splitSkipEmptyParts '\n' (x ++ y) =
      QString.splitSkipEmptyParts '\n' x ++ QString.splitSkipEmptyParts '\n' y := by
  rcases hx with h | ⟨a, h⟩
  · rw [h, List.nil_append, splitSkipEmptyParts_nil, List.nil_append]
  · rw [h, List.append_assoc, List.singleton_append, splitSkipEmptyParts_append_terminated]

/-- The lines of a guarded text: the lines of the comment part, the guard line, the line of
the opening brace, the lines of the body, the line of the closing brace. -/
theorem lines_of_guarded (comment guard tab body : List Char)
    (hcomment : comment = [] ∨ ∃ a, comment = a ++ ['\n']) (hguard : '\n' ∉ guard)
    (hne : guard ≠ []) (htab : tab.all isBlank = true) (hbody : ∃ a, body = a ++ ['\n']) :
    QString.splitSkipEmptyParts '\n'
        (comment ++ (guard ++ ['\n']) ++ (tab ++ ['\x7b', '\n']) ++ body ++
          (tab ++ ['\x7d', '\n'])) =
      QString.splitSkipEmptyParts '\n' comment ++ [guard, tab ++ ['\x7b']] ++
        QString.splitSkipEmptyParts '\n' body ++ [tab ++ ['\x7d']] := by
  have hnl : '\n' ∉ tab := not_mem_of_all_isBlank '\n' tab htab (by decide)
  have e1 : comment ++ (guard ++ ['\n']) ++ (tab ++ ['\x7b', '\n']) ++ body ++
      (tab ++ ['\x7d', '\n']) =
      comment ++ (guard ++ '\n' :: ((tab ++ ['\x7b']) ++ '\n' ::
        (body ++ ((tab ++ ['\x7d']) ++ ['\n'])))) := by
    simp
  rw [e1, splitSkipEmptyParts_append_complete comment _ hcomment,
    splitSkipEmptyParts_append_sep '\n' guard _ hguard hne,
    splitSkipEmptyParts_append_sep '\n' (tab ++ ['\x7b']) _ (by simp [hnl]) (by simp),
    splitSkipEmptyParts_append_complete body _ (Or.inr hbody),
    splitSkipEmptyParts_line (tab ++ ['\x7d']) (by simp [hnl]) (by simp)]
  simp

/-- The facts of `guardedLines` from the lines of a guarded text. -/
theorem guardedLines_of_lines (tab guard : List Char) (pre body lines : List (List Char))
    (htab : tab.all isBlank = true)
    (hlines : lines = pre ++ [guard, tab ++ ['\x7b']] ++ body ++ [tab ++ ['\x7d']])
    (hpre : ∀ l ∈ pre, isBraceLine '\x7b' l = false ∧ isBraceLine '\x7d' l = false)
    (hguard : isBraceLine '\x7b' guard = false ∧ isBraceLine '\x7d' guard = false)
    (hbody : ∀ l ∈ body, isBraceLine '\x7b' l = false ∧ isBraceLine '\x7d' l = false) :
    lines.countP (isBraceLine '\x7b') = 1 ∧ lines.countP (isBraceLine '\x7d') = 1 ∧
      lines.getLast? = some (tab ++ ['\x7d']) := by
  have ho : isBraceLine '\x7b' (tab ++ ['\x7b']) = true :=
    isBraceLine_indented _ tab htab (by decide)
  have hc : isBraceLine '\x7d' (tab ++ ['\x7d']) = true :=
    isBraceLine_indented _ tab htab (by decide)
  have hoc : isBraceLine '\x7b' (tab ++ ['\x7d']) = false :=
    isBraceLine_of_mem _ '\x7d' _ (by simp) (by decide) (by decide)
  have hco : isBraceLine '\x7d' (tab ++ ['\x7b']) = false :=
    isBraceLine_of_mem _ '\x7b' _ (by simp) (by decide) (by decide)
  have p1 : pre.countP (isBraceLine '\x7b') = 0 :=
    List.countP_eq_zero.mpr fun l hl => by simp [(hpre l hl).1]
  have p2 : pre.countP (isBraceLine '\x7d') = 0 :=
    List.countP_eq_zero.mpr fun l hl => by simp [(hpre l hl).2]
  have b1 : body.countP (isBraceLine '\x7b') = 0 :=
    List.countP_eq_zero.mpr fun l hl => by simp [(hbody l hl).1]
  have b2 : body.countP (isBraceLine '\x7d') = 0 :=
    List.countP_eq_zero.mpr fun l hl => by simp [(hbody l hl).2]
  subst hlines
  refine ⟨?_, ?_, ?_⟩
  · simp [List.countP_append, List.countP_cons, p1, b1, ho, hoc, hguard.1]
  · simp [List.countP_append, List.countP_cons, p2, b2, hc, hco, hguard.2]
  · exact List.getLast?_concat _

/-- A text made of a comment part, a guard line, a line with the opening brace, a body and
a line with the closing brace has the lines of a guarded fragment. -/
theorem guardedLines_of_text (g : Generator) (text guard comment array statement : String)
    (htext : text =
      comment ++ (guard ++ "\n") ++ (g.TAB_IN ++ "\x7b\n") ++ array ++ statement ++
        (g.TAB_IN ++ "\x7d\n"))
    (htab : g.TAB_IN.data.all isBlank = true)
    (hcomment : comment.data = [] ∨ ∃ a, comment.data = a ++ ['\n'])
    (hcommentLines : noBraceLine comment)
    (hguard : singleLine guard) (hif : 'i' ∈ guard.data)
    (harray : braceFree array) (hstatement : ∃ a, statement.data = a ++ ['\n'])
    (hstatementLines : noBraceLine statement) :
    guardedLines g text guard := by
  obtain ⟨a, ha⟩ := hstatement
  have hdata : text.data =
      comment.data ++ (guard.data ++ ['\n']) ++ (g.TAB_IN.data ++ ['\x7b', '\n']) ++
        (array.data ++ statement.data) ++ (g.TAB_IN.data ++ ['\x7d', '\n']) := by
    rw [htext]
    simp [String.data_append]
  have hlines := lines_of_guarded comment.data guard.data g.TAB_IN.data
    (array.data ++ statement.data) hcomment hguard (List.ne_nil_of_mem hif) htab
    ⟨array.data ++ a, by rw [ha, List.append_assoc]⟩
  rw [← hdata] at hlines
  have hbody : ∀ l ∈ QString.splitSkipEmptyParts '\n' (array.data ++ statement.data),
      isBraceLine '\x7b' l = false ∧ isBraceLine '\x7d' l = false := fun l hl =>
    ⟨linesOf_no_brace_line _ _ _ harray.1 (fun l hl => (hstatementLines l hl).1) l hl,
      linesOf_no_brace_line _ _ _ harray.2 (fun l hl => (hstatementLines l hl).2) l hl⟩
  have hg : isBraceLine '\x7b' guard.data = false ∧ isBraceLine '\x7d' guard.data = false :=
    ⟨isBraceLine_of_mem _ 'i' _ hif (by decide) (by decide),
      isBraceLine_of_mem _ 'i' _ hif (by decide) (by decide)⟩
  obtain ⟨c1, c2, c3⟩ := guardedLines_of_lines g.TAB_IN.data guard.data _ _ _ htab hlines
    hcommentLines hg hbody
  exact ⟨c1, c2, c3, _, _, hlines⟩

/-- A text made of a comment part, array iteration code without braces and a statement
without brace lines has no brace line. -/
theorem noBraceLine_of_text (text comment array statement : String)
    (htext : text = comment ++ array ++ statement)
    (hcomment : comment.data = [] ∨ ∃ a, comment.data = a ++ ['\n'])
    (hcommentLines : noBraceLine comment) (harray : braceFree array)
    (hstatementLines : noBraceLine statement) : noBraceLine text := by
  have hdata : text.data = comment.data ++ (array.data ++ statement.data) := by
    rw [htext]
    simp [String.data_append]
  intro l hl
  unfold linesOf at hl
  rw [hdata, splitSkipEmptyParts_append_complete _ _ hcomment, List.mem_append] at hl
  rcases hl with h | h
  · exact hcommentLines l h
  · exact ⟨linesOf_no_brace_line _ _ _ harray.1 (fun l hl => (hstatementLines l hl).1) l h,
      linesOf_no_brace_line _ _ _ harray.2 (fun l hl => (hstatementLines l hl).2) l h⟩

theorem noBraceLine_of_line (text : String) (a : List Char) (c : Char)
    (h : text.data = a ++ ['\n']) (hnl : '\n' ∉ a) (hc : c ∈ a) (hb : isBlank c = false)
    (h1 : c ≠ '\x7b') (h2 : c ≠ '\x7d') : noBraceLine text := by
  intro l hl
  unfold linesOf at hl
  rw [h, splitSkipEmptyParts_line a hnl (List.ne_nil_of_mem hc)] at hl
  rw [List.mem_singleton] at hl
  subst hl
  exact ⟨isBraceLine_of_mem _ c _ hc hb h1, isBraceLine_of_mem _ c _ hc hb h2⟩

theorem noBraceLine_of_two_lines (text : String) (a b : List Char) (c d : Char)
    (h : text.data = a ++ ['\n'] ++ (b ++ ['\n'])) (hnla : '\n' ∉ a) (hnlb : '\n' ∉ b)
    (hc : c ∈ a) (hcb : isBlank c = false) (hc1 : c ≠ '\x7b') (hc2 : c ≠ '\x7d')
    (hd : d ∈ b) (hdb : isBlank d = false) (hd1 : d ≠ '\x7b') (hd2 : d ≠ '\x7d') :
    noBraceLine text := by
  intro l hl
  unfold linesOf at hl
  rw [h, List.append_assoc, List.singleton_append,
    splitSkipEmptyParts_append_sep '\n' a _ hnla (List.ne_nil_of_mem hc),
    splitSkipEmptyParts_line b hnlb (List.ne_nil_of_mem hd)] at hl
  simp only [List.mem_cons, List.mem_singleton, List.not_mem_nil, or_false] at hl
  rcases hl with hl | hl
  · subst hl
    exact ⟨isBraceLine_of_mem _ c _ hc hcb hc1, isBraceLine_of_mem _ c _ hc hcb hc2⟩
  · subst hl
    exact ⟨isBraceLine_of_mem _ d _ hd hdb hd1, isBraceLine_of_mem _ d _ hd hdb hd2⟩

theorem noBraceLine_empty : noBraceLine "" := by
  intro l hl
  simp [linesOf, QString.splitSkipEmptyParts, QString.splitParts] at hl

theorem commentLine_complete (g : Generator) (s : ProtocolStructure) :
    (commentLine g s).data = [] ∨ ∃ a, (commentLine g s).data = a ++ ['\n'] := by
  unfold commentLine
  split_ifs
  · exact Or.inr ⟨(g.TAB_IN ++ "// " ++ s.comment).data, by simp [String.data_append]⟩
  · exact Or.inl rfl

theorem commentLine_noBraceLine (g : Generator) (s : ProtocolStructure)
    (htab : g.TAB_IN.data.all isBlank = true) (hcomment : singleLine s.comment) :
    noBraceLine (commentLine g s) := by
  unfold commentLine
  split_ifs
  · have hnl : '\n' ∉ g.TAB_IN.data := not_mem_of_all_isBlank '\n' _ htab (by decide)
    refine noBraceLine_of_line _ (g.TAB_IN ++ "// " ++ s.comment).data '/'
      (by simp [String.data_append]) ?_ (by simp [String.data_append]) (by decide) (by decide)
      (by decide)
    unfold singleLine at hcomment
    simp [String.data_append, hnl, hcomment]
  · exact noBraceLine_empty

theorem statementSpacing_blank (g : Generator) (s : ProtocolStructure) (base : String)
    (htab : g.TAB_IN.data.all isBlank = true) (hbase : base.data.all isBlank = true) :
    (statementSpacing g s base).data.all isBlank = true := by
  unfold statementSpacing
  by_cases h1 : s.isArray = true <;> by_cases h2 : s.is2dArray = true <;>
    simp [h1, h2, String.data_append, List.all_append, htab, hbase]

theorem encodeStatement_complete (g : Generator) (typeName access spacing : String) :
    ∃ a, (encodeStatement g typeName access spacing).data = a ++ ['\n'] := by
  unfold encodeStatement
  split_ifs
  · exact ⟨(spacing ++ "encode" ++ typeName ++ "(_pg_data, &_pg_byteindex, " ++ access ++
      ");").data, by simp [String.data_append]⟩
  · exact ⟨(spacing ++ access ++ ".encode(_pg_data, &_pg_byteindex);").data,
      by simp [String.data_append]⟩

theorem encodeStatement_noBraceLine (g : Generator) (typeName access spacing : String)
    (hspacing : spacing.data.all isBlank = true) (htype : singleLine typeName)
    (haccess : singleLine access) :
    noBraceLine (encodeStatement g typeName access spacing) := by
  have hnl : '\n' ∉ spacing.data := not_mem_of_all_isBlank '\n' _ hspacing (by decide)
  unfold singleLine at htype haccess
  unfold encodeStatement
  split_ifs
  · refine noBraceLine_of_line _ (spacing ++ "encode" ++ typeName ++
      "(_pg_data, &_pg_byteindex, " ++ access ++ ");").data 'e'
      (by simp [String.data_append]) ?_ (by simp [String.data_append]) (by decide) (by decide)
      (by decide)
    simp [String.data_append, hnl, htype, haccess]
  · refine noBraceLine_of_line _ (spacing ++ access ++
      ".encode(_pg_data, &_pg_byteindex);").data 'e'
      (by simp [String.data_append]) ?_ (by simp [String.data_append]) (by decide) (by decide)
      (by decide)
    simp [String.data_append, hnl, haccess]

theorem decodeStatement_complete (g : Generator) (typeName access spacing : String) :
    ∃ a, (decodeStatement g typeName access spacing).data = a ++ ['\n'] := by
  unfold decodeStatement
  split_ifs
  · exact ⟨(spacing ++ "if(decode" ++ typeName ++ "(_pg_data, &_pg_byteindex, " ++ access ++
      ") == 0)\n" ++ (spacing ++ g.TAB_IN ++ "return 0;")).data, by simp [String.data_append]⟩
  · exact ⟨(spacing ++ "if(" ++ access ++ ".decode(_pg_data, &_pg_byteindex) == false)\n" ++
      (spacing ++ g.TAB_IN ++ "return false;")).data, by simp [String.data_append]⟩

theorem decodeStatement_noBraceLine (g : Generator) (typeName access spacing : String)
    (htab : g.TAB_IN.data.all isBlank = true)
    (hspacing : spacing.data.all isBlank = true) (htype : singleLine typeName)
    (haccess : singleLine access) :
    noBraceLine (decodeStatement g typeName access spacing) := by
  have hnl : '\n' ∉ spacing.data := not_mem_of_all_isBlank '\n' _ hspacing (by decide)
  have hnt : '\n' ∉ g.TAB_IN.data := not_mem_of_all_isBlank '\n' _ htab (by decide)
  unfold singleLine at htype haccess
  unfold decodeStatement
  split_ifs
  · refine noBraceLine_of_two_lines _
      (spacing ++ "if(decode" ++ typeName ++ "(_pg_data, &_pg_byteindex, " ++ access ++
        ") == 0)").data (spacing ++ g.TAB_IN ++ "return 0;").data 'i' 'r'
      (by simp [String.data_append]) ?_ ?_ (by simp [String.data_append]) (by decide)
      (by decide) (by decide) (by simp [String.data_append]) (by decide) (by decide)
      (by decide)
    · simp [String.data_append, hnl, htype, haccess]
    · simp [String.data_append, hnl, hnt]
  · refine noBraceLine_of_two_lines _
      (spacing ++ "if(" ++ access ++ ".decode(_pg_data, &_pg_byteindex) == false)").data
      (spacing ++ g.TAB_IN ++ "return false;").data 'i' 'r'
      (by simp [String.data_append]) ?_ ?_ (by simp [String.data_append]) (by decide)
      (by decide) (by decide) (by simp [String.data_append]) (by decide) (by decide)
      (by decide)
    · simp [String.data_append, hnl, haccess]
    · simp [String.data_append, hnl, hnt]

theorem guard_singleLine (g : Generator) (s : ProtocolStructure) (target : String)
    (htab : g.TAB_IN.data.all isBlank = true) (htarget : singleLine target)
    (hcompare : singleLine s.dependsOnCompare) (hvalue : singleLine s.dependsOnValue) :
    singleLine (g.TAB_IN ++ "if(" ++ guardCondition s target ++ ")") := by
  have hnt : '\n' ∉ g.TAB_IN.data := not_mem_of_all_isBlank '\n' _ htab (by decide)
  unfold singleLine at *
  unfold guardCondition
  split_ifs <;> simp [String.data_append, hnt, htarget, hcompare, hvalue]

theorem guard_text (a b : String) : a ++ b ++ ")\n" = a ++ b ++ ")" ++ "\n" := by
  rw [String.append_assoc (a ++ b) ")" "\n"]
  rfl

/-- The array iteration code of the sample generator for the structure `items` holds no
brace when the indentation is blank. -/
theorem sampleGenerator_array_braceFree (spacing : String)
    (h : spacing.data.all isBlank = true) :
    braceFree (spacing ++ "for(_pg_i = 0; _pg_i < " ++ "3" ++ "; _pg_i++)\n") := by
  have h1 := not_mem_of_all_isBlank '\x7b' _ h (by decide)
  have h2 := not_mem_of_all_isBlank '\x7d' _ h (by decide)
  constructor <;> simp [String.data_append, h1, h2]

/-! ## The key expression of the print, map and compare fragments -/

set_option maxRecDepth 4000

theorem isArray_of_is2dArray (s : ProtocolStructure) (h : s.is2dArray = true) :
    s.isArray = true := by
  unfold ProtocolStructure.is2dArray at h
  simp at h
  exact h.1

theorem getComparisonString_key (g : Generator) (s : ProtocolStructure) (typeName : String)
    (hc : s.compare = true) (hn : s.getNumberOfDecodeParameters ≠ 0) :
    callsWithKey (s.getComparisonString g typeName) (keyExpression s) := by
  have hguard : ¬ ((!s.compare || s.getNumberOfDecodeParameters == 0) = true) := by
    simp [hc, hn]
  unfold ProtocolStructure.getComparisonString
  rw [if_neg hguard]
  refine ⟨commentLine g s ++
      (if s.isArray then g.TAB_IN ++ "for(_pg_i = 0; _pg_i < " ++ s.array ++ "; _pg_i++)\n"
        else "") ++
      (if s.is2dArray then
        g.TAB_IN ++ g.TAB_IN ++ "for(_pg_j = 0; _pg_j < " ++ s.array2d ++ "; _pg_j++)\n"
        else "") ++
      statementSpacing g s g.TAB_IN ++
      (if g.language = Language.c_language then "_pg_report += compare" ++ typeName
        else "_pg_report += " ++ typeName ++ "::compare"),
    ", " ++
      (if g.language = Language.c_language then
        "&_pg_user1->" ++ s.name ++ (if s.isArray then "[_pg_i]" else "") ++
          (if s.is2dArray then "[_pg_j]" else "") ++ ", " ++ "&_pg_user2->" ++ s.name ++
          (if s.isArray then "[_pg_i]" else "") ++ (if s.is2dArray then "[_pg_j]" else "") ++
          ");\n"
      else
        "&_pg_user->" ++ s.name ++ (if s.isArray then "[_pg_i]" else "") ++
          (if s.is2dArray then "[_pg_j]" else "") ++ ");\n"), ?_, Or.inr ⟨_, rfl⟩⟩
  unfold keyExpression commentLine statementSpacing
  apply String.ext
  by_cases h2 : s.is2dArray = true
  · have h1 : s.isArray = true := isArray_of_is2dArray s h2
    by_cases hl : g.language = Language.c_language <;> by_cases h3 : s.comment = "" <;>
      simp [hl, h1, h2, h3, String.data_append]
  · by_cases hl : g.language = Language.c_language <;> by_cases h1 : s.isArray = true <;>
      by_cases h3 : s.comment = "" <;> simp [hl, h1, h2, h3, String.data_append]

theorem getTextPrintString_key (g : Generator) (s : ProtocolStructure) (typeName : String)
    (hc : s.print = true) (hn : s.getNumberOfDecodeParameters ≠ 0) :
    callsWithKey (s.getTextPrintString g typeName) (keyExpression s) := by
  have hguard : ¬ ((!s.print || s.getNumberOfDecodeParameters == 0) = true) := by
    simp [hc, hn]
  unfold ProtocolStructure.getTextPrintString
  rw [if_neg hguard]
  refine ⟨commentLine g s ++ g.getEncodeArrayIterationCode s g.TAB_IN true ++
      statementSpacing g s g.TAB_IN ++
      (if g.language = Language.c_language then "_pg_report += textPrint" ++ typeName
        else "_pg_report += " ++ g.getEncodeFieldAccess s true ++ ".textPrint"),
    if g.language = Language.c_language then ", " ++ (g.getEncodeFieldAccess s true ++ ");\n")
      else ");\n", ?_, ?_⟩
  · unfold keyExpression commentLine statementSpacing
    apply String.ext
    by_cases h2 : s.is2dArray = true
    · have h1 : s.isArray = true := isArray_of_is2dArray s h2
      by_cases hl : g.language = Language.c_language <;> by_cases h3 : s.comment = "" <;>
        simp [hl, h1, h2, h3, String.data_append]
    · by_cases hl : g.language = Language.c_language <;> by_cases h1 : s.isArray = true <;>
        by_cases h3 : s.comment = "" <;> simp [hl, h1, h2, h3, String.data_append]
  · by_cases hl : g.language = Language.c_language
    · rw [if_pos hl]
      exact Or.inr ⟨_, rfl⟩
    · rw [if_neg hl]
      exact Or.inl rfl

theorem getTextReadString_key (g : Generator) (s : ProtocolStructure) (typeName : String)
    (hc : s.print = true) (hn : s.getNumberOfDecodeParameters ≠ 0) :
    callsWithKey (s.getTextReadString g typeName) (keyExpression s) := by
  have hguard : ¬ ((!s.print || s.getNumberOfDecodeParameters == 0) = true) := by
    simp [hc, hn]
  unfold ProtocolStructure.getTextReadString
  rw [if_neg hguard]
  refine ⟨commentLine g s ++ g.getEncodeArrayIterationCode s g.TAB_IN true ++
      statementSpacing g s g.TAB_IN ++
      (if g.language = Language.c_language then "_pg_fieldcount += textRead" ++ typeName
        else "_pg_fieldcount += " ++ g.getEncodeFieldAccess s true ++ ".textRead"),
    ", " ++
      (if g.language = Language.c_language then
        "_pg_source" ++ ", " ++ g.getEncodeFieldAccess s true ++ ");\n"
      else "_pg_source" ++ ");\n"), ?_, Or.inr ⟨_, rfl⟩⟩
  unfold keyExpression commentLine statementSpacing
  apply String.ext
  by_cases h2 : s.is2dArray = true
  · have h1 : s.isArray = true := isArray_of_is2dArray s h2
    by_cases hl : g.language = Language.c_language <;> by_cases h3 : s.comment = "" <;>
      simp [hl, h1, h2, h3, String.data_append]
  · by_cases hl : g.language = Language.c_language <;> by_cases h1 : s.isArray = true <;>
      by_cases h3 : s.comment = "" <;> simp [hl, h1, h2, h3, String.data_append]

theorem getMapEncodeString_key (g : Generator) (s : ProtocolStructure) (typeName : String)
    (hc : s.mapEncode = true) (hn : s.getNumberOfDecodeParameters ≠ 0) :
    callsWithKey (s.getMapEncodeString g typeName) (keyExpression s) := by
  have hguard : ¬ ((!s.mapEncode || s.getNumberOfDecodeParameters == 0) = true) := by
    simp [hc, hn]
  unfold ProtocolStructure.getMapEncodeString
  rw [if_neg hguard]
  refine ⟨commentLine g s ++ g.getEncodeArrayIterationCode s g.TAB_IN true ++
      statementSpacing g s g.TAB_IN ++
      (if g.language = Language.c_language then "mapEncode" ++ typeName
        else g.getEncodeFieldAccess s true ++ ".mapEncode"),
    ", " ++
      (if g.language = Language.c_language then
        "_pg_map, " ++ g.getEncodeFieldAccess s true ++ ");\n"
      else "_pg_map" ++ ");\n"), ?_, Or.inr ⟨_, rfl⟩⟩
  unfold keyExpression commentLine statementSpacing
  apply String.ext
  by_cases h2 : s.is2dArray = true
  · have h1 : s.isArray = true := isArray_of_is2dArray s h2
    by_cases hl : g.language = Language.c_language <;> by_cases h3 : s.comment = "" <;>
      simp [hl, h1, h2, h3, String.data_append]
  · by_cases hl : g.language = Language.c_language <;> by_cases h1 : s.isArray = true <;>
      by_cases h3 : s.comment = "" <;> simp [hl, h1, h2, h3, String.data_append]

theorem getMapDecodeString_key (g : Generator) (s : ProtocolStructure) (typeName : String)
    (hc : s.mapEncode = true) (hn : s.getNumberOfDecodeParameters ≠ 0) :
    callsWithKey (s.getMapDecodeString g typeName) (keyExpression s) := by
  have hguard : ¬ ((!s.mapEncode || s.getNumberOfDecodeParameters == 0) = true) := by
    simp [hc, hn]
  unfold ProtocolStructure.getMapDecodeString
  rw [if_neg hguard]
  refine ⟨commentLine g s ++ g.getDecodeArrayIterationCode s g.TAB_IN true ++
      statementSpacing g s g.TAB_IN ++
      (if g.language = Language.c_language then "mapDecode" ++ typeName
        else g.getDecodeFieldAccess s true ++ ".mapDecode"),
    ", " ++
      (if g.language = Language.c_language then
        "_pg_map, " ++ g.getDecodeFieldAccess s true ++ ");\n"
      else "_pg_map" ++ ");\n"), ?_, Or.inr ⟨_, rfl⟩⟩
  unfold keyExpression commentLine statementSpacing
  apply String.ext
  by_cases h2 : s.is2dArray = true
  · have h1 : s.isArray = true := isArray_of_is2dArray s h2
    by_cases hl : g.language = Language.c_language <;> by_cases h3 : s.comment = "" <;>
      simp [hl, h1, h2, h3, String.data_append]
  · by_cases hl : g.language = Language.c_language <;> by_cases h1 : s.isArray = true <;>
      by_cases h3 : s.comment = "" <;> simp [hl, h1, h2, h3, String.data_append]

set_option maxRecDepth 512

/-! ## The shape of the verify fragment and function -/

theorem getVerifyString_shape (g : Generator) (s : ProtocolStructure) (typeName : String)
    (h : s.hasverify = true) :
    s.getVerifyString g typeName =
      commentLine g s ++
        (if s.isArray then
          g.TAB_IN ++ "for(_pg_i = 0; _pg_i < " ++ s.array ++ "; _pg_i++)\n"
        else "") ++
        (if s.is2dArray then
          g.TAB_IN ++ g.TAB_IN ++ "for(_pg_j = 0; _pg_j < " ++ s.array2d ++ "; _pg_j++)\n"
        else "") ++
        (if g.language = Language.c_language then
          statementSpacing g s g.TAB_IN ++ "if(verify" ++ typeName ++ "(" ++
            g.getDecodeFieldAccess s true ++ ") == 0)\n" ++
            (statementSpacing g s g.TAB_IN ++ g.TAB_IN ++ "_pg_good = 0;\n")
        else
          statementSpacing g s g.TAB_IN ++ "if(" ++ g.getDecodeFieldAccess s true ++
            ".verify() == false)\n" ++
            (statementSpacing g s g.TAB_IN ++ g.TAB_IN ++ "_pg_good = false;\n")) := by
  unfold ProtocolStructure.getVerifyString commentLine statementSpacing
  by_cases h2 : s.is2dArray = true
  · have h1 : s.isArray = true := isArray_of_is2dArray s h2
    by_cases hl : g.language = Language.c_language <;> by_cases h3 : s.comment = "" <;>
      simp [h, hl, h1, h2, h3, String.append_assoc]
  · by_cases hl : g.language = Language.c_language <;> by_cases h1 : s.isArray = true <;>
      by_cases h3 : s.comment = "" <;> simp [h, hl, h1, h2, h3, String.append_assoc]

/-- The text of the verify function up to the member fragments: the functions of the
children, the comment, the signature, the opening brace and the declarations. -/
theorem getVerifyFunctionBody_shape (g : Generator) (s : ProtocolStructure)
    (typeName structName : String) (encodables : List EncodableObject)
    (includeChildren : Bool) (h : s.hasverify = true) :
    ∃ header : String,
      (EncodableObject.structure_ s typeName structName encodables).getVerifyFunctionBody g
          includeChildren =
        g.makeLineSeparator
            (encodables.foldl
              (fun output c => g.makeLineSeparator output ++ c.getVerifyString g)
              (header ++ "\x7b\n" ++
                (g.TAB_IN ++
                  (if g.language = Language.c_language then "int _pg_good = 1;\n"
                  else "bool _pg_good = true;\n")) ++
                (if s.needsVerifyIterator then g.TAB_IN ++ "unsigned _pg_i = 0;\n" else "") ++
                (if s.needs2ndVerifyIterator then g.TAB_IN ++ "unsigned _pg_j = 0;\n"
                else ""))) ++
          (g.TAB_IN ++ "return _pg_good;\n") ++ "\n" ++
          (if g.language = Language.c_language then "\x7d// verify" ++ typeName ++ "\n"
          else "\x7d// " ++ typeName ++ "::verify\n") := by
  have hguard : ¬ ((!s.hasVerify) = true) := by
    simp [ProtocolStructure.hasVerify, h]
  unfold EncodableObject.getVerifyFunctionBody
  rw [if_neg hguard]
  by_cases hl : g.language = Language.c_language
  · refine ⟨(if includeChildren then
        g.makeLineSeparator (verifyFunctionBodyChildren g includeChildren encodables "")
        else "") ++ "/*!\n" ++ (" * \\brief Verify a " ++ typeName ++
        " has acceptable values.\n") ++ " *\n" ++
        (" * Verify a " ++ typeName ++ " has acceptable values. Not all fields are\n") ++
        " * verified, only those which the protocol specifies. Fields which are outside\n" ++
        " * the allowable range are changed to the maximum or minimum allowable value. \n" ++
        " * \\param _pg_user is the structure whose data are verified\n" ++
        (" * \\return 1 if all verifiable data where valid, else 0 if data had to be " ++
          "corrected\n") ++
        " */\n" ++ (getVerifyFunctionSignature g typeName structName true ++ "\n"), ?_⟩
    by_cases h1 : s.needsVerifyIterator = true <;>
      by_cases h2 : s.needs2ndVerifyIterator = true <;> simp [hl, h1, h2, String.append_assoc]
  · refine ⟨(if includeChildren then
        g.makeLineSeparator (verifyFunctionBodyChildren g includeChildren encodables "")
        else "") ++ "/*!\n" ++ (" * \\brief Verify a " ++ typeName ++
        " has acceptable values.\n") ++ " *\n" ++
        (" * Verify a " ++ typeName ++ " has acceptable values. Not all fields are\n") ++
        " * verified, only those which the protocol specifies. Fields which are outside\n" ++
        " * the allowable range are changed to the maximum or minimum allowable value. \n" ++
        (" * \\return true if all verifiable data where valid, else false if data had " ++
          "to be corrected\n") ++
        " */\n" ++ (getVerifyFunctionSignature g typeName structName true ++ "\n"), ?_⟩
    by_cases h1 : s.needsVerifyIterator = true <;>
      by_cases h2 : s.needs2ndVerifyIterator = true <;> simp [hl, h1, h2, String.append_assoc]

/-! ## Facts about `alignStructureData` -/

theorem insert_space_withoutSpaces (line : List Char) (position : Int) :
    withoutSpaces (QString.insert line position [' ']) = withoutSpaces line := by
  unfold QString.insert withoutSpaces
  split_ifs
  · rfl
  · simp [List.filter_append]
  · rw [List.filter_append, List.filter_append]
    simp only [ne_eq, decide_not, List.filter_cons, List.filter_nil, decide_True,
      Bool.not_true, Bool.false_eq_true, if_false, List.append_nil]
    rw [← List.filter_append, List.take_append_drop]

theorem insert_space_no_line_feed (line : List Char) (position : Int) (h : '\n' ∉ line) :
    '\n' ∉ QString.insert line position [' '] := by
  unfold QString.insert
  split_ifs
  · exact h
  · simp [h]
  · intro hm
    simp only [List.mem_append, List.mem_singleton] at hm
    rcases hm with (hm | hm) | hm
    · exact h (List.mem_of_mem_take hm)
    · exact absurd hm (by decide)
    · exact h (List.mem_of_mem_drop hm)

theorem insert_space_ne_nil (line : List Char) (position : Int) (h : line ≠ []) :
    QString.insert line position [' '] ≠ [] := by
  unfold QString.insert
  split_ifs
  · exact h
  · simp
  · simp

theorem insertSpaces_spec (rounds : Nat) (line : List Char) (index : Int) :
    withoutSpaces (insertSpaces line index rounds) = withoutSpaces line ∧
      ('\n' ∉ line → '\n' ∉ insertSpaces line index rounds) ∧
      (line ≠ [] → insertSpaces line index rounds ≠ []) := by
  induction rounds generalizing line index with
  | zero => exact ⟨rfl, id, id⟩
  | succ n ih =>
    obtain ⟨h1, h2, h3⟩ := ih (QString.insert line index [' ']) (index + 1)
    refine ⟨?_, ?_, ?_⟩
    · rw [insertSpaces, h1, insert_space_withoutSpaces]
    · intro h
      rw [insertSpaces]
      exact h2 (insert_space_no_line_feed line index h)
    · intro h
      rw [insertSpaces]
      exact h3 (insert_space_ne_nil line index h)

theorem alignColumn_spec (index : List Char → Int) (list : List (List Char)) :
    (alignColumn index list).map withoutSpaces = list.map withoutSpaces ∧
      ((∀ l ∈ list, '\n' ∉ l ∧ l ≠ []) → ∀ l ∈ alignColumn index list, '\n' ∉ l ∧ l ≠ []) := by
  unfold alignColumn
  constructor
  · rw [List.map_map]
    apply List.map_congr_left
    intro l _
    exact (insertSpaces_spec _ l _).1
  · intro h l hl
    obtain ⟨l0, hl0, rfl⟩ := List.mem_map.mp hl
    exact ⟨(insertSpaces_spec _ l0 _).2.1 (h l0 hl0).1, (insertSpaces_spec _ l0 _).2.2 (h l0 hl0).2⟩

theorem splitParts_no_sep (sep : Char) (text : List Char) :
    sep ∉ (QString.splitParts sep text).1 ∧ ∀ l ∈ (QString.splitParts sep text).2, sep ∉ l := by
  induction text with
  | nil => simp [QString.splitParts]
  | cons c cs ih =>
    by_cases hc : c = sep
    · rw [hc, splitParts_cons_sep]
      refine ⟨by simp, ?_⟩
      intro l hl
      rcases List.mem_cons.mp hl with h | h
      · rw [h]; exact ih.1
      · exact ih.2 l h
    · rw [splitParts_cons_ne sep c cs hc]
      refine ⟨?_, ih.2⟩
      intro hm
      rcases List.mem_cons.mp hm with h | h
      · exact hc h.symm
      · exact ih.1 h

theorem splitSkipEmptyParts_parts (sep : Char) (text : List Char) :
    ∀ l ∈ QString.splitSkipEmptyParts sep text, sep ∉ l ∧ l ≠ [] := by
  intro l hl
  obtain ⟨hne, h | h⟩ := (mem_splitSkipEmptyParts_iff sep text l).mp hl
  · exact ⟨h ▸ (splitParts_no_sep sep text).1, hne⟩
  · exact ⟨(splitParts_no_sep sep text).2 l h, hne⟩

theorem foldl_lines_eq (list : List (List Char)) (output : List Char) :
    list.foldl (fun output line => output ++ (line ++ ['\n'])) output =
      output ++ list.foldl (fun output line => output ++ (line ++ ['\n'])) [] := by
  induction list generalizing output with
  | nil => simp
  | cons l ls ih =>
    rw [List.foldl_cons, List.foldl_cons, ih, ih ([] ++ (l ++ ['\n']))]
    simp

/-- Lines put together with a line feed after each split into the same lines. -/
theorem splitSkipEmptyParts_foldl (list : List (List Char))
    (h : ∀ l ∈ list, '\n' ∉ l ∧ l ≠ []) :
    QString.splitSkipEmptyParts '\n'
      (list.foldl (fun output line => output ++ (line ++ ['\n'])) []) = list := by
  induction list with
  | nil => simp [splitSkipEmptyParts_nil]
  | cons l ls ih =>
    have hl := h l (by simp)
    rw [List.foldl_cons, foldl_lines_eq, List.nil_append, List.append_assoc,
      List.singleton_append, splitSkipEmptyParts_append_sep '\n' l _ hl.1 hl.2,
      ih (fun x hx => h x (by simp [hx]))]

/-- Aligning a text keeps its lines, in order, up to the spaces in them. -/
theorem alignStructureData_lines (text : String) :
    (linesOf (alignStructureData text)).map withoutSpaces =
      (linesOf text).map withoutSpaces := by
  unfold linesOf alignStructureData
  have h0 := splitSkipEmptyParts_parts '\n' text.data
  have h1 := alignColumn_spec (fun line => QString.indexOf ' ' 4 line)
    (QString.splitSkipEmptyParts '\n' text.data)
  have h2 := alignColumn_spec (fun line => QString.indexOf ';' 0 line + 1)
    (alignColumn (fun line => QString.indexOf ' ' 4 line)
      (QString.splitSkipEmptyParts '\n' text.data))
  simp only []
  rw [splitSkipEmptyParts_foldl _ (h2.2 (h1.2 h0)), h2.1, h1.1]

theorem memberDeclarations_foldl (g : Generator) (encodables : List EncodableObject)
    (output : String) :
    encodables.foldl (fun structure_ c => structure_ ++ c.getDeclaration g) output =
      output ++ memberDeclarations g encodables := by
  unfold memberDeclarations
  induction encodables generalizing output with
  | nil => simp
  | cons c cs ih =>
    rw [List.foldl_cons, List.foldl_cons, ih, ih ("" ++ c.getDeclaration g)]
    simp [String.append_assoc]

theorem memberDeclarations_append (g : Generator) (pre post : List EncodableObject)
    (c : EncodableObject) :
    memberDeclarations g (pre ++ c :: post) =
      memberDeclarations g pre ++ c.getDeclaration g ++ memberDeclarations g post := by
  have h : memberDeclarations g (pre ++ c :: post) =
      (pre ++ c :: post).foldl (fun structure_ c => structure_ ++ c.getDeclaration g) "" := rfl
  rw [h, List.foldl_append, List.foldl_cons, memberDeclarations_foldl g post]
  rfl

/-! ## Further facts about the toggles and about the second dimension -/

mutual
/-- Setting the `compare` flag twice to the same value is setting it once. -/
theorem EncodableObject.setCompare_idem (b : Bool) : ∀ t : EncodableObject,
    (t.setCompare b).setCompare b = t.setCompare b
  | EncodableObject.field e => by
    simp [EncodableObject.setCompare]
  | EncodableObject.structure_ s typeName structName cs => by
    simp [EncodableObject.setCompare, setCompareChildren_idem b cs]
/-- The same for the loop over a child list. -/
theorem setCompareChildren_idem (b : Bool) : ∀ l : List EncodableObject,
    setCompareChildren b (setCompareChildren b l) = setCompareChildren b l
  | [] => by simp [setCompareChildren]
  | c :: cs => by
    simp [setCompareChildren, EncodableObject.setCompare_idem b c, setCompareChildren_idem b cs]
end

mutual
/-- Setting the `print` flag twice to the same value is setting it once. -/
theorem EncodableObject.setPrint_idem (b : Bool) : ∀ t : EncodableObject,
    (t.setPrint b).setPrint b = t.setPrint b
  | EncodableObject.field e => by
    simp [EncodableObject.setPrint]
  | EncodableObject.structure_ s typeName structName cs => by
    simp [EncodableObject.setPrint, setPrintChildren_idem b cs]
/-- The same for the loop over a child list. -/
theorem setPrintChildren_idem (b : Bool) : ∀ l : List EncodableObject,
    setPrintChildren b (setPrintChildren b l) = setPrintChildren b l
  | [] => by simp [setPrintChildren]
  | c :: cs => by
    simp [setPrintChildren, EncodableObject.setPrint_idem b c, setPrintChildren_idem b cs]
end

mutual
/-- Setting the `mapEncode` flag twice to the same value is setting it once. -/
theorem EncodableObject.setMapEncode_idem (b : Bool) : ∀ t : EncodableObject,
    (t.setMapEncode b).setMapEncode b = t.setMapEncode b
  | EncodableObject.field e => by
    simp [EncodableObject.setMapEncode]
  | EncodableObject.structure_ s typeName structName cs => by
    simp [EncodableObject.setMapEncode, setMapEncodeChildren_idem b cs]
/-- The same for the loop over a child list. -/
theorem setMapEncodeChildren_idem (b : Bool) : ∀ l : List EncodableObject,
    setMapEncodeChildren b (setMapEncodeChildren b l) = setMapEncodeChildren b l
  | [] => by simp [setMapEncodeChildren]
  | c :: cs => by
    simp [setMapEncodeChildren, EncodableObject.setMapEncode_idem b c,
      setMapEncodeChildren_idem b cs]
end

/-- A step of `parseChildren` neither reads nor writes the second array bound and the
second variable bound of the structure itself. -/
theorem parseChild_secondDimension
    (getOverriddenTypeData : Encodable → Option Encodable → Bool) (st : ParseChildrenState)
    (child : Option Encodable) (a2 v2 : String) :
    parseChild getOverriddenTypeData
        { st with structure_ := { st.structure_ with array2d := a2, variable2dArray := v2 } }
        child =
      { parseChild getOverriddenTypeData st child with
        structure_ := { (parseChild getOverriddenTypeData st child).structure_ with
          array2d := a2, variable2dArray := v2 } } := by
  cases child with
  | none => rfl
  | some c =>
    unfold parseChild
    simp only
    split_ifs
    · rfl
    · rfl
    · unfold finishChild trackFieldDefaults trackFieldMetadata
      simp only
      split_ifs <;> rfl
    · unfold finishChild trackStructureMetadata
      simp only
      split_ifs <;> rfl

/-- The same for the whole loop. -/
theorem parseChildrenLoop_secondDimension
    (getOverriddenTypeData : Encodable → Option Encodable → Bool)
    (children : List (Option Encodable)) (a2 v2 : String) : ∀ st : ParseChildrenState,
    parseChildrenLoop getOverriddenTypeData
        { st with structure_ := { st.structure_ with array2d := a2, variable2dArray := v2 } }
        children =
      { parseChildrenLoop getOverriddenTypeData st children with
        structure_ := { (parseChildrenLoop getOverriddenTypeData st children).structure_ with
          array2d := a2, variable2dArray := v2 } } := by
  induction children with
  | nil => intro st; rfl
  | cons c cs ih =>
    intro st
    rw [parseChildrenLoop_cons, parseChildrenLoop_cons, parseChild_secondDimension]
    exact ih (parseChild getOverriddenTypeData st c)

/-- The guards of `parse` neither read nor write the second array bound and the second
variable bound. -/
theorem parseAttributes_secondDimension (s : ProtocolStructure) (map : Attributes)
    (a2 v2 : String) :
    ({ s with array2d := a2, variable2dArray := v2 } : ProtocolStructure).parseAttributes map =
      { s.parseAttributes map with array2d := a2, variable2dArray := v2 } := by
  unfold ProtocolStructure.parseAttributes
  by_cases h1 : map.array = "" <;> by_cases h2 : map.variableArray = "" <;>
    by_cases h3 : map.dependsOn = "" <;> by_cases h4 : map.dependsOnValue = "" <;>
    by_cases h5 : map.dependsOnCompare = "" <;> by_cases h6 : map.name = "" <;>
    by_cases h7 : map.title = "" <;> simp [h1, h2, h3, h4, h5, h6, h7]

/-- The structure that `parse` leaves when it starts with other second bounds is the same
structure with those second bounds. -/
theorem parse_secondDimension
    (getOverriddenTypeData : Encodable → Option Encodable → Bool) (s : ProtocolStructure)
    (map : Attributes) (children : List (Option Encodable)) (a2 v2 : String) :
    ({ s with array2d := a2, variable2dArray := v2 } : ProtocolStructure).parse
        getOverriddenTypeData map children =
      { s.parse getOverriddenTypeData map children with
        array2d := a2, variable2dArray := v2 } := by
  rw [parse_eq, parse_eq, parseAttributes_secondDimension]
  unfold ProtocolStructure.parseChildren
  rw [parseChildrenLoop_secondDimension getOverriddenTypeData children a2 v2
    { structure_ := s.parseAttributes map, prevEncodable := none }]

/-! ## The indentation of the member statement -/

/-- The spacing of the member statement without guard is `1 + a + b` times `TAB_IN`. -/
theorem statementSpacing_indentation (g : Generator) (s : ProtocolStructure) :
    statementSpacing g s g.TAB_IN = indentation g (memberDepth s false) := by
  unfold statementSpacing memberDepth
  apply String.ext
  by_cases h2 : s.is2dArray = true
  · have h1 : s.isArray = true := isArray_of_is2dArray s h2
    simp [h1, h2, indentation, String.data_append]
  · by_cases h1 : s.isArray = true <;> simp [h1, h2, indentation, String.data_append]

/-- The spacing of the member statement below a guard is `2 + a + b` times `TAB_IN`. -/
theorem statementSpacing_indentation_guarded (g : Generator) (s : ProtocolStructure) :
    statementSpacing g s (g.TAB_IN ++ g.TAB_IN) = indentation g (memberDepth s true) := by
  unfold statementSpacing memberDepth
  apply String.ext
  by_cases h2 : s.is2dArray = true
  · have h1 : s.isArray = true := isArray_of_is2dArray s h2
    simp [h1, h2, indentation, String.data_append]
  · by_cases h1 : s.isArray = true <;> simp [h1, h2, indentation, String.data_append]

set_option maxRecDepth 4000

/-- The fragment of the pass `encode` with its member statement at the depth of the member. -/
theorem fragment_encode_indentation (g : Generator) (s : ProtocolStructure)
    (typeName : String) (isStructureMember : Bool) :
    ∃ rest : String,
      Pass.fragment g s typeName isStructureMember Pass.encode =
        Pass.opening g s isStructureMember Pass.encode ++
          (indentation g (memberDepth s (Pass.guards s Pass.encode)) ++
            Pass.statement g s typeName isStructureMember Pass.encode) ++ rest := by
  refine ⟨(if g.language = Language.c_language then
      "_pg_data, &_pg_byteindex, " ++ g.getEncodeFieldAccess s isStructureMember ++ ");\n"
    else "_pg_data, &_pg_byteindex);\n") ++
    (if s.dependsOn ≠ "" then g.TAB_IN ++ "\x7d\n" else ""), ?_⟩
  simp only [Pass.fragment, Pass.opening, Pass.statement, Pass.guards]
  unfold ProtocolStructure.getEncodeString commentLine guardOpening guardCondition memberDepth
  apply String.ext
  by_cases h2 : s.is2dArray = true
  · have h1 : s.isArray = true := isArray_of_is2dArray s h2
    by_cases hl : g.language = Language.c_language <;> by_cases h3 : s.comment = "" <;>
      by_cases hd : s.dependsOn = "" <;> by_cases hv : s.dependsOnValue = "" <;>
      simp [hl, h1, h2, h3, hd, hv, indentation, String.data_append]
  · by_cases hl : g.language = Language.c_language <;> by_cases h1 : s.isArray = true <;>
      by_cases h3 : s.comment = "" <;>
      by_cases hd : s.dependsOn = "" <;> by_cases hv : s.dependsOnValue = "" <;>
      simp [hl, h1, h2, h3, hd, hv, indentation, String.data_append]

/-- The fragment of the pass `decode` with its member statement at the depth of the member. -/
theorem fragment_decode_indentation (g : Generator) (s : ProtocolStructure)
    (typeName : String) (isStructureMember : Bool) :
    ∃ rest : String,
      Pass.fragment g s typeName isStructureMember Pass.decode =
        Pass.opening g s isStructureMember Pass.decode ++
          (indentation g (memberDepth s (Pass.guards s Pass.decode)) ++
            Pass.statement g s typeName isStructureMember Pass.decode) ++ rest := by
  simp only [Pass.fragment, Pass.opening, Pass.statement, Pass.guards]
  by_cases hd : s.dependsOn = ""
  · refine ⟨(if g.language = Language.c_language then
        "_pg_data, &_pg_byteindex, " ++ g.getEncodeFieldAccess s isStructureMember ++
          ") == 0)\n" ++ (indentation g (memberDepth s false) ++ g.TAB_IN ++ "return 0;\n")
      else
        "_pg_data, &_pg_byteindex) == false)\n" ++
          (indentation g (memberDepth s false) ++ g.TAB_IN ++ "return false;\n")), ?_⟩
    rw [getDecodeString_unguarded g s typeName isStructureMember hd,
      statementSpacing_indentation]
    unfold decodeStatement guardOpening
    apply String.ext
    by_cases hl : g.language = Language.c_language <;>
      simp [hl, hd, indentation, String.data_append]
  · refine ⟨(if g.language = Language.c_language then
        "_pg_data, &_pg_byteindex, " ++ g.getEncodeFieldAccess s isStructureMember ++
          ") == 0)\n" ++
          (indentation g (memberDepth s true) ++ g.TAB_IN ++ "return 0;\n")
      else
        "_pg_data, &_pg_byteindex) == false)\n" ++
          (indentation g (memberDepth s true) ++ g.TAB_IN ++ "return false;\n")) ++
      (g.TAB_IN ++ "\x7d\n"), ?_⟩
    rw [getDecodeString_guarded g s typeName isStructureMember hd,
      statementSpacing_indentation_guarded]
    unfold decodeStatement guardOpening
    apply String.ext
    by_cases hl : g.language = Language.c_language <;>
      simp [hl, hd, indentation, String.data_append]

/-- The fragment of the pass `verify` with its member statement at the depth of the member. -/
theorem fragment_verify_indentation (g : Generator) (s : ProtocolStructure)
    (typeName : String) (isStructureMember : Bool) (h : s.hasverify = true) :
    ∃ rest : String,
      Pass.fragment g s typeName isStructureMember Pass.verify =
        Pass.opening g s isStructureMember Pass.verify ++
          (indentation g (memberDepth s (Pass.guards s Pass.verify)) ++
            Pass.statement g s typeName isStructureMember Pass.verify) ++ rest := by
  have hv := h
  refine ⟨(if g.language = Language.c_language then
      g.getDecodeFieldAccess s true ++ ") == 0)\n" ++
        (indentation g (memberDepth s false) ++ g.TAB_IN ++ "_pg_good = 0;\n")
    else
      ") == false)\n" ++
        (indentation g (memberDepth s false) ++ g.TAB_IN ++ "_pg_good = false;\n")), ?_⟩
  simp only [Pass.fragment, Pass.opening, Pass.statement, Pass.guards]
  unfold ProtocolStructure.getVerifyString commentLine loopHeaders memberDepth
  apply String.ext
  by_cases h2 : s.is2dArray = true
  · have h1 : s.isArray = true := isArray_of_is2dArray s h2
    by_cases hl : g.language = Language.c_language <;> by_cases h3 : s.comment = "" <;>
      simp [hv, hl, h1, h2, h3, indentation, String.data_append]
  · by_cases hl : g.language = Language.c_language <;> by_cases h1 : s.isArray = true <;>
      by_cases h3 : s.comment = "" <;>
      simp [hv, hl, h1, h2, h3, indentation, String.data_append]

/-- The fragment of the pass `setInitialValue` with its member statement at the depth of the member. -/
theorem fragment_setInitialValue_indentation (g : Generator) (s : ProtocolStructure)
    (typeName : String) (isStructureMember : Bool) (h : s.hasinit = true ∧ g.language = Language.c_language) :
    ∃ rest : String,
      Pass.fragment g s typeName isStructureMember Pass.setInitialValue =
        Pass.opening g s isStructureMember Pass.setInitialValue ++
          (indentation g (memberDepth s (Pass.guards s Pass.setInitialValue)) ++
            Pass.statement g s typeName isStructureMember Pass.setInitialValue) ++ rest := by
  have hi := h
  refine ⟨g.getDecodeFieldAccess s isStructureMember ++ ");\n", ?_⟩
  simp only [Pass.fragment, Pass.opening, Pass.statement, Pass.guards]
  unfold ProtocolStructure.getSetInitialValueString commentLine loopHeaders memberDepth
  apply String.ext
  by_cases h2 : s.is2dArray = true
  · have h1 : s.isArray = true := isArray_of_is2dArray s h2
    by_cases h3 : s.comment = "" <;>
      simp [hi.1, hi.2, h1, h2, h3, indentation, String.data_append]
  · by_cases h1 : s.isArray = true <;> by_cases h3 : s.comment = "" <;>
      simp [hi.1, hi.2, h1, h2, h3, indentation, String.data_append]

/-- The fragment of the pass `compare` with its member statement at the depth of the member. -/
theorem fragment_compare_indentation (g : Generator) (s : ProtocolStructure)
    (typeName : String) (isStructureMember : Bool) (h : s.compare = true ∧ s.getNumberOfDecodeParameters ≠ 0) :
    ∃ rest : String,
      Pass.fragment g s typeName isStructureMember Pass.compare =
        Pass.opening g s isStructureMember Pass.compare ++
          (indentation g (memberDepth s (Pass.guards s Pass.compare)) ++
            Pass.statement g s typeName isStructureMember Pass.compare) ++ rest := by
  have hc := h
  refine ⟨"_pg_prename + \":" ++ s.name ++ "\"" ++
    (if s.isArray then " + \"[\" + QString::number(_pg_i) + \"]\"" else "") ++
    (if s.is2dArray then " + \"[\" + QString::number(_pg_j) + \"]\"" else "") ++
    ", " ++
    (if g.language = Language.c_language then
      "&_pg_user1->" ++ s.name ++ (if s.isArray then "[_pg_i]" else "") ++
        (if s.is2dArray then "[_pg_j]" else "") ++ ", " ++ "&_pg_user2->" ++ s.name ++
        (if s.isArray then "[_pg_i]" else "") ++ (if s.is2dArray then "[_pg_j]" else "") ++
        ");\n"
    else
      "&_pg_user->" ++ s.name ++ (if s.isArray then "[_pg_i]" else "") ++
        (if s.is2dArray then "[_pg_j]" else "") ++ ");\n"), ?_⟩
  simp only [Pass.fragment, Pass.opening, Pass.statement, Pass.guards]
  unfold ProtocolStructure.getComparisonString commentLine loopHeaders memberDepth
  apply String.ext
  by_cases h2 : s.is2dArray = true
  · have h1 : s.isArray = true := isArray_of_is2dArray s h2
    by_cases hl : g.language = Language.c_language <;> by_cases h3 : s.comment = "" <;>
      simp [hc.1, hc.2, hl, h1, h2, h3, indentation, String.data_append]
  · by_cases hl : g.language = Language.c_language <;> by_cases h1 : s.isArray = true <;>
      by_cases h3 : s.comment = "" <;>
      simp [hc.1, hc.2, hl, h1, h2, h3, indentation, String.data_append]

/-- The fragment of the pass `textPrint` with its member statement at the depth of the member. -/
theorem fragment_textPrint_indentation (g : Generator) (s : ProtocolStructure)
    (typeName : String) (isStructureMember : Bool) (h : s.print = true ∧ s.getNumberOfDecodeParameters ≠ 0) :
    ∃ rest : String,
      Pass.fragment g s typeName isStructureMember Pass.textPrint =
        Pass.opening g s isStructureMember Pass.textPrint ++
          (indentation g (memberDepth s (Pass.guards s Pass.textPrint)) ++
            Pass.statement g s typeName isStructureMember Pass.textPrint) ++ rest := by
  have hc := h
  refine ⟨"_pg_prename + \":" ++ s.name ++ "\"" ++
    (if s.isArray then " + \"[\" + QString::number(_pg_i) + \"]\"" else "") ++
    (if s.is2dArray then " + \"[\" + QString::number(_pg_j) + \"]\"" else "") ++
    (if g.language = Language.c_language then ", " ++ g.getEncodeFieldAccess s true
      else "") ++ ");\n", ?_⟩
  simp only [Pass.fragment, Pass.opening, Pass.statement, Pass.guards]
  unfold ProtocolStructure.getTextPrintString commentLine memberDepth
  apply String.ext
  by_cases h2 : s.is2dArray = true
  · have h1 : s.isArray = true := isArray_of_is2dArray s h2
    by_cases hl : g.language = Language.c_language <;> by_cases h3 : s.comment = "" <;>
      simp [hc.1, hc.2, hl, h1, h2, h3, indentation, String.data_append]
  · by_cases hl : g.language = Language.c_language <;> by_cases h1 : s.isArray = true <;>
      by_cases h3 : s.comment = "" <;>
      simp [hc.1, hc.2, hl, h1, h2, h3, indentation, String.data_append]

/-- The fragment of the pass `textRead` with its member statement at the depth of the member. -/
theorem fragment_textRead_indentation (g : Generator) (s : ProtocolStructure)
    (typeName : String) (isStructureMember : Bool) (h : s.print = true ∧ s.getNumberOfDecodeParameters ≠ 0) :
    ∃ rest : String,
      Pass.fragment g s typeName isStructureMember Pass.textRead =
        Pass.opening g s isStructureMember Pass.textRead ++
          (indentation g (memberDepth s (Pass.guards s Pass.textRead)) ++
            Pass.statement g s typeName isStructureMember Pass.textRead) ++ rest := by
  have hc := h
  refine ⟨"_pg_prename + \":" ++ s.name ++ "\"" ++
    (if s.isArray then " + \"[\" + QString::number(_pg_i) + \"]\"" else "") ++
    (if s.is2dArray then " + \"[\" + QString::number(_pg_j) + \"]\"" else "") ++
    ", _pg_source" ++
    (if g.language = Language.c_language then ", " ++ g.getEncodeFieldAccess s true
      else "") ++ ");\n", ?_⟩
  simp only [Pass.fragment, Pass.opening, Pass.statement, Pass.guards]
  unfold ProtocolStructure.getTextReadString commentLine memberDepth
  apply String.ext
  by_cases h2 : s.is2dArray = true
  · have h1 : s.isArray = true := isArray_of_is2dArray s h2
    by_cases hl : g.language = Language.c_language <;> by_cases h3 : s.comment = "" <;>
      simp [hc.1, hc.2, hl, h1, h2, h3, indentation, String.data_append]
  · by_cases hl : g.language = Language.c_language <;> by_cases h1 : s.isArray = true <;>
      by_cases h3 : s.comment = "" <;>
      simp [hc.1, hc.2, hl, h1, h2, h3, indentation, String.data_append]

/-- The fragment of the pass `mapEncode` with its member statement at the depth of the member. -/
theorem fragment_mapEncode_indentation (g : Generator) (s : ProtocolStructure)
    (typeName : String) (isStructureMember : Bool) (h : s.mapEncode = true ∧ s.getNumberOfDecodeParameters ≠ 0) :
    ∃ rest : String,
      Pass.fragment g s typeName isStructureMember Pass.mapEncode =
        Pass.opening g s isStructureMember Pass.mapEncode ++
          (indentation g (memberDepth s (Pass.guards s Pass.mapEncode)) ++
            Pass.statement g s typeName isStructureMember Pass.mapEncode) ++ rest := by
  have hc := h
  refine ⟨"_pg_prename + " ++ "\":" ++ s.name ++ "\"" ++
    (if s.isArray then " + \"[\" + QString::number(_pg_i) + \"]\"" else "") ++
    (if s.is2dArray then " + \"[\" + QString::number(_pg_j) + \"]\"" else "") ++
    (if g.language = Language.c_language then ", _pg_map, " ++ g.getEncodeFieldAccess s true
      else ", _pg_map") ++ ");\n", ?_⟩
  simp only [Pass.fragment, Pass.opening, Pass.statement, Pass.guards]
  unfold ProtocolStructure.getMapEncodeString commentLine memberDepth
  apply String.ext
  by_cases h2 : s.is2dArray = true
  · have h1 : s.isArray = true := isArray_of_is2dArray s h2
    by_cases hl : g.language = Language.c_language <;> by_cases h3 : s.comment = "" <;>
      simp [hc.1, hc.2, hl, h1, h2, h3, indentation, String.data_append]
  · by_cases hl : g.language = Language.c_language <;> by_cases h1 : s.isArray = true <;>
      by_cases h3 : s.comment = "" <;>
      simp [hc.1, hc.2, hl, h1, h2, h3, indentation, String.data_append]

/-- The fragment of the pass `mapDecode` with its member statement at the depth of the member. -/
theorem fragment_mapDecode_indentation (g : Generator) (s : ProtocolStructure)
    (typeName : String) (isStructureMember : Bool) (h : s.mapEncode = true ∧ s.getNumberOfDecodeParameters ≠ 0) :
    ∃ rest : String,
      Pass.fragment g s typeName isStructureMember Pass.mapDecode =
        Pass.opening g s isStructureMember Pass.mapDecode ++
          (indentation g (memberDepth s (Pass.guards s Pass.mapDecode)) ++
            Pass.statement g s typeName isStructureMember Pass.mapDecode) ++ rest := by
  have hc := h
  refine ⟨"_pg_prename + " ++ "\":" ++ s.name ++ "\"" ++
    (if s.isArray then " + \"[\" + QString::number(_pg_i) + \"]\"" else "") ++
    (if s.is2dArray then " + \"[\" + QString::number(_pg_j) + \"]\"" else "") ++
    (if g.language = Language.c_language then ", _pg_map, " ++ g.getDecodeFieldAccess s true
      else ", _pg_map") ++ ");\n", ?_⟩
  simp only [Pass.fragment, Pass.opening, Pass.statement, Pass.guards]
  unfold ProtocolStructure.getMapDecodeString commentLine memberDepth
  apply String.ext
  by_cases h2 : s.is2dArray = true
  · have h1 : s.isArray = true := isArray_of_is2dArray s h2
    by_cases hl : g.language = Language.c_language <;> by_cases h3 : s.comment = "" <;>
      simp [hc.1, hc.2, hl, h1, h2, h3, indentation, String.data_append]
  · by_cases hl : g.language = Language.c_language <;> by_cases h1 : s.isArray = true <;>
      by_cases h3 : s.comment = "" <;>
      simp [hc.1, hc.2, hl, h1, h2, h3, indentation, String.data_append]

set_option maxRecDepth 512

/-! ## The columns of `alignStructureData` -/

theorem insertSpaces_eq (rounds : Nat) : ∀ (line : List Char) (index : Nat),
    index ≤ line.length →
    insertSpaces line (index : Int) rounds =
      line.take index ++ List.replicate rounds ' ' ++ line.drop index := by
  induction rounds with
  | zero => intro line index _; simp [insertSpaces]
  | succ n ih =>
    intro line index h
    have hins : QString.insert line (index : Int) [' '] =
        line.take index ++ [' '] ++ line.drop index := by
      unfold QString.insert
      have h1 : ¬ ((index : Int) < 0) := by omega
      have h2 : ¬ ((index : Int).toNat > line.length) := by simp; omega
      rw [if_neg h1, if_neg h2]
      simp
    rw [insertSpaces, hins]
    have h3 : index + 1 ≤ (line.take index ++ [' '] ++ line.drop index).length := by
      simp; omega
    have := ih (line.take index ++ [' '] ++ line.drop index) (index + 1) h3
    rw [show ((index : Int) + 1) = ((index + 1 : Nat) : Int) by push_cast; rfl, this]
    have ht : (line.take index ++ [' '] ++ line.drop index).take (index + 1) =
        line.take index ++ [' '] := by
      rw [List.take_append_eq_append_take]
      simp [List.length_take, Nat.min_eq_left h]
    have hd : (line.take index ++ [' '] ++ line.drop index).drop (index + 1) =
        line.drop index := by
      rw [List.drop_append_eq_append_drop]
      simp [List.length_take, Nat.min_eq_left h]
    rw [ht, hd]
    simp [List.replicate_succ]

theorem indexOf_of_decompose (c : Char) (from_ : Nat) (pre post : List Char)
    (h1 : from_ ≤ pre.length) (h2 : c ∉ pre.drop from_) :
    QString.indexOf c from_ (pre ++ c :: post) = (pre.length : Int) := by
  unfold QString.indexOf
  have hd : (pre ++ c :: post).drop from_ = pre.drop from_ ++ c :: post := by
    rw [List.drop_append_eq_append_drop]
    simp [Nat.sub_eq_zero_of_le h1]
  have hn : (pre.drop from_).findIdx? (fun x => decide (x = c)) = none := by
    rw [List.findIdx?_eq_none_iff]
    intro x hx
    simp
    intro hxc
    exact h2 (hxc ▸ hx)
  rw [hd, List.findIdx?_append, hn]
  simp
  omega

theorem indexOf_decompose (c : Char) (from_ : Nat) (l : List Char)
    (h : 0 ≤ QString.indexOf c from_ l) :
    ∃ pre post : List Char, l = pre ++ c :: post ∧
      QString.indexOf c from_ l = (pre.length : Int) ∧ from_ ≤ pre.length ∧
      c ∉ pre.drop from_ := by
  unfold QString.indexOf at h ⊢
  cases hf : (l.drop from_).findIdx? (fun x => decide (x = c)) with
  | none => rw [hf] at h; simp at h
  | some k =>
    simp only []
    rw [List.findIdx?_eq_some_iff_getElem] at hf
    obtain ⟨hk, hp, hmin⟩ := hf
    have hlen : from_ + k < l.length := by
      rw [List.length_drop] at hk; omega
    refine ⟨l.take (from_ + k), l.drop (from_ + k + 1), ?_, ?_, ?_, ?_⟩
    · have hc : l[from_ + k] = c := by
        have := hp
        rw [List.getElem_drop] at this
        simpa using this
      rw [← hc]
      simp
    · simp [List.length_take, Nat.min_eq_left (le_of_lt hlen)]
    · simp [List.length_take, Nat.min_eq_left (le_of_lt hlen)]
    · intro hm
      rw [List.mem_iff_getElem] at hm
      obtain ⟨i, hi, hic⟩ := hm
      have hi2 : i < k := by
        simp [List.length_drop, List.length_take] at hi; omega
      have := hmin i hi2
      apply this
      simp only [decide_eq_true_eq]
      rw [← hic]
      simp [List.getElem_drop, List.getElem_take]

/-- The largest index that `alignColumn` computes is at least 0 and at least the index of
every line. -/
theorem alignColumn_max (index : List Char → Int) (list : List (List Char)) (start : Int) :
    start ≤ list.foldl (fun max line => if index line > max then index line else max) start ∧
      ∀ l ∈ list,
        index l ≤ list.foldl (fun max line => if index line > max then index line else max)
          start := by
  induction list generalizing start with
  | nil => simp
  | cons x xs ih =>
    rw [List.foldl_cons]
    obtain ⟨h1, h2⟩ := ih (if index x > start then index x else start)
    refine ⟨le_trans ?_ h1, ?_⟩
    · split_ifs with h
      · exact le_of_lt h
      · exact le_refl _
    · intro l hl
      rcases List.mem_cons.mp hl with h | h
      · rw [h]
        refine le_trans ?_ h1
        split_ifs with hx
        · exact le_refl _
        · exact not_lt.mp hx
      · exact h2 l h

/-- The position of the first semicolon of a declaration line after spaces were inserted at
its first space at or after position 4. -/
theorem indexOf_semicolon_after_insert (line : List Char) (a : Nat)
    (h : isDeclarationLine line) :
    QString.indexOf ';' 0
        (line.take (QString.indexOf ' ' 4 line).toNat ++ List.replicate a ' ' ++
          line.drop (QString.indexOf ' ' 4 line).toNat) =
      QString.indexOf ';' 0 line + a := by
  obtain ⟨h0, h1⟩ := h
  obtain ⟨pre, post, hl, hj, _, hpre⟩ :=
    indexOf_decompose ';' 0 line (le_trans h0 (le_of_lt h1))
  generalize hk : (QString.indexOf ' ' 4 line).toNat = k
  have hkj : k < pre.length := by
    rw [hj] at h1
    omega
  have ht : line.take k = pre.take k := by
    rw [hl, List.take_append_of_le_length (le_of_lt hkj)]
  have hd : line.drop k = pre.drop k ++ ';' :: post := by
    rw [hl, List.drop_append_of_le_length (le_of_lt hkj)]
  rw [ht, hd, hj]
  have hassoc : pre.take k ++ List.replicate a ' ' ++ (pre.drop k ++ ';' :: post) =
      (pre.take k ++ List.replicate a ' ' ++ pre.drop k) ++ ';' :: post := by
    simp
  rw [hassoc, indexOf_of_decompose ';' 0 _ post (Nat.zero_le _)]
  · simp [List.length_take, Nat.min_eq_left (le_of_lt hkj)]
    omega
  · simp only [List.drop_zero, List.mem_append, List.mem_replicate, not_or]
    simp only [List.drop_zero] at hpre
    refine ⟨⟨fun hm => hpre (List.mem_of_mem_take hm), ?_⟩,
      fun hm => hpre (List.mem_of_mem_drop hm)⟩
    rintro ⟨_, hc⟩
    exact absurd hc (by decide)

/-- The two alignments of `alignStructureData` on a declaration line, given the largest
indices `max1` and `max2` of the two rounds. -/
theorem insertSpaces_declarationLine (line : List Char) (max1 max2 : Int)
    (h : isDeclarationLine line) (h1 : QString.indexOf ' ' 4 line ≤ max1)
    (h2 : max1 + (QString.indexOf ';' 0 line + 1 - QString.indexOf ' ' 4 line) ≤ max2) :
    insertSpaces
        (insertSpaces line (QString.indexOf ' ' 4 line)
          (max1 - QString.indexOf ' ' 4 line).toNat)
        (QString.indexOf ';' 0
            (insertSpaces line (QString.indexOf ' ' 4 line)
              (max1 - QString.indexOf ' ' 4 line).toNat) + 1)
        (max2 - (QString.indexOf ';' 0
            (insertSpaces line (QString.indexOf ' ' 4 line)
              (max1 - QString.indexOf ' ' 4 line).toNat) + 1)).toNat =
      alignedLine max1.toNat max2.toNat line := by
  obtain ⟨pre, post, hl, hk, _, _⟩ := indexOf_decompose ' ' 4 line h.1
  obtain ⟨pre2, post2, hl2, hj, _, _⟩ :=
    indexOf_decompose ';' 0 line (le_trans h.1 (le_of_lt h.2))
  have hklen : pre.length < line.length := by rw [hl]; simp
  have hjlen : pre2.length < line.length := by rw [hl2]; simp
  have hkj : pre.length < pre2.length := by
    have := h.2
    rw [hk, hj] at this
    omega
  have hfirst : insertSpaces line (QString.indexOf ' ' 4 line)
      (max1 - QString.indexOf ' ' 4 line).toNat =
      line.take pre.length ++ List.replicate (max1.toNat - pre.length) ' ' ++
        line.drop pre.length := by
    rw [hk, insertSpaces_eq _ line pre.length (le_of_lt hklen)]
    congr 3
    rw [hk] at h1
    omega
  have hsemi := indexOf_semicolon_after_insert line (max1.toNat - pre.length) h
  rw [hk] at hsemi
  simp only [Int.toNat_ofNat] at hsemi
  rw [hfirst, hsemi, hj]
  rw [hk] at h1
  rw [hk, hj] at h2
  have hidx : ((pre2.length : Int) + ((max1.toNat - pre.length : Nat) : Int) + 1) =
      ((pre2.length + (max1.toNat - pre.length) + 1 : Nat) : Int) := by
    push_cast
    rfl
  rw [hidx, insertSpaces_eq]
  · unfold alignedLine
    rw [hk, hj]
    simp only [Int.toNat_ofNat]
    have hrounds : (max2 - ((pre2.length + (max1.toNat - pre.length) + 1 : Nat) : Int)).toNat =
        max2.toNat - (max1.toNat + (pre2.length + 1 - pre.length)) := by
      omega
    rw [hrounds]
    have htake : (line.take pre.length ++ List.replicate (max1.toNat - pre.length) ' ' ++
        line.drop pre.length).take (pre2.length + (max1.toNat - pre.length) + 1) =
        line.take pre.length ++ List.replicate (max1.toNat - pre.length) ' ' ++
          (line.drop pre.length).take (pre2.length + 1 - pre.length) := by
      rw [List.take_append_eq_append_take, List.take_of_length_le]
      · congr 2
        simp [List.length_take, Nat.min_eq_left (le_of_lt hklen)]
        omega
      · simp [List.length_take, Nat.min_eq_left (le_of_lt hklen)]
        omega
    have hdrop : (line.take pre.length ++ List.replicate (max1.toNat - pre.length) ' ' ++
        line.drop pre.length).drop (pre2.length + (max1.toNat - pre.length) + 1) =
        line.drop (pre2.length + 1) := by
      rw [List.drop_append_eq_append_drop, List.drop_of_length_le]
      · simp [List.length_take, Nat.min_eq_left (le_of_lt hklen)]
        congr 1
        omega
      · simp [List.length_take, Nat.min_eq_left (le_of_lt hklen)]
        omega
    rw [htake, hdrop]
  · simp [List.length_take, Nat.min_eq_left (le_of_lt hklen)]
    omega

/-- The index of the second alignment on a declaration line after the first alignment. -/
theorem indexOf_after_first_alignment (line : List Char) (max1 : Int)
    (h : isDeclarationLine line) (h1 : QString.indexOf ' ' 4 line ≤ max1) :
    QString.indexOf ';' 0
        (insertSpaces line (QString.indexOf ' ' 4 line)
          (max1 - QString.indexOf ' ' 4 line).toNat) + 1 =
      max1 + (QString.indexOf ';' 0 line + 1 - QString.indexOf ' ' 4 line) := by
  obtain ⟨pre, post, hl, hk, _, _⟩ := indexOf_decompose ' ' 4 line h.1
  have hklen : pre.length < line.length := by rw [hl]; simp
  have hsemi := indexOf_semicolon_after_insert line (max1 - QString.indexOf ' ' 4 line).toNat h
  rw [hk] at hsemi h1 ⊢
  simp only [Int.toNat_ofNat] at hsemi
  rw [insertSpaces_eq _ line pre.length (le_of_lt hklen), hsemi]
  omega

/-- The lines put together by the last loop of `alignStructureData`. -/
theorem foldl_lines_joinLines (list : List (List Char)) :
    String.mk (list.foldl (fun output line => output ++ (line ++ ['\n'])) []) =
      joinLines list := by
  unfold joinLines
  congr 1
  induction list with
  | nil => rfl
  | cons l ls ih =>
    rw [List.foldl_cons, foldl_lines_eq, ih]
    simp

/-- The lines that `alignStructureData` puts together, for a text of declaration lines. -/
theorem alignColumn_declarationLines (list : List (List Char))
    (h : ∀ l ∈ list, isDeclarationLine l) :
    ∃ nameColumn commentColumn : Nat,
      alignColumn (fun line => QString.indexOf ';' 0 line + 1)
          (alignColumn (fun line => QString.indexOf ' ' 4 line) list) =
        list.map (alignedLine nameColumn commentColumn) ∧
      ∀ l ∈ list, (QString.indexOf ' ' 4 l).toNat ≤ nameColumn ∧
        nameColumn + ((QString.indexOf ';' 0 l).toNat + 1 - (QString.indexOf ' ' 4 l).toNat) ≤
          commentColumn := by
  obtain ⟨max1, hmax1⟩ : ∃ m : Int, m = list.foldl (fun max line =>
      if QString.indexOf ' ' 4 line > max then QString.indexOf ' ' 4 line else max) 0 :=
    ⟨_, rfl⟩
  have hm1 : ∀ l ∈ list, QString.indexOf ' ' 4 l ≤ max1 := by
    rw [hmax1]
    exact (alignColumn_max (fun line => QString.indexOf ' ' 4 line) list 0).2
  have hfirst : alignColumn (fun line => QString.indexOf ' ' 4 line) list =
      list.map fun line =>
        insertSpaces line (QString.indexOf ' ' 4 line)
          (max1 - QString.indexOf ' ' 4 line).toNat := by
    rw [hmax1]
    rfl
  obtain ⟨max2, hmax2⟩ : ∃ m : Int, m =
      (alignColumn (fun line => QString.indexOf ' ' 4 line) list).foldl (fun max line =>
        if QString.indexOf ';' 0 line + 1 > max then QString.indexOf ';' 0 line + 1
        else max) 0 :=
    ⟨_, rfl⟩
  have hm2 : ∀ l ∈ alignColumn (fun line => QString.indexOf ' ' 4 line) list,
      QString.indexOf ';' 0 l + 1 ≤ max2 := by
    rw [hmax2]
    exact (alignColumn_max (fun line => QString.indexOf ';' 0 line + 1)
      (alignColumn (fun line => QString.indexOf ' ' 4 line) list) 0).2
  have hsecond : alignColumn (fun line => QString.indexOf ';' 0 line + 1)
      (alignColumn (fun line => QString.indexOf ' ' 4 line) list) =
      (alignColumn (fun line => QString.indexOf ' ' 4 line) list).map fun line =>
        insertSpaces line (QString.indexOf ';' 0 line + 1)
          (max2 - (QString.indexOf ';' 0 line + 1)).toNat := by
    rw [hmax2]
    rfl
  have hbound : ∀ l ∈ list,
      max1 + (QString.indexOf ';' 0 l + 1 - QString.indexOf ' ' 4 l) ≤ max2 := by
    intro l hl
    rw [← indexOf_after_first_alignment l max1 (h l hl) (hm1 l hl)]
    apply hm2
    rw [hfirst]
    exact List.mem_map.mpr ⟨l, hl, rfl⟩
  refine ⟨max1.toNat, max2.toNat, ?_, ?_⟩
  · rw [hsecond, hfirst, List.map_map]
    apply List.map_congr_left
    intro l hl
    exact insertSpaces_declarationLine l max1 max2 (h l hl) (hm1 l hl) (hbound l hl)
  · intro l hl
    have hb := hbound l hl
    have h1 := hm1 l hl
    obtain ⟨h3, h4⟩ := h l hl
    omega

/-! ## Facts about the documentation details -/

theorem intercalate_go_eq_foldl (sep : String) (rest : List String) (acc : String) :
    String.intercalate.go acc sep rest = rest.foldl (fun text n => text ++ sep ++ n) acc := by
  induction rest generalizing acc with
  | nil => rfl
  | cons x xs ih => rw [String.intercalate.go, List.foldl_cons, ih]

/-- The outline string is the numbers of the outline joined by a dot. -/
theorem outlineString_eq (outline : List Int) : outlineString outline = numberString outline := by
  cases outline with
  | nil => rfl
  | cons first rest =>
    unfold outlineString numberString
    rw [List.map_cons, String.intercalate, intercalate_go_eq_foldl, List.foldl_map]

/-- A number that an `int` holds is its own value. -/
theorem wrapInt_of_range (n : Int) (h1 : -2147483648 ≤ n) (h2 : n ≤ 2147483647) :
    wrapInt n = n := by
  unfold wrapInt
  omega

/-- Incrementing `k` times by one in an `int`, then once more. -/
theorem wrapInt_succ (n k : Int) : wrapInt (wrapInt (n + k) + 1) = wrapInt (n + (k + 1)) := by
  unfold wrapInt
  omega

theorem incrementLast_append (base : List Int) (n : Int) :
    incrementLast (base ++ [n]) = some (base ++ [wrapInt (n + 1)]) := by
  unfold incrementLast
  simp

theorem removeLast_append (base : List Int) (n : Int) :
    removeLast (base ++ [n]) = some base := by
  unfold removeLast
  simp

/-- The entries of the structure itself, for an outline that ends in `n`. -/
theorem ownDocumentationDetails_spec (doc : Documenter) (s : ProtocolStructure)
    (d : DocumentationDetails) (base : List Int) (n : Int) (h : d.outline = base ++ [n]) :
    ∃ (d1 : DocumentationDetails) (next : String),
      s.ownDocumentationDetails doc d = some (d1, next) ∧
      d1.outline = base ++ [wrapInt (n + 1)] ∧
      d1.names = d.names ++ [numberString (base ++ [wrapInt (n + 1)]) ++ ")" ++ s.title] ∧
      d1.comments = d.comments ++ [s.description] := by
  unfold ProtocolStructure.ownDocumentationDetails
  simp only [h, incrementLast_append]
  refine ⟨_, _, rfl, rfl, ?_, rfl⟩
  simp only [outlineString_eq, String.append_assoc]

mutual
/-- Every call of `getDocumentationDetails` returns, with the last number of the outline
incremented by one in an `int` and the outline otherwise as on entry, when the fields do
so. -/
theorem EncodableObject.getDocumentationDetails_outline (doc : Documenter)
    (hfields : doc.fieldsAdvanceOutline) :
    ∀ (t : EncodableObject) (d : DocumentationDetails) (base : List Int) (n : Int),
      d.outline = base ++ [n] →
      ∃ d1, t.getDocumentationDetails doc d = some d1 ∧
        d1.outline = base ++ [wrapInt (n + 1)]
  | EncodableObject.field e, d, base, n, h =>
    ⟨_, rfl, hfields e d base n h⟩
  | EncodableObject.structure_ s typeName structName cs, d, base, n, h => by
    obtain ⟨d1, next, h1, h2, _, _⟩ := ownDocumentationDetails_spec doc s d base n h
    obtain ⟨d2, h3, h4⟩ := documentationDetailsOfChildren_outline doc hfields cs
      { d1 with outline := d1.outline ++ [0] } (base ++ [wrapInt (n + 1)]) 0 (by rw [h2]; simp [wrapInt])
    rw [EncodableObject.getDocumentationDetails, h1]
    simp only [h3, h4, removeLast_append]
    exact ⟨_, rfl, rfl⟩
/-- The loop over the children advances the last number of the outline, held in an `int`,
by their number. -/
theorem documentationDetailsOfChildren_outline (doc : Documenter)
    (hfields : doc.fieldsAdvanceOutline) :
    ∀ (cs : List EncodableObject) (d : DocumentationDetails) (base : List Int) (n : Int),
      d.outline = base ++ [wrapInt (n + 0)] →
      ∃ d1, documentationDetailsOfChildren doc cs d = some d1 ∧
        d1.outline = base ++ [wrapInt (n + (cs.length : Int))]
  | [], d, base, n, h => ⟨d, rfl, by simpa using h⟩
  | c :: cs, d, base, n, h => by
    obtain ⟨d1, h1, h2⟩ := EncodableObject.getDocumentationDetails_outline doc hfields c d base
      (wrapInt (n + 0)) h
    rw [wrapInt_succ] at h2
    obtain ⟨d2, h3, h4⟩ := documentationDetailsOfChildren_outline doc hfields cs d1 base
      (n + 1) (by rw [h2]; simp)
    refine ⟨d2, ?_, ?_⟩
    · rw [documentationDetailsOfChildren, h1]
      exact h3
    · rw [h4, List.length_cons]
      push_cast
      congr 3
      ring
end

/-- The loop over a child list goes through the children before `c`, then `c`, then the
children after it. -/
theorem documentationDetailsOfChildren_append (doc : Documenter) (pre : List EncodableObject)
    (c : EncodableObject) (post : List EncodableObject) (d : DocumentationDetails) :
    documentationDetailsOfChildren doc (pre ++ c :: post) d =
      (documentationDetailsOfChildren doc pre d).bind fun d1 =>
        (c.getDocumentationDetails doc d1).bind (documentationDetailsOfChildren doc post) := by
  induction pre generalizing d with
  | nil =>
    rw [List.nil_append, documentationDetailsOfChildren, documentationDetailsOfChildren,
      Option.some_bind]
    cases c.getDocumentationDetails doc d <;> rfl
  | cons x xs ih =>
    rw [List.cons_append, documentationDetailsOfChildren, documentationDetailsOfChildren]
    cases x.getDocumentationDetails doc d with
    | none => rfl
    | some d1 => exact ih d1

/-! ## Validating a validated child list again -/

theorem clearDefaults_of_usesDefaults_false (e : Encodable) (h : e.usesDefaults = false) :
    e.clearDefaults = e := by
  cases e
  simp_all [Encodable.clearDefaults]

/-- The three reference checks in closed form. -/
theorem resolveReferences_eq (l : List Encodable) (e : Encodable) :
    resolveReferences l e =
      { e with
        variableArray :=
          if e.variableArray ≠ "" ∧ findReference l e.variableArray = false then ""
          else e.variableArray
        variable2dArray :=
          if e.variable2dArray ≠ "" ∧ findReference l e.variable2dArray = false then ""
          else e.variable2dArray
        dependsOn :=
          if e.dependsOn ≠ "" ∧ (e.isBitfield = true ∨ findReference l e.dependsOn = false)
          then "" else e.dependsOn
        dependsOnValue :=
          if e.dependsOn ≠ "" ∧ e.isBitfield = false ∧ findReference l e.dependsOn = false
          then "" else e.dependsOnValue
        dependsOnCompare :=
          if e.dependsOn ≠ "" ∧ e.isBitfield = false ∧ findReference l e.dependsOn = false
          then "" else e.dependsOnCompare } := by
  unfold resolveReferences
  rw [resolveDependsOn_eq, resolveVariable2dArray_eq, resolveVariableArray_eq]
  cases e with
  | mk isField name array array2d variableArray variable2dArray dependsOn dependsOnValue
      dependsOnCompare encodedLength isNotEncoded isNotInMemory isPrimitive isBitfield hasInit
      hasVerify usesDefaults invalidatesPreviousDefault overridesPreviousEncodable
      usesBitfields bitfieldGroupNumBytes usesEncodeTempBitfield usesEncodeTempLongBitfield
      usesDecodeTempBitfield usesDecodeTempLongBitfield usesEncodeIterator usesDecodeIterator
      usesInitIterator usesVerifyIterator uses2ndEncodeIterator uses2ndDecodeIterator
      uses2ndInitIterator uses2ndVerifyIterator isConstant =>
    simp only
    by_cases h3 : dependsOn = "" <;> cases isBitfield <;>
      cases h7 : findReference l dependsOn <;> simp [h3, h7]

theorem resolveReferences_clearDefaults (l : List Encodable) (e : Encodable) :
    resolveReferences l e.clearDefaults = (resolveReferences l e).clearDefaults := by
  rw [resolveReferences_eq, resolveReferences_eq]
  rfl

/-- Resolving the references of a child whose references were resolved against a list with
the same targets changes nothing more. -/
theorem resolveReferences_idem (l l2 : List Encodable) (e : Encodable)
    (h : ∀ r, findReference l2 r = findReference l r) :
    resolveReferences l2 (resolveReferences l e) = resolveReferences l2 e := by
  rw [resolveReferences_eq l2 (resolveReferences l e), resolveReferences_eq l2 e,
    resolveReferences_eq l e]
  simp only [h]
  cases e with
  | mk isField name array array2d variableArray variable2dArray dependsOn dependsOnValue
      dependsOnCompare encodedLength isNotEncoded isNotInMemory isPrimitive isBitfield hasInit
      hasVerify usesDefaults invalidatesPreviousDefault overridesPreviousEncodable
      usesBitfields bitfieldGroupNumBytes usesEncodeTempBitfield usesEncodeTempLongBitfield
      usesDecodeTempBitfield usesDecodeTempLongBitfield usesEncodeIterator usesDecodeIterator
      usesInitIterator usesVerifyIterator uses2ndEncodeIterator uses2ndDecodeIterator
      uses2ndInitIterator uses2ndVerifyIterator isConstant =>
    simp only [Encodable.mk.injEq, true_and, and_true]
    by_cases h1 : variableArray = "" <;> by_cases h2 : variable2dArray = "" <;>
      by_cases h3 : dependsOn = "" <;> cases isBitfield <;>
      cases h5 : findReference l variableArray <;>
      cases h6 : findReference l variable2dArray <;>
      cases h7 : findReference l dependsOn <;>
      simp [h1, h2, h3, h5, h6, h7]

/-- The override search, for a query that reads the fixed parts only. -/
theorem findOverridden_fixedPart
    (getOverriddenTypeData : Encodable → Option Encodable → Bool)
    (hg : overrideReadsFixedPart getOverriddenTypeData) (l : List Encodable) (e : Encodable) :
    findOverridden getOverriddenTypeData l e =
      l.any fun previous =>
        getOverriddenTypeData e.fixedPart
          (if previous.isField then some previous.fixedPart else none) := by
  unfold findOverridden
  congr 1
  funext previous
  rw [hg]
  cases previous.isField <;> rfl

theorem findOverridden_clearAllDefaults
    (getOverriddenTypeData : Encodable → Option Encodable → Bool)
    (hg : overrideReadsFixedPart getOverriddenTypeData) (l : List Encodable) (e : Encodable) :
    findOverridden getOverriddenTypeData (clearAllDefaults l) e.clearDefaults =
      findOverridden getOverriddenTypeData l e := by
  rw [findOverridden_fixedPart getOverriddenTypeData hg,
    findOverridden_fixedPart getOverriddenTypeData hg, clearAllDefaults_eq_map, List.any_map]
  rfl

theorem findOverridden_clearAllDefaults_left
    (getOverriddenTypeData : Encodable → Option Encodable → Bool)
    (hg : overrideReadsFixedPart getOverriddenTypeData) (l : List Encodable) (e : Encodable) :
    findOverridden getOverriddenTypeData (clearAllDefaults l) e =
      findOverridden getOverriddenTypeData l e := by
  rw [findOverridden_fixedPart getOverriddenTypeData hg,
    findOverridden_fixedPart getOverriddenTypeData hg, clearAllDefaults_eq_map, List.any_map]
  rfl

theorem trackFieldDefaults_findReference (s : ProtocolStructure) (f : Encodable) (r : String) :
    findReference (trackFieldDefaults s f).encodables r = findReference s.encodables r := by
  rcases trackFieldDefaults_encodables s f with h | h
  · rw [h]
  · rw [h, findReference_clearAllDefaults]

/-- The step of `parseChildren` on a child whose references were resolved against the
children in the list is the step on the child itself. -/
theorem parseChild_appendedChild
    (getOverriddenTypeData : Encodable → Option Encodable → Bool)
    (hg : overrideReadsFixedPart getOverriddenTypeData) (st : ParseChildrenState)
    (e : Encodable) :
    parseChild getOverriddenTypeData st (some (appendedChild st.structure_.encodables e)) =
      parseChild getOverriddenTypeData st (some e) := by
  by_cases hne : e.isNotEncoded = true
  · unfold appendedChild
    rw [if_pos hne]
  · have ha : appendedChild st.structure_.encodables e =
        resolveReferences st.structure_.encodables e := by
      unfold appendedChild
      rw [if_neg hne]
    rw [ha]
    obtain ⟨va, v2, d, dv, dc, hfr⟩ := resolveReferences_frame st.structure_.encodables e
    have hO : findOverridden getOverriddenTypeData st.structure_.encodables
        (resolveReferences st.structure_.encodables e) =
        findOverridden getOverriddenTypeData st.structure_.encodables e := by
      rw [findOverridden_fixedPart getOverriddenTypeData hg,
        findOverridden_fixedPart getOverriddenTypeData hg, hfr]
      rfl
    have hM : ∀ s, trackFieldMetadata s (resolveReferences st.structure_.encodables e) =
        trackFieldMetadata s e := by
      intro s; rw [hfr]; rfl
    have hD : ∀ s, trackFieldDefaults s (resolveReferences st.structure_.encodables e) =
        trackFieldDefaults s e := by
      intro s; rw [hfr]; rfl
    have hS : ∀ s, trackStructureMetadata s (resolveReferences st.structure_.encodables e) =
        trackStructureMetadata s e := by
      intro s; rw [hfr]; rfl
    have h1 : (resolveReferences st.structure_.encodables e).isNotEncoded = e.isNotEncoded := by
      rw [hfr]
    have h2 : (resolveReferences st.structure_.encodables e).isField = e.isField := by
      rw [hfr]
    have h3 : (resolveReferences st.structure_.encodables e).overridesPreviousEncodable =
        e.overridesPreviousEncodable := by
      rw [hfr]
    have hF : ∀ s : ProtocolStructure,
        (∀ r, findReference s.encodables r = findReference st.structure_.encodables r) →
        finishChild s (resolveReferences st.structure_.encodables e) = finishChild s e := by
      intro s hs
      unfold finishChild
      rw [resolveReferences_idem st.structure_.encodables s.encodables e hs]
    unfold parseChild
    simp only [h1, h2, h3, hO, hM, hD, hS]
    split_ifs
    · rfl
    · exact hF _ (fun r => by
        rw [trackFieldDefaults_findReference, trackFieldMetadata_encodables])
    · exact hF _ (fun r => by rw [trackStructureMetadata_encodables])

theorem trackFieldMetadata_cleared (s : ProtocolStructure) (e : Encodable) :
    trackFieldMetadata s.cleared e.clearDefaults = (trackFieldMetadata s e).cleared := by
  unfold trackFieldMetadata ProtocolStructure.cleared Encodable.clearDefaults
    Encodable.getBitfieldGroupNumBytes
  simp only
  split_ifs <;> rfl

theorem trackStructureMetadata_cleared (s : ProtocolStructure) (e : Encodable) :
    trackStructureMetadata s.cleared e.clearDefaults = (trackStructureMetadata s e).cleared := by
  unfold trackStructureMetadata ProtocolStructure.cleared Encodable.clearDefaults
    Encodable.is2dArray Encodable.isArray
  simp only
  split_ifs <;> rfl

theorem trackFieldDefaults_cleared_left (s : ProtocolStructure) (e : Encodable) :
    trackFieldDefaults s.cleared e.clearDefaults = s.cleared := by
  unfold trackFieldDefaults ProtocolStructure.cleared Encodable.clearDefaults
  simp

theorem trackFieldDefaults_cleared (s : ProtocolStructure) (e : Encodable) :
    (trackFieldDefaults s e).cleared = s.cleared := by
  unfold trackFieldDefaults ProtocolStructure.cleared
  split_ifs
  · rfl
  · simp only [clearAllDefaults_idem]
  · rfl

theorem finishChild_cleared (s : ProtocolStructure) (e : Encodable) :
    finishChild s.cleared e.clearDefaults = (finishChild s e).cleared := by
  have h1 : resolveReferences s.cleared.encodables e.clearDefaults =
      (resolveReferences s.encodables e).clearDefaults := by
    rw [← resolveReferences_clearDefaults]
    exact resolveReferences_clearAllDefaults s.encodables e.clearDefaults
  have h2 : clearAllDefaults (s.encodables ++ [resolveReferences s.encodables e]) =
      clearAllDefaults s.encodables ++ [(resolveReferences s.encodables e).clearDefaults] := by
    rw [clearAllDefaults_append, clearAllDefaults_eq_map [_]]
    rfl
  unfold finishChild ParseChildrenState.cleared
  simp only [h1]
  unfold ProtocolStructure.cleared Encodable.clearDefaults Encodable.getBitfieldGroupNumBytes
  simp only [clearAllDefaults_length]
  split_ifs <;> simp only [h2, Encodable.clearDefaults, clearAllDefaults_length]

/-- The step of `parseChildren` on the state and the child without their defaults is the
step on the state and the child, without the defaults. -/
theorem parseChild_cleared
    (getOverriddenTypeData : Encodable → Option Encodable → Bool)
    (hg : overrideReadsFixedPart getOverriddenTypeData) (st : ParseChildrenState)
    (c : Option Encodable) :
    parseChild getOverriddenTypeData st.cleared (c.map Encodable.clearDefaults) =
      (parseChild getOverriddenTypeData st c).cleared := by
  cases c with
  | none => rfl
  | some e =>
    have hO : findOverridden getOverriddenTypeData st.structure_.cleared.encodables
        e.clearDefaults = findOverridden getOverriddenTypeData st.structure_.encodables e :=
      findOverridden_clearAllDefaults getOverriddenTypeData hg st.structure_.encodables e
    have h1 : e.clearDefaults.isNotEncoded = e.isNotEncoded := rfl
    have h2 : e.clearDefaults.isField = e.isField := rfl
    have h3 : e.clearDefaults.overridesPreviousEncodable = e.overridesPreviousEncodable := rfl
    have hS : st.cleared.structure_ = st.structure_.cleared := rfl
    unfold parseChild
    simp only [Option.map_some', h1, h2, h3, hS, hO]
    split_ifs
    · unfold ParseChildrenState.cleared ProtocolStructure.cleared
      simp only [clearAllDefaults_append, clearAllDefaults_eq_map [_]]
      rfl
    · rfl
    · rw [trackFieldMetadata_cleared, trackFieldDefaults_cleared_left,
        ← finishChild_cleared (trackFieldDefaults (trackFieldMetadata st.structure_ e) e) e,
        trackFieldDefaults_cleared]
    · rw [trackStructureMetadata_cleared, finishChild_cleared]

/-- A state without defaults is its own cleared state. -/
theorem ParseChildrenState.cleared_eq_self (st : ParseChildrenState)
    (h1 : clearAllDefaults st.structure_.encodables = st.structure_.encodables)
    (h2 : st.structure_.defaults = false) : st.cleared = st := by
  cases st with
  | mk structure_ prevEncodable =>
    cases structure_
    simp only [ParseChildrenState.cleared, ProtocolStructure.cleared] at h1 h2 ⊢
    simp only [h1, h2]

/-- The loop of `parseChildren` on a state and on children without their defaults. -/
theorem parseChildrenLoop_cleared
    (getOverriddenTypeData : Encodable → Option Encodable → Bool)
    (hg : overrideReadsFixedPart getOverriddenTypeData)
    (children : List (Option Encodable)) : ∀ st : ParseChildrenState,
    parseChildrenLoop getOverriddenTypeData st.cleared
        (children.map (Option.map Encodable.clearDefaults)) =
      (parseChildrenLoop getOverriddenTypeData st children).cleared := by
  induction children with
  | nil => intro st; rfl
  | cons c cs ih =>
    intro st
    rw [List.map_cons, parseChildrenLoop_cons, parseChildrenLoop_cons,
      parseChild_cleared getOverriddenTypeData hg, ih]

/-- Validating again the child list that a run of the loop from the fresh state has
produced gives the state of that run. -/
theorem parseChildrenLoop_idem
    (getOverriddenTypeData : Encodable → Option Encodable → Bool)
    (hg : overrideReadsFixedPart getOverriddenTypeData)
    (children : List (Option Encodable)) :
    parseChildrenLoop getOverriddenTypeData
        { structure_ := ProtocolStructure.clear, prevEncodable := none }
        ((parseChildrenLoop getOverriddenTypeData
          { structure_ := ProtocolStructure.clear, prevEncodable := none }
          children).structure_.encodables.map some) =
      parseChildrenLoop getOverriddenTypeData
        { structure_ := ProtocolStructure.clear, prevEncodable := none } children := by
  induction children using List.reverseRecOn with
  | nil => rfl
  | append_singleton cs c ih =>
    rw [parseChildrenLoop_append, parseChildrenLoop_cons, parseChildrenLoop_nil]
    generalize hst : parseChildrenLoop getOverriddenTypeData
      { structure_ := ProtocolStructure.clear, prevEncodable := none } cs = st at ih ⊢
    cases c with
    | none => exact ih
    | some e =>
      rcases parseChild_some_defaults getOverriddenTypeData st e with
        h0 | ⟨_, he, _⟩ | ⟨_, _, he, _⟩ | ⟨_, hu, _, _, he, hd⟩ | ⟨_, _, _, he, _⟩
      · rw [h0]
        exact ih
      · rw [he, List.map_append, parseChildrenLoop_append, ih, List.map_singleton,
          parseChildrenLoop_cons, parseChildrenLoop_nil,
          parseChild_appendedChild getOverriddenTypeData hg]
      · rw [he, List.map_append, parseChildrenLoop_append, ih, List.map_singleton,
          parseChildrenLoop_cons, parseChildrenLoop_nil,
          parseChild_appendedChild getOverriddenTypeData hg]
      · have hclear : parseChildrenLoop getOverriddenTypeData
            { structure_ := ProtocolStructure.clear, prevEncodable := none }
            ((clearAllDefaults st.structure_.encodables).map some) = st.cleared := by
          have h := parseChildrenLoop_cleared getOverriddenTypeData hg
            (st.structure_.encodables.map some)
            { structure_ := ProtocolStructure.clear, prevEncodable := none }
          rw [ih, List.map_map] at h
          rw [clearAllDefaults_eq_map, List.map_map]
          exact h
        have hstep : parseChild getOverriddenTypeData st.cleared
            (some (appendedChild st.structure_.encodables e)) =
            parseChild getOverriddenTypeData st (some e) := by
          have h1 : appendedChild st.structure_.encodables e =
              appendedChild st.cleared.structure_.encodables e :=
            (appendedChild_clearAllDefaults st.structure_.encodables e).symm
          rw [h1, parseChild_appendedChild getOverriddenTypeData hg st.cleared e]
          have h2 := parseChild_cleared getOverriddenTypeData hg st (some e)
          rw [Option.map_some', clearDefaults_of_usesDefaults_false e hu] at h2
          rw [h2]
          apply ParseChildrenState.cleared_eq_self
          · rw [he, clearAllDefaults_append, clearAllDefaults_idem, clearAllDefaults_eq_map [_]]
            obtain ⟨va, v2, d, dv, dc, hfr⟩ := appendedChild_frame st.structure_.encodables e
            have hu2 : (appendedChild st.structure_.encodables e).usesDefaults = false := by
              rw [hfr]
              exact hu
            rw [List.map_singleton, clearDefaults_of_usesDefaults_false _ hu2]
          · exact hd
        rw [he, List.map_append, parseChildrenLoop_append, hclear, List.map_singleton,
          parseChildrenLoop_cons, parseChildrenLoop_nil, hstep]
      · rw [he, List.map_append, parseChildrenLoop_append, ih, List.map_singleton,
          parseChildrenLoop_cons, parseChildrenLoop_nil,
          parseChild_appendedChild getOverriddenTypeData hg]

/-- The guards of `parse` applied to the attributes they have left change nothing. -/
theorem parseAttributes_idem (s : ProtocolStructure) (map : Attributes) :
    (s.parseAttributes map).parseAttributes (s.parseAttributes map).attributes =
      s.parseAttributes map := by
  unfold ProtocolStructure.parseAttributes ProtocolStructure.attributes
  by_cases h1 : map.array = "" <;> by_cases h2 : map.variableArray = "" <;>
    by_cases h3 : map.dependsOn = "" <;> by_cases h4 : map.dependsOnValue = "" <;>
    by_cases h5 : map.dependsOnCompare = "" <;> by_cases h6 : map.name = "" <;>
    by_cases h7 : map.title = "" <;> simp [h1, h2, h3, h4, h5, h6, h7]

/-! ## Reference resolution in `parseChildren` -/

/-- C1 (the code at the failing input): the earlier sibling `count` is a nested structure
(no field, not primitive) that is an array; the later fields `data` and `flag` keep their
`variableArray` and `dependsOn` references to it after `parseChildren`, because the look-up
loops only skip a child that is both non-primitive and non-array. -/
theorem parseChildren_keeps_reference_to_structure_array :
    sampleStructureArray.isField = false ∧ sampleStructureArray.isPrimitive = false ∧
    sampleStructureArray.isArray = true ∧
    (ProtocolStructure.clear.parseChildren noOverride
        [some sampleStructureArray, some sampleVariableField,
          some sampleDependentField]).encodables.map
      (fun e => (e.name, e.variableArray, e.dependsOn)) =
      [("count", "", ""), ("data", "count", ""), ("flag", "", "count")] := by
  decide

/-- C3: `parseChildren` never drops a child because of a reference. For a child `c` of the
list `pre ++ some c :: post`, with `mid` the child list when `c` is reached: either the
override of `c` fails (the one case in which a child is discarded, whatever its references)
and the result is that of the list without `c`; or `c` sits in the final list right behind
the children kept from `pre`, equal to `c` except for the five reference members and the
default, with its array bounds untouched, and each reference member is exactly the one of
`c`, or empty when `c` is encoded and the reference fails: a failed `variableArray` only
empties `variableArray`, a failed `dependsOn` (unresolved, `c` no bitfield) empties
`dependsOn`, `dependsOnValue` and `dependsOnCompare` together. -/
theorem parseChildren_keeps_child_with_failed_reference
    (getOverriddenTypeData : Encodable → Option Encodable → Bool) (s : ProtocolStructure)
    (pre post : List (Option Encodable)) (c : Encodable) :
    (overrideFails getOverriddenTypeData
        (s.parseChildren getOverriddenTypeData pre).encodables c ∧
      s.parseChildren getOverriddenTypeData (pre ++ some c :: post) =
        s.parseChildren getOverriddenTypeData (pre ++ post)) ∨
    ∃ before kept after,
      (s.parseChildren getOverriddenTypeData (pre ++ some c :: post)).encodables =
        before ++ kept :: after ∧
      before.length = (s.parseChildren getOverriddenTypeData pre).encodables.length ∧
      kept = { c with variableArray := kept.variableArray,
                      variable2dArray := kept.variable2dArray,
                      dependsOn := kept.dependsOn,
                      dependsOnValue := kept.dependsOnValue,
                      dependsOnCompare := kept.dependsOnCompare,
                      usesDefaults := kept.usesDefaults } ∧
      kept.array = c.array ∧ kept.array2d = c.array2d ∧
      kept.variableArray =
        (if c.isNotEncoded = false ∧ c.variableArray ≠ "" ∧
            findReference (s.parseChildren getOverriddenTypeData pre).encodables
              c.variableArray = false then ""
         else c.variableArray) ∧
      kept.variable2dArray =
        (if c.isNotEncoded = false ∧ c.variable2dArray ≠ "" ∧
            findReference (s.parseChildren getOverriddenTypeData pre).encodables
              c.variable2dArray = false then ""
         else c.variable2dArray) ∧
      kept.dependsOn =
        (if c.isNotEncoded = false ∧ c.dependsOn ≠ "" ∧
            (c.isBitfield = true ∨
              findReference (s.parseChildren getOverriddenTypeData pre).encodables
                c.dependsOn = false) then ""
         else c.dependsOn) ∧
      kept.dependsOnValue =
        (if c.isNotEncoded = false ∧ c.dependsOn ≠ "" ∧ c.isBitfield = false ∧
            findReference (s.parseChildren getOverriddenTypeData pre).encodables
              c.dependsOn = false then ""
         else c.dependsOnValue) ∧
      kept.dependsOnCompare =
        (if c.isNotEncoded = false ∧ c.dependsOn ≠ "" ∧ c.isBitfield = false ∧
            findReference (s.parseChildren getOverriddenTypeData pre).encodables
              c.dependsOn = false then ""
         else c.dependsOnCompare) := by
  unfold ProtocolStructure.parseChildren
  rcases parseChildrenLoop_child_fate getOverriddenTypeData
      { structure_ := s, prevEncodable := none } pre post c with ⟨hfail, heq⟩ | ⟨_, h⟩
  · exact Or.inl ⟨hfail, by rw [heq]⟩
  · right
    obtain ⟨before, kept, after, hout, hlen, hkept⟩ := h
    obtain ⟨hframe, hva, hv2, hd, hdv, hdc, _⟩ := kept_child_spec _ c kept hkept
    refine ⟨before, kept, after, hout, hlen, hframe, ?_, ?_, hva, hv2, hd, hdv, hdc⟩
    · rw [hframe]
    · rw [hframe]

/-! ## The defaults rule of `parseChildren` -/

/-- C4 (counterexample): the encoded field `d` uses a default and the later encoded field
`f` uses none, yet `d` still uses its default after `parseChildren`, because `f` does not
report `invalidatesPreviousDefault()`. -/
theorem parseChildren_default_survives_quiet_field :
    (sampleDefaultField.isNotEncoded = false ∧ sampleDefaultField.isField = true ∧
      sampleDefaultField.usesDefaults = true) ∧
    (sampleQuietField.isNotEncoded = false ∧ sampleQuietField.isField = true ∧
      sampleQuietField.usesDefaults = false) ∧
    (ProtocolStructure.clear.parseChildren noOverride
        [some sampleDefaultField, some sampleQuietField]).encodables.map
      (fun e => (e.name, e.usesDefaults)) = [("d", true), ("f", false)] := by
  decide

/-- C4 (amended): in a structure that starts without children and with `defaults` unset, if
after `parseChildren` the child at position `j` is an encoded field that uses no default and
reports `invalidatesPreviousDefault()`, then no encoded field at an earlier position `i`
still uses a default: among the encoded fields, those that keep a default come after every
such field. -/
theorem parseChildren_no_default_before_invalidating_field
    (getOverriddenTypeData : Encodable → Option Encodable → Bool) (s : ProtocolStructure)
    (children : List (Option Encodable))
    (hlist : s.encodables = []) (hflag : s.defaults = false)
    (i j : Nat) (a b : Encodable) (hij : i < j)
    (ha : (s.parseChildren getOverriddenTypeData children).encodables[i]? = some a)
    (hb : (s.parseChildren getOverriddenTypeData children).encodables[j]? = some b)
    (hbfield : isEncodedField b) (hbdefault : b.usesDefaults = false)
    (hbinvalidates : b.invalidatesPreviousDefault = true)
    (hafield : isEncodedField a) :
    a.usesDefaults = false := by
  have hinv := parseChildren_defaultsInvariant getOverriddenTypeData s children
    (defaultsInvariant_of_empty s hlist hflag)
  obtain ⟨hi, hia⟩ := List.getElem?_eq_some.mp ha
  obtain ⟨hj, hjb⟩ := List.getElem?_eq_some.mp hb
  have hrel := List.pairwise_iff_getElem.mp hinv.1 i j hi hj hij
  rw [hia, hjb] at hrel
  exact hrel hbfield hbdefault hbinvalidates hafield

/-- C4 (witness): the field `d` with a default, followed by the field `n` without default
that invalidates previous defaults. -/
theorem parseChildren_no_default_before_invalidating_field_witness :
    (ProtocolStructure.clear.parseChildren noOverride
        [some sampleDefaultField, some (sampleField "n" (fixedLength "1"))]).encodables[0]? =
      some sampleDefaultField.clearDefaults ∧
    (ProtocolStructure.clear.parseChildren noOverride
        [some sampleDefaultField, some (sampleField "n" (fixedLength "1"))]).encodables[1]? =
      some (sampleField "n" (fixedLength "1")) ∧
    sampleDefaultField.clearDefaults.usesDefaults = false :=
  ⟨by decide, by decide,
    parseChildren_no_default_before_invalidating_field noOverride ProtocolStructure.clear
      [some sampleDefaultField, some (sampleField "n" (fixedLength "1"))] rfl rfl 0 1
      sampleDefaultField.clearDefaults (sampleField "n" (fixedLength "1")) (by decide)
      (by decide) (by decide) ⟨by decide, by decide⟩ (by decide) (by decide)
      ⟨by decide, by decide⟩⟩

/-! ## Iterator flags -/

/-- C5 (the code at the failing input): the field `a` reports `usesInitIterator()` and
`usesVerifyIterator()`; the nested structure array `count` that follows it has neither init
nor verify logic. After `parseChildren` both `needsInitIterator` and `needsVerifyIterator`
are false, because lines 817-818 assign the answer of the structure instead of OR-ing it;
with the two children in the other order both flags are true. -/
theorem parseChildren_structure_array_resets_init_verify_iterator :
    sampleIteratingField.usesInitIterator = true ∧
    sampleIteratingField.usesVerifyIterator = true ∧
    sampleStructureArray.hasInit = false ∧ sampleStructureArray.hasVerify = false ∧
    (ProtocolStructure.clear.parseChildren noOverride
      [some sampleIteratingField, some sampleStructureArray]).needsInitIterator = false ∧
    (ProtocolStructure.clear.parseChildren noOverride
      [some sampleIteratingField, some sampleStructureArray]).needsVerifyIterator = false ∧
    (ProtocolStructure.clear.parseChildren noOverride
      [some sampleStructureArray, some sampleIteratingField]).needsInitIterator = true ∧
    (ProtocolStructure.clear.parseChildren noOverride
      [some sampleStructureArray, some sampleIteratingField]).needsVerifyIterator = true := by
  decide

/-- C6: after `parseChildren` on a freshly constructed structure, `needsEncodeIterator`
(and likewise `needsDecodeIterator`) is set exactly when the child list holds an encoded
field that reports `usesEncodeIterator()` (`usesDecodeIterator()`) or an encoded
nested structure that is an array; `needs2ndEncodeIterator` and `needs2ndDecodeIterator`
are set exactly when it holds an encoded field that reports the second iterator or an
encoded nested structure that is a 2-D array. So an encoded nested structure that is an array sets
both the encode and the decode flag. -/
theorem parseChildren_encode_decode_iterators
    (getOverriddenTypeData : Encodable → Option Encodable → Bool)
    (children : List (Option Encodable)) :
    ((ProtocolStructure.clear.parseChildren getOverriddenTypeData
        children).needsEncodeIterator = true ↔
      ∃ e ∈ (ProtocolStructure.clear.parseChildren getOverriddenTypeData children).encodables,
        e.isNotEncoded = false ∧
          ((e.isField = true ∧ e.usesEncodeIterator = true) ∨
            (e.isField = false ∧ e.isArray = true))) ∧
    ((ProtocolStructure.clear.parseChildren getOverriddenTypeData
        children).needsDecodeIterator = true ↔
      ∃ e ∈ (ProtocolStructure.clear.parseChildren getOverriddenTypeData children).encodables,
        e.isNotEncoded = false ∧
          ((e.isField = true ∧ e.usesDecodeIterator = true) ∨
            (e.isField = false ∧ e.isArray = true))) ∧
    ((ProtocolStructure.clear.parseChildren getOverriddenTypeData
        children).needs2ndEncodeIterator = true ↔
      ∃ e ∈ (ProtocolStructure.clear.parseChildren getOverriddenTypeData children).encodables,
        e.isNotEncoded = false ∧
          ((e.isField = true ∧ e.uses2ndEncodeIterator = true) ∨
            (e.isField = false ∧ e.is2dArray = true))) ∧
    ((ProtocolStructure.clear.parseChildren getOverriddenTypeData
        children).needs2ndDecodeIterator = true ↔
      ∃ e ∈ (ProtocolStructure.clear.parseChildren getOverriddenTypeData children).encodables,
        e.isNotEncoded = false ∧
          ((e.isField = true ∧ e.uses2ndDecodeIterator = true) ∨
            (e.isField = false ∧ e.is2dArray = true))) ∧
    (∀ e ∈ (ProtocolStructure.clear.parseChildren getOverriddenTypeData children).encodables,
      e.isNotEncoded = false → e.isField = false → e.isArray = true →
        (ProtocolStructure.clear.parseChildren getOverriddenTypeData
          children).needsEncodeIterator = true ∧
        (ProtocolStructure.clear.parseChildren getOverriddenTypeData
          children).needsDecodeIterator = true) := by
  have hE := parseChildren_clear_flag_iff getOverriddenTypeData
    ProtocolStructure.needsEncodeIterator Encodable.usesEncodeIterator Encodable.isArray rfl
    (fun _ => rfl) (fun _ => rfl) (fun _ _ _ _ _ _ => rfl) (fun _ _ _ _ _ _ => rfl)
    (fun st c hk => (parseChild_some_iterators getOverriddenTypeData st c hk).1) children
  have hD := parseChildren_clear_flag_iff getOverriddenTypeData
    ProtocolStructure.needsDecodeIterator Encodable.usesDecodeIterator Encodable.isArray rfl
    (fun _ => rfl) (fun _ => rfl) (fun _ _ _ _ _ _ => rfl) (fun _ _ _ _ _ _ => rfl)
    (fun st c hk => (parseChild_some_iterators getOverriddenTypeData st c hk).2.1) children
  have hE2 := parseChildren_clear_flag_iff getOverriddenTypeData
    ProtocolStructure.needs2ndEncodeIterator Encodable.uses2ndEncodeIterator
    Encodable.is2dArray rfl
    (fun _ => rfl) (fun _ => rfl) (fun _ _ _ _ _ _ => rfl) (fun _ _ _ _ _ _ => rfl)
    (fun st c hk => (parseChild_some_iterators getOverriddenTypeData st c hk).2.2.1) children
  have hD2 := parseChildren_clear_flag_iff getOverriddenTypeData
    ProtocolStructure.needs2ndDecodeIterator Encodable.uses2ndDecodeIterator
    Encodable.is2dArray rfl
    (fun _ => rfl) (fun _ => rfl) (fun _ _ _ _ _ _ => rfl) (fun _ _ _ _ _ _ => rfl)
    (fun st c hk => (parseChild_some_iterators getOverriddenTypeData st c hk).2.2.2) children
  refine ⟨hE, hD, hE2, hD2, ?_⟩
  intro e he h1 h2 h3
  exact ⟨hE.mpr ⟨e, he, h1, Or.inr ⟨h2, h3⟩⟩, hD.mpr ⟨e, he, h1, Or.inr ⟨h2, h3⟩⟩⟩

/-! ## The length computed by `parse` -/

/-- C7: a structure whose array bound is the numeric literal `N` and that has no dependsOn
after `parse`, all of whose children have numeric minimum and maximum lengths, gets a
numeric maximum equal to `N` times the sum of the maxima of its children, and a numeric
minimum equal to 0 when its variableArray is set and to `N` times the sum of the minima of
its children otherwise. -/
theorem parse_array_length (getOverriddenTypeData : Encodable → Option Encodable → Bool)
    (s : ProtocolStructure) (map : Attributes) (children : List (Option Encodable)) (N : Nat)
    (harray : numericLiteral (s.parse getOverriddenTypeData map children).array = some N)
    (hdepends : (s.parse getOverriddenTypeData map children).dependsOn = "")
    (hchildren : ∀ e ∈ (s.parse getOverriddenTypeData map children).encodables,
      e.encodedLength.maxEncodedLength.isNumeric = true ∧
        e.encodedLength.minEncodedLength.isNumeric = true) :
    (s.parse getOverriddenTypeData map children).encodedLength.maxEncodedLength.isNumeric =
      true ∧
    (s.parse getOverriddenTypeData map children).encodedLength.maxEncodedLength.value =
      N * ((s.parse getOverriddenTypeData map children).encodables.map
        fun e => e.encodedLength.maxEncodedLength.value).sum ∧
    (s.parse getOverriddenTypeData map children).encodedLength.minEncodedLength.isNumeric =
      true ∧
    (s.parse getOverriddenTypeData map children).encodedLength.minEncodedLength.value =
      (if (s.parse getOverriddenTypeData map children).variableArray ≠ "" then 0
       else N * ((s.parse getOverriddenTypeData map children).encodables.map
        fun e => e.encodedLength.minEncodedLength.value).sum) := by
  rw [parse_eq] at harray hdepends hchildren ⊢
  generalize (s.parseAttributes map).parseChildren getOverriddenTypeData children = p at *
  dsimp only at harray hdepends hchildren ⊢
  obtain ⟨hmaxN, hmaxV⟩ := foldl_addToLengthString_isNumeric
    (fun e => e.encodedLength.maxEncodedLength) p.encodables LengthString.empty rfl
    (fun e he => (hchildren e he).1)
  obtain ⟨hminN, hminV⟩ := foldl_addToLengthString_isNumeric
    (fun e => e.encodedLength.minEncodedLength) p.encodables LengthString.empty rfl
    (fun e he => (hchildren e he).2)
  obtain ⟨hsmaxN, hsmaxV⟩ := scaleLengthString_isNumeric harray hmaxN
  obtain ⟨hsminN, hsminV⟩ := scaleLengthString_isNumeric harray hminN
  have hzero : LengthString.empty.value = 0 := rfl
  rw [hzero, Nat.zero_add] at hmaxV hminV
  rw [sumChildrenLength_eq]
  unfold EncodedLength.addToLength EncodedLength.clear
  dsimp only
  rw [addToLengthString_empty_left, addToLengthString_empty_left]
  refine ⟨hsmaxN, ?_, ?_, ?_⟩
  · rw [hsmaxV, hmaxV, Nat.mul_comm]
  · by_cases hv : p.variableArray = ""
    · simp only [hv, hdepends, ne_eq, not_true_eq_false, decide_False, Bool.not_false,
        Bool.and_self, if_true]
      exact hsminN
    · simp [hv, LengthString.isNumeric]
  · by_cases hv : p.variableArray = ""
    · simp only [hv, hdepends, ne_eq, not_true_eq_false, decide_False, Bool.not_false,
        Bool.and_self, if_true, if_false]
      rw [hsminV, hminV, Nat.mul_comm]
    · simp [hv, LengthString.value]

/-- C7 (witness): a structure `S`, an array of 3, with the children `A` of 4 bytes and `B`
of 2 bytes: maximum and minimum are both 3 times 6. -/
theorem parse_array_length_witness :
    (ProtocolStructure.clear.parse noOverride { sampleAttributes "S" with array := "3" }
      [some (sampleField "A" (fixedLength "4")),
        some (sampleField "B" (fixedLength "2"))]).encodedLength.maxEncodedLength.value =
      3 * 6 ∧
    (ProtocolStructure.clear.parse noOverride { sampleAttributes "S" with array := "3" }
      [some (sampleField "A" (fixedLength "4")),
        some (sampleField "B" (fixedLength "2"))]).encodedLength.minEncodedLength.value =
      3 * 6 :=
  have h := parse_array_length noOverride ProtocolStructure.clear
    { sampleAttributes "S" with array := "3" }
    [some (sampleField "A" (fixedLength "4")), some (sampleField "B" (fixedLength "2"))] 3
    (by decide) (by decide) (by decide)
  ⟨h.2.1, h.2.2.2⟩

/-- C8: for a structure built by `parse` from children whose lengths were composed with
`addToLength` (terms and groups, any combination of the variable, dependent and default
flags) and whose three totals are numeric, the minimum is at most the non-default total and
the non-default total is at most the maximum. -/
theorem parse_length_order (getOverriddenTypeData : Encodable → Option Encodable → Bool)
    (s : ProtocolStructure) (map : Attributes) (children : List (Option Encodable))
    (hcomposed : ∀ e ∈ (s.parse getOverriddenTypeData map children).encodables,
      Composed anyFlags e.encodedLength)
    (hmin : (s.parse getOverriddenTypeData map
      children).encodedLength.minEncodedLength.isNumeric = true)
    (hnonDefault : (s.parse getOverriddenTypeData map
      children).encodedLength.nonDefaultEncodedLength.isNumeric = true)
    (hmax : (s.parse getOverriddenTypeData map
      children).encodedLength.maxEncodedLength.isNumeric = true) :
    (s.parse getOverriddenTypeData map children).encodedLength.minEncodedLength.value ≤
      (s.parse getOverriddenTypeData map
        children).encodedLength.nonDefaultEncodedLength.value ∧
    (s.parse getOverriddenTypeData map children).encodedLength.nonDefaultEncodedLength.value ≤
      (s.parse getOverriddenTypeData map children).encodedLength.maxEncodedLength.value :=
  ⟨(composed_parse getOverriddenTypeData s map children hcomposed).min_le_nonDefault
      hmin hnonDefault,
    (composed_parse getOverriddenTypeData s map children hcomposed).nonDefault_le_max
      hnonDefault hmax⟩

/-- C8 (witness): the structure with the children `A` (4 bytes), `C` (1 byte, depends on
`A`) and `d` (2 bytes, with a default value): the lengths of the children are composed, the
three totals are the numbers 4, 5 and 7, and they are in order. -/
theorem parse_length_order_witness :
    (ProtocolStructure.clear.parse noOverride (sampleAttributes "S")
      [some sampleA, some sampleC, some sampleDefaultField]).encodedLength =
      { minEncodedLength := LengthString.literal 4
        maxEncodedLength := LengthString.literal 7
        nonDefaultEncodedLength := LengthString.literal 5 } ∧
    (ProtocolStructure.clear.parse noOverride (sampleAttributes "S")
      [some sampleA, some sampleC,
        some sampleDefaultField]).encodedLength.minEncodedLength.value ≤
      (ProtocolStructure.clear.parse noOverride (sampleAttributes "S")
        [some sampleA, some sampleC,
          some sampleDefaultField]).encodedLength.nonDefaultEncodedLength.value ∧
    (ProtocolStructure.clear.parse noOverride (sampleAttributes "S")
      [some sampleA, some sampleC,
        some sampleDefaultField]).encodedLength.nonDefaultEncodedLength.value ≤
      (ProtocolStructure.clear.parse noOverride (sampleAttributes "S")
        [some sampleA, some sampleC,
          some sampleDefaultField]).encodedLength.maxEncodedLength.value :=
  ⟨by decide,
    parse_length_order noOverride ProtocolStructure.clear (sampleAttributes "S")
      [some sampleA, some sampleC, some sampleDefaultField]
      (by
        intro e he
        have hlist : (ProtocolStructure.clear.parse noOverride (sampleAttributes "S")
            [some sampleA, some sampleC, some sampleDefaultField]).encodables =
            [sampleA, sampleC, sampleDefaultField] := by decide
        rw [hlist] at he
        simp only [List.mem_cons, List.mem_singleton, List.not_mem_nil, or_false] at he
        rcases he with h | h | h
        · rw [h]
          exact Composed.term EncodedLength.clear "4" false false false false Composed.clear
            trivial
        · rw [h]
          exact Composed.term EncodedLength.clear "1" false false true false Composed.clear
            trivial
        · rw [h]
          exact Composed.term EncodedLength.clear "2" false false false true Composed.clear
            trivial)
      (by decide) (by decide) (by decide)⟩

/-- C9: the structure without array, variableArray or dependsOn whose children are `A`
(4 bytes), `B` (array of 3 elements of 2 bytes) and `C` (1 byte, depends on `A`) gets the
minimum length 10 and the maximum length 11 from `parse`; the reference of `C` to `A` is
resolved and kept. -/
theorem parse_worked_example :
    (ProtocolStructure.clear.parse noOverride (sampleAttributes "S")
      [some sampleA, some sampleB, some sampleC]).encodedLength.minEncodedLength =
      LengthString.literal 10 ∧
    (ProtocolStructure.clear.parse noOverride (sampleAttributes "S")
      [some sampleA, some sampleB, some sampleC]).encodedLength.maxEncodedLength =
      LengthString.literal 11 ∧
    (ProtocolStructure.clear.parse noOverride (sampleAttributes "S")
      [some sampleA, some sampleB, some sampleC]).encodables.map
        (fun e => (e.name, e.dependsOn)) = [("A", ""), ("B", ""), ("C", "A")] := by
  decide

/-- C10 (the code at the failing input): the nested structure `items` names a sibling
`count` that does not exist. Its own `parse` has already computed its length with
the variable flag set (empty minimum, maximum 6). The `parse` of the enclosing structure clears
the bound, after which the child has the name, array bound and empty variableArray of the
same child declared without a bound; but the length of the child is not computed again: it
is still the one added with `isVariable` true. So the minimum of the enclosing structure
stays empty, where the child declared without a bound gives 6. -/
theorem parse_cleared_variableArray_keeps_variable_length :
    sampleVariableStructure.variableArray = "count" ∧
    (ProtocolStructure.clear.parse noOverride (sampleAttributes "S")
      [some sampleVariableStructure]).encodables.map
        (fun e => (e.name, e.array, e.variableArray)) = [("items", "3", "")] ∧
    (ProtocolStructure.clear.parse noOverride (sampleAttributes "S")
      [some sampleFixedStructure]).encodables.map
        (fun e => (e.name, e.array, e.variableArray)) = [("items", "3", "")] ∧
    (ProtocolStructure.clear.parse noOverride (sampleAttributes "S")
      [some sampleVariableStructure]).encodables.map (fun e => e.encodedLength) =
      [EncodedLength.clear.addToLength (sumChildrenLength [sampleField "x" (fixedLength "2")])
        "3" true false] ∧
    (ProtocolStructure.clear.parse noOverride (sampleAttributes "S")
      [some sampleFixedStructure]).encodables.map (fun e => e.encodedLength) =
      [EncodedLength.clear.addToLength (sumChildrenLength [sampleField "x" (fixedLength "2")])
        "3" false false] ∧
    (ProtocolStructure.clear.parse noOverride (sampleAttributes "S")
      [some sampleVariableStructure]).encodedLength =
      { minEncodedLength := LengthString.empty
        maxEncodedLength := LengthString.literal 6
        nonDefaultEncodedLength := LengthString.literal 6 } ∧
    (ProtocolStructure.clear.parse noOverride (sampleAttributes "S")
      [some sampleFixedStructure]).encodedLength =
      { minEncodedLength := LengthString.literal 6
        maxEncodedLength := LengthString.literal 6
        nonDefaultEncodedLength := LengthString.literal 6 } := by
  decide

/-! ## Override and bitfield rules of `parseChildren` -/

/-- C11: an encoded field child `c` that overrides a previous field and for which no child
already in the list yields overridden type data is discarded entirely. The step on `c`
leaves the loop state as it was: the child list, every aggregated flag and
`numbitfieldgroupbytes` of the structure, and the previous encodable; hence the loop over
`pre ++ some c :: post` ends in the very state of the loop over `pre ++ post`. -/
theorem parseChildren_discards_failed_override
    (getOverriddenTypeData : Encodable → Option Encodable → Bool) (s : ProtocolStructure)
    (pre post : List (Option Encodable)) (c : Encodable)
    (hfail : overrideFails getOverriddenTypeData
      (s.parseChildren getOverriddenTypeData pre).encodables c) :
    parseChild getOverriddenTypeData
        (parseChildrenLoop getOverriddenTypeData { structure_ := s, prevEncodable := none } pre)
        (some c) =
      parseChildrenLoop getOverriddenTypeData { structure_ := s, prevEncodable := none } pre ∧
    parseChildrenLoop getOverriddenTypeData { structure_ := s, prevEncodable := none }
        (pre ++ some c :: post) =
      parseChildrenLoop getOverriddenTypeData { structure_ := s, prevEncodable := none }
        (pre ++ post) ∧
    s.parseChildren getOverriddenTypeData (pre ++ some c :: post) =
      s.parseChildren getOverriddenTypeData (pre ++ post) := by
  have hstep := parseChild_of_overrideFails getOverriddenTypeData
    (parseChildrenLoop getOverriddenTypeData { structure_ := s, prevEncodable := none } pre)
    c hfail
  have hloop : parseChildrenLoop getOverriddenTypeData
        { structure_ := s, prevEncodable := none } (pre ++ some c :: post) =
      parseChildrenLoop getOverriddenTypeData { structure_ := s, prevEncodable := none }
        (pre ++ post) := by
    rw [parseChildrenLoop_append, parseChildrenLoop_cons, parseChildrenLoop_append, hstep]
  refine ⟨hstep, hloop, ?_⟩
  unfold ProtocolStructure.parseChildren
  rw [hloop]

/-- C11 (witness): the field `o` overrides a previous field, and the only earlier child `A`
yields no overridden type data; `o` also reports init logic and a default. -/
theorem parseChildren_discards_failed_override_witness :
    parseChild noOverride
        (parseChildrenLoop noOverride
          { structure_ := ProtocolStructure.clear, prevEncodable := none } [some sampleA])
        (some sampleOverridingField) =
      parseChildrenLoop noOverride
        { structure_ := ProtocolStructure.clear, prevEncodable := none } [some sampleA] ∧
    parseChildrenLoop noOverride { structure_ := ProtocolStructure.clear, prevEncodable := none }
        ([some sampleA] ++ some sampleOverridingField :: [some sampleC]) =
      parseChildrenLoop noOverride
        { structure_ := ProtocolStructure.clear, prevEncodable := none }
        ([some sampleA] ++ [some sampleC]) ∧
    ProtocolStructure.clear.parseChildren noOverride
        ([some sampleA] ++ some sampleOverridingField :: [some sampleC]) =
      ProtocolStructure.clear.parseChildren noOverride ([some sampleA] ++ [some sampleC]) :=
  parseChildren_discards_failed_override noOverride ProtocolStructure.clear [some sampleA]
    [some sampleC] sampleOverridingField ⟨by decide, by decide, by decide, by decide⟩

/-- C12: in a structure that starts without children, after `parseChildren` every encoded
child that is a bitfield has an empty dependsOn, whatever the children are (so whether or
not a sibling of the name it gave exists earlier in the list). -/
theorem parseChildren_bitfield_without_dependsOn
    (getOverriddenTypeData : Encodable → Option Encodable → Bool) (s : ProtocolStructure)
    (children : List (Option Encodable)) (hempty : s.encodables = []) :
    ∀ e ∈ (s.parseChildren getOverriddenTypeData children).encodables,
      e.isNotEncoded = false → e.isBitfield = true → e.dependsOn = "" := by
  unfold ProtocolStructure.parseChildren
  refine parseChildrenLoop_invariant getOverriddenTypeData
    (fun st => ∀ e ∈ st.structure_.encodables,
      e.isNotEncoded = false → e.isBitfield = true → e.dependsOn = "")
    (fun st c hst => parseChild_bitfield_dependsOn getOverriddenTypeData st c hst)
    { structure_ := s, prevEncodable := none } ?_ children
  intro e he
  rw [hempty] at he
  exact absurd he (List.not_mem_nil e)

/-- C12 (witness): the bitfield `b` names the earlier sibling `A`, which is eligible. -/
theorem parseChildren_bitfield_without_dependsOn_witness :
    sampleDependentBitfield.dependsOn = "A" ∧
    findReference [sampleA] sampleDependentBitfield.dependsOn = true ∧
    ∀ e ∈ (ProtocolStructure.clear.parseChildren noOverride
        [some sampleA, some sampleDependentBitfield]).encodables,
      e.isNotEncoded = false → e.isBitfield = true → e.dependsOn = "" :=
  ⟨by decide, by decide,
    parseChildren_bitfield_without_dependsOn noOverride ProtocolStructure.clear
      [some sampleA, some sampleDependentBitfield] rfl⟩

/-! ## The attribute guards of `parse` -/

/-- C13: after `parse`, the array bound is the attribute given, and variableArray is
the attribute given when an array bound is given, and empty otherwise; so variableArray
is non-empty only if array is non-empty, and a variableArray attribute given without an
array attribute is dropped. -/
theorem parse_variableArray_needs_array
    (getOverriddenTypeData : Encodable → Option Encodable → Bool) (s : ProtocolStructure)
    (map : Attributes) (children : List (Option Encodable)) :
    (s.parse getOverriddenTypeData map children).array = map.array ∧
    (s.parse getOverriddenTypeData map children).variableArray =
      (if map.array = "" then "" else map.variableArray) ∧
    ((s.parse getOverriddenTypeData map children).variableArray ≠ "" →
      (s.parse getOverriddenTypeData map children).array ≠ "") ∧
    (map.array = "" → (s.parse getOverriddenTypeData map children).variableArray = "") := by
  obtain ⟨h1, h2, _⟩ := parse_guards getOverriddenTypeData s map children
  refine ⟨h1, h2, ?_, ?_⟩
  · rw [h1, h2]
    intro hv ha
    rw [if_pos ha] at hv
    exact hv rfl
  · intro ha
    rw [h2, if_pos ha]

/-- C14: after `parse`, dependsOn and variableArray are never both non-empty; and when a
variableArray attribute is given together with an array bound, variableArray is kept and
dependsOn, dependsOnValue and dependsOnCompare are all empty, whatever was given for
them. -/
theorem parse_variableArray_excludes_dependsOn
    (getOverriddenTypeData : Encodable → Option Encodable → Bool) (s : ProtocolStructure)
    (map : Attributes) (children : List (Option Encodable)) :
    ¬ ((s.parse getOverriddenTypeData map children).dependsOn ≠ "" ∧
        (s.parse getOverriddenTypeData map children).variableArray ≠ "") ∧
    (map.array ≠ "" → map.variableArray ≠ "" →
      (s.parse getOverriddenTypeData map children).variableArray = map.variableArray ∧
      (s.parse getOverriddenTypeData map children).dependsOn = "" ∧
      (s.parse getOverriddenTypeData map children).dependsOnValue = "" ∧
      (s.parse getOverriddenTypeData map children).dependsOnCompare = "") := by
  obtain ⟨_, h2, h3, h4, h5⟩ := parse_guards getOverriddenTypeData s map children
  constructor
  · rintro ⟨hd, hv⟩
    rw [h3, if_neg hv] at hd
    exact hd rfl
  · intro ha hv
    have hv1 : (s.parse getOverriddenTypeData map children).variableArray =
        map.variableArray := by rw [h2, if_neg ha]
    have hd1 : (s.parse getOverriddenTypeData map children).dependsOn = "" := by
      rw [h3, if_neg (by rw [hv1]; exact hv)]
    have hdv1 : (s.parse getOverriddenTypeData map children).dependsOnValue = "" := by
      rw [h4, if_pos hd1]
    exact ⟨hv1, hd1, hdv1, by rw [h5, if_pos hdv1]⟩

/-- C15: after `parse`, whatever the dependsOn, dependsOnValue and dependsOnCompare
attributes are: dependsOnValue is non-empty only if dependsOn is non-empty, and
dependsOnCompare is non-empty exactly when dependsOnValue is non-empty. -/
theorem parse_dependsOn_value_compare
    (getOverriddenTypeData : Encodable → Option Encodable → Bool) (s : ProtocolStructure)
    (map : Attributes) (children : List (Option Encodable)) :
    ((s.parse getOverriddenTypeData map children).dependsOnValue ≠ "" →
      (s.parse getOverriddenTypeData map children).dependsOn ≠ "") ∧
    ((s.parse getOverriddenTypeData map children).dependsOnCompare ≠ "" ↔
      (s.parse getOverriddenTypeData map children).dependsOnValue ≠ "") := by
  obtain ⟨_, _, _, h4, h5⟩ := parse_guards getOverriddenTypeData s map children
  refine ⟨?_, ?_, ?_⟩
  · intro hv hd
    rw [h4, if_pos hd] at hv
    exact hv rfl
  · intro hc hv
    rw [h5, if_pos hv] at hc
    exact hc rfl
  · intro hv
    rw [h5, if_neg hv]
    by_cases hcmp : map.dependsOnCompare = ""
    · rw [if_pos hcmp]
      decide
    · rw [if_neg hcmp]
      exact hcmp

/-- C16 (counterexample): a structure given `dependsOn="flag"` and no dependsOnValue keeps
its dependsOn through `parse`, and its dependsOnCompare is empty afterwards, not `==`; a
comparator given without a value is dropped as well. -/
theorem parse_dependsOn_without_value_has_no_comparator :
    (ProtocolStructure.clear.parse noOverride
      { sampleAttributes "S" with dependsOn := "flag" } []).dependsOn = "flag" ∧
    (ProtocolStructure.clear.parse noOverride
      { sampleAttributes "S" with dependsOn := "flag" } []).dependsOnValue = "" ∧
    (ProtocolStructure.clear.parse noOverride
      { sampleAttributes "S" with dependsOn := "flag" } []).dependsOnCompare = "" ∧
    (ProtocolStructure.clear.parse noOverride
      { sampleAttributes "S" with dependsOn := "flag", dependsOnCompare := ">=" }
      []).dependsOnCompare = "" := by
  decide

/-- C16 (amended): the default of equality belongs to the comparison value, not to the
target. After `parse`, when dependsOnValue is non-empty (a value was given and the
dependsOn target survived) and no dependsOnCompare attribute was given, dependsOnCompare is
`==`; when a comparator was given it is kept; and when dependsOnValue is empty,
dependsOnCompare is empty. -/
theorem parse_dependsOnCompare_defaults_for_value
    (getOverriddenTypeData : Encodable → Option Encodable → Bool) (s : ProtocolStructure)
    (map : Attributes) (children : List (Option Encodable)) :
    ((s.parse getOverriddenTypeData map children).dependsOnValue ≠ "" →
      map.dependsOnCompare = "" →
      (s.parse getOverriddenTypeData map children).dependsOnCompare = "==") ∧
    ((s.parse getOverriddenTypeData map children).dependsOnValue ≠ "" →
      map.dependsOnCompare ≠ "" →
      (s.parse getOverriddenTypeData map children).dependsOnCompare = map.dependsOnCompare) ∧
    ((s.parse getOverriddenTypeData map children).dependsOnValue = "" →
      (s.parse getOverriddenTypeData map children).dependsOnCompare = "") := by
  obtain ⟨_, _, _, _, h5⟩ := parse_guards getOverriddenTypeData s map children
  refine ⟨?_, ?_, ?_⟩
  · intro hv hc
    rw [h5, if_neg hv, if_pos hc]
  · intro hv hc
    rw [h5, if_neg hv, if_neg hc]
  · intro hv
    rw [h5, if_pos hv]

/-- C16 (witness): a structure given `dependsOn="flag"` and `dependsOnValue="3"` without a
comparator gets the comparator `==`. -/
theorem parse_dependsOnCompare_defaults_for_value_witness :
    (ProtocolStructure.clear.parse noOverride
      { sampleAttributes "S" with dependsOn := "flag", dependsOnValue := "3" }
      []).dependsOnValue ≠ "" ∧
    (ProtocolStructure.clear.parse noOverride
      { sampleAttributes "S" with dependsOn := "flag", dependsOnValue := "3" }
      []).dependsOnCompare = "==" :=
  ⟨by decide,
    (parse_dependsOnCompare_defaults_for_value noOverride ProtocolStructure.clear
      { sampleAttributes "S" with dependsOn := "flag", dependsOnValue := "3" } []).1
      (by decide) rfl⟩

/-! ## Init and verify capabilities -/

/-- C17: after `parseChildren` on a freshly constructed structure, `hasinit` (and likewise
`hasverify`) is set exactly when the child list holds an encoded child, primitive field or
nested structure, that reports `hasInit()` (`hasVerify()`). Hence the capability of a
grandchild is advertised two levels up: when a structure parsed from `map1` and `children1`
holds an encoded child `g`, the structure parsed from any child list that contains it as a
nested structure has `hasinit` set if `g` reports `hasInit()`, and `hasverify` set if `g`
reports `hasVerify()`. -/
theorem parseChildren_hasinit_hasverify
    (getOverriddenTypeData : Encodable → Option Encodable → Bool)
    (children : List (Option Encodable)) (map1 map2 : Attributes)
    (children1 pre post : List (Option Encodable)) :
    ((ProtocolStructure.clear.parseChildren getOverriddenTypeData children).hasinit = true ↔
      ∃ e ∈ (ProtocolStructure.clear.parseChildren getOverriddenTypeData children).encodables,
        e.isNotEncoded = false ∧
          ((e.isField = true ∧ e.hasInit = true) ∨
            (e.isField = false ∧ e.hasInit = true))) ∧
    ((ProtocolStructure.clear.parseChildren getOverriddenTypeData children).hasverify = true ↔
      ∃ e ∈ (ProtocolStructure.clear.parseChildren getOverriddenTypeData children).encodables,
        e.isNotEncoded = false ∧
          ((e.isField = true ∧ e.hasVerify = true) ∨
            (e.isField = false ∧ e.hasVerify = true))) ∧
    (∀ g ∈ (ProtocolStructure.clear.parse getOverriddenTypeData map1 children1).encodables,
      g.isNotEncoded = false →
      (g.hasInit = true →
        (ProtocolStructure.clear.parse getOverriddenTypeData map2
          (pre ++ some (ProtocolStructure.clear.parse getOverriddenTypeData map1
            children1).toEncodable :: post)).hasinit = true) ∧
      (g.hasVerify = true →
        (ProtocolStructure.clear.parse getOverriddenTypeData map2
          (pre ++ some (ProtocolStructure.clear.parse getOverriddenTypeData map1
            children1).toEncodable :: post)).hasverify = true)) := by
  have hfresh : ∀ map : Attributes,
      (ProtocolStructure.clear.parseAttributes map).encodables = [] ∧
      (ProtocolStructure.clear.parseAttributes map).hasinit = false ∧
      (ProtocolStructure.clear.parseAttributes map).hasverify = false := by
    intro map
    obtain ⟨h1, h2, h3⟩ := parseAttributes_fresh ProtocolStructure.clear map
    exact ⟨h1, h2, h3⟩
  have hinit : ∀ (map : Attributes) (l : List (Option Encodable)),
      (ProtocolStructure.clear.parse getOverriddenTypeData map l).hasinit = true ↔
        ∃ e ∈ (ProtocolStructure.clear.parse getOverriddenTypeData map l).encodables,
          e.isNotEncoded = false ∧
            ((e.isField = true ∧ e.hasInit = true) ∨
              (e.isField = false ∧ e.hasInit = true)) := by
    intro map l
    rw [parse_eq]
    exact parseChildren_fresh_hasinit getOverriddenTypeData _ (hfresh map).1 (hfresh map).2.1 l
  have hverify : ∀ (map : Attributes) (l : List (Option Encodable)),
      (ProtocolStructure.clear.parse getOverriddenTypeData map l).hasverify = true ↔
        ∃ e ∈ (ProtocolStructure.clear.parse getOverriddenTypeData map l).encodables,
          e.isNotEncoded = false ∧
            ((e.isField = true ∧ e.hasVerify = true) ∨
              (e.isField = false ∧ e.hasVerify = true)) := by
    intro map l
    rw [parse_eq]
    exact parseChildren_fresh_hasverify getOverriddenTypeData _ (hfresh map).1
      (hfresh map).2.2 l
  refine ⟨parseChildren_fresh_hasinit getOverriddenTypeData _ rfl rfl children,
    parseChildren_fresh_hasverify getOverriddenTypeData _ rfl rfl children, ?_⟩
  intro g hg hgenc
  obtain ⟨kept, hmem, hk1, hk2, hk3, hk4⟩ := parse_keeps_nested_structure
    getOverriddenTypeData ProtocolStructure.clear map2 pre post
    (ProtocolStructure.clear.parse getOverriddenTypeData map1 children1).toEncodable rfl rfl
  constructor
  · intro hgi
    have hinner : (ProtocolStructure.clear.parse getOverriddenTypeData map1
        children1).hasinit = true := by
      rw [hinit]
      refine ⟨g, hg, hgenc, ?_⟩
      cases hgf : g.isField
      · exact Or.inr ⟨rfl, hgi⟩
      · exact Or.inl ⟨rfl, hgi⟩
    rw [hinit]
    exact ⟨kept, hmem, hk1, Or.inr ⟨hk2, by rw [hk3]; exact hinner⟩⟩
  · intro hgv
    have hinner : (ProtocolStructure.clear.parse getOverriddenTypeData map1
        children1).hasverify = true := by
      rw [hverify]
      refine ⟨g, hg, hgenc, ?_⟩
      cases hgf : g.isField
      · exact Or.inr ⟨rfl, hgv⟩
      · exact Or.inl ⟨rfl, hgv⟩
    rw [hverify]
    exact ⟨kept, hmem, hk1, Or.inr ⟨hk2, by rw [hk4]; exact hinner⟩⟩

/-! ## The bitfield group bytes -/

/-- C18: `ProtocolStructure::getBitfieldGroupNumBytes` leaves in `*num` the larger of the
old value and `numbitfieldgroupbytes`; it never lowers the running value; and folding it
over structures whose bitfield groups need 1 and 2 bytes, in either order, starting from 0,
gives 2. -/
theorem getBitfieldGroupNumBytes_is_max (s : ProtocolStructure) (num : Int) :
    s.getBitfieldGroupNumBytes num = max num s.numbitfieldgroupbytes ∧
    num ≤ s.getBitfieldGroupNumBytes num ∧
    s.numbitfieldgroupbytes ≤ s.getBitfieldGroupNumBytes num ∧
    [{ ProtocolStructure.clear with numbitfieldgroupbytes := 1 },
      { ProtocolStructure.clear with numbitfieldgroupbytes := 2 }].foldl
        (fun n t => t.getBitfieldGroupNumBytes n) 0 = 2 ∧
    [{ ProtocolStructure.clear with numbitfieldgroupbytes := 2 },
      { ProtocolStructure.clear with numbitfieldgroupbytes := 1 }].foldl
        (fun n t => t.getBitfieldGroupNumBytes n) 0 = 2 := by
  unfold ProtocolStructure.getBitfieldGroupNumBytes
  refine ⟨?_, ?_, ?_, by decide, by decide⟩
  · split_ifs with h
    · exact (max_eq_right (le_of_lt h)).symm
    · exact (max_eq_left (not_lt.mp h)).symm
  · split_ifs with h
    · exact le_of_lt h
    · exact le_refl _
  · split_ifs with h
    · exact le_refl _
    · exact not_lt.mp h

/-! ## The toggles -/

/-- C19: after `setPrint(b)` on a structure, the `print` flag equals `b` on that structure
(the first of the structures of the tree) and on every structure below it, at any depth;
likewise `compare` after `setCompare(b)` and `mapEncode` after `setMapEncode(b)`. On the
sample tree, three levels deep, setting each toggle reaches all three structures. -/
theorem toggles_reach_every_nested_structure (t : EncodableObject) (b : Bool) :
    (∀ s ∈ (t.setPrint b).structures, s.print = b) ∧
    (∀ s ∈ (t.setCompare b).structures, s.compare = b) ∧
    (∀ s ∈ (t.setMapEncode b).structures, s.mapEncode = b) ∧
    (∀ s typeName structName encodables,
      t = EncodableObject.structure_ s typeName structName encodables →
      (t.setPrint b).structures.head? = some { s with print := b } ∧
      (t.setCompare b).structures.head? = some { s with compare := b } ∧
      (t.setMapEncode b).structures.head? = some { s with mapEncode := b }) ∧
    (sampleTree.setPrint true).structures.map (fun s => (s.name, s.print)) =
      [("top", true), ("mid", true), ("low", true)] ∧
    (sampleTree.setCompare true).structures.map (fun s => (s.name, s.compare)) =
      [("top", true), ("mid", true), ("low", true)] ∧
    (sampleTree.setMapEncode true).structures.map (fun s => (s.name, s.mapEncode)) =
      [("top", true), ("mid", true), ("low", true)] := by
  refine ⟨?_, ?_, ?_, ?_, by decide, by decide, by decide⟩
  · intro s hs
    rw [EncodableObject.setPrint_structures] at hs
    obtain ⟨a, _, rfl⟩ := List.mem_map.mp hs
    rfl
  · intro s hs
    rw [EncodableObject.setCompare_structures] at hs
    obtain ⟨a, _, rfl⟩ := List.mem_map.mp hs
    rfl
  · intro s hs
    rw [EncodableObject.setMapEncode_structures] at hs
    obtain ⟨a, _, rfl⟩ := List.mem_map.mp hs
    rfl
  · intro s typeName structName encodables ht
    subst ht
    simp [EncodableObject.setPrint, EncodableObject.setCompare,
      EncodableObject.setMapEncode, EncodableObject.structures]

/-! ## The opt-in passes -/

/-- C20: for a structure with data members `s`, type names `typeName` and `structName` and
owned children `encodables`, and whatever the collaborators `g`, the spacing and
`includeChildren` are: each of `getComparisonString`, `getTextPrintString`,
`getTextReadString`, `getMapEncodeString`, `getMapDecodeString`, and each of the matching
function prototype and function body generators, returns the empty string exactly when its
toggle (`compare`, `print` for text print and text read, `mapEncode` for map encode and
map decode) is off or `getNumberOfDecodeParameters()` is 0; otherwise the text returned is
not empty. -/
theorem opt_in_generators_empty_iff_guard (g : Generator) (s : ProtocolStructure)
    (typeName structName : String) (encodables : List EncodableObject) (spacing : String)
    (includeChildren : Bool) :
    (s.getComparisonString g typeName = "" ↔
      (s.compare = false ∨ s.getNumberOfDecodeParameters = 0)) ∧
    (s.getTextPrintString g typeName = "" ↔
      (s.print = false ∨ s.getNumberOfDecodeParameters = 0)) ∧
    (s.getTextReadString g typeName = "" ↔
      (s.print = false ∨ s.getNumberOfDecodeParameters = 0)) ∧
    (s.getMapEncodeString g typeName = "" ↔
      (s.mapEncode = false ∨ s.getNumberOfDecodeParameters = 0)) ∧
    (s.getMapDecodeString g typeName = "" ↔
      (s.mapEncode = false ∨ s.getNumberOfDecodeParameters = 0)) ∧
    ((EncodableObject.structure_ s typeName structName encodables).getComparisonFunctionPrototype
        g spacing includeChildren = "" ↔
      (s.compare = false ∨ s.getNumberOfDecodeParameters = 0)) ∧
    ((EncodableObject.structure_ s typeName structName encodables).getTextPrintFunctionPrototype
        g spacing includeChildren = "" ↔
      (s.print = false ∨ s.getNumberOfDecodeParameters = 0)) ∧
    ((EncodableObject.structure_ s typeName structName encodables).getTextReadFunctionPrototype
        g spacing includeChildren = "" ↔
      (s.print = false ∨ s.getNumberOfDecodeParameters = 0)) ∧
    ((EncodableObject.structure_ s typeName structName encodables).getMapEncodeFunctionPrototype
        g spacing includeChildren = "" ↔
      (s.mapEncode = false ∨ s.getNumberOfDecodeParameters = 0)) ∧
    ((EncodableObject.structure_ s typeName structName encodables).getMapDecodeFunctionPrototype
        g spacing includeChildren = "" ↔
      (s.mapEncode = false ∨ s.getNumberOfDecodeParameters = 0)) ∧
    ((EncodableObject.structure_ s typeName structName encodables).getComparisonFunctionBody
        g includeChildren = "" ↔
      (s.compare = false ∨ s.getNumberOfDecodeParameters = 0)) ∧
    ((EncodableObject.structure_ s typeName structName encodables).getTextPrintFunctionBody
        g includeChildren = "" ↔
      (s.print = false ∨ s.getNumberOfDecodeParameters = 0)) ∧
    ((EncodableObject.structure_ s typeName structName encodables).getTextReadFunctionBody
        g includeChildren = "" ↔
      (s.print = false ∨ s.getNumberOfDecodeParameters = 0)) ∧
    ((EncodableObject.structure_ s typeName structName encodables).getMapEncodeFunctionBody
        g includeChildren = "" ↔
      (s.mapEncode = false ∨ s.getNumberOfDecodeParameters = 0)) ∧
    ((EncodableObject.structure_ s typeName structName encodables).getMapDecodeFunctionBody
        g includeChildren = "" ↔
      (s.mapEncode = false ∨ s.getNumberOfDecodeParameters = 0)) :=
  ⟨getComparisonString_eq_empty_iff g s typeName,
    getTextPrintString_eq_empty_iff g s typeName,
    getTextReadString_eq_empty_iff g s typeName,
    getMapEncodeString_eq_empty_iff g s typeName,
    getMapDecodeString_eq_empty_iff g s typeName,
    getComparisonFunctionPrototype_eq_empty_iff g spacing includeChildren s typeName structName
      encodables,
    getTextPrintFunctionPrototype_eq_empty_iff g spacing includeChildren s typeName structName
      encodables,
    getTextReadFunctionPrototype_eq_empty_iff g spacing includeChildren s typeName structName
      encodables,
    getMapEncodeFunctionPrototype_eq_empty_iff g spacing includeChildren s typeName structName
      encodables,
    getMapDecodeFunctionPrototype_eq_empty_iff g spacing includeChildren s typeName structName
      encodables,
    getComparisonFunctionBody_eq_empty_iff g includeChildren s typeName structName encodables,
    getTextPrintFunctionBody_eq_empty_iff g includeChildren s typeName structName encodables,
    getTextReadFunctionBody_eq_empty_iff g includeChildren s typeName structName encodables,
    getMapEncodeFunctionBody_eq_empty_iff g includeChildren s typeName structName encodables,
    getMapDecodeFunctionBody_eq_empty_iff g includeChildren s typeName structName encodables⟩

/-! ## The verify pass -/

/-- Claim C21, as stated, fails: the structure `tail`, whose only child is encoded, reports
verification data and is not in memory, has no decode parameter, and its verify fragment,
verify prototype and verify function are not empty. -/
theorem verify_generators_ignore_decode_parameters :
    sampleUnstoredStructure.getNumberOfDecodeParameters = 0 ∧
      sampleUnstoredStructure.getVerifyString (sampleGenerator Language.c_language) "tail_t" ≠
        "" ∧
      sampleUnstoredTree.getVerifyFunctionPrototype (sampleGenerator Language.c_language) ""
        true ≠ "" ∧
      sampleUnstoredTree.getVerifyFunctionBody (sampleGenerator Language.c_language) true ≠
        "" := by
  decide

/-- Claim C21, amended: the verify fragment, the verify prototype and the verify function
of a structure are empty exactly when `hasverify` is false, whatever the number of decode
parameters; and a structure built by `parseChildren` whose encoded children that report
verification data are all in memory has `hasverify` false, hence the three outputs empty,
when its number of decode parameters is 0. -/
theorem verify_generators_empty_iff_no_hasverify (g : Generator)
    (getOverriddenTypeData : Encodable → Option Encodable → Bool)
    (typeName structName spacing : String) (includeChildren : Bool) :
    (∀ (s : ProtocolStructure) (encodables : List EncodableObject),
      (s.getVerifyString g typeName = "" ↔ s.hasverify = false) ∧
      ((EncodableObject.structure_ s typeName structName encodables).getVerifyFunctionPrototype
          g spacing includeChildren = "" ↔ s.hasverify = false) ∧
      ((EncodableObject.structure_ s typeName structName encodables).getVerifyFunctionBody g
          includeChildren = "" ↔ s.hasverify = false)) ∧
    (∀ (children : List (Option Encodable)) (encodables : List EncodableObject),
      (∀ e ∈ (ProtocolStructure.clear.parseChildren getOverriddenTypeData children).encodables,
        e.isNotEncoded = false → e.hasVerify = true → e.isNotInMemory = false) →
      (ProtocolStructure.clear.parseChildren getOverriddenTypeData
        children).getNumberOfDecodeParameters = 0 →
      (ProtocolStructure.clear.parseChildren getOverriddenTypeData children).getVerifyString g
          typeName = "" ∧
        (EncodableObject.structure_
          (ProtocolStructure.clear.parseChildren getOverriddenTypeData children) typeName
          structName encodables).getVerifyFunctionPrototype g spacing includeChildren = "" ∧
        (EncodableObject.structure_
          (ProtocolStructure.clear.parseChildren getOverriddenTypeData children) typeName
          structName encodables).getVerifyFunctionBody g includeChildren = "") := by
  refine ⟨fun s encodables => ⟨getVerifyString_eq_empty_iff g s typeName,
    getVerifyFunctionPrototype_eq_empty_iff g s typeName structName spacing includeChildren
      encodables,
    getVerifyFunctionBody_eq_empty_iff g s typeName structName includeChildren encodables⟩,
    ?_⟩
  intro children encodables hmem hzero
  have hv := parseChildren_hasverify_decodeParameters getOverriddenTypeData children hmem hzero
  exact ⟨(getVerifyString_eq_empty_iff g _ typeName).mpr hv,
    (getVerifyFunctionPrototype_eq_empty_iff g _ typeName structName spacing includeChildren
      encodables).mpr hv,
    (getVerifyFunctionBody_eq_empty_iff g _ typeName structName includeChildren
      encodables).mpr hv⟩

/-- The amended claim C21 at a structure whose only child, the field `spare`, is encoded
and not in memory. -/
theorem verify_generators_empty_iff_no_hasverify_witness :
    (∀ e ∈ (ProtocolStructure.clear.parseChildren noOverride [some sampleSpareField]).encodables,
      e.isNotEncoded = false → e.hasVerify = true → e.isNotInMemory = false) ∧
    (ProtocolStructure.clear.parseChildren noOverride
      [some sampleSpareField]).getNumberOfDecodeParameters = 0 ∧
    ((ProtocolStructure.clear.parseChildren noOverride [some sampleSpareField]).getVerifyString
        (sampleGenerator Language.c_language) "spare_t" = "" ∧
      (EncodableObject.structure_
        (ProtocolStructure.clear.parseChildren noOverride [some sampleSpareField]) "spare_t"
        "spare_t" [EncodableObject.field sampleSpareField]).getVerifyFunctionPrototype
          (sampleGenerator Language.c_language) "" true = "" ∧
      (EncodableObject.structure_
        (ProtocolStructure.clear.parseChildren noOverride [some sampleSpareField]) "spare_t"
        "spare_t" [EncodableObject.field sampleSpareField]).getVerifyFunctionBody
          (sampleGenerator Language.c_language) true = "") :=
  ⟨by decide, by decide,
    (verify_generators_empty_iff_no_hasverify (sampleGenerator Language.c_language) noOverride
      "spare_t" "spare_t" "" true).2 [some sampleSpareField]
      [EncodableObject.field sampleSpareField] (by decide) (by decide)⟩

/-! ## The guard of a member that depends on another -/

/-- Claim C22, as stated, fails: the nested structure `opt` depends on the sibling `A`, and
its verify, initial value, compare and text print fragments are not empty and consist of the
member statement alone, without a guard on `A`. -/
theorem dependsOn_guard_missing_outside_encode_decode :
    sampleGuardedStructure.dependsOn = "A" ∧
      sampleGuardedStructure.getVerifyString (sampleGenerator Language.c_language) "opt_t" =
        "    if(verifyopt_t(&_pg_user->opt) == 0)\n        _pg_good = 0;\n" ∧
      sampleGuardedStructure.getSetInitialValueString (sampleGenerator Language.c_language)
        "opt_t" true = "    initopt_t(&_pg_user->opt);\n" ∧
      sampleGuardedStructure.getComparisonString (sampleGenerator Language.c_language) "opt_t" =
        "    _pg_report += compareopt_t(_pg_prename + \":opt\", &_pg_user1->opt, " ++
          "&_pg_user2->opt);\n" ∧
      sampleGuardedStructure.getTextPrintString (sampleGenerator Language.c_language) "opt_t" =
        "    _pg_report += textPrintopt_t(_pg_prename + \":opt\", &_pg_user->opt);\n" := by
  decide

/-- Claim C22, amended: in the encode and decode passes the fragment of a nested structure
whose dependsOn is not empty is, after the comment line, the guard `if(` condition `)` on
the accessor of the dependsOn target, an opening brace, the array iteration code and the
member statement one `TAB_IN` deeper, and the closing brace. The verify, initial value, text
print, text read, map encode, map decode and compare fragments carry no guard: they are the
same text whatever dependsOn, dependsOnValue and dependsOnCompare are, given that the
accessors and array iteration code they receive are. -/
theorem dependsOn_guard_only_in_encode_and_decode (g : Generator) (s : ProtocolStructure)
    (typeName : String) (isStructureMember : Bool) :
    (s.dependsOn ≠ "" →
      s.getEncodeString g typeName isStructureMember =
          commentLine g s ++
            (g.TAB_IN ++ "if(" ++
              guardCondition s
                (g.getEncodeFieldAccessVariable s isStructureMember s.dependsOn) ++ ")\n") ++
            (g.TAB_IN ++ "\x7b\n") ++
            g.getEncodeArrayIterationCode s (g.TAB_IN ++ g.TAB_IN) isStructureMember ++
            encodeStatement g typeName (g.getEncodeFieldAccess s isStructureMember)
              (statementSpacing g s (g.TAB_IN ++ g.TAB_IN)) ++
            (g.TAB_IN ++ "\x7d\n") ∧
        s.getDecodeString g typeName isStructureMember =
          commentLine g s ++
            (g.TAB_IN ++ "if(" ++
              guardCondition s
                (g.getDecodeFieldAccessVariable s isStructureMember s.dependsOn) ++ ")\n") ++
            (g.TAB_IN ++ "\x7b\n") ++
            g.getDecodeArrayIterationCode s (g.TAB_IN ++ g.TAB_IN) isStructureMember ++
            decodeStatement g typeName (g.getEncodeFieldAccess s isStructureMember)
              (statementSpacing g s (g.TAB_IN ++ g.TAB_IN)) ++
            (g.TAB_IN ++ "\x7d\n")) ∧
    (g.ignoresDependsOn → ∀ d v c : String,
      (s.withDependsOn d v c).getVerifyString g typeName = s.getVerifyString g typeName ∧
        (s.withDependsOn d v c).getSetInitialValueString g typeName isStructureMember =
          s.getSetInitialValueString g typeName isStructureMember ∧
        (s.withDependsOn d v c).getTextPrintString g typeName =
          s.getTextPrintString g typeName ∧
        (s.withDependsOn d v c).getTextReadString g typeName =
          s.getTextReadString g typeName ∧
        (s.withDependsOn d v c).getMapEncodeString g typeName =
          s.getMapEncodeString g typeName ∧
        (s.withDependsOn d v c).getMapDecodeString g typeName =
          s.getMapDecodeString g typeName ∧
        (s.withDependsOn d v c).getComparisonString g typeName =
          s.getComparisonString g typeName) := by
  refine ⟨fun h => ⟨getEncodeString_guarded g s typeName isStructureMember h,
    getDecodeString_guarded g s typeName isStructureMember h⟩, ?_⟩
  intro hg d v c
  have hE := fun spacing m => (hg s d v c spacing m).1
  have hD := fun spacing m => (hg s d v c spacing m).2.1
  have hAE := fun m => (hg s d v c "" m).2.2.1
  have hAD := fun m => (hg s d v c "" m).2.2.2
  have hn : (s.withDependsOn d v c).getNumberOfDecodeParameters =
      s.getNumberOfDecodeParameters := rfl
  have ha : (s.withDependsOn d v c).isArray = s.isArray := rfl
  have h2 : (s.withDependsOn d v c).is2dArray = s.is2dArray := rfl
  refine ⟨?_, ?_, ?_, ?_, ?_, ?_, ?_⟩
  · unfold ProtocolStructure.getVerifyString
    rw [hAD, ha, h2]
    rfl
  · unfold ProtocolStructure.getSetInitialValueString
    rw [hAD, ha, h2]
    rfl
  · unfold ProtocolStructure.getTextPrintString
    simp only [hAE, hE, ha, h2, hn]
    rfl
  · unfold ProtocolStructure.getTextReadString
    simp only [hAE, hE, ha, h2, hn]
    rfl
  · unfold ProtocolStructure.getMapEncodeString
    simp only [hAE, hE, ha, h2, hn]
    rfl
  · unfold ProtocolStructure.getMapDecodeString
    simp only [hAD, hD, ha, h2, hn]
    rfl
  · unfold ProtocolStructure.getComparisonString
    rw [ha, h2, hn]
    rfl

/-- The amended claim C22 at the nested structure `opt` and the sample generator for C. -/
theorem dependsOn_guard_only_in_encode_and_decode_witness :
    (sampleGuardedStructure.dependsOn ≠ "" ∧
      (sampleGenerator Language.c_language).ignoresDependsOn) ∧
    sampleGuardedStructure.getEncodeString (sampleGenerator Language.c_language) "opt_t" true =
      "    if(_pg_user->A == 2)\n    \x7b\n" ++
        "        encodeopt_t(_pg_data, &_pg_byteindex, &_pg_user->opt);\n    \x7d\n" ∧
    (sampleGuardedStructure.withDependsOn "" "" "").getVerifyString
        (sampleGenerator Language.c_language) "opt_t" =
      sampleGuardedStructure.getVerifyString (sampleGenerator Language.c_language) "opt_t" :=
  ⟨⟨by decide, fun _ _ _ _ _ _ => ⟨rfl, rfl, rfl, rfl⟩⟩,
    ((dependsOn_guard_only_in_encode_and_decode (sampleGenerator Language.c_language)
      sampleGuardedStructure "opt_t" true).1 (by decide)).1.trans (by decide),
    ((dependsOn_guard_only_in_encode_and_decode (sampleGenerator Language.c_language)
      sampleGuardedStructure "opt_t" true).2
        (fun _ _ _ _ _ _ => ⟨rfl, rfl, rfl, rfl⟩) "" "" "").1⟩

/-! ## The braces of the encode and decode fragments -/

/-- Claim C23: for a member whose names, accessors, comment and comparison texts hold no
line feed, with a blank `TAB_IN` and array iteration code that at a blank indentation holds
no brace: when dependsOn is
not empty, the encode and the decode fragment each have exactly one line with an opening
brace and one with a closing brace, both made of one `TAB_IN` and the brace, the closing
one last, the opening one right after the line `if(` condition `)`, where the condition is
the accessor of the dependsOn target alone when dependsOnValue is empty and the accessor,
dependsOnCompare and dependsOnValue otherwise; when dependsOn is empty, the fragments have
no brace line. -/
theorem encode_decode_guard_braces (g : Generator) (s : ProtocolStructure)
    (typeName : String) (isStructureMember : Bool)
    (htab : g.TAB_IN.data.all isBlank = true) (hcomment : singleLine s.comment)
    (htype : singleLine typeName)
    (haccess : singleLine (g.getEncodeFieldAccess s isStructureMember))
    (htargetE : singleLine (g.getEncodeFieldAccessVariable s isStructureMember s.dependsOn))
    (htargetD : singleLine (g.getDecodeFieldAccessVariable s isStructureMember s.dependsOn))
    (hcompare : singleLine s.dependsOnCompare) (hvalue : singleLine s.dependsOnValue)
    (harrayE : ∀ spacing : String, spacing.data.all isBlank = true →
      braceFree (g.getEncodeArrayIterationCode s spacing isStructureMember))
    (harrayD : ∀ spacing : String, spacing.data.all isBlank = true →
      braceFree (g.getDecodeArrayIterationCode s spacing isStructureMember)) :
    (s.dependsOn ≠ "" →
      guardedLines g (s.getEncodeString g typeName isStructureMember)
          (g.TAB_IN ++ "if(" ++
            guardCondition s (g.getEncodeFieldAccessVariable s isStructureMember s.dependsOn) ++
            ")") ∧
        guardedLines g (s.getDecodeString g typeName isStructureMember)
          (g.TAB_IN ++ "if(" ++
            guardCondition s (g.getDecodeFieldAccessVariable s isStructureMember s.dependsOn) ++
            ")")) ∧
    (s.dependsOn = "" →
      noBraceLine (s.getEncodeString g typeName isStructureMember) ∧
        noBraceLine (s.getDecodeString g typeName isStructureMember)) := by
  have htab2 : (g.TAB_IN ++ g.TAB_IN).data.all isBlank = true := by
    simp [String.data_append, List.all_append, htab]
  constructor
  · intro h
    constructor
    · refine guardedLines_of_text g _ _ (commentLine g s)
        (g.getEncodeArrayIterationCode s (g.TAB_IN ++ g.TAB_IN) isStructureMember)
        (encodeStatement g typeName (g.getEncodeFieldAccess s isStructureMember)
          (statementSpacing g s (g.TAB_IN ++ g.TAB_IN)))
        ?_ htab (commentLine_complete g s) (commentLine_noBraceLine g s htab hcomment)
        (guard_singleLine g s _ htab htargetE hcompare hvalue)
        (by simp [String.data_append]) (harrayE _ htab2) (encodeStatement_complete g _ _ _)
        (encodeStatement_noBraceLine g _ _ _ (statementSpacing_blank g s _ htab htab2) htype
          haccess)
      rw [getEncodeString_guarded g s typeName isStructureMember h, guard_text]
    · refine guardedLines_of_text g _ _ (commentLine g s)
        (g.getDecodeArrayIterationCode s (g.TAB_IN ++ g.TAB_IN) isStructureMember)
        (decodeStatement g typeName (g.getEncodeFieldAccess s isStructureMember)
          (statementSpacing g s (g.TAB_IN ++ g.TAB_IN)))
        ?_ htab (commentLine_complete g s) (commentLine_noBraceLine g s htab hcomment)
        (guard_singleLine g s _ htab htargetD hcompare hvalue)
        (by simp [String.data_append]) (harrayD _ htab2) (decodeStatement_complete g _ _ _)
        (decodeStatement_noBraceLine g _ _ _ htab (statementSpacing_blank g s _ htab htab2)
          htype haccess)
      rw [getDecodeString_guarded g s typeName isStructureMember h, guard_text]
  · intro h
    constructor
    · exact noBraceLine_of_text _ _ _ _
        (getEncodeString_unguarded g s typeName isStructureMember h) (commentLine_complete g s)
        (commentLine_noBraceLine g s htab hcomment) (harrayE _ htab)
        (encodeStatement_noBraceLine g _ _ _ (statementSpacing_blank g s _ htab htab) htype
          haccess)
    · exact noBraceLine_of_text _ _ _ _
        (getDecodeString_unguarded g s typeName isStructureMember h) (commentLine_complete g s)
        (commentLine_noBraceLine g s htab hcomment) (harrayD _ htab)
        (decodeStatement_noBraceLine g _ _ _ htab (statementSpacing_blank g s _ htab htab)
          htype haccess)

/-- Claim C23 at the nested structure `items`, an array of 3 with a comment that depends on
the sibling `A` being 2, and the sample generator for C. -/
theorem encode_decode_guard_braces_witness :
    ((sampleGenerator Language.c_language).TAB_IN.data.all isBlank = true ∧
      singleLine sampleGuardedArray.comment ∧ singleLine "items_t" ∧
      singleLine ((sampleGenerator Language.c_language).getEncodeFieldAccess
        sampleGuardedArray true) ∧
      singleLine ((sampleGenerator Language.c_language).getEncodeFieldAccessVariable
        sampleGuardedArray true sampleGuardedArray.dependsOn) ∧
      singleLine ((sampleGenerator Language.c_language).getDecodeFieldAccessVariable
        sampleGuardedArray true sampleGuardedArray.dependsOn) ∧
      singleLine sampleGuardedArray.dependsOnCompare ∧
      singleLine sampleGuardedArray.dependsOnValue ∧
      (∀ spacing : String, spacing.data.all isBlank = true →
        braceFree ((sampleGenerator Language.c_language).getEncodeArrayIterationCode
          sampleGuardedArray spacing true)) ∧
      (∀ spacing : String, spacing.data.all isBlank = true →
        braceFree ((sampleGenerator Language.c_language).getDecodeArrayIterationCode
          sampleGuardedArray spacing true)) ∧
      sampleGuardedArray.dependsOn ≠ "") ∧
    guardedLines (sampleGenerator Language.c_language)
      (sampleGuardedArray.getEncodeString (sampleGenerator Language.c_language) "items_t" true)
      "    if(_pg_user->A == 2)" ∧
    guardedLines (sampleGenerator Language.c_language)
      (sampleGuardedArray.getDecodeString (sampleGenerator Language.c_language) "items_t" true)
      "    if(_pg_user->A == 2)" :=
  ⟨⟨by decide, by decide, by decide, by decide, by decide, by decide, by decide, by decide,
      sampleGenerator_array_braceFree, sampleGenerator_array_braceFree, by decide⟩,
    (encode_decode_guard_braces (sampleGenerator Language.c_language) sampleGuardedArray
      "items_t" true (by decide) (by decide) (by decide) (by decide) (by decide) (by decide)
      (by decide) (by decide) sampleGenerator_array_braceFree
      sampleGenerator_array_braceFree).1 (by decide)⟩

/-! ## The key of a member in the print, map and compare passes -/

/-- Claim C24: for a structure member whose fragments are emitted (the pass is switched on
and the structure has a decode parameter), the compare, text print, text read, map encode
and map decode fragments all hold a call whose first argument is the same key expression:
`_pg_prename + ":name"`, followed by the index suffix on `_pg_i` exactly when the member is
an array, and then by the one on `_pg_j` exactly when it is a 2-D array. -/
theorem key_expression_shared (g : Generator) (s : ProtocolStructure) (typeName : String)
    (hn : s.getNumberOfDecodeParameters ≠ 0) :
    (s.compare = true → callsWithKey (s.getComparisonString g typeName) (keyExpression s)) ∧
    (s.print = true →
      callsWithKey (s.getTextPrintString g typeName) (keyExpression s) ∧
        callsWithKey (s.getTextReadString g typeName) (keyExpression s)) ∧
    (s.mapEncode = true →
      callsWithKey (s.getMapEncodeString g typeName) (keyExpression s) ∧
        callsWithKey (s.getMapDecodeString g typeName) (keyExpression s)) ∧
    keyExpression s =
      "_pg_prename + \":" ++ s.name ++ "\"" ++
        (if s.isArray then " + \"[\" + QString::number(_pg_i) + \"]\"" else "") ++
        (if s.is2dArray then " + \"[\" + QString::number(_pg_j) + \"]\"" else "") :=
  ⟨fun hc => getComparisonString_key g s typeName hc hn,
    fun hc => ⟨getTextPrintString_key g s typeName hc hn,
      getTextReadString_key g s typeName hc hn⟩,
    fun hc => ⟨getMapEncodeString_key g s typeName hc hn,
      getMapDecodeString_key g s typeName hc hn⟩,
    by
      unfold keyExpression
      by_cases h1 : s.isArray = true <;> by_cases h2 : s.is2dArray = true <;> simp [h1, h2]⟩

/-- Claim C24 at the nested structure `items2d`, a 2-D array with all passes switched on,
and the sample generator for C. -/
theorem key_expression_shared_witness :
    (sampleKeyedStructure.getNumberOfDecodeParameters ≠ 0 ∧
      sampleKeyedStructure.compare = true ∧ sampleKeyedStructure.print = true ∧
      sampleKeyedStructure.mapEncode = true) ∧
    keyExpression sampleKeyedStructure =
      "_pg_prename + \":items2d\" + \"[\" + QString::number(_pg_i) + \"]\"" ++
        " + \"[\" + QString::number(_pg_j) + \"]\"" ∧
    callsWithKey
      (sampleKeyedStructure.getComparisonString (sampleGenerator Language.c_language) "items_t")
      (keyExpression sampleKeyedStructure) ∧
    callsWithKey
      (sampleKeyedStructure.getMapDecodeString (sampleGenerator Language.c_language) "items_t")
      (keyExpression sampleKeyedStructure) :=
  ⟨⟨by decide, by decide, by decide, by decide⟩, by decide,
    (key_expression_shared (sampleGenerator Language.c_language) sampleKeyedStructure "items_t"
      (by decide)).1 (by decide),
    ((key_expression_shared (sampleGenerator Language.c_language) sampleKeyedStructure "items_t"
      (by decide)).2.2.1 (by decide)).2⟩

/-! ## The decode call -/

/-- Claim C25: the decode fragment is the comment line, the opening of the guard when
dependsOn is not empty, the array iteration code, then the decode call as a test and, on
the next line and one `TAB_IN` deeper than the test, the return of the failure code (`0` in
C, `false` in C++), then the closing of the guard; the call and the return are emitted for
every member. -/
theorem decode_call_is_tested (g : Generator) (s : ProtocolStructure) (typeName : String)
    (isStructureMember : Bool) :
    s.getDecodeString g typeName isStructureMember =
      commentLine g s ++
        (if s.dependsOn ≠ "" then
          g.TAB_IN ++ "if(" ++
            guardCondition s (g.getDecodeFieldAccessVariable s isStructureMember s.dependsOn) ++
            ")\n" ++ (g.TAB_IN ++ "\x7b\n")
        else "") ++
        g.getDecodeArrayIterationCode s
          (if s.dependsOn ≠ "" then g.TAB_IN ++ g.TAB_IN else g.TAB_IN) isStructureMember ++
        (if g.language = Language.c_language then
          statementSpacing g s (if s.dependsOn ≠ "" then g.TAB_IN ++ g.TAB_IN else g.TAB_IN) ++
            "if(decode" ++ typeName ++ "(_pg_data, &_pg_byteindex, " ++
            g.getEncodeFieldAccess s isStructureMember ++ ") == 0)\n" ++
            (statementSpacing g s
                (if s.dependsOn ≠ "" then g.TAB_IN ++ g.TAB_IN else g.TAB_IN) ++
              g.TAB_IN ++ "return 0;\n")
        else
          statementSpacing g s (if s.dependsOn ≠ "" then g.TAB_IN ++ g.TAB_IN else g.TAB_IN) ++
            "if(" ++ g.getEncodeFieldAccess s isStructureMember ++
            ".decode(_pg_data, &_pg_byteindex) == false)\n" ++
            (statementSpacing g s
                (if s.dependsOn ≠ "" then g.TAB_IN ++ g.TAB_IN else g.TAB_IN) ++
              g.TAB_IN ++ "return false;\n")) ++
        (if s.dependsOn ≠ "" then g.TAB_IN ++ "\x7d\n" else "") := by
  by_cases h : s.dependsOn = ""
  · rw [getDecodeString_unguarded g s typeName isStructureMember h]
    unfold decodeStatement
    by_cases hl : g.language = Language.c_language <;> simp [h, hl, String.append_assoc]
  · rw [getDecodeString_guarded g s typeName isStructureMember h]
    unfold decodeStatement
    by_cases hl : g.language = Language.c_language <;> simp [h, hl, String.append_assoc]

/-! ## The verify statement -/

/-- Claim C26: for a structure with `hasverify` set, the verify fragment is the comment
line, the loop lines of an array, and then the test of the verify call with, one `TAB_IN`
deeper, the assignment `_pg_good = 0;` (C) or `_pg_good = false;` (C++) as its last line:
no return is emitted. The verify function is the declarations, then the fragments of all the
children in child-list order, each after a line separator, then a line separator, the line
`return _pg_good;`, an empty line and the closing brace: every fragment comes before the
return, after which only the closing brace follows. -/
theorem verify_failure_clears_flag (g : Generator) (s : ProtocolStructure)
    (typeName structName : String) (encodables : List EncodableObject)
    (includeChildren : Bool) (h : s.hasverify = true) :
    s.getVerifyString g typeName =
        commentLine g s ++
          (if s.isArray then
            g.TAB_IN ++ "for(_pg_i = 0; _pg_i < " ++ s.array ++ "; _pg_i++)\n"
          else "") ++
          (if s.is2dArray then
            g.TAB_IN ++ g.TAB_IN ++ "for(_pg_j = 0; _pg_j < " ++ s.array2d ++ "; _pg_j++)\n"
          else "") ++
          (if g.language = Language.c_language then
            statementSpacing g s g.TAB_IN ++ "if(verify" ++ typeName ++ "(" ++
              g.getDecodeFieldAccess s true ++ ") == 0)\n" ++
              (statementSpacing g s g.TAB_IN ++ g.TAB_IN ++ "_pg_good = 0;\n")
          else
            statementSpacing g s g.TAB_IN ++ "if(" ++ g.getDecodeFieldAccess s true ++
              ".verify() == false)\n" ++
              (statementSpacing g s g.TAB_IN ++ g.TAB_IN ++ "_pg_good = false;\n")) ∧
    (∃ header : String,
      (EncodableObject.structure_ s typeName structName encodables).getVerifyFunctionBody g
          includeChildren =
        g.makeLineSeparator
            (verifyMembers g encodables
              (header ++ "\x7b\n" ++
                (g.TAB_IN ++
                  (if g.language = Language.c_language then "int _pg_good = 1;\n"
                  else "bool _pg_good = true;\n")) ++
                (if s.needsVerifyIterator then g.TAB_IN ++ "unsigned _pg_i = 0;\n" else "") ++
                (if s.needs2ndVerifyIterator then g.TAB_IN ++ "unsigned _pg_j = 0;\n"
                else ""))) ++
          (g.TAB_IN ++ "return _pg_good;\n") ++ "\n" ++
          (if g.language = Language.c_language then "\x7d// verify" ++ typeName ++ "\n"
          else "\x7d// " ++ typeName ++ "::verify\n")) ∧
    (∀ (pre post : List EncodableObject) (c : EncodableObject) (output : String),
      encodables = pre ++ c :: post →
      verifyMembers g encodables output =
        verifyMembers g post
          (g.makeLineSeparator (verifyMembers g pre output) ++ c.getVerifyString g)) := by
  refine ⟨getVerifyString_shape g s typeName h,
    getVerifyFunctionBody_shape g s typeName structName encodables includeChildren h, ?_⟩
  intro pre post c output he
  rw [he]
  unfold verifyMembers
  rw [List.foldl_append, List.foldl_cons]

/-- Claim C26 at the nested structure `opt` and the sample generator for C. -/
theorem verify_failure_clears_flag_witness :
    sampleGuardedStructure.hasverify = true ∧
      sampleGuardedStructure.getVerifyString (sampleGenerator Language.c_language) "opt_t" =
        "    if(verifyopt_t(&_pg_user->opt) == 0)\n        _pg_good = 0;\n" :=
  ⟨by decide,
    (verify_failure_clears_flag (sampleGenerator Language.c_language) sampleGuardedStructure
      "opt_t" "opt_t" [EncodableObject.field sampleIteratingField] true (by decide)).1.trans
      (by decide)⟩

/-! ## The declaration of a member -/

/-- Claim C28: `getStructureDeclaration_C` returns a text that is not empty exactly when
redefines is null, the structure has a member in memory, and it has more than one or
`alwaysCreate` is set; otherwise the text is empty. When emitted the text is the comment,
`typedef struct`, the opening brace, the aligned member declarations, and the closing brace
with the type name and a semicolon. The member declarations are the declaration of each
child in child-list order, and aligning keeps their lines, in order, up to spaces. -/
theorem structureDeclaration_C_emitted_iff (g : Generator) (s : ProtocolStructure)
    (typeName structName : String) (encodables : List EncodableObject)
    (alwaysCreate : Bool) :
    ((EncodableObject.structure_ s typeName structName encodables).getStructureDeclaration_C g
          alwaysCreate ≠ "" ↔
        (s.redefines = none ∧ s.getNumberInMemory > 0 ∧
          (s.getNumberInMemory > 1 ∨ alwaysCreate = true))) ∧
    ((s.redefines = none ∧ s.getNumberInMemory > 0 ∧
        (s.getNumberInMemory > 1 ∨ alwaysCreate = true)) →
      (EncodableObject.structure_ s typeName structName encodables).getStructureDeclaration_C g
          alwaysCreate =
        declarationComment g s ++ "typedef struct\n" ++ "\x7b\n" ++
          alignStructureData (memberDeclarations g encodables) ++
          ("\x7d" ++ typeName ++ ";\n")) ∧
    (¬ (s.redefines = none ∧ s.getNumberInMemory > 0 ∧
        (s.getNumberInMemory > 1 ∨ alwaysCreate = true)) →
      (EncodableObject.structure_ s typeName structName encodables).getStructureDeclaration_C g
          alwaysCreate = "") ∧
    (∀ (pre post : List EncodableObject) (c : EncodableObject),
      encodables = pre ++ c :: post →
      memberDeclarations g encodables =
        memberDeclarations g pre ++ c.getDeclaration g ++ memberDeclarations g post) ∧
    (linesOf (alignStructureData (memberDeclarations g encodables))).map withoutSpaces =
      (linesOf (memberDeclarations g encodables)).map withoutSpaces := by
  have hpos : (s.redefines = none ∧ s.getNumberInMemory > 0 ∧
      (s.getNumberInMemory > 1 ∨ alwaysCreate = true)) →
      (EncodableObject.structure_ s typeName structName encodables).getStructureDeclaration_C g
          alwaysCreate =
        declarationComment g s ++ "typedef struct\n" ++ "\x7b\n" ++
          alignStructureData (memberDeclarations g encodables) ++
          ("\x7d" ++ typeName ++ ";\n") := by
    intro h
    rw [EncodableObject.getStructureDeclaration_C, if_pos h]
    rfl
  have hneg : ¬ (s.redefines = none ∧ s.getNumberInMemory > 0 ∧
      (s.getNumberInMemory > 1 ∨ alwaysCreate = true)) →
      (EncodableObject.structure_ s typeName structName encodables).getStructureDeclaration_C g
          alwaysCreate = "" := by
    intro h
    rw [EncodableObject.getStructureDeclaration_C, if_neg h]
  refine ⟨⟨?_, ?_⟩, hpos, hneg, ?_, alignStructureData_lines _⟩
  · intro hne
    by_contra h
    exact hne (hneg h)
  · intro h
    rw [hpos h]
    exact String.append_ne_empty_right _ _ (String.append_ne_empty_right _ _ (by decide))
  · intro pre post c he
    rw [he]
    exact memberDeclarations_append g pre post c

/-- Claim C28 at the structure `mid` of the sample tree, which has two members in memory,
and the sample generator for C. -/
theorem structureDeclaration_C_emitted_iff_witness :
    (sampleMidStructure.redefines = none ∧ sampleMidStructure.getNumberInMemory > 0 ∧
      (sampleMidStructure.getNumberInMemory > 1 ∨ false = true)) ∧
    (EncodableObject.structure_ sampleMidStructure "mid_t" "mid_t"
      [EncodableObject.field sampleB,
        EncodableObject.structure_ sampleLowStructure "low_t" "low_t"
          [EncodableObject.field sampleC]]).getStructureDeclaration_C
        (sampleGenerator Language.c_language) false =
      "typedef struct\n\x7b\n    uint8_t B;  \n    low_t   low;\n\x7dmid_t;\n" :=
  ⟨by decide,
    ((structureDeclaration_C_emitted_iff (sampleGenerator Language.c_language)
      sampleMidStructure "mid_t" "mid_t"
      [EncodableObject.field sampleB,
        EncodableObject.structure_ sampleLowStructure "low_t" "low_t"
          [EncodableObject.field sampleC]] false).2.1 (by decide)).trans (by decide)⟩

/-! ## The declaration of a structure that redefines another -/

/-- Claim C29: for a structure whose redefines is set, `getStructureDeclaration_C` returns
the empty text; `getStructureDeclaration` is the output of the own enumerations followed by
the own declaration, whatever the children are, so no declaration of a child structure is
emitted; and `getClassDeclaration_CPP` is the comment, the class line naming the redefined
type, `public:`, the encode prototype when encode is set, the decode prototype when decode
is set, and the closing line, whatever the children are. With encode off and decode on it
holds the decode prototype alone. -/
theorem redefines_suppresses_declarations (g : Generator) (s : ProtocolStructure)
    (typeName structName redefinesTypeName : String) (encodables : List EncodableObject)
    (alwaysCreate : Bool) (h : s.redefines = some redefinesTypeName) :
    (EncodableObject.structure_ s typeName structName encodables).getStructureDeclaration_C g
        alwaysCreate = "" ∧
    (EncodableObject.structure_ s typeName structName encodables).getStructureDeclaration g
        alwaysCreate =
      (g.enumOutput s).foldl (fun output e => g.makeLineSeparator (output ++ e)) "" ++
        (if g.language = Language.c_language then ""
        else (EncodableObject.structure_ s typeName structName []).getClassDeclaration_CPP g) ∧
    (EncodableObject.structure_ s typeName structName encodables).getClassDeclaration_CPP g =
      classPrototype g s.decode
          (g.TAB_IN ++ "//! Decode a " ++ typeName ++ " from a byte array\n" ++
            (g.TAB_IN ++ getDecodeFunctionSignature g s typeName structName false ++ ";\n"))
          (classPrototype g s.encode
            (g.TAB_IN ++ "//! Encode a " ++ typeName ++ " into a byte array\n" ++
              (g.TAB_IN ++ getEncodeFunctionSignature g s typeName structName false ++ ";\n"))
            (declarationComment g s ++
              ("class " ++ typeName ++ "public: " ++ redefinesTypeName ++ "\n") ++ "\x7b\n" ++
              "public:\n")) ++
        ("\x7d; // " ++ typeName ++ "\n") ∧
    (s.encode = false → s.decode = true →
      (EncodableObject.structure_ s typeName structName encodables).getClassDeclaration_CPP g =
        g.makeLineSeparator
            (g.makeLineSeparator
                (declarationComment g s ++
                  ("class " ++ typeName ++ "public: " ++ redefinesTypeName ++ "\n") ++
                  "\x7b\n" ++ "public:\n") ++
              (g.TAB_IN ++ "//! Decode a " ++ typeName ++ " from a byte array\n" ++
                (g.TAB_IN ++ getDecodeFunctionSignature g s typeName structName false ++
                  ";\n"))) ++
          ("\x7d; // " ++ typeName ++ "\n")) := by
  have hne : s.redefines ≠ none := by rw [h]; exact Option.some_ne_none _
  have hclass : ∀ l : List EncodableObject,
      (EncodableObject.structure_ s typeName structName l).getClassDeclaration_CPP g =
      classPrototype g s.decode
          (g.TAB_IN ++ "//! Decode a " ++ typeName ++ " from a byte array\n" ++
            (g.TAB_IN ++ getDecodeFunctionSignature g s typeName structName false ++ ";\n"))
          (classPrototype g s.encode
            (g.TAB_IN ++ "//! Encode a " ++ typeName ++ " into a byte array\n" ++
              (g.TAB_IN ++ getEncodeFunctionSignature g s typeName structName false ++ ";\n"))
            (declarationComment g s ++
              ("class " ++ typeName ++ "public: " ++ redefinesTypeName ++ "\n") ++ "\x7b\n" ++
              "public:\n")) ++
        ("\x7d; // " ++ typeName ++ "\n") := by
    intro l
    rw [EncodableObject.getClassDeclaration_CPP]
    simp only [h]
    rw [EncodableObject.getEncodeFunctionPrototype, EncodableObject.getDecodeFunctionPrototype]
    simp
  refine ⟨?_, ?_, hclass encodables, ?_⟩
  · rw [EncodableObject.getStructureDeclaration_C, if_neg (fun hc => hne hc.1)]
  · rw [EncodableObject.getStructureDeclaration]
    simp only [if_neg hne]
    by_cases hl : g.language = Language.c_language
    · simp only [hl, if_true]
      rw [EncodableObject.getStructureDeclaration_C, if_neg (fun hc => hne hc.1)]
    · simp only [hl, if_false]
      rw [hclass encodables, hclass []]
  · intro he hd
    rw [hclass encodables]
    simp [classPrototype, he, hd]

/-- Claim C29 at the structure `top` redefining `base_t` with encode off and decode on, and
the sample generators. -/
theorem redefines_suppresses_declarations_witness :
    (sampleRedefiningStructure.redefines = some "base_t" ∧
      sampleRedefiningStructure.encode = false ∧ sampleRedefiningStructure.decode = true) ∧
    sampleRedefiningTree.getStructureDeclaration_C (sampleGenerator Language.c_language) true =
      "" ∧
    sampleRedefiningTree.getClassDeclaration_CPP (sampleGenerator Language.cpp_language) =
      "class top_tpublic: base_t\n\x7b\npublic:\n\n    //! Decode a top_t from a byte array\n" ++
        "    bool decode(const uint8_t* data, int* bytecount);\n\n\x7d; // top_t\n" :=
  ⟨by decide,
    (redefines_suppresses_declarations (sampleGenerator Language.c_language)
      sampleRedefiningStructure "top_t" "top_t" "base_t" _ true (by decide)).1,
    ((redefines_suppresses_declarations (sampleGenerator Language.cpp_language)
      sampleRedefiningStructure "top_t" "top_t" "base_t" _ true (by decide)).2.2.2 (by decide)
      (by decide)).trans (by decide)⟩

/-! ## The loop index of the verify function -/

/-- Claim C30 fails on the code: in the structure `pair` the verify fragment of the child
`a` loops over `_pg_i`, and the verify function of `pair`, which has verification, declares
`_pg_good` alone before the fragments of the children, because the child `b`, an array
without verification, comes later and resets `needsVerifyIterator`; with the children in
the other order the flag is set. -/
theorem verify_function_omits_loop_index :
    samplePairStructure.hasverify = true ∧
      samplePairStructure.needsVerifyIterator = false ∧
      sampleSwappedPairStructure.needsVerifyIterator = true ∧
      sampleVerifiedItems.getVerifyString (sampleGenerator Language.c_language) "a_t" =
        "    for(_pg_i = 0; _pg_i < 3; _pg_i++)\n" ++
          "        if(verifya_t(&_pg_user->a[_pg_i]) == 0)\n            _pg_good = 0;\n" ∧
      ∃ header : String,
        samplePairTree.getVerifyFunctionBody (sampleGenerator Language.c_language) false =
          (sampleGenerator Language.c_language).makeLineSeparator
              (verifyMembers (sampleGenerator Language.c_language)
                [EncodableObject.structure_ sampleVerifiedItems "a_t" "a_t"
                    [EncodableObject.field
                      { sampleField "x" (fixedLength "2") with hasVerify := true }],
                  EncodableObject.structure_ samplePlainItems "b_t" "b_t"
                    [EncodableObject.field (sampleField "y" (fixedLength "1"))]]
                (header ++ "\x7b\n" ++ "    int _pg_good = 1;\n")) ++
            "    return _pg_good;\n" ++ "\n" ++ "\x7d// verifypair_t\n" := by
  refine ⟨by decide, by decide, by decide, by decide, ?_⟩
  obtain ⟨header, h⟩ := getVerifyFunctionBody_shape (sampleGenerator Language.c_language)
    samplePairStructure "pair_t" "pair_t"
    [EncodableObject.structure_ sampleVerifiedItems "a_t" "a_t"
        [EncodableObject.field { sampleField "x" (fixedLength "2") with hasVerify := true }],
      EncodableObject.structure_ samplePlainItems "b_t" "b_t"
        [EncodableObject.field (sampleField "y" (fixedLength "1"))]] false (by decide)
  have h1 : samplePairStructure.needsVerifyIterator = false := by decide
  have h2 : samplePairStructure.needs2ndVerifyIterator = false := by decide
  have h3 : (sampleGenerator Language.c_language).language = Language.c_language := rfl
  have h4 : (sampleGenerator Language.c_language).TAB_IN = "    " := rfl
  rw [h1, h2, h3, h4] at h
  refine ⟨header, ?_⟩
  unfold samplePairTree verifyMembers
  rw [h]
  simp

/-! ## The class header of a redefining structure -/

/-- C34: for the sample structure `top_t` that redefines `base_t`, the first line of the
class declaration that `getClassDeclaration_CPP` returns is `class top_tpublic: base_t`: the
type name and the word `public` are written without anything between them and the colon
follows the word; no line of the declaration is `class top_t : public base_t`. -/
theorem getClassDeclaration_CPP_redefining_header :
    (linesOf (sampleRedefiningTree.getClassDeclaration_CPP
        (sampleGenerator Language.cpp_language))).head? =
        some "class top_tpublic: base_t".data ∧
      "class top_t : public base_t".data ∉
        linesOf (sampleRedefiningTree.getClassDeclaration_CPP
          (sampleGenerator Language.cpp_language)) := by
  decide

/-! ## The frame of the toggles -/

/-- C37: `setPrint(b)` leaves every structure of the tree, in the same order, with all its
data members as they were except `print` (so `compare`, `mapEncode`, `encode`, `decode`,
the child list, the aggregated flags and `encodedLength` are unchanged), and calling it
twice with the same value gives the same tree as calling it once; likewise `setCompare`
with `compare` and `setMapEncode` with `mapEncode`. -/
theorem toggles_change_only_their_flag (t : EncodableObject) (b : Bool) :
    ((t.setPrint b).structures = t.structures.map (fun s => { s with print := b }) ∧
      (t.setPrint b).setPrint b = t.setPrint b) ∧
    ((t.setCompare b).structures = t.structures.map (fun s => { s with compare := b }) ∧
      (t.setCompare b).setCompare b = t.setCompare b) ∧
    ((t.setMapEncode b).structures = t.structures.map (fun s => { s with mapEncode := b }) ∧
      (t.setMapEncode b).setMapEncode b = t.setMapEncode b) :=
  ⟨⟨EncodableObject.setPrint_structures b t, EncodableObject.setPrint_idem b t⟩,
    ⟨EncodableObject.setCompare_structures b t, EncodableObject.setCompare_idem b t⟩,
    ⟨EncodableObject.setMapEncode_structures b t, EncodableObject.setMapEncode_idem b t⟩⟩

/-! ## The defaults flag -/

/-- C38: after `parseChildren` on a freshly constructed structure, `defaults` is set if and
only if the child list holds an encoded field that uses a default value
(`Encodable.clearDefaults` makes `usesDefaults` false and changes nothing else). -/
theorem parseChildren_defaults_flag_iff
    (getOverriddenTypeData : Encodable → Option Encodable → Bool)
    (children : List (Option Encodable)) :
    (ProtocolStructure.clear.parseChildren getOverriddenTypeData children).defaults = true ↔
      ∃ e ∈ (ProtocolStructure.clear.parseChildren getOverriddenTypeData children).encodables,
        (e.isNotEncoded = false ∧ e.isField = true) ∧ e.usesDefaults = true :=
  (parseChildren_defaultsInvariant getOverriddenTypeData ProtocolStructure.clear children
    (defaultsInvariant_of_empty ProtocolStructure.clear rfl rfl)).2

/-! ## The value and comparator of a cleared dependsOn -/

/-- C39: for the children `A` and a bitfield `b` with dependsOn `A`, dependsOnValue `2` and
dependsOnCompare `==`, `parseChildren` leaves `b` with an empty dependsOn and with the value
`2` and the comparator `==` still in place; the same member as a plain field whose target
`missing` does not exist is left with all three empty. -/
theorem parseChildren_bitfield_keeps_dependsOnValue :
    ((ProtocolStructure.clear.parseChildren noOverride
        [some sampleA, some sampleComparedBitfield]).encodables.map
      fun e => (e.name, e.dependsOn, e.dependsOnValue, e.dependsOnCompare)) =
      [("A", "", "", ""), ("b", "", "2", "==")] ∧
    ((ProtocolStructure.clear.parseChildren noOverride
        [some sampleA, some sampleUnresolvedField]).encodables.map
      fun e => (e.name, e.dependsOn, e.dependsOnValue, e.dependsOnCompare)) =
      [("A", "", "", ""), ("b", "", "", "")] := by
  decide

/-! ## The length and the second dimension -/

/-- C40: the `encodedLength` that `parse` computes is the sum of the lengths of the children
taken as a group with the structure's `array`, whether `variableArray` is not empty and
whether `dependsOn` is not empty. Hence two parsed structures with the same child list, the
same `array` and the same emptiness of `variableArray` and of `dependsOn` have the same
`encodedLength`; and a structure that starts with other values of `array2d` and
`variable2dArray` gets, from the same attributes and children, the same three lengths. -/
theorem parse_length_ignores_second_dimension
    (getOverriddenTypeData : Encodable → Option Encodable → Bool) :
    (∀ (s : ProtocolStructure) (map : Attributes) (children : List (Option Encodable)),
      (s.parse getOverriddenTypeData map children).encodedLength =
        EncodedLength.clear.addToLength
          (sumChildrenLength (s.parse getOverriddenTypeData map children).encodables)
          (s.parse getOverriddenTypeData map children).array
          (decide ((s.parse getOverriddenTypeData map children).variableArray ≠ ""))
          (decide ((s.parse getOverriddenTypeData map children).dependsOn ≠ ""))) ∧
    (∀ (s1 s2 : ProtocolStructure) (map1 map2 : Attributes)
        (children1 children2 : List (Option Encodable)),
      (s1.parse getOverriddenTypeData map1 children1).encodables =
        (s2.parse getOverriddenTypeData map2 children2).encodables →
      (s1.parse getOverriddenTypeData map1 children1).array =
        (s2.parse getOverriddenTypeData map2 children2).array →
      ((s1.parse getOverriddenTypeData map1 children1).variableArray = "" ↔
        (s2.parse getOverriddenTypeData map2 children2).variableArray = "") →
      ((s1.parse getOverriddenTypeData map1 children1).dependsOn = "" ↔
        (s2.parse getOverriddenTypeData map2 children2).dependsOn = "") →
      (s1.parse getOverriddenTypeData map1 children1).encodedLength =
        (s2.parse getOverriddenTypeData map2 children2).encodedLength) ∧
    (∀ (s : ProtocolStructure) (map : Attributes) (children : List (Option Encodable))
        (a2 v2 : String),
      (({ s with array2d := a2, variable2dArray := v2 } : ProtocolStructure).parse
          getOverriddenTypeData map children).encodedLength =
        (s.parse getOverriddenTypeData map children).encodedLength ∧
      (({ s with array2d := a2, variable2dArray := v2 } : ProtocolStructure).parse
          getOverriddenTypeData map children).encodables =
        (s.parse getOverriddenTypeData map children).encodables) := by
  have hlength : ∀ (s : ProtocolStructure) (map : Attributes)
      (children : List (Option Encodable)),
      (s.parse getOverriddenTypeData map children).encodedLength =
        EncodedLength.clear.addToLength
          (sumChildrenLength (s.parse getOverriddenTypeData map children).encodables)
          (s.parse getOverriddenTypeData map children).array
          (decide ((s.parse getOverriddenTypeData map children).variableArray ≠ ""))
          (decide ((s.parse getOverriddenTypeData map children).dependsOn ≠ "")) := by
    intro s map children
    rw [parse_eq]
  refine ⟨hlength, ?_, ?_⟩
  · intro s1 s2 map1 map2 children1 children2 he ha hv hd
    rw [hlength s1, hlength s2, he, ha]
    have hv2 : decide ((s1.parse getOverriddenTypeData map1 children1).variableArray ≠ "") =
        decide ((s2.parse getOverriddenTypeData map2 children2).variableArray ≠ "") := by
      rw [decide_eq_decide]
      exact not_congr hv
    have hd2 : decide ((s1.parse getOverriddenTypeData map1 children1).dependsOn ≠ "") =
        decide ((s2.parse getOverriddenTypeData map2 children2).dependsOn ≠ "") := by
      rw [decide_eq_decide]
      exact not_congr hd
    rw [hv2, hd2]
  · intro s map children a2 v2
    rw [parse_secondDimension]
    exact ⟨rfl, rfl⟩

/-! ## The indentation of the member statement -/

/-- C33: whenever a pass (encode, decode, verify, initialize, compare, text print, text
read, map encode, map decode) emits a fragment for a nested-structure member, the fragment
is the opening of the pass, then the member statement indented by exactly
`1 + d + a + b` times `TAB_IN`, where `d` is 1 if the pass emitted a dependsOn guard, `a` is
1 for an array and `b` is 1 for a 2-D array, then the rest of the statement. In the verify,
initialize and compare passes the opening is the comment line followed by the loop header
on `_pg_i` at one `TAB_IN` and the loop header on `_pg_j` at two. -/
theorem member_statement_indentation (g : Generator) (s : ProtocolStructure)
    (typeName : String) (isStructureMember : Bool) (pass : Pass)
    (h : pass.emits g s = true) :
    ∃ rest : String,
      pass.fragment g s typeName isStructureMember =
        pass.opening g s isStructureMember ++
          (indentation g (memberDepth s (pass.guards s)) ++
            pass.statement g s typeName isStructureMember) ++ rest := by
  cases pass
  case encode => exact fragment_encode_indentation g s typeName isStructureMember
  case decode => exact fragment_decode_indentation g s typeName isStructureMember
  case verify => exact fragment_verify_indentation g s typeName isStructureMember h
  case setInitialValue =>
    exact fragment_setInitialValue_indentation g s typeName isStructureMember
      (by simpa [Pass.emits] using h)
  case compare =>
    exact fragment_compare_indentation g s typeName isStructureMember
      (by simpa [Pass.emits] using h)
  case textPrint =>
    exact fragment_textPrint_indentation g s typeName isStructureMember
      (by simpa [Pass.emits] using h)
  case textRead =>
    exact fragment_textRead_indentation g s typeName isStructureMember
      (by simpa [Pass.emits] using h)
  case mapEncode =>
    exact fragment_mapEncode_indentation g s typeName isStructureMember
      (by simpa [Pass.emits] using h)
  case mapDecode =>
    exact fragment_mapDecode_indentation g s typeName isStructureMember
      (by simpa [Pass.emits] using h)

/-- Witness for C33: the compare pass emits a fragment for the sample 2-D array of
structures `items2d`, and its member statement stands at three times `TAB_IN`. -/
theorem member_statement_indentation_witness :
    Pass.emits (sampleGenerator Language.c_language) sampleKeyedStructure Pass.compare = true ∧
      ∃ rest : String,
        Pass.fragment (sampleGenerator Language.c_language) sampleKeyedStructure "items2d_t"
            true Pass.compare =
          Pass.opening (sampleGenerator Language.c_language) sampleKeyedStructure true
              Pass.compare ++
            (indentation (sampleGenerator Language.c_language)
                (memberDepth sampleKeyedStructure
                  (Pass.guards sampleKeyedStructure Pass.compare)) ++
              Pass.statement (sampleGenerator Language.c_language) sampleKeyedStructure
                "items2d_t" true Pass.compare) ++ rest :=
  ⟨by decide,
    member_statement_indentation (sampleGenerator Language.c_language) sampleKeyedStructure
      "items2d_t" true Pass.compare (by decide)⟩

/-! ## The columns of `alignStructureData` -/

/-- C36, counterexample: in the two declaration lines `int a; //!< x` and
`uint8_t bcd[3]; //!< y`, indented by four spaces, the first semicolon stands at column 13
of the first output line and at column 18 of the second: the spaces of the second round are
inserted after the semicolon. And in the lines `a; b` and `int c;`, indented by four spaces,
each of which has a space at or after position 4 and a semicolon, the texts `b` and `c;`
that follow that space start at columns 12 and 8 of the output. -/
theorem alignStructureData_semicolons_not_aligned :
    (∀ l ∈ linesOf "    int a; //!< x\n    uint8_t bcd[3]; //!< y\n",
      0 ≤ QString.indexOf ' ' 4 l ∧ 0 ≤ QString.indexOf ';' 0 l) ∧
    alignStructureData "    int a; //!< x\n    uint8_t bcd[3]; //!< y\n" =
      "    int     a;      //!< x\n    uint8_t bcd[3]; //!< y\n" ∧
    (linesOf (alignStructureData "    int a; //!< x\n    uint8_t bcd[3]; //!< y\n")).map
      (QString.indexOf ';' 0) = [13, 18] ∧
    (∀ l ∈ linesOf "    a; b\n    int c;\n",
      0 ≤ QString.indexOf ' ' 4 l ∧ 0 ≤ QString.indexOf ';' 0 l) ∧
    alignStructureData "    a; b\n    int c;\n" = "    a;      b\n    int c;\n" := by
  decide

/-- C36: for a text in which every line that is not empty has a space at or after position
4 and its first semicolon after the first such space, there are two columns such that
`alignStructureData` returns the lines of the text that are not empty, in order, each
followed by a line feed, and each with nothing but spaces inserted, before its first space
at or after position 4 and after its first semicolon, so that on every line that space
stands at the first column and the text following the first semicolon starts at the
second. -/
theorem alignStructureData_columns (text : String)
    (h : ∀ l ∈ linesOf text, isDeclarationLine l) :
    ∃ nameColumn commentColumn : Nat,
      alignStructureData text =
        joinLines ((linesOf text).map (alignedLine nameColumn commentColumn)) ∧
      (linesOf (alignStructureData text)).length = (linesOf text).length ∧
      ∀ l ∈ linesOf text,
        (l.take (QString.indexOf ' ' 4 l).toNat ++
          List.replicate (nameColumn - (QString.indexOf ' ' 4 l).toNat) ' ').length =
            nameColumn ∧
        (l.take (QString.indexOf ' ' 4 l).toNat ++
          List.replicate (nameColumn - (QString.indexOf ' ' 4 l).toNat) ' ' ++
          (l.drop (QString.indexOf ' ' 4 l).toNat).take
            ((QString.indexOf ';' 0 l).toNat + 1 - (QString.indexOf ' ' 4 l).toNat) ++
          List.replicate
            (commentColumn -
              (nameColumn +
                ((QString.indexOf ';' 0 l).toNat + 1 - (QString.indexOf ' ' 4 l).toNat)))
            ' ').length = commentColumn := by
  obtain ⟨nameColumn, commentColumn, hlines, hcols⟩ :=
    alignColumn_declarationLines (linesOf text) h
  refine ⟨nameColumn, commentColumn, ?_, ?_, ?_⟩
  · unfold alignStructureData
    simp only []
    rw [foldl_lines_joinLines]
    exact congrArg joinLines hlines
  · have := congrArg List.length (alignStructureData_lines text)
    simpa using this
  · intro l hl
    obtain ⟨h1, h2⟩ := hcols l hl
    obtain ⟨h3, h4⟩ := h l hl
    obtain ⟨pre, post, hpl, hk, _, _⟩ := indexOf_decompose ' ' 4 l h3
    obtain ⟨pre2, post2, hpl2, hj, _, _⟩ := indexOf_decompose ';' 0 l (le_trans h3 (le_of_lt h4))
    have hklen : pre.length < l.length := by rw [hpl]; simp
    have hjlen : pre2.length < l.length := by rw [hpl2]; simp
    rw [hk] at h1 h2 h4 ⊢
    rw [hj] at h2 h4 ⊢
    simp only [Int.toNat_ofNat] at h1 h2 ⊢
    simp only [List.length_append, List.length_take, List.length_replicate, List.length_drop]
    omega

/-- Witness for C36: the two sample declaration lines are declaration lines, and their
alignment has the two columns. -/
theorem alignStructureData_columns_witness :
    (∀ l ∈ linesOf "    int a; //!< x\n    uint8_t bcd[3]; //!< y\n", isDeclarationLine l) ∧
    ∃ nameColumn commentColumn : Nat,
      alignStructureData "    int a; //!< x\n    uint8_t bcd[3]; //!< y\n" =
        joinLines ((linesOf "    int a; //!< x\n    uint8_t bcd[3]; //!< y\n").map
          (alignedLine nameColumn commentColumn)) :=
  ⟨by unfold isDeclarationLine; decide,
    (alignStructureData_columns "    int a; //!< x\n    uint8_t bcd[3]; //!< y\n"
      (by unfold isDeclarationLine; decide)).imp
      fun _ h => h.imp fun _ h => h.1⟩

/-! ## The documentation details -/

/-- C31: called with an outline that is not empty, `getDocumentationDetails` appends to
`comments` the description of the structure (for a structure without children this is all
it appends; in general it does so before it visits the children). With an empty dependsOn
the description is the comment unchanged. With a dependsOn it is the comment made to end
with a period, followed by ` Only included if <dependsOn> is non-zero.` when dependsOnValue
is empty, and by ` Only included if <dependsOn> <dependsOnCompare> <dependsOnValue>.`
otherwise, with `equal to` in the place of an empty comparator. -/
theorem getDocumentationDetails_description (doc : Documenter) (s : ProtocolStructure)
    (typeName structName : String) (d : DocumentationDetails) (h : d.outline ≠ []) :
    (∃ d1, (EncodableObject.structure_ s typeName structName []).getDocumentationDetails doc d =
        some d1 ∧ d1.comments = d.comments ++ [s.description]) ∧
    (∃ (d1 : DocumentationDetails) (next : String),
      s.ownDocumentationDetails doc d = some (d1, next) ∧
        d1.comments = d.comments ++ [s.description]) ∧
    (s.dependsOn = "" → s.description = s.comment) ∧
    (s.dependsOn ≠ "" → s.dependsOnValue = "" →
      s.description =
        endedWithPeriod s.comment ++ " Only included if " ++ s.dependsOn ++ " is non-zero.") ∧
    (s.dependsOn ≠ "" → s.dependsOnValue ≠ "" →
      s.description =
        endedWithPeriod s.comment ++ " Only included if " ++ s.dependsOn ++ " " ++
          (if s.dependsOnCompare = "" then "equal to" else s.dependsOnCompare) ++ " " ++
          s.dependsOnValue ++ ".") ∧
    QString.endsWith (endedWithPeriod s.comment) '.' = true := by
  obtain ⟨base, n, hb⟩ : ∃ base n, d.outline = base ++ [n] :=
    ⟨d.outline.dropLast, d.outline.getLast h, (List.dropLast_append_getLast h).symm⟩
  obtain ⟨d1, next, h1, h2, _, h4⟩ := ownDocumentationDetails_spec doc s d base n hb
  refine ⟨?_, ⟨d1, next, h1, h4⟩, ?_, ?_, ?_, ?_⟩
  · rw [EncodableObject.getDocumentationDetails, h1]
    simp only [documentationDetailsOfChildren, h2, removeLast_append]
    exact ⟨_, rfl, h4⟩
  · intro hd
    unfold ProtocolStructure.description
    simp [hd]
  · intro hd hv
    unfold ProtocolStructure.description endedWithPeriod QString.endsWith
    apply String.ext
    by_cases hp : s.comment.data.getLast? = some '.' <;>
      simp [hd, hv, hp, String.data_append]
  · intro hd hv
    unfold ProtocolStructure.description endedWithPeriod QString.endsWith
    apply String.ext
    by_cases hp : s.comment.data.getLast? = some '.' <;>
      by_cases hc : s.dependsOnCompare = "" <;>
      simp [hd, hv, hp, hc, String.data_append]
  · unfold endedWithPeriod QString.endsWith
    by_cases hp : s.comment.data.getLast? = some '.'
    · simp [hp]
    · simp [hp, String.data_append]

/-- Witness for C31: the sample array of structures with the comment `optional items`, the
dependsOn `A` and the value `2`, documented from the sample start. -/
theorem getDocumentationDetails_description_witness :
    sampleDetails.outline ≠ [] ∧
    (∃ d1, (EncodableObject.structure_ sampleGuardedArray "items_t" "items_t"
        []).getDocumentationDetails sampleDocumenter sampleDetails = some d1 ∧
      d1.comments = sampleDetails.comments ++ [sampleGuardedArray.description]) ∧
    sampleGuardedArray.description = "optional items. Only included if A == 2." :=
  ⟨by decide,
    (getDocumentationDetails_description sampleDocumenter sampleGuardedArray "items_t"
      "items_t" sampleDetails (by decide)).1,
    by decide⟩

/-- C35: when the fields take the next outline number as the structures do, then, for an
outline that ends in `n`: the entries of a structure are made with the last number
incremented by one (the `int` increment: `n + 1` for every `n` from -2147483648 to
2147483646, and -2147483648 for 2147483647), and its entry in `names` is the numbers of
that outline joined by a dot, then `)` and the title; every call of
`getDocumentationDetails` returns with the outline as on entry but for the incremented last
number; `getSubDocumentationDetails` returns with the outline as on entry; its loop visits
the child at position `i` (from 0) with the outline of the structure followed by `i`, so
that the child takes the number `i + 1` one level deeper; and of two structures that follow
each other in the child list, the first takes the number `i + 1` and the second the number
`i + 2` (for child lists within the range of an `int`). -/
theorem documentation_outline_numbering (doc : Documenter)
    (hfields : doc.fieldsAdvanceOutline) :
    (∀ (s : ProtocolStructure) (d : DocumentationDetails) (base : List Int) (n : Int),
      d.outline = base ++ [n] →
      ∃ (d1 : DocumentationDetails) (next : String),
        s.ownDocumentationDetails doc d = some (d1, next) ∧
        d1.outline = base ++ [wrapInt (n + 1)] ∧
        d1.names = d.names ++ [numberString (base ++ [wrapInt (n + 1)]) ++ ")" ++ s.title]) ∧
    (∀ n : Int, -2147483648 ≤ n → n < 2147483647 → wrapInt (n + 1) = n + 1) ∧
    wrapInt (2147483647 + 1) = -2147483648 ∧
    (∀ (t : EncodableObject) (d : DocumentationDetails) (base : List Int) (n : Int),
      d.outline = base ++ [n] →
      ∃ d1, t.getDocumentationDetails doc d = some d1 ∧
        d1.outline = base ++ [wrapInt (n + 1)]) ∧
    (∀ (s : ProtocolStructure) (typeName structName : String)
        (encodables : List EncodableObject) (d : DocumentationDetails),
      ∃ d1, (EncodableObject.structure_ s typeName structName
          encodables).getSubDocumentationDetails doc d = some d1 ∧ d1.outline = d.outline) ∧
    (∀ (pre : List EncodableObject) (c : EncodableObject) (post : List EncodableObject)
        (d : DocumentationDetails), pre.length < 2147483648 →
      ∃ d1, documentationDetailsOfChildren doc pre { d with outline := d.outline ++ [0] } =
          some d1 ∧
        d1.outline = d.outline ++ [(pre.length : Int)] ∧
        documentationDetailsOfChildren doc (pre ++ c :: post)
            { d with outline := d.outline ++ [0] } =
          (c.getDocumentationDetails doc d1).bind (documentationDetailsOfChildren doc post)) ∧
    (∀ (pre : List EncodableObject) (s1 s2 : ProtocolStructure)
        (typeName1 structName1 : String) (encodables1 : List EncodableObject)
        (d : DocumentationDetails), pre.length + 2 < 2147483648 →
      ∃ (d1 d2 e1 e2 : DocumentationDetails) (next1 next2 : String),
        documentationDetailsOfChildren doc pre { d with outline := d.outline ++ [0] } =
          some d1 ∧
        s1.ownDocumentationDetails doc d1 = some (e1, next1) ∧
        e1.names =
          d1.names ++ [numberString (d.outline ++ [(pre.length : Int) + 1]) ++ ")" ++
            s1.title] ∧
        (EncodableObject.structure_ s1 typeName1 structName1
          encodables1).getDocumentationDetails doc d1 = some d2 ∧
        s2.ownDocumentationDetails doc d2 = some (e2, next2) ∧
        e2.names =
          d2.names ++ [numberString (d.outline ++ [(pre.length : Int) + 1 + 1]) ++ ")" ++
            s2.title]) := by
  have hloop : ∀ (pre : List EncodableObject) (d : DocumentationDetails),
      ∃ d1, documentationDetailsOfChildren doc pre { d with outline := d.outline ++ [0] } =
          some d1 ∧ d1.outline = d.outline ++ [wrapInt (pre.length : Int)] := by
    intro pre d
    obtain ⟨d1, h1, h2⟩ := documentationDetailsOfChildren_outline doc hfields pre
      { d with outline := d.outline ++ [0] } d.outline 0 (by simp [wrapInt])
    exact ⟨d1, h1, by simpa using h2⟩
  refine ⟨?_, ?_, by decide, EncodableObject.getDocumentationDetails_outline doc hfields,
    ?_, ?_, ?_⟩
  · intro s d base n h
    obtain ⟨d1, next, h1, h2, h3, _⟩ := ownDocumentationDetails_spec doc s d base n h
    exact ⟨d1, next, h1, h2, h3⟩
  · intro n h1 h2
    exact wrapInt_of_range (n + 1) (by omega) (by omega)
  · intro s typeName structName encodables d
    obtain ⟨d1, h1, h2⟩ := hloop encodables d
    rw [EncodableObject.getSubDocumentationDetails, h1]
    simp only [h2, removeLast_append]
    exact ⟨_, rfl, rfl⟩
  · intro pre c post d hlen
    obtain ⟨d1, h1, h2⟩ := hloop pre d
    rw [wrapInt_of_range _ (by omega) (by omega)] at h2
    refine ⟨d1, h1, h2, ?_⟩
    rw [documentationDetailsOfChildren_append, h1, Option.some_bind]
  · intro pre s1 s2 typeName1 structName1 encodables1 d hlen
    obtain ⟨d1, h1, h2⟩ := hloop pre d
    rw [wrapInt_of_range _ (by omega) (by omega)] at h2
    obtain ⟨e1, next1, h3, _, h5, _⟩ :=
      ownDocumentationDetails_spec doc s1 d1 d.outline (pre.length : Int) h2
    rw [wrapInt_of_range _ (by omega) (by omega)] at h5
    obtain ⟨d2, h6, h7⟩ := EncodableObject.getDocumentationDetails_outline doc hfields
      (EncodableObject.structure_ s1 typeName1 structName1 encodables1) d1 d.outline
      (pre.length : Int) h2
    rw [wrapInt_of_range _ (by omega) (by omega)] at h7
    obtain ⟨e2, next2, h8, _, h10, _⟩ :=
      ownDocumentationDetails_spec doc s2 d2 d.outline ((pre.length : Int) + 1) h7
    rw [wrapInt_of_range _ (by omega) (by omega)] at h10
    exact ⟨d1, d2, e1, e2, next1, next2, h1, h3, h5, h6, h8, h10⟩

/-- Witness for C35: the fields of the sample documenter take the next outline number, and
the sample pair of nested structures `a` and `b`, documented from the sample start with the
outline `[0]`, is left with the outline `[1]`. -/
theorem documentation_outline_numbering_witness :
    sampleDocumenter.fieldsAdvanceOutline ∧
    ∃ d1, samplePairTree.getDocumentationDetails sampleDocumenter sampleDetails = some d1 ∧
      d1.outline = [] ++ [wrapInt (0 + 1)] ∧ wrapInt (0 + 1) = 1 :=
  ⟨fun e d base n h => by simp [sampleDocumenter, h, incrementLast_append],
    ((documentation_outline_numbering sampleDocumenter
      (fun e d base n h => by simp [sampleDocumenter, h, incrementLast_append])).2.2.2.1
      samplePairTree sampleDetails [] 0 rfl).imp fun _ h => ⟨h.1, h.2, by decide⟩⟩

/-! ## Validating again -/

/-- C32: when the override query reads only the parts of the fields that `parseChildren`
never writes, `parseChildren` applied from a freshly constructed structure to the child
list it has produced, in the same order, gives the same structure as the first run: the
same child list (no further reference or default is cleared, no child is discarded) and the
same aggregated flags. And the guards of `parse`, applied to the attributes they have left,
leave the structure as it is. -/
theorem revalidation_idempotent
    (getOverriddenTypeData : Encodable → Option Encodable → Bool)
    (hg : overrideReadsFixedPart getOverriddenTypeData)
    (children : List (Option Encodable)) (s : ProtocolStructure) (map : Attributes) :
    ProtocolStructure.clear.parseChildren getOverriddenTypeData
        ((ProtocolStructure.clear.parseChildren getOverriddenTypeData
          children).encodables.map some) =
      ProtocolStructure.clear.parseChildren getOverriddenTypeData children ∧
    (s.parseAttributes map).parseAttributes (s.parseAttributes map).attributes =
      s.parseAttributes map := by
  refine ⟨?_, parseAttributes_idem s map⟩
  unfold ProtocolStructure.parseChildren
  rw [parseChildrenLoop_idem getOverriddenTypeData hg children]

/-- Witness for C32: the query that never finds overridden type data reads nothing, and the
children `d` (with a default), `A`, the bitfield `b` depending on `A` and the field `b`
depending on a missing sibling are validated again without change. -/
theorem revalidation_idempotent_witness :
    overrideReadsFixedPart noOverride ∧
    ProtocolStructure.clear.parseChildren noOverride
        ((ProtocolStructure.clear.parseChildren noOverride
          [some sampleDefaultField, some sampleA, some sampleComparedBitfield,
            some sampleUnresolvedField]).encodables.map some) =
      ProtocolStructure.clear.parseChildren noOverride
        [some sampleDefaultField, some sampleA, some sampleComparedBitfield,
          some sampleUnresolvedField] :=
  ⟨fun _ _ => rfl,
    (revalidation_idempotent noOverride (fun _ _ => rfl)
      [some sampleDefaultField, some sampleA, some sampleComparedBitfield,
        some sampleUnresolvedField] ProtocolStructure.clear (sampleAttributes "top")).1⟩

end ProtoGen
